import Mathlib

/-! Parabolic smoother (`plugins/rplanners/parabolicsmoother2.cpp`).

A shallow embedding of the parabolic shortcutter of the `rplanners` plugin and
the properties of it that the specification states.

Conventions of the embedding.

* `dReal` is modelled by the exact rationals: every comparison and every
  arithmetic step of the source is kept, rounding is not modelled.
* `std::vector<dReal>` is a `List dReal`; an indexed read `v[i]` is
  `v.getD i 0`.  In the source every such read is in range because all
  configuration vectors have the DOF of the planner.
* Member caches that a C++ function reads and writes (`_q0`, `_dq0`,
  `_cacheRampNDVect`, ...) are explicit arguments and results.
* Virtual calls into the host (constraint checker, interpolator, state
  setter, progress callback) are function-valued fields of a record that the
  embedded function receives.
* An early `return` inside a loop is an `Except.error` carrying the returned
  value.
* Constants that the source takes from headers outside this file
  (`g_fEpsilon`, the `CFO_*` bits, ...) are fields of `Consts`.
-/

namespace rplanners

/-! ## Numeric type and header constants -/

/-- The floating point type of the planner, modelled exactly. -/
abbrev dReal := ℚ

/-- Header constants used by the source: the three tolerances, the machine
epsilon `std::numeric_limits<dReal>::epsilon()`, and the bits of
`ConstraintFilterOptions`.  They are declared outside the source file, so the
embedding takes them as a parameter. -/
structure Consts where
  g_fEpsilon : dReal
  g_fEpsilonLinear : dReal
  g_fRampEpsilon : dReal
  epsilon : dReal
  CFO_CheckEnvCollisions : Nat
  CFO_CheckSelfCollisions : Nat
  CFO_CheckTimeBasedConstraints : Nat
  CFO_CheckWithPerturbation : Nat
  CFO_FillCheckedConfiguration : Nat
  CFO_FinalValuesNotReached : Nat
  CFO_StateSettingError : Nat

/-- The values of the double precision build of the host library: tolerances
of magnitude `1e-15`, `1e-13`, `1e-10`, machine epsilon `2^-52`, and the
published bit values of `ConstraintFilterOptions`. -/
def openraveConsts : Consts where
  g_fEpsilon := 1 / 10 ^ 15
  g_fEpsilonLinear := 1 / 10 ^ 13
  g_fRampEpsilon := 1 / 10 ^ 10
  epsilon := 1 / 2 ^ 52
  CFO_CheckEnvCollisions := 1
  CFO_CheckSelfCollisions := 2
  CFO_CheckTimeBasedConstraints := 4
  CFO_CheckWithPerturbation := 0x10000
  CFO_FillCheckedConfiguration := 0x20000
  CFO_FinalValuesNotReached := 0x40000000
  CFO_StateSettingError := 0x80000000

/-- The expression `options & (~mask)` on option words. -/
def clearBits (options mask : Nat) : Nat :=
  options ^^^ (options &&& mask)

/-! ## Data model -/

/-- Modelled from the spec: the class `RampND` of the ramp optimizer library is
not part of the source file.  Section 3 of the specification gives its
attributes: duration, initial and final position and velocity, the constant
per-DOF acceleration and the "checked" flag. -/
structure RampND where
  x0 : List dReal
  x1 : List dReal
  v0 : List dReal
  v1 : List dReal
  a : List dReal
  duration : dReal
  constraintChecked : Bool
deriving DecidableEq, Inhabited

/-- Modelled from the spec: the class `CheckReturn` of the ramp optimizer
library is not part of the source file.  Section 3 of the specification gives
its fields; the constructor `CheckReturn(retcode, fmult)` leaves the flag
false and the manipulator data empty. -/
structure CheckReturn where
  retcode : Nat
  fTimeBasedSurpassMult : dReal := 1
  bDifferentVelocity : Bool := false
  fMaxManipSpeed : dReal := 0
  fMaxManipAccel : dReal := 0
  vReductionFactors : List dReal := []
deriving DecidableEq, Inhabited

/-- The interface `FeasibilityCheckerBase` through which `Check2` reaches the
planner: `SegmentFeasible2` returns its check result together with the content
it leaves in its output vector. -/
structure FeasibilityCheckerBase where
  ConfigFeasible2 : List dReal → List dReal → Nat → CheckReturn
  SegmentFeasible2 : List dReal → List dReal → List dReal → List dReal → dReal → Nat →
    CheckReturn × List RampND
  NeedDerivativeForFeasibility : Bool

/-- Total duration of a list of ramps (the loop `segmentTime += GetDuration()`). -/
def totalDuration (rampndVect : List RampND) : dReal :=
  rampndVect.foldl (fun t r => t + r.duration) 0

/-! ## `MyRampNDFeasibilityChecker::Check2` -/

/-- The statement `std::swap(v[i], v[j])`. -/
def swapAt (v : List Nat) (i j : Nat) : List Nat :=
  (v.set i (v.getD j 0)).set j (v.getD i 0)

/-- The loop `vsearchsegments[j] = j` over a vector of `uint8_t`: the stored
value is `j` reduced modulo `2^8`. -/
def vsearchsegmentsInit (N : Nat) : List Nat :=
  (List.range N).map (fun j => j % 256)

/-- The `do { ... } while (0)` block of `Check2` that moves the prioritized
indices to the front.  `size * 0.5`, `size * 0.25`, ... converted to `size_t`
are the floors `n / 2`, `n / 4`, `n / 8`, `3 n / 8`, `7 n / 8`. -/
def prioritizeSegments (v : List Nat) : List Nat :=
  let n := v.length
  let v := swapAt v 0 (n / 2)
  let index := n / 4
  if index ≤ 1 then v else
  let v := swapAt v 1 index
  let index := index * 3
  if index ≤ 2 then v else
  let v := swapAt v 2 index
  let index := n / 8
  if index ≤ 3 then v else
  let v := swapAt v 3 index
  let index := index * 5
  if index ≤ 4 then v else
  let v := swapAt v 4 index
  let index := 3 * n / 8
  if index ≤ 5 then v else
  let v := swapAt v 5 index
  let index := 7 * n / 8
  if index ≤ 6 then v else
  swapAt v 6 index

/-- The content of `vsearchsegments` when `rampndVectOut` has `N` elements. -/
def vsearchsegments (N : Nat) : List Nat :=
  prioritizeSegments (vsearchsegmentsInit N)

/-- The accumulation of `expectedElapsedTime` and `totalWeight` over the DOFs. -/
def elapsedTimeSums (K : Consts) (q0 q1 dq0 dq1 : List dReal) : dReal × dReal :=
  (List.range q0.length).foldl
    (fun (acc : dReal × dReal) idof =>
      let avgVel := (1 / 2) * (dq0.getD idof 0 + dq1.getD idof 0)
      if |avgVel| > K.g_fEpsilon then
        let fWeight := |q1.getD idof 0 - q0.getD idof 0|
        (acc.1 + fWeight * (q1.getD idof 0 - q0.getD idof 0) / avgVel, acc.2 + fWeight)
      else acc)
    (0, 0)

/-- The consistency block of `Check2` (checker-side modification expected):
returns the elapsed time and the final velocity `dq1` handed to
`SegmentFeasible2`. -/
def recomputeElapsed (K : Consts) (q0 q1 dq0 dq1 : List dReal) (elapsedTime : dReal) :
    dReal × List dReal :=
  let s := elapsedTimeSums K q0 q1 dq0 dq1
  if s.2 > K.g_fEpsilon then
    let newElapsedTime := s.1 / s.2
    if |newElapsedTime| > K.g_fRampEpsilon then
      if newElapsedTime > K.g_fEpsilon then
        let iElapsedTime := 1 / newElapsedTime
        (newElapsedTime, (List.range q0.length).map fun idof =>
          2 * iElapsedTime * (q1.getD idof 0 - q0.getD idof 0) - dq0.getD idof 0)
      else (newElapsedTime, dq0)
    else (elapsedTime, dq1)
  else (elapsedTime, dq1)

/-- The variables that the segment loop of `Check2` carries from one iteration
to the next: the caches `q0`, `dq0`, `dq1`, the previous switch time and the
stitched output. -/
structure Check2State where
  q0 : List dReal
  dq0 : List dReal
  dq1 : List dReal
  switchtime : dReal
  rampndVectOut : List RampND

/-- The loop `for iswitch = 1 .. _vswitchtimes.size()-1` of `Check2`.  An early
return yields the failing check result and the output stitched so far. -/
def checkSegments (K : Consts) (feas : FeasibilityCheckerBase)
    (bExpectedModifiedConfigurations : Bool) (options : Nat) :
    List RampND → Check2State → Except (CheckReturn × List RampND) Check2State
  | [], st => .ok st
  | r :: rest, st =>
    let q1 := r.x1
    let switchtime := st.switchtime + r.duration
    let elapsedTime := switchtime - st.switchtime
    let p : dReal × List dReal :=
      if feas.NeedDerivativeForFeasibility then
        if bExpectedModifiedConfigurations then
          recomputeElapsed K st.q0 q1 st.dq0 r.v1 elapsedTime
        else (elapsedTime, r.v1)
      else (elapsedTime, st.dq1)
    let res := feas.SegmentFeasible2 st.q0 q1 st.dq0 p.2 p.1 options
    if res.1.retcode ≠ 0 then .error (res.1, st.rampndVectOut)
    else
      let out := st.rampndVectOut ++ res.2
      match res.2.length, out.getLast? with
      | _ + 1, some back =>
        checkSegments K feas bExpectedModifiedConfigurations options rest
          { q0 := back.x1, dq0 := back.v1, dq1 := p.2, switchtime := switchtime,
            rampndVectOut := out }
      | _, _ =>
        checkSegments K feas bExpectedModifiedConfigurations options rest
          { q0 := st.q0, dq0 := st.dq0, dq1 := p.2, switchtime := switchtime,
            rampndVectOut := out }

/-- The collision loop of `Check2` over `vsearchsegments`: each probe loads the
end configuration of the probed ramp into `q0`, `dq0`. -/
def collisionSweep (feas : FeasibilityCheckerBase) (options : Nat) (rampndVectOut : List RampND) :
    List Nat → List dReal × List dReal → Except CheckReturn (List dReal × List dReal)
  | [], s => .ok s
  | j :: rest, _ =>
    let r := rampndVectOut.getD j default
    let ret := feas.ConfigFeasible2 r.x1 r.v1 options
    if ret.retcode ≠ 0 then .error ret
    else collisionSweep feas options rampndVectOut rest (r.x1, r.v1)

/-- The final loop of `Check2` over the DOFs, comparing the requested final
position and velocity with `q0`, `dq0`. -/
def finalValuesLoop (K : Consts) (x1 v1 q0 dq0 : List dReal) : List Nat → Bool → CheckReturn
  | [], bDifferentVelocity => { retcode := 0, bDifferentVelocity := bDifferentVelocity }
  | idof :: rest, bDifferentVelocity =>
    if |x1.getD idof 0 - q0.getD idof 0| > K.g_fRampEpsilon then
      { retcode := K.CFO_FinalValuesNotReached }
    else
      finalValuesLoop K x1 v1 q0 dq0 rest
        (bDifferentVelocity || decide (|v1.getD idof 0 - dq0.getD idof 0| > K.g_fRampEpsilon))

/-- The options word of the collision probes. -/
def collisionOptions (K : Consts) (doCheckEnvCollisions doCheckSelfCollisions : Bool) : Nat :=
  if doCheckEnvCollisions && doCheckSelfCollisions then
    K.CFO_CheckEnvCollisions ||| K.CFO_CheckSelfCollisions
  else if doCheckEnvCollisions then K.CFO_CheckEnvCollisions
  else K.CFO_CheckSelfCollisions

/-- `MyRampNDFeasibilityChecker::Check2` on a vector of ramps.  The result is
the returned `CheckReturn` and the final content of `rampndVectOut`
(`rampndVectOut0` is its content on entry).  `none` stands for the call on an
empty vector, which the source does not define (`rampndVect[0]`).  The flag
`constraintChecked` that the function sets on its input is not read by it and
is left to the caller. -/
def Check2 (K : Consts) (feas : FeasibilityCheckerBase) (bHasParameters : Bool)
    (fCosManipAngleThresh : dReal) (rampndVect : List RampND) (options : Nat)
    (rampndVectOut0 : List RampND) : Option (CheckReturn × List RampND) :=
  match rampndVect.head?, rampndVect.getLast? with
  | some front, some back =>
    let bExpectedModifiedConfigurations : Bool :=
      bHasParameters && decide (fCosManipAngleThresh > -1 + K.g_fEpsilonLinear)
    let ret0 := feas.ConfigFeasible2 front.x0 front.v0 options
    if ret0.retcode ≠ 0 then some (ret0, rampndVectOut0) else
    let ret1 := feas.ConfigFeasible2 back.x1 back.v1 options
    if ret1.retcode ≠ 0 then some (ret1, rampndVectOut0) else
    let doCheckEnvCollisions : Bool :=
      decide (options &&& K.CFO_CheckEnvCollisions = K.CFO_CheckEnvCollisions)
    let doCheckSelfCollisions : Bool :=
      decide (options &&& K.CFO_CheckSelfCollisions = K.CFO_CheckSelfCollisions)
    let options1 := clearBits (clearBits options K.CFO_CheckEnvCollisions) K.CFO_CheckSelfCollisions
    match checkSegments K feas bExpectedModifiedConfigurations options1 rampndVect
        { q0 := front.x0, dq0 := front.v0, dq1 := back.v1, switchtime := 0,
          rampndVectOut := [] } with
    | .error e => some e
    | .ok st =>
      let swept : Except CheckReturn (List dReal × List dReal) :=
        if doCheckEnvCollisions || doCheckSelfCollisions then
          collisionSweep feas (collisionOptions K doCheckEnvCollisions doCheckSelfCollisions)
            st.rampndVectOut (vsearchsegments st.rampndVectOut.length) (st.q0, st.dq0)
        else .ok (st.q0, st.dq0)
      match swept with
      | .error ret => some (ret, st.rampndVectOut)
      | .ok s =>
        some (finalValuesLoop K back.x1 back.v1 s.1 s.2 (List.range s.1.length) false,
          st.rampndVectOut)
  | _, _ => none

/-! ## The planner's own feasibility functions -/

/-- Modelled from the spec: `RampND::Initialize(x0, x1, v0, v1, {}, t)` belongs
to the ramp optimizer library.  Section 3 of the specification fixes the
acceleration of a segment as `a[i] = (v1[i] - v0[i]) / τ`; a fresh segment is
not yet checked. -/
def RampND.Initialize (x0 x1 v0 v1 : List dReal) (t : dReal) : RampND :=
  { x0 := x0, x1 := x1, v0 := v0, v1 := v1,
    a := List.zipWith (fun v0i v1i => (v1i - v0i) / t) v0 v1,
    duration := t, constraintChecked := false }

/-- Modelled from the spec: the "explicit constant builder" of section 3,
`Initialize(ndof)` followed by `SetConstant(x, t)`: a segment that rests at `x`
for the time `t`. -/
def RampND.SetConstant (ndof : Nat) (x : List dReal) (t : dReal) : RampND :=
  { x0 := x, x1 := x, v0 := List.replicate ndof 0, v1 := List.replicate ndof 0,
    a := List.replicate ndof 0, duration := t, constraintChecked := false }

/-- The fields of `ConstraintTrajectoryTimingParameters` that the source reads. -/
structure Parameters where
  dof : Nat
  _vConfigVelocityLimit : List dReal
  _vConfigAccelerationLimit : List dReal
  _vConfigLowerLimit : List dReal
  _vConfigUpperLimit : List dReal
  fCosManipAngleThresh : dReal
  maxmanipspeed : dReal
  maxmanipaccel : dReal
  _fStepLength : dReal
  _nMaxIterations : Int
  fSearchVelAccelMult : dReal
  verifyinitialpath : Bool
  _hastimestamps : Bool
  hasSetStateFn : Bool

/-- The host functions that the planner calls.  `none` stands for a thrown
exception.  `CheckPathAllConstraints` returns its code together with the
`_configurations` and `_configurationtimes` it fills; `setgetState x` is
`SetStateValues(x)` followed by `_getstatefn(x)`: `none` when the state could
not be set, otherwise the state read back. -/
structure Host where
  CheckPathAllConstraints : List dReal → List dReal → List dReal → List dReal → dReal → Nat →
    Option (Nat × List dReal × List dReal)
  CheckManipConstraints2 : List RampND → Option CheckReturn
  CheckRampND : RampND → Bool
  setgetState : List dReal → Option (List dReal)

/-- The members of the planner that its feasibility functions read. -/
structure Planner where
  params : Parameters
  _bUsePerturbation : Bool
  _bmanipconstraints : Bool
  _bUseNewHeuristic : Bool

/-- `ParabolicSmoother2::ConfigFeasible2`. -/
def ConfigFeasible2 (K : Consts) (H : Host) (P : Planner) (q0 dq0 : List dReal) (options : Nat) :
    CheckReturn :=
  let options := if P._bUsePerturbation then options ||| K.CFO_CheckWithPerturbation else options
  match H.CheckPathAllConstraints q0 q0 dq0 dq0 0 options with
  | none => { retcode := 0xffff }
  | some r =>
    if r.1 = K.CFO_CheckTimeBasedConstraints then
      { retcode := r.1, fTimeBasedSurpassMult := 98 / 100 }
    else { retcode := r.1 }

/-- The two acceleration loops of `SegmentFeasible2`: every acceleration
outside `[-aMax, aMax]` is moved to the violated bound; the flag tells whether
one was changed. -/
def clampAccelerations (amax : List dReal) (ndof : Nat) (seg : RampND) : RampND × Bool :=
  (List.range ndof).foldl
    (fun (s : RampND × Bool) idof =>
      if s.1.a.getD idof 0 < -(amax.getD idof 0) then
        ({ s.1 with a := s.1.a.set idof (-(amax.getD idof 0)) }, true)
      else if s.1.a.getD idof 0 > amax.getD idof 0 then
        ({ s.1 with a := s.1.a.set idof (amax.getD idof 0) }, true)
      else s)
    (seg, false)

/-- The velocity loop of `SegmentFeasible2` for one returned configuration:
the new velocities, or the time-based failure of the first DOF above its
velocity limit. -/
def nextVelocities (K : Consts) (vmax curPos newPos curVel : List dReal) (iDeltaTime : dReal) :
    List Nat → List dReal → Except CheckReturn (List dReal)
  | [], newVel => .ok newVel
  | idof :: rest, newVel =>
    let v := 2 * iDeltaTime * (newPos.getD idof 0 - curPos.getD idof 0) - curVel.getD idof 0
    if |v| > vmax.getD idof 0 + K.g_fRampEpsilon then
      .error { retcode := K.CFO_CheckTimeBasedConstraints,
               fTimeBasedSurpassMult := 9 / 10 * vmax.getD idof 0 / |v| }
    else nextVelocities K vmax curPos newPos curVel iDeltaTime rest (newVel.set idof v)

/-- The variables carried by the loop of `SegmentFeasible2` over the returned
configurations. -/
structure ModifiedState where
  curPos : List dReal
  curVel : List dReal
  newVel : List dReal
  curTime : dReal
  rampndVectOut : List RampND

/-- The loop of `SegmentFeasible2` over `_configurationtimes`; `configs` is the
part of `_configurations` not yet read. -/
def modifiedLoop (K : Consts) (H : Host) (P : Planner) (ndof : Nat) :
    List dReal → List dReal → ModifiedState → Except (CheckReturn × List RampND) ModifiedState
  | [], _, st => .ok st
  | time :: times, configs, st =>
    let newPos := configs.take ndof
    let deltaTime := time - st.curTime
    if deltaTime > K.g_fRampEpsilon then
      let iDeltaTime := 1 / deltaTime
      match nextVelocities K P.params._vConfigVelocityLimit st.curPos newPos st.curVel iDeltaTime
          (List.range ndof) st.newVel with
      | .error ret => .error (ret, st.rampndVectOut)
      | .ok newVel =>
        let seg := RampND.Initialize st.curPos newPos st.curVel newVel deltaTime
        let c := clampAccelerations P.params._vConfigAccelerationLimit ndof seg
        if c.2 && !H.CheckRampND c.1 then
          .error ({ retcode := K.CFO_CheckTimeBasedConstraints, fTimeBasedSurpassMult := 9 / 10 },
            st.rampndVectOut)
        else
          modifiedLoop K H P ndof times (configs.drop ndof)
            { curPos := newPos, curVel := newVel, newVel := st.curVel, curTime := time,
              rampndVectOut := st.rampndVectOut ++ [{ c.1 with constraintChecked := true }] }
    else modifiedLoop K H P ndof times (configs.drop ndof) st

/-- The loop "make sure the last configuration ends at the desired value". -/
def lastConfigurationReached (K : Consts) (curPos q1 : List dReal) (ndof : Nat) : Bool :=
  (List.range ndof).all fun idof =>
    !decide (|curPos.getD idof 0 - q1.getD idof 0| + K.g_fEpsilon > K.g_fRampEpsilon)

/-- The manipulator constraint call of `SegmentFeasible2`: `some ret` when the
function returns `ret` at this point, `none` when it goes on. -/
def manipRejection (H : Host) (rampndVectOut : List RampND) : Option CheckReturn :=
  match H.CheckManipConstraints2 rampndVectOut with
  | none => some { retcode := 0xffff }
  | some retmanip => if retmanip.retcode ≠ 0 then some retmanip else none

/-- The tail of `SegmentFeasible2` after the constraint check has passed:
`out` is the output built from the returned configurations (empty when there
were none). -/
def finishSegment (K : Consts) (H : Host) (P : Planner) (q0 q1 dq0 dq1 : List dReal)
    (timeElapsed : dReal) (options : Nat) (out : List RampND) : CheckReturn × List RampND :=
  let ndof := q0.length
  let built : Except (CheckReturn × List RampND) (List RampND) :=
    if out.length = 0 then
      let seg := RampND.Initialize q0 q1 dq0 dq1 timeElapsed
      let c := clampAccelerations P.params._vConfigAccelerationLimit ndof seg
      if c.2 && !H.CheckRampND c.1 then
        .error ({ retcode := K.CFO_CheckTimeBasedConstraints, fTimeBasedSurpassMult := 9 / 10 },
          out)
      else .ok (out ++ [{ c.1 with constraintChecked := true }])
    else .ok out
  match built with
  | .error e => e
  | .ok out =>
    if P._bmanipconstraints && decide (options &&& K.CFO_CheckTimeBasedConstraints ≠ 0) then
      match manipRejection H out with
      | some ret => (ret, out)
      | none => ({ retcode := 0 }, out)
    else ({ retcode := 0 }, out)

/-- `ParabolicSmoother2::SegmentFeasible2`: the returned check result and the
final content of `rampndVectOut`.  The size assertion on the vectors returned
by the host is an assumption on the host. -/
def SegmentFeasible2 (K : Consts) (H : Host) (P : Planner) (q0 q1 dq0 dq1 : List dReal)
    (timeElapsed : dReal) (options : Nat) : CheckReturn × List RampND :=
  let ndof := q0.length
  if timeElapsed ≤ K.g_fEpsilon then
    (ConfigFeasible2 K H P q0 dq0 options,
      [{ RampND.SetConstant P.params.dof q0 0 with v0 := dq0, v1 := dq1 }])
  else
    let options := if P._bUsePerturbation then options ||| K.CFO_CheckWithPerturbation else options
    let bExpectedModifiedConfigurations : Bool :=
      decide (P.params.fCosManipAngleThresh > -1 + K.g_fEpsilonLinear)
    let options :=
      if bExpectedModifiedConfigurations || P._bmanipconstraints then
        options ||| K.CFO_FillCheckedConfiguration
      else options
    let early : Option (CheckReturn × List RampND) :=
      if P._bmanipconstraints && decide (options &&& K.CFO_CheckTimeBasedConstraints ≠ 0) then
        let seg := RampND.Initialize q0 q1 dq0 dq1 timeElapsed
        (manipRejection H [seg]).map fun ret => (ret, [seg])
      else none
    match early with
    | some e => e
    | none =>
      match H.CheckPathAllConstraints q0 q1 dq0 dq1 timeElapsed options with
      | none => ({ retcode := 0xffff }, [])
      | some (ret, configurations, configurationtimes) =>
        if ret ≠ 0 then
          (if ret = K.CFO_CheckTimeBasedConstraints then
              { retcode := ret, fTimeBasedSurpassMult := 98 / 100 }
            else { retcode := ret }, [])
        else if bExpectedModifiedConfigurations && decide (configurationtimes.length > 0) then
          match modifiedLoop K H P ndof configurationtimes configurations
              { curPos := q0, curVel := dq0, newVel := List.replicate ndof 0, curTime := 0,
                rampndVectOut := [] } with
          | .error e => e
          | .ok st =>
            if lastConfigurationReached K st.curPos q1 ndof then
              finishSegment K H P q0 q1 dq0 dq1 timeElapsed options st.rampndVectOut
            else ({ retcode := K.CFO_FinalValuesNotReached }, st.rampndVectOut)
        else finishSegment K H P q0 q1 dq0 dq1 timeElapsed options []

/-- The planner seen through the interface that `Check2` uses (`feas` is the
planner itself; `NeedDerivativeForFeasibility` returns true). -/
def smootherChecker (K : Consts) (H : Host) (P : Planner) : FeasibilityCheckerBase where
  ConfigFeasible2 := ConfigFeasible2 K H P
  SegmentFeasible2 := SegmentFeasible2 K H P
  NeedDerivativeForFeasibility := true

/-- The call `_feasibilitychecker.Check2(rampndVect, options, out)` as the
planner makes it: parameters are set, the checker is the planner. -/
def plannerCheck2 (K : Consts) (H : Host) (P : Planner) (rampndVect : List RampND)
    (options : Nat) (rampndVectOut0 : List RampND) : Option (CheckReturn × List RampND) :=
  Check2 K (smootherChecker K H P) true P.params.fCosManipAngleThresh rampndVect options
    rampndVectOut0

/-! ## `PlanPath`: reading the input trajectory -/

/-- One waypoint of the input trajectory as `PlanPath` reads it through
`GetWaypoint`: the position group, the velocity group and the delta time. -/
structure TrajWaypoint where
  position : List dReal
  velocity : List dReal
  deltatime : dReal

/-- The variables carried by the loop of the quadratic branch. -/
structure QuadraticState where
  x0Vect : List dReal
  v0Vect : List dReal
  path : List RampND

/-- One iteration of the loop of the quadratic branch of `PlanPath`. -/
def quadraticStep (K : Consts) (st : QuadraticState) (w : TrajWaypoint) : QuadraticState :=
  if w.deltatime > K.g_fEpsilonLinear then
    { x0Vect := w.position, v0Vect := w.velocity,
      path := st.path ++
        [RampND.Initialize st.x0Vect w.position st.v0Vect w.velocity w.deltatime] }
  else st

/-- The quadratic branch of `PlanPath` (`_hastimestamps` and interpolation
"quadratic"): the content of `parabolicpath` after the loop.  The branch has
no failure exit. -/
def ingestQuadratic (K : Consts) (traj : List TrajWaypoint) : List RampND :=
  match traj with
  | [] => []
  | w0 :: rest =>
    (rest.foldl (quadraticStep K)
      { x0Vect := w0.position, v0Vect := w0.velocity, path := [] }).path

/-- The interpolator of the ramp optimizer library, reached through
`_interpolator`.  `none` is the result `false`. -/
structure ParabolicInterpolator where
  ComputeZeroVelNDTrajectory : List dReal → List dReal → List dReal → List dReal → List RampND
  ComputeArbitraryVelNDTrajectory : List dReal → List dReal → List dReal → List dReal →
    List dReal → List dReal → Bool → Option (List RampND)
  ComputeNDTrajectoryFixedDuration : List dReal → List dReal → List dReal → List dReal →
    dReal → Option (List RampND)

/-- The helper `RampOptimizer::ScaleVector`. -/
def ScaleVector (v : List dReal) (s : dReal) : List dReal :=
  v.map fun x => x * s

/-- The loop over the interpolated ramps inside
`_ComputeRampWithZeroVelEndpoints`: the last `retseg`. -/
def zeroVelSegmentsCheck (K : Consts) (H : Host) (P : Planner) (options : Nat) :
    List RampND → List dReal → List dReal → CheckReturn → CheckReturn
  | [], _, _, retseg => retseg
  | r :: rest, x0Vect, v0Vect, _ =>
    let retseg := (SegmentFeasible2 K H P x0Vect r.x1 v0Vect r.v1 r.duration options).1
    if retseg.retcode ≠ 0 then retseg
    else if retseg.bDifferentVelocity then
      { retseg with retcode := K.CFO_FinalValuesNotReached }
    else zeroVelSegmentsCheck K H P options rest r.x1 r.v1 retseg

/-- The retry loop of `_ComputeRampWithZeroVelEndpoints`, `fuel` tries left:
`some ramps` when the function returns true with `ramps` in its output vector,
`none` when it returns false (or reads the first ramp of an empty
interpolation, which the source does not define). -/
def zeroVelTries (K : Consts) (H : Host) (P : Planner) (I : ParabolicInterpolator)
    (x0VectIn x1VectIn : List dReal) (options : Nat) :
    Nat → List dReal → List dReal → Option (List RampND)
  | 0, _, _ => none
  | fuel + 1, vellimits, accellimits =>
    let rampndVectOut := I.ComputeZeroVelNDTrajectory x0VectIn x1VectIn vellimits accellimits
    match rampndVectOut.head? with
    | none => none
    | some first =>
      let retseg :=
        zeroVelSegmentsCheck K H P options rampndVectOut first.x0 first.v0 { retcode := 0 }
      if retseg.retcode = 0 then some rampndVectOut
      else if retseg.retcode = K.CFO_CheckTimeBasedConstraints then
        zeroVelTries K H P I x0VectIn x1VectIn options fuel
          (ScaleVector vellimits retseg.fTimeBasedSurpassMult)
          (ScaleVector accellimits (retseg.fTimeBasedSurpassMult * retseg.fTimeBasedSurpassMult))
      else none

/-- `ParabolicSmoother2::_ComputeRampWithZeroVelEndpoints` (1000 tries). -/
def _ComputeRampWithZeroVelEndpoints (K : Consts) (H : Host) (P : Planner)
    (I : ParabolicInterpolator) (x0VectIn x1VectIn : List dReal) (options : Nat) :
    Option (List RampND) :=
  zeroVelTries K H P I x0VectIn x1VectIn options 1000 P.params._vConfigVelocityLimit
    P.params._vConfigAccelerationLimit

/-- The test of the cubic coefficient of one interval over all DOFs. -/
def isParabolicPiece (x0Vect x1Vect v0Vect v1Vect : List dReal) (deltatime : dReal) : Bool :=
  let iDeltaTime := 1 / deltatime
  let iDeltaTime2 := iDeltaTime * iDeltaTime
  (List.range x0Vect.length).all fun jdof =>
    let coeff := (2 * iDeltaTime * (x0Vect.getD jdof 0 - x1Vect.getD jdof 0) +
      v0Vect.getD jdof 0 + v1Vect.getD jdof 0) * iDeltaTime2
    !decide (|coeff| > 1 / 100000)

/-- The variables carried by the loop of the cubic branch: besides the path,
the member caches `_cacheRampND` and `_cacheRampNDVect`. -/
structure CubicState where
  x0Vect : List dReal
  v0Vect : List dReal
  tempRampND : RampND
  tempRampNDVect : List RampND
  path : List RampND

/-- One iteration of the loop of the cubic branch of `PlanPath`; `none` is the
exit `return PS_Failed`. -/
def cubicStep (K : Consts) (H : Host) (P : Planner) (I : ParabolicInterpolator)
    (st : CubicState) (w : TrajWaypoint) : Option CubicState :=
  if w.deltatime > K.g_fEpsilonLinear then
    let caches : Option (RampND × List RampND) :=
      if isParabolicPiece st.x0Vect w.position st.v0Vect w.velocity w.deltatime then
        some ({ RampND.Initialize st.x0Vect w.position st.v0Vect w.velocity w.deltatime with
                constraintChecked := !P.params.verifyinitialpath }, st.tempRampNDVect)
      else
        (_ComputeRampWithZeroVelEndpoints K H P I st.x0Vect w.position
          K.CFO_CheckTimeBasedConstraints).map fun v => (st.tempRampND, v)
    caches.map fun c =>
      { x0Vect := w.position, v0Vect := w.velocity, tempRampND := c.1, tempRampNDVect := c.2,
        path := st.path ++ c.2 }
  else some st

/-- The cubic branch of `PlanPath` (`_hastimestamps` and interpolation
"cubic"): the content of `parabolicpath` after the loop, `none` for
`PS_Failed`.  `cacheRampND` and `cacheRampNDVect` are the contents of the
member caches on entry. -/
def ingestCubic (K : Consts) (H : Host) (P : Planner) (I : ParabolicInterpolator)
    (cacheRampND : RampND) (cacheRampNDVect : List RampND) (traj : List TrajWaypoint) :
    Option (List RampND) :=
  match traj with
  | [] => some []
  | w0 :: rest =>
    (rest.foldlM (cubicStep K H P I)
      { x0Vect := w0.position, v0Vect := w0.velocity, tempRampND := cacheRampND,
        tempRampNDVect := cacheRampNDVect, path := [] }).map fun st => st.path

/-- The local constant `collinearThresh`. -/
def collinearThresh : dReal := 1 / 10 ^ 14

/-- The three sums `dotProduct`, `x0Length2`, `x1Length2` of the collinearity
test of waypoint `q` against the kept waypoints `x0`, `x1`. -/
def collinearSums (x0 x1 q : List dReal) : dReal × dReal × dReal :=
  (List.range q.length).foldl
    (fun (acc : dReal × dReal × dReal) idof =>
      let dx0 := x0.getD idof 0 - q.getD idof 0
      let dx1 := x1.getD idof 0 - q.getD idof 0
      (acc.1 + dx0 * dx1, acc.2.1 + dx0 * dx0, acc.2.2 + dx1 * dx1))
    (0, 0, 0)

/-- The collinearity test `|dot^2 - |x0-q|^2 |x1-q|^2| < collinearThresh`. -/
def isCollinear (x0 x1 q : List dReal) : Bool :=
  let s := collinearSums x0 x1 q
  decide (|s.1 * s.1 - s.2.1 * s.2.2| < collinearThresh)

/-- The sum `d` of the duplicate test: the L1 distance of `q` from a kept
waypoint, over the DOFs of `q`. -/
def l1Distance (q w : List dReal) : dReal :=
  (List.range q.length).foldl (fun d idof => d + |q.getD idof 0 - w.getD idof 0|) 0

/-- The duplicate test `d <= q.size() * epsilon`. -/
def isDuplicate (K : Consts) (q w : List dReal) : Bool :=
  decide (l1Distance q w ≤ (q.length : dReal) * K.epsilon)

/-- One iteration of the waypoint filter of the linear branch of `PlanPath`:
`vWaypoints` after waypoint `q` has been looked at. -/
def filterStep (K : Consts) (vWaypoints : List (List dReal)) (q : List dReal) :
    List (List dReal) :=
  if vWaypoints.length > 1 ∧
      isCollinear (vWaypoints.getD (vWaypoints.length - 2) [])
        (vWaypoints.getD (vWaypoints.length - 1) []) q = true then
    vWaypoints.dropLast ++ [q]
  else if vWaypoints.length > 0 ∧
      isDuplicate K q (vWaypoints.getD (vWaypoints.length - 1) []) = true then
    vWaypoints
  else vWaypoints ++ [q]

/-- The waypoint filter of the linear branch of `PlanPath`: the list handed to
`_SetMileStones`. -/
def filterWaypoints (K : Consts) (waypoints : List (List dReal)) : List (List dReal) :=
  waypoints.foldl (filterStep K) []

/-! ## One shortcut attempt: the slowdown loop of `_MergeConsecutiveSegments` and `_Shortcut` -/

/-- The values of `PlannerAction` that a progress callback can return. -/
inductive PlannerAction where
  | PA_None
  | PA_Interrupt
  | PA_ReturnWithAnySolution
deriving DecidableEq

/-- The statuses of `PlannerStatus` that `PlanPath` returns. -/
inductive PlannerStatus where
  | PS_Failed
  | PS_HasSolution
  | PS_Interrupted
deriving DecidableEq

/-- The further collaborators of the two shortcut loops and of `PlanPath`.
The progress callback and the sampler are deterministic in the number of
calls already made: `_CallCallbacks n` is the answer of the callback at its
call number `n` (from 0), `Rand n` and `SampleSequenceOneUInt32 n` are the
values of draw number `n` of the planning sampler.  `EvalPos path t` is
`FindRampNDIndex(t, i, u)` followed by `rampndVect[i].EvalPos(u)`, likewise
`EvalVel`; `ReplaceSegment`, `Cut`, the manipulator estimate and the square
root are the library functions of these names. -/
structure Collaborators where
  _CallCallbacks : Nat → PlannerAction
  Rand : Nat → dReal
  SampleSequenceOneUInt32 : Nat → Nat
  EvalPos : List RampND → dReal → List dReal
  EvalVel : List RampND → dReal → List dReal
  ReplaceSegment : List RampND → dReal → dReal → List RampND → List RampND
  Cut : RampND → dReal → RampND × RampND
  GetMaxVelocitiesAccelerations : List dReal → List dReal → List dReal → List dReal →
    List dReal × List dReal
  RaveSqrt : dReal → dReal

/-- The local variables and member caches that one shortcut attempt reads and
writes, together with the counters that outlive it. -/
structure AttemptState where
  x0Vect : List dReal
  x1Vect : List dReal
  v0Vect : List dReal
  v1Vect : List dReal
  vellimits : List dReal
  accellimits : List dReal
  fCurVelMult : dReal
  fCurAccelMult : dReal
  velReductionFactors : List dReal
  accelReductionFactors : List dReal
  shortcutRampNDVect : List RampND
  shortcutRampNDVectOut : List RampND
  shortcutRampNDVectOut1 : List RampND
  numSlowDowns : Nat
  nTimeBasedConstraintsFailed : Nat
  ncalls : Nat

/-- The loop that lifts `vellimits` above the boundary speeds of the checked
ramps. -/
def raiseVellimits (vellimits : List dReal) (rampndVectOut : List RampND) : List dReal :=
  rampndVectOut.foldl
    (fun vl r =>
      (List.range r.x0.length).foldl
        (fun vl jdof =>
          let fminvel := max |r.v0.getD jdof 0| |r.v1.getD jdof 0|
          if vl.getD jdof 0 < fminvel then vl.set jdof fminvel else vl)
        vl)
    vellimits

/-- The branch of the constraint block that repairs the last checked ramp when
`Check2` reported a different final velocity; `back` is
`shortcutRampNDVectOut.back()`. -/
def repairLastSegment (K : Consts) (H : Host) (P : Planner) (I : ParabolicInterpolator)
    (t0 t1 minTimeStep segmentTime : dReal) (retcheck : CheckReturn) (back : RampND)
    (st : AttemptState) : Option (CheckReturn × AttemptState) :=
  let allowedStretchTime := (t1 - t0) - (segmentTime + minTimeStep)
  let st := { st with x0Vect := back.x0, v0Vect := back.v0 }
  match I.ComputeArbitraryVelNDTrajectory st.x0Vect st.x1Vect st.v0Vect st.v1Vect st.vellimits
      st.accellimits true with
  | none => some ({ retcheck with retcode := K.CFO_FinalValuesNotReached }, st)
  | some cand =>
    let st := { st with shortcutRampNDVect := cand }
    if totalDuration cand - back.duration > allowedStretchTime then
      some ({ retcheck with retcode := K.CFO_FinalValuesNotReached }, st)
    else
      (plannerCheck2 K H P cand 0xffff st.shortcutRampNDVectOut1).bind fun c =>
        let st := { st with shortcutRampNDVectOut1 := c.2 }
        if c.1.retcode ≠ 0 then some (c.1, st)
        else if c.1.bDifferentVelocity then
          some ({ c.1 with retcode := K.CFO_FinalValuesNotReached }, st)
        else
          some (c.1, { st with
            shortcutRampNDVectOut := st.shortcutRampNDVectOut.dropLast ++ c.2 })

/-- The block `do { ... } while (0)` that checks the interpolated candidate:
the final `retcheck` and the state.  `none` stands for `Check2` on an empty
candidate. -/
def checkBlock (K : Consts) (H : Host) (P : Planner) (I : ParabolicInterpolator)
    (t0 t1 minTimeStep segmentTime : dReal) (st : AttemptState) :
    Option (CheckReturn × AttemptState) :=
  match H.setgetState st.x1Vect with
  | none => some ({ retcode := K.CFO_StateSettingError }, st)
  | some x1 =>
    let st := { st with x1Vect := x1 }
    (plannerCheck2 K H P st.shortcutRampNDVect 0xffff st.shortcutRampNDVectOut).bind fun c =>
      let st := { st with shortcutRampNDVectOut := c.2 }
      if c.1.retcode ≠ 0 then some (c.1, st)
      else
        let st := { st with vellimits := raiseVellimits st.vellimits c.2 }
        match c.1.bDifferentVelocity, c.2.getLast? with
        | true, some back => repairLastSegment K H P I t0 t1 minTimeStep segmentTime c.1 back st
        | _, _ => some (c.1, st)

/-- The loop `vellimits[j] = max(fMinVel, mult * vellimits[j])`. -/
def floorScaleVellimits (v0Vect v1Vect vellimits : List dReal) (mult : dReal) : List dReal :=
  (List.range vellimits.length).foldl
    (fun vl j =>
      let fMinVel := max |v0Vect.getD j 0| |v1Vect.getD j 0|
      vl.set j (max fMinVel (mult * vl.getD j 0)))
    vellimits

/-- A loop `v[j] *= mult` over `j < n`. -/
def scaleFirst (n : Nat) (v : List dReal) (mult : dReal) : List dReal :=
  (List.range n).foldl (fun v j => v.set j (v.getD j 0 * mult)) v

/-- A loop `v[j] *= f(factors[j])` over `j < n`. -/
def scaleBy (n : Nat) (v factors : List dReal) (f : dReal → dReal) : List dReal :=
  (List.range n).foldl (fun v j => v.set j (v.getD j 0 * f (factors.getD j 0))) v

/-- The loop that lifts `vellimits[j]` to `max(|v0[j]|, |v1[j]|)` over `j < n`. -/
def floorVellimits (n : Nat) (v0Vect v1Vect vellimits : List dReal) : List dReal :=
  (List.range n).foldl
    (fun vl j =>
      let fMinVel := max |v0Vect.getD j 0| |v1Vect.getD j 0|
      if vl.getD j 0 < fMinVel then vl.set j fMinVel else vl)
    vellimits

/-- The scaling of the limits after a time-based failure when there are no
manipulator constraints ("the normal procedure").  The flag is false when the
slowdown loop is left by `break`. -/
def scaleNormal (retcheck : CheckReturn) (st : AttemptState) : Bool × AttemptState :=
  let m := retcheck.fTimeBasedSurpassMult
  let st := { st with fCurVelMult := st.fCurVelMult * m,
                      fCurAccelMult := st.fCurAccelMult * (m * m) }
  if st.fCurVelMult < 1 / 100 then (false, st)
  else if st.fCurAccelMult < 1 / 10000 then (false, st)
  else
    (true, { st with
      numSlowDowns := st.numSlowDowns + 1
      vellimits := floorScaleVellimits st.v0Vect st.v1Vect st.vellimits m
      accellimits := scaleFirst st.vellimits.length st.accellimits (m * m) })

/-- The first estimate of the limits under manipulator constraints (first
slowdown iteration, old heuristic); the boundary values are evaluated again
from the path. -/
def scaleManipEstimate (C : Collaborators) (H : Host) (P : Planner)
    (bx0 bx1 bv0 bv1 : List dReal) (st : AttemptState) : Bool × AttemptState :=
  let st := { st with x0Vect := bx0, x1Vect := bx1, v0Vect := bv0, v1Vect := bv1 }
  match H.setgetState st.x0Vect with
  | none => (false, st)
  | some s0 =>
    let l := C.GetMaxVelocitiesAccelerations s0 st.v0Vect st.vellimits st.accellimits
    let st := { st with vellimits := l.1, accellimits := l.2 }
    match H.setgetState st.x1Vect with
    | none => (false, st)
    | some s1 =>
      let l := C.GetMaxVelocitiesAccelerations s1 st.v1Vect st.vellimits st.accellimits
      (true, { st with
        vellimits := floorVellimits P.params._vConfigVelocityLimit.length st.v0Vect st.v1Vect l.1
        accellimits := l.2 })

/-- The reaction to a violated manipulator speed. -/
def scaleManipSpeed (P : Planner) (retcheck : CheckReturn) (st : AttemptState) :
    Bool × AttemptState :=
  if retcheck.fMaxManipSpeed > P.params.maxmanipspeed then
    if P._bUseNewHeuristic && decide (retcheck.vReductionFactors.length > 0) &&
        !decide (retcheck.fMaxManipAccel > P.params.maxmanipaccel) then
      (true, { st with
        vellimits := scaleBy st.vellimits.length st.vellimits retcheck.vReductionFactors id
        velReductionFactors :=
          scaleBy st.vellimits.length st.velReductionFactors retcheck.vReductionFactors id })
    else
      let fVelMult := retcheck.fTimeBasedSurpassMult
      let st := { st with fCurVelMult := st.fCurVelMult * fVelMult }
      if st.fCurVelMult < 1 / 100 then (false, st)
      else
        (true, { st with
          vellimits := floorScaleVellimits st.v0Vect st.v1Vect st.vellimits fVelMult })
  else (true, st)

/-- The reaction to a violated manipulator acceleration. -/
def scaleManipAccel (C : Collaborators) (P : Planner) (retcheck : CheckReturn)
    (st : AttemptState) : Bool × AttemptState :=
  if retcheck.fMaxManipAccel > P.params.maxmanipaccel then
    if P._bUseNewHeuristic && decide (retcheck.vReductionFactors.length > 0) then
      let n := st.vellimits.length
      (true, { st with
        vellimits := scaleBy n st.vellimits retcheck.vReductionFactors C.RaveSqrt
        accellimits := scaleBy n st.accellimits retcheck.vReductionFactors id
        velReductionFactors :=
          scaleBy n st.velReductionFactors retcheck.vReductionFactors C.RaveSqrt
        accelReductionFactors :=
          scaleBy n st.accelReductionFactors retcheck.vReductionFactors id })
    else
      let fAccelMult := retcheck.fTimeBasedSurpassMult * retcheck.fTimeBasedSurpassMult
      let st := { st with fCurAccelMult := st.fCurAccelMult * fAccelMult }
      if st.fCurAccelMult < 1 / 10000 then (false, st)
      else
        let fVelMult := C.RaveSqrt fAccelMult
        let st := { st with fCurVelMult := st.fCurVelMult * fVelMult }
        if st.fCurVelMult < 1 / 100 then (false, st)
        else
          (true, { st with
            vellimits := floorScaleVellimits st.v0Vect st.v1Vect st.vellimits fVelMult
            accellimits := scaleFirst st.accellimits.length st.accellimits fAccelMult })
  else (true, st)

/-- The reaction of the slowdown loop to a time-based failure (after the
failure counter has been raised).  The flag is false when the loop is left by
`break`.  `bx0 .. bv1` are the boundary values of the window on the path. -/
def scaleLimits (C : Collaborators) (H : Host) (P : Planner) (iSlowDown : Nat)
    (bx0 bx1 bv0 bv1 : List dReal) (retcheck : CheckReturn) (st : AttemptState) :
    Bool × AttemptState :=
  if P._bmanipconstraints then
    if iSlowDown = 0 ∧ P._bUseNewHeuristic = false then
      scaleManipEstimate C H P bx0 bx1 bv0 bv1 st
    else
      let s := scaleManipSpeed P retcheck st
      if s.1 then
        let a := scaleManipAccel C P retcheck s.2
        if a.1 then (true, { a.2 with numSlowDowns := a.2.numSlowDowns + 1 }) else a
      else s
  else scaleNormal retcheck st

/-- How a shortcut attempt ends: the callback interrupted it (`return -1`), or
the slowdown loop was left with the flag `bSuccess`. -/
inductive AttemptOutcome where
  | interrupted (st : AttemptState)
  | finished (bSuccess : Bool) (st : AttemptState)

/-- The slowdown loop `for iSlowDown < maxSlowDownTries`, with `fuel` the
number of iterations left.  `none` stands for `Check2` on an empty candidate. -/
def slowDownLoop (K : Consts) (H : Host) (C : Collaborators) (P : Planner)
    (I : ParabolicInterpolator) (t0 t1 minTimeStep : dReal) (bx0 bx1 bv0 bv1 : List dReal) :
    Nat → Nat → AttemptState → Option AttemptOutcome
  | 0, _, st => some (.finished false st)
  | fuel + 1, iSlowDown, st =>
    match I.ComputeArbitraryVelNDTrajectory st.x0Vect st.x1Vect st.v0Vect st.v1Vect st.vellimits
        st.accellimits false with
    | none => some (.finished false st)
    | some cand =>
      let st := { st with shortcutRampNDVect := cand }
      let segmentTime := totalDuration cand
      if segmentTime + minTimeStep > t1 - t0 then some (.finished false st)
      else if C._CallCallbacks st.ncalls = PlannerAction.PA_Interrupt then
        some (.interrupted { st with ncalls := st.ncalls + 1 })
      else
        let st := { st with ncalls := st.ncalls + 1 }
        (checkBlock K H P I t0 t1 minTimeStep segmentTime st).bind fun c =>
          if c.1.retcode = 0 then some (.finished true c.2)
          else if c.1.retcode = K.CFO_CheckTimeBasedConstraints then
            let st := { c.2 with
              nTimeBasedConstraintsFailed := c.2.nTimeBasedConstraintsFailed + 1 }
            let s := scaleLimits C H P iSlowDown bx0 bx1 bv0 bv1 c.1 st
            if s.1 then
              slowDownLoop K H C P I t0 t1 minTimeStep bx0 bx1 bv0 bv1 fuel (iSlowDown + 1) s.2
            else some (.finished false s.2)
          else some (.finished false c.2)

/-- The adjustment of `vellimits` and `accellimits` at the start of an attempt
(skipped under manipulator constraints with the new heuristic). -/
def initialLimits (P : Planner) (fStartTimeVelMult fStartTimeAccelMult : dReal)
    (v0Vect v1Vect : List dReal) : List dReal × List dReal :=
  let vmax := P.params._vConfigVelocityLimit
  let amax := P.params._vConfigAccelerationLimit
  if P._bmanipconstraints && P._bUseNewHeuristic then (vmax, amax)
  else
    (List.range vmax.length).foldl
      (fun (l : List dReal × List dReal) j =>
        let fminvel := max |v0Vect.getD j 0| |v1Vect.getD j 0|
        let vl :=
          if l.1.getD j 0 < fminvel then l.1.set j fminvel
          else
            let f := max fminvel (fStartTimeVelMult * vmax.getD j 0)
            if l.1.getD j 0 > f then l.1.set j f else l.1
        let f := fStartTimeAccelMult * amax.getD j 0
        let al := if l.2.getD j 0 > f then l.2.set j f else l.2
        (vl, al))
      (vmax, amax)

/-! ## `_MergeConsecutiveSegments` -/

/-- The planner state shared by `_MergeConsecutiveSegments` and `_Shortcut`:
the path, the zero-velocity registry with its neighbour bounds, the start
multipliers, the counters and the three ramp caches. -/
structure ShortcutState where
  path : List RampND
  _zeroVelPoints : List dReal
  _zeroVelPointNeighbors : List (dReal × dReal)
  fStartTimeVelMult : dReal
  fStartTimeAccelMult : dReal
  numSuccessful : Nat
  numSlowDowns : Nat
  nTimeBasedConstraintsFailed : Nat
  ncalls : Nat
  nrand : Nat
  cacheRampNDVect : List RampND
  cacheRampNDVectOut : List RampND
  cacheRampNDVectOut1 : List RampND

/-- The state that a finished attempt leaves in the planner. -/
def ShortcutState.afterAttempt (s : ShortcutState) (a : AttemptState) : ShortcutState :=
  { s with
    numSlowDowns := a.numSlowDowns
    nTimeBasedConstraintsFailed := a.nTimeBasedConstraintsFailed
    ncalls := a.ncalls
    cacheRampNDVect := a.shortcutRampNDVect
    cacheRampNDVectOut := a.shortcutRampNDVectOut
    cacheRampNDVectOut1 := a.shortcutRampNDVectOut1 }

/-- The part of an iteration of either loop from `FindRampNDIndex` to the end
of the slowdown loop, on the window `[t0, t1]`.  `none` stands for `Check2` on
an empty candidate; `some none` is the exit `continue` after a state setting
failure. -/
def runAttempt (K : Consts) (H : Host) (C : Collaborators) (P : Planner)
    (I : ParabolicInterpolator) (minTimeStep t0 t1 : dReal) (s : ShortcutState) :
    Option (Option AttemptOutcome) :=
  match H.setgetState (C.EvalPos s.path t0) with
  | none => some none
  | some x0Vect =>
    match H.setgetState (C.EvalPos s.path t1) with
    | none => some none
    | some x1Vect =>
      let v0Vect := C.EvalVel s.path t0
      let v1Vect := C.EvalVel s.path t1
      let limits := initialLimits P s.fStartTimeVelMult s.fStartTimeAccelMult v0Vect v1Vect
      let dof := (s.path.head?.map fun r => r.x0.length).getD 0
      (slowDownLoop K H C P I t0 t1 minTimeStep (C.EvalPos s.path t0) (C.EvalPos s.path t1)
        v0Vect v1Vect 100 0
        { x0Vect := x0Vect, x1Vect := x1Vect, v0Vect := v0Vect, v1Vect := v1Vect,
          vellimits := limits.1, accellimits := limits.2,
          fCurVelMult := s.fStartTimeVelMult, fCurAccelMult := s.fStartTimeAccelMult,
          velReductionFactors := List.replicate dof 1,
          accelReductionFactors := List.replicate dof 1,
          shortcutRampNDVect := s.cacheRampNDVect,
          shortcutRampNDVectOut := s.cacheRampNDVectOut,
          shortcutRampNDVectOut1 := s.cacheRampNDVectOut1,
          numSlowDowns := s.numSlowDowns,
          nTimeBasedConstraintsFailed := s.nTimeBasedConstraintsFailed,
          ncalls := s.ncalls }).map some

/-- The in-place update of the registry and of the neighbour bounds after a
successful merge: the loop over `readIndex` followed by
`_zeroVelPoints.resize(writeIndex)`.  The neighbour vector is not resized. -/
def mergeRegistryUpdate (t0 t1 diff : dReal) (z : List dReal) (nb : List (dReal × dReal)) :
    List dReal × List (dReal × dReal) :=
  let s := (List.range z.length).foldl
    (fun (s : List dReal × List (dReal × dReal) × Nat) readIndex =>
      if s.1.getD readIndex 0 ≤ t0 then (s.1, s.2.1, s.2.2 + 1)
      else if s.1.getD readIndex 0 ≤ t1 then s
      else
        let n := s.2.1.getD readIndex (0, 0)
        (s.1.set s.2.2 (s.1.getD readIndex 0 - diff),
          s.2.1.set s.2.2 (n.1 - diff, n.2 - diff), s.2.2 + 1))
    (z, nb, 0)
  (s.1.take s.2.2, s.2.1)

/-- The commit of a successful merge on `[t0, t1]`. -/
def mergeCommit (C : Collaborators) (P : Planner) (t0 t1 : dReal) (a : AttemptState)
    (s : ShortcutState) : ShortcutState :=
  let s := s.afterAttempt a
  let diff := (t1 - t0) - totalDuration a.shortcutRampNDVectOut
  let r := mergeRegistryUpdate t0 t1 diff s._zeroVelPoints s._zeroVelPointNeighbors
  let fiSearchVelAccelMult := 1 / P.params.fSearchVelAccelMult
  { s with
    numSuccessful := s.numSuccessful + 1
    nTimeBasedConstraintsFailed := 0
    _zeroVelPoints := r.1
    _zeroVelPointNeighbors := r.2
    fStartTimeVelMult := min 1 (a.fCurVelMult * fiSearchVelAccelMult)
    fStartTimeAccelMult := min 1 (a.fCurAccelMult * fiSearchVelAccelMult)
    path := C.ReplaceSegment s.path t0 t1 a.shortcutRampNDVectOut }

/-- The main loop of `_MergeConsecutiveSegments` from the value `index`, with
`fuel` iterations left: the returned number (`-1` after an interrupt) and the
final state.  `none` when the fuel runs out or `Check2` meets an empty
candidate. -/
def mergeLoop (K : Consts) (H : Host) (C : Collaborators) (P : Planner)
    (I : ParabolicInterpolator) (minTimeStep : dReal) :
    Nat → Nat → ShortcutState → Option (Int × ShortcutState)
  | 0, _, _ => none
  | fuel + 1, index, s =>
    if index < s._zeroVelPoints.length then
      let t0 := (s._zeroVelPointNeighbors.getD index (0, 0)).1
      let t1 := (s._zeroVelPointNeighbors.getD index (0, 0)).2
      (runAttempt K H C P I minTimeStep t0 t1 s).bind fun r =>
        match r with
        | none => mergeLoop K H C P I minTimeStep fuel (index + 1) s
        | some (.interrupted a) => some (-1, s.afterAttempt a)
        | some (.finished false a) =>
          mergeLoop K H C P I minTimeStep fuel (index + 1) (s.afterAttempt a)
        | some (.finished true a) =>
          if a.shortcutRampNDVectOut.length = 0 then
            mergeLoop K H C P I minTimeStep fuel (index + 1) (s.afterAttempt a)
          else mergeLoop K H C P I minTimeStep fuel index (mergeCommit C P t0 t1 a s)
    else some ((s.numSuccessful : Int), s)

/-- `ParabolicSmoother2::_MergeConsecutiveSegments`: the loop is run with the
given fuel; the counters and multipliers start fresh. -/
def _MergeConsecutiveSegments (K : Consts) (H : Host) (C : Collaborators) (P : Planner)
    (I : ParabolicInterpolator) (minTimeStep : dReal) (fuel : Nat) (s : ShortcutState) :
    Option (Int × ShortcutState) :=
  if s._zeroVelPoints.length = 0 then some (0, s)
  else
    mergeLoop K H C P I minTimeStep fuel 0
      { s with fStartTimeVelMult := 1, fStartTimeAccelMult := 1, numSuccessful := 0,
               numSlowDowns := 0, nTimeBasedConstraintsFailed := 0 }

/-! ## `_Shortcut` -/

/-- The loop state of `_Shortcut` on top of the shared planner state. -/
structure ShortcutLoopState where
  s : ShortcutState
  tTotal : dReal
  nItersFromPrevSuccessful : Nat
  score : dReal
  currentBestScore : dReal
  iCurrentBestScore : dReal
  vVisitedDiscretization : List Nat
  nEndTimeDiscretization : Int

/-- The conversion of a real to `int` (truncation toward zero). -/
def truncInt (x : dReal) : Int :=
  if 0 ≤ x then ⌊x⌋ else ⌈x⌉

/-- The conversion of an `int` to `size_t` (64 bit). -/
def toSizeT (i : Int) : Nat :=
  (i % 2 ^ 64).toNat

/-- The in-place update of the registry after a successful shortcut: the loop
over `readIndex` followed by `_zeroVelPoints.resize(writeIndex)`. -/
def shortcutRegistryUpdate (t0 t1 diff : dReal) (z : List dReal) : List dReal :=
  let s := (List.range z.length).foldl
    (fun (s : List dReal × Nat) readIndex =>
      if s.1.getD readIndex 0 ≤ t0 then (s.1, s.2 + 1)
      else if s.1.getD readIndex 0 ≤ t1 then s
      else (s.1.set s.2 (s.1.getD readIndex 0 - diff), s.2 + 1))
    (z, 0)
  s.1.take s.2

/-- The sampling of the window `(t0, t1)` in iteration `iters` of `_Shortcut`,
with the sampler position and the start multipliers it leaves. -/
def sampleWindow (C : Collaborators) (_maxInitialRampTime : dReal) (numIters iters : Nat)
    (tTotal : dReal) (s : ShortcutState) : dReal × dReal × ShortcutState :=
  if iters = 0 then (0, tTotal, s)
  else
    let size := s._zeroVelPoints.length
    let drawn : Bool := decide (size > 0)
    let r := C.Rand s.nrand
    let s := if drawn then { s with nrand := s.nrand + 1 } else s
    let fewLeft : Bool := decide ((numIters : Int) - (iters : Int) ≤ (size : Int))
    if (drawn && decide (r ≤ 1 / 10)) || fewLeft then
      let index := C.SampleSequenceOneUInt32 s.nrand % size
      let t := s._zeroVelPoints.getD index 0
      let t0 := t - C.Rand (s.nrand + 1) * min (3 / 4) t
      let t1 := t + C.Rand (s.nrand + 2) * min (3 / 4) (tTotal - t)
      let s := { s with nrand := s.nrand + 3 }
      if fewLeft then
        (t0, t1, { s with fStartTimeVelMult := max (4 / 5) s.fStartTimeVelMult,
                          fStartTimeAccelMult := max (4 / 5) s.fStartTimeAccelMult })
      else (t0, t1, s)
    else
      let a := C.Rand s.nrand * tTotal
      let b := C.Rand (s.nrand + 1) * tTotal
      let t0 := if a > b then b else a
      let t1 := if a > b then a else b
      let t1 := if t1 - t0 > 2 * _maxInitialRampTime then t0 + 2 * _maxInitialRampTime else t1
      (t0, t1, { s with nrand := s.nrand + 2 })

/-- A write `v[i] = 1` into the visited-pair bitmap; `none` when the index is
not inside the vector. -/
def markVisited (v : List Nat) (i : Nat) : Option (List Nat) :=
  if i < v.length then some (v.set i 1) else none

/-- The two nested loops that mark the 3 x 3 neighbourhood of a pair of time
indices (manipulator constraints active). -/
def markNeighbourhood (nEnd t0Index t1Index : Int) (v : List Nat) : Option (List Nat) :=
  [t0Index - 1, t0Index, t0Index + 1].foldlM
    (fun v a =>
      [t1Index - 1, t1Index, t1Index + 1].foldlM
        (fun v b =>
          if 0 ≤ a ∧ 0 ≤ b ∧ a < nEnd ∧ b < nEnd then markVisited v (toSizeT (a * nEnd + b))
          else some v)
        v)
    v

/-- The visited-pair test of one iteration: `some none` when the pair was
visited before (`continue`), `some (some v)` with the marked bitmap
otherwise, `none` when a write leaves the bitmap. -/
def visitPair (P : Planner) (minTimeStep t0 t1 : dReal) (nEnd : Int) (v : List Nat) :
    Option (Option (List Nat)) :=
  let fiMinDiscretization := 1 / minTimeStep
  let t0Index := truncInt (t0 * fiMinDiscretization)
  let t1Index := truncInt (t1 * fiMinDiscretization)
  let testPairIndex := toSizeT (t0Index * nEnd + t1Index)
  if testPairIndex < v.length ∧ v.getD testPairIndex 0 ≠ 0 then some none
  else if P._bmanipconstraints then (markNeighbourhood nEnd t0Index t1Index v).map some
  else (markVisited v testPairIndex).map some

/-- How one iteration of the main loop of `_Shortcut` ends. -/
inductive IterOutcome where
  | stop (st : ShortcutLoopState)
  | next (st : ShortcutLoopState)
  | interrupted (st : ShortcutLoopState)

/-- The commit of a successful shortcut on `[t0, t1]` and the score test that
may stop the loop. -/
def shortcutCommit (C : Collaborators) (P : Planner) (t0 t1 : dReal) (a : AttemptState)
    (st : ShortcutLoopState) : IterOutcome :=
  let s := st.s.afterAttempt a
  let diff := (t1 - t0) - totalDuration a.shortcutRampNDVectOut
  let fiSearchVelAccelMult := 1 / P.params.fSearchVelAccelMult
  let path := C.ReplaceSegment s.path t0 t1 a.shortcutRampNDVectOut
  let s := { s with
    numSuccessful := s.numSuccessful + 1
    nTimeBasedConstraintsFailed := 0
    _zeroVelPoints := shortcutRegistryUpdate t0 t1 diff s._zeroVelPoints
    fStartTimeVelMult := min 1 (a.fCurVelMult * fiSearchVelAccelMult)
    fStartTimeAccelMult := min 1 (a.fCurAccelMult * fiSearchVelAccelMult)
    path := path }
  let score := diff / (st.nItersFromPrevSuccessful : dReal)
  let best := if score > st.currentBestScore then score else st.currentBestScore
  let ibest := if score > st.currentBestScore then 1 / score else st.iCurrentBestScore
  let st := { st with
    s := s, vVisitedDiscretization := [], tTotal := totalDuration path, score := score,
    currentBestScore := best, iCurrentBestScore := ibest, nItersFromPrevSuccessful := 0 }
  if score * ibest < 1 / 1000 ∧ s.numSuccessful > 5 then .stop st else .next st

/-- One iteration of the main loop of `_Shortcut`.  `none` stands for
undefined behaviour of the source (a bitmap write outside the vector, `Check2`
on an empty candidate). -/
def shortcutIteration (K : Consts) (H : Host) (C : Collaborators) (P : Planner)
    (I : ParabolicInterpolator) (_maxInitialRampTime minTimeStep : dReal)
    (numIters iters : Nat) (st : ShortcutLoopState) : Option IterOutcome :=
  let nCutoffIters := min 100 (numIters / 2)
  if st.tTotal < minTimeStep then some (.stop st)
  else if st.nItersFromPrevSuccessful + st.s.nTimeBasedConstraintsFailed > nCutoffIters then
    some (.stop st)
  else
    let st := { st with nItersFromPrevSuccessful := st.nItersFromPrevSuccessful + 1 }
    let st :=
      if st.vVisitedDiscretization.length = 0 then
        let nEnd := truncInt (st.tTotal * (1 / minTimeStep)) + 1
        { st with
          nEndTimeDiscretization := nEnd
          vVisitedDiscretization :=
            if nEnd ≤ 0x8000 then List.replicate (toSizeT (nEnd * nEnd)) 0 else [] }
      else st
    let w := sampleWindow C _maxInitialRampTime numIters iters st.tTotal st.s
    let t0 := w.1
    let t1 := w.2.1
    let st := { st with s := w.2.2 }
    if t1 - t0 < minTimeStep then some (.next st)
    else
      (visitPair P minTimeStep t0 t1 st.nEndTimeDiscretization st.vVisitedDiscretization).bind
        fun visited =>
          match visited with
          | none => some (.next st)
          | some v =>
            let st := { st with vVisitedDiscretization := v }
            (runAttempt K H C P I minTimeStep t0 t1 st.s).map fun r =>
              match r with
              | none => .next st
              | some (.interrupted a) => .interrupted { st with s := st.s.afterAttempt a }
              | some (.finished false a) => .next { st with s := st.s.afterAttempt a }
              | some (.finished true a) =>
                if a.shortcutRampNDVectOut.length = 0 then
                  .next { st with s := st.s.afterAttempt a }
                else shortcutCommit C P t0 t1 a st

/-- The main loop of `_Shortcut` with `remaining` iterations left: the
returned number (`-1` after an interrupt) and the final state. -/
def shortcutLoop (K : Consts) (H : Host) (C : Collaborators) (P : Planner)
    (I : ParabolicInterpolator) (_maxInitialRampTime minTimeStep : dReal) (numIters : Nat) :
    Nat → ShortcutLoopState → Option (Int × ShortcutLoopState)
  | 0, st => some ((st.s.numSuccessful : Int), st)
  | remaining + 1, st =>
    (shortcutIteration K H C P I _maxInitialRampTime minTimeStep numIters
      (numIters - (remaining + 1)) st).bind fun r =>
      match r with
      | .stop st => some ((st.s.numSuccessful : Int), st)
      | .interrupted st => some (-1, st)
      | .next st => shortcutLoop K H C P I _maxInitialRampTime minTimeStep numIters remaining st

/-- `ParabolicSmoother2::_Shortcut`.  `none` on an empty path (the source reads
`rampndVect.front()`), or when an iteration is undefined. -/
def _Shortcut (K : Consts) (H : Host) (C : Collaborators) (P : Planner)
    (I : ParabolicInterpolator) (_maxInitialRampTime : dReal) (numIters : Nat)
    (minTimeStep : dReal) (s : ShortcutState) : Option (Int × ShortcutState) :=
  match s.path with
  | [] => none
  | _ :: _ =>
    (shortcutLoop K H C P I _maxInitialRampTime minTimeStep numIters numIters
      { s := { s with fStartTimeVelMult := 1, fStartTimeAccelMult := 1, numSuccessful := 0,
                      numSlowDowns := 0, nTimeBasedConstraintsFailed := 0 },
        tTotal := totalDuration s.path, nItersFromPrevSuccessful := 0, score := 1,
        currentBestScore := 1, iCurrentBestScore := 1, vVisitedDiscretization := [],
        nEndTimeDiscretization := 0 }).map fun r => (r.1, r.2.s)

/-! ## `PlanPath`: the main planning block -/

/-- The stretching loop of the emission (`maxTries = 4`), `fuel` tries left:
`some (some ramps)` when a stretched ramp passed `Check2` (`ramps` is its
checked form), `some none` when all tries failed, `none` when `Check2` meets an
empty interpolation. -/
def stretchTries (K : Consts) (H : Host) (P : Planner) (I : ParabolicInterpolator)
    (rampndTrimmed : RampND) (timeIncrement : dReal) :
    Nat → Nat → dReal → Option (Option (List RampND))
  | 0, _, _ => some none
  | fuel + 1, iDilate, newDuration =>
    let nextDuration :=
      if iDilate > 1 then newDuration + timeIncrement
      else newDuration + 5 * K.g_fRampEpsilon
    match I.ComputeNDTrajectoryFixedDuration rampndTrimmed.x0 rampndTrimmed.x1 rampndTrimmed.v0
        rampndTrimmed.v1 newDuration with
    | none => stretchTries K H P I rampndTrimmed timeIncrement fuel (iDilate + 1) nextDuration
    | some rampndVectOut =>
      (plannerCheck2 K H P rampndVectOut 0xffff []).bind fun c =>
        if c.1.retcode = 0 then some (some c.2)
        else stretchTries K H P I rampndTrimmed timeIncrement fuel (iDilate + 1) nextDuration

/-- The constraint check of one not yet checked ramp during the emission, up
to the progress callback: the finalized ramps `tempRampNDVect`, or the status
with which `PlanPath` returns.  `none` when `Check2` is undefined. -/
def checkEmittedRamp (K : Consts) (H : Host) (C : Collaborators) (P : Planner)
    (I : ParabolicInterpolator) (irampnd size : Nat) (ramp : RampND) (ncalls : Nat) :
    Option (Except PlannerStatus (List RampND)) :=
  let fTrimEdgesTime := P.params._fStepLength * 2
  let tooShort : Bool := decide (ramp.duration ≤ fTrimEdgesTime + K.g_fEpsilonLinear)
  let isFirst : Bool := decide (irampnd = 0)
  let isLast : Bool := !isFirst && decide (irampnd + 1 = size)
  let bCheck : Bool := !((isFirst || isLast) && tooShort)
  let bTrimmedFront : Bool := isFirst && !tooShort
  let bTrimmedBack : Bool := isLast && !tooShort
  let rampndTrimmed : RampND :=
    if bTrimmedFront then (C.Cut ramp fTrimEdgesTime).2
    else if bTrimmedBack then (C.Cut ramp (ramp.duration - fTrimEdgesTime)).1
    else ramp
  let remRampND : RampND :=
    if bTrimmedFront then (C.Cut ramp fTrimEdgesTime).1
    else (C.Cut ramp (ramp.duration - fTrimEdgesTime)).2
  let P0 := { P with _bUsePerturbation := false }
  let checked : Option (Option (List RampND)) :=
    if bCheck then
      (plannerCheck2 K H P0 [rampndTrimmed] 0xffff []).bind fun c =>
        if c.1.retcode ≠ 0 then
          let newDuration := rampndTrimmed.duration + 5 * K.g_fRampEpsilon
          (stretchTries K H P0 I rampndTrimmed (5 / 100 * newDuration) 4 0 newDuration).map
            fun r => r.map fun out =>
              if bTrimmedFront then remRampND :: out
              else if bTrimmedBack then out ++ [remRampND]
              else out
        else some (some [ramp])
    else some (some [ramp])
  checked.map fun r =>
    match r with
    | none => .error PlannerStatus.PS_Failed
    | some tempRampNDVect =>
      if C._CallCallbacks ncalls = PlannerAction.PA_Interrupt then
        .error PlannerStatus.PS_Interrupted
      else .ok tempRampNDVect

/-- The emission loop of `PlanPath` over the ramps of the path from index
`irampnd`: the waypoints inserted into the dummy trajectory (appended to
`emitted`) and the sum `fExpextedDuration` of the durations of the finalized
ramps, or the status with which `PlanPath` returns. -/
def emitRamps (K : Consts) (H : Host) (C : Collaborators) (P : Planner)
    (I : ParabolicInterpolator) (isQuadratic : Bool) (numShortcuts : Int) (size : Nat) :
    List RampND → Nat → Nat → List TrajWaypoint → dReal →
      Option (Except PlannerStatus (List TrajWaypoint × dReal))
  | [], _, _, emitted, fExpextedDuration => some (.ok (emitted, fExpextedDuration))
  | ramp :: rest, irampnd, ncalls, emitted, fExpextedDuration =>
    if (!(isQuadratic && decide (numShortcuts = 0)) || !ramp.constraintChecked) &&
        !H.CheckRampND ramp then
      some (.error PlannerStatus.PS_Failed)
    else
      let finalized : Option (Except PlannerStatus (List RampND × Nat)) :=
        if !ramp.constraintChecked then
          (checkEmittedRamp K H C P I irampnd size ramp ncalls).map fun r =>
            r.map fun t => (t, ncalls + 1)
        else some (.ok ([ramp], ncalls))
      finalized.bind fun r =>
        match r with
        | .error status => some (.error status)
        | .ok t =>
          emitRamps K H C P I isQuadratic numShortcuts size rest (irampnd + 1) t.2
            (emitted ++ t.1.map fun r =>
              { position := r.x1, velocity := r.v1, deltatime := r.duration })
            (t.1.foldl (fun d r => d + r.duration) fExpextedDuration)

/-- Modelled from the spec: `GetDuration` of the host trajectory is outside the
source file; by section 6 the first waypoint carries delta time 0 and each
further one the duration of its segment, so the duration is their sum. -/
def trajectoryDuration (traj : List TrajWaypoint) : dReal :=
  (traj.map fun w => w.deltatime).sum

/-- The result of `PlanPath`: the returned status and, when the function got
as far as `ptraj->Swap(_pdummytraj)`, the trajectory swapped in. -/
structure PlanResult where
  status : PlannerStatus
  swapped : Option (List TrajWaypoint)

/-- The `try` block of `PlanPath` (the "main planning loop" and the emission),
started on the state that the initializer left, followed by the final return.
`isQuadratic` is the test `_hastimestamps && interpolation == "quadratic"`,
`mergeFuel` bounds the loop of the merger, `postStatus` is the value of
`_ProcessPostPlanners`.  `none` stands for undefined behaviour of the
source. -/
def planMain (K : Consts) (H : Host) (C : Collaborators) (P : Planner)
    (I : ParabolicInterpolator) (_maxInitialRampTime : dReal) (isQuadratic : Bool)
    (mergeFuel : Nat) (postStatus : PlannerStatus) (s : ShortcutState) : Option PlanResult :=
  let P := { P with _bUsePerturbation := true }
  let minTimeStep := P.params._fStepLength * (99 / 100)
  if C._CallCallbacks s.ncalls = PlannerAction.PA_Interrupt then
    some { status := PlannerStatus.PS_Interrupted, swapped := none }
  else
    let s := { s with ncalls := s.ncalls + 1 }
    let shortcut : Option (Int × ShortcutState) :=
      if P.params.hasSetStateFn then
        (_MergeConsecutiveSegments K H C P I minTimeStep mergeFuel s).bind fun m =>
          _Shortcut K H C P I _maxInitialRampTime P.params._nMaxIterations.toNat minTimeStep m.2
      else some (0, s)
    shortcut.bind fun r =>
      if r.1 < 0 then some { status := PlannerStatus.PS_Interrupted, swapped := none }
      else if C._CallCallbacks r.2.ncalls = PlannerAction.PA_Interrupt then
        some { status := PlannerStatus.PS_Interrupted, swapped := none }
      else
        match r.2.path with
        | [] => none
        | front :: rest =>
          (emitRamps K H C P I isQuadratic r.1 (front :: rest).length (front :: rest) 0
            (r.2.ncalls + 1)
            [{ position := front.x0, velocity := front.v0, deltatime := 0 }] 0).map fun e =>
            match e with
            | .error status => { status := status, swapped := none }
            | .ok t =>
              if |t.2 - trajectoryDuration t.1| ≤ 1 / 100 then
                { status := postStatus, swapped := some t.1 }
              else { status := PlannerStatus.PS_Failed, swapped := none }

/-! ## Concrete inputs used by the evaluations below -/

/-- A feasibility checker for which every configuration and every segment
passes and no segment is modified: `SegmentFeasible2` returns the segment it
was given as one checked ramp. -/
def passingChecker : FeasibilityCheckerBase where
  ConfigFeasible2 := fun _ _ _ => { retcode := 0 }
  SegmentFeasible2 := fun q0 q1 dq0 dq1 t _ =>
    ({ retcode := 0 }, [{ RampND.Initialize q0 q1 dq0 dq1 t with constraintChecked := true }])
  NeedDerivativeForFeasibility := true

/-- A candidate of two ramps with one DOF: from position 0 to 1 and from 1 to
2, each of duration 1 at the constant velocity 1. -/
def twoRamps : List RampND :=
  [{ RampND.Initialize [0] [1] [1] [1] 1 with constraintChecked := true },
   { RampND.Initialize [1] [2] [1] [1] 1 with constraintChecked := true }]

/-- A host whose constraint checks all pass without modifying anything and
whose state setter accepts every state. -/
def plainHost : Host where
  CheckPathAllConstraints := fun _ _ _ _ _ _ => some (0, [], [])
  CheckManipConstraints2 := fun _ => some { retcode := 0 }
  CheckRampND := fun _ => true
  setgetState := fun x => some x

/-- Parameters of a one-DOF planner with unit limits, no checker-side
modification and no manipulator constraints. -/
def plainParameters : Parameters where
  dof := 1
  _vConfigVelocityLimit := [1]
  _vConfigAccelerationLimit := [1]
  _vConfigLowerLimit := [-10]
  _vConfigUpperLimit := [10]
  fCosManipAngleThresh := -1
  maxmanipspeed := 0
  maxmanipaccel := 0
  _fStepLength := 1
  _nMaxIterations := 1
  fSearchVelAccelMult := 4 / 5
  verifyinitialpath := false
  _hastimestamps := true
  hasSetStateFn := true

/-- The planner with the parameters `plainParameters`. -/
def plainPlanner : Planner where
  params := plainParameters
  _bUsePerturbation := true
  _bmanipconstraints := false
  _bUseNewHeuristic := true

/-- An interpolator that is never successful (it is not reached in the
evaluations that use it). -/
def idleInterpolator : ParabolicInterpolator where
  ComputeZeroVelNDTrajectory := fun _ _ _ _ => []
  ComputeArbitraryVelNDTrajectory := fun _ _ _ _ _ _ _ => none
  ComputeNDTrajectoryFixedDuration := fun _ _ _ _ _ => none

/-- A cubic-with-timestamps input of two waypoints with one DOF: from position
0 to position 1 in time 1 at velocity 1 on both ends, a piece whose cubic
coefficient is 0. -/
def cubicInput : List TrajWaypoint :=
  [{ position := [0], velocity := [1], deltatime := 0 },
   { position := [1], velocity := [1], deltatime := 1 }]

/-- A quadratic-with-timestamps input of two waypoints with one DOF in which
the robot stays at position 0: the delta time of the second waypoint is 0. -/
def stillInput : List TrajWaypoint :=
  [{ position := [0], velocity := [0], deltatime := 0 },
   { position := [0], velocity := [0], deltatime := 0 }]

/-- A host whose constraint check passes everything and reports intermediate
configurations off the candidate: for the elapsed time 1 the configurations
`7/16` and `1` at the times `1/2` and `1`, for the elapsed time 4 the
configuration `2` at the time 4. -/
def bendingHost : Host where
  CheckPathAllConstraints := fun _ _ _ _ t _ =>
    if t = 1 then some (0, [7 / 16, 1], [1 / 2, 1])
    else if t = 4 then some (0, [2], [4])
    else some (0, [], [])
  CheckManipConstraints2 := fun _ => some { retcode := 0 }
  CheckRampND := fun _ => true
  setgetState := fun x => some x

/-- Parameters of a one-DOF planner with velocity limit 4, acceleration limit 8
and a manipulator angle threshold above -1, so that modified configurations are
expected. -/
def bendingParameters : Parameters where
  dof := 1
  _vConfigVelocityLimit := [4]
  _vConfigAccelerationLimit := [8]
  _vConfigLowerLimit := [-10]
  _vConfigUpperLimit := [10]
  fCosManipAngleThresh := 0
  maxmanipspeed := 0
  maxmanipaccel := 0
  _fStepLength := 1 / 10
  _nMaxIterations := 100
  fSearchVelAccelMult := 4 / 5
  verifyinitialpath := false
  _hastimestamps := false
  hasSetStateFn := true

/-- The planner with `bendingParameters`, without manipulator constraints. -/
def bendingPlanner : Planner where
  params := bendingParameters
  _bUsePerturbation := true
  _bmanipconstraints := false
  _bUseNewHeuristic := true

/-- The time-optimal candidate from rest at 0 to rest at 2 under the limits 2 and
2: one second of acceleration 2, one second of acceleration -2. -/
def bangBang : List RampND :=
  [RampND.Initialize [0] [1] [0] [2] 1, RampND.Initialize [1] [2] [2] [0] 1]

/-- The ramps that `Check2` stitches for `bangBang` under `bendingHost`. -/
def bentRamps : List RampND :=
  [{ RampND.Initialize [0] [7 / 16] [0] [7 / 4] (1 / 2) with constraintChecked := true },
   { RampND.Initialize [7 / 16] [1] [7 / 4] [1 / 2] (1 / 2) with constraintChecked := true },
   { RampND.Initialize [1] [2] [1 / 2] [0] 4 with constraintChecked := true }]

/-- An interpolator that answers every query with `bangBang`. -/
def bangBangInterpolator : ParabolicInterpolator where
  ComputeZeroVelNDTrajectory := fun _ _ _ _ => bangBang
  ComputeArbitraryVelNDTrajectory := fun _ _ _ _ _ _ _ => some bangBang
  ComputeNDTrajectoryFixedDuration := fun _ _ _ _ _ => none

/-- Collaborators whose callback never interrupts. -/
def quietCollaborators : Collaborators where
  _CallCallbacks := fun _ => PlannerAction.PA_None
  Rand := fun _ => 0
  SampleSequenceOneUInt32 := fun _ => 0
  EvalPos := fun _ _ => []
  EvalVel := fun _ _ => []
  ReplaceSegment := fun path _ _ _ => path
  Cut := fun r _ => (r, r)
  GetMaxVelocitiesAccelerations := fun _ _ vellimits accellimits => (vellimits, accellimits)
  RaveSqrt := fun x => x

/-- The state of a shortcut attempt on the window from rest at 0 to rest at 2
after one slowdown by the multiplier 1/2 from the limits 4 and 8. -/
def bendingAttempt : AttemptState where
  x0Vect := [0]
  x1Vect := [2]
  v0Vect := [0]
  v1Vect := [0]
  vellimits := [2]
  accellimits := [2]
  fCurVelMult := 1 / 2
  fCurAccelMult := 1 / 4
  velReductionFactors := [1]
  accelReductionFactors := [1]
  shortcutRampNDVect := []
  shortcutRampNDVectOut := []
  shortcutRampNDVectOut1 := []
  numSlowDowns := 1
  nTimeBasedConstraintsFailed := 1
  ncalls := 1

/-- A checked one-DOF path 0, 1/2, 1, 3/2, 2 that stops at 1: four ramps of one
second with accelerations 1, -1, 1, -1. -/
def stopPath : List RampND :=
  [{ RampND.Initialize [0] [1 / 2] [0] [1] 1 with constraintChecked := true },
   { RampND.Initialize [1 / 2] [1] [1] [0] 1 with constraintChecked := true },
   { RampND.Initialize [1] [3 / 2] [0] [1] 1 with constraintChecked := true },
   { RampND.Initialize [3 / 2] [2] [1] [0] 1 with constraintChecked := true }]

/-- The planner state on `stopPath`: the stop at time 2 is registered with the
neighbours 1 and 3. -/
def stopState : ShortcutState where
  path := stopPath
  _zeroVelPoints := [2]
  _zeroVelPointNeighbors := [(1, 3)]
  fStartTimeVelMult := 1
  fStartTimeAccelMult := 1
  numSuccessful := 0
  numSlowDowns := 0
  nTimeBasedConstraintsFailed := 0
  ncalls := 0
  nrand := 0
  cacheRampNDVect := []
  cacheRampNDVectOut := []
  cacheRampNDVectOut1 := []

/-- Parameters of a one-DOF planner with velocity and acceleration limit 1, step
length 1, one shortcut iteration and no manipulator angle threshold. -/
def stopParameters : Parameters where
  dof := 1
  _vConfigVelocityLimit := [1]
  _vConfigAccelerationLimit := [1]
  _vConfigLowerLimit := [-10]
  _vConfigUpperLimit := [10]
  fCosManipAngleThresh := -1
  maxmanipspeed := 0
  maxmanipaccel := 0
  _fStepLength := 1
  _nMaxIterations := 1
  fSearchVelAccelMult := 4 / 5
  verifyinitialpath := false
  _hastimestamps := false
  hasSetStateFn := true

/-- The planner with `stopParameters`. -/
def stopPlanner : Planner where
  params := stopParameters
  _bUsePerturbation := true
  _bmanipconstraints := false
  _bUseNewHeuristic := true

/-- A host that reports a collision (code 1) for checks that start at the
configuration 0 and passes everything else. -/
def stopHost : Host where
  CheckPathAllConstraints := fun q0 _ _ _ _ _ =>
    if q0 = [0] then some (1, [], []) else some (0, [], [])
  CheckManipConstraints2 := fun _ => some { retcode := 0 }
  CheckRampND := fun _ => true
  setgetState := fun x => some x

/-- Collaborators on `stopPath`: the progress callback interrupts at its
invocation number 1 (the second one) and at no other; `EvalPos` and `EvalVel`
give the values of `stopPath` at the times 0, 1, 3 and 4. -/
def stopCollaborators : Collaborators where
  _CallCallbacks := fun n => if n = 1 then PlannerAction.PA_Interrupt else PlannerAction.PA_None
  Rand := fun _ => 0
  SampleSequenceOneUInt32 := fun _ => 0
  EvalPos := fun _ t =>
    if t = 1 then [1 / 2] else if t = 3 then [3 / 2] else if t = 4 then [2] else [0]
  EvalVel := fun _ t => if t = 1 ∨ t = 3 then [1] else [0]
  ReplaceSegment := fun path _ _ _ => path
  Cut := fun r _ => (r, r)
  GetMaxVelocitiesAccelerations := fun _ _ vellimits accellimits => (vellimits, accellimits)
  RaveSqrt := fun x => x

/-- The bridge over the stop: one second at constant velocity 1. -/
def stopBridge : List RampND := [RampND.Initialize [1 / 2] [3 / 2] [1] [1] 1]

/-- A three second candidate for the whole of `stopPath`. -/
def stopWhole : List RampND :=
  [RampND.Initialize [0] [1 / 2] [0] [1] 1, RampND.Initialize [1 / 2] [3 / 2] [1] [1] 1,
   RampND.Initialize [3 / 2] [2] [1] [0] 1]

/-- An interpolator that answers with `stopBridge` for a start velocity 1 and
with `stopWhole` otherwise. -/
def stopInterpolator : ParabolicInterpolator where
  ComputeZeroVelNDTrajectory := fun _ _ _ _ => []
  ComputeArbitraryVelNDTrajectory := fun _ _ v0 _ _ _ _ =>
    if v0 = [1] then some stopBridge else some stopWhole
  ComputeNDTrajectoryFixedDuration := fun _ _ _ _ _ => none

/-- The waypoints of `stopPath` as the emission writes them. -/
def stopTrajectory : List TrajWaypoint :=
  [{ position := [0], velocity := [0], deltatime := 0 },
   { position := [1 / 2], velocity := [1], deltatime := 1 },
   { position := [1], velocity := [0], deltatime := 1 },
   { position := [3 / 2], velocity := [1], deltatime := 1 },
   { position := [2], velocity := [0], deltatime := 1 }]

/-- The planner state after the quadratic branch has read `stillInput`: the
path is what the branch appended, the registry is empty. -/
def stillState : ShortcutState where
  path := ingestQuadratic openraveConsts stillInput
  _zeroVelPoints := []
  _zeroVelPointNeighbors := []
  fStartTimeVelMult := 1
  fStartTimeAccelMult := 1
  numSuccessful := 0
  numSlowDowns := 0
  nTimeBasedConstraintsFailed := 0
  ncalls := 0
  nrand := 0
  cacheRampNDVect := []
  cacheRampNDVectOut := []
  cacheRampNDVectOut1 := []

/-- Follows the specification: the registry after a commit on `[t0, t1]` that
saves `diff`: the entries `≤ t0` unchanged, followed by the entries `> t1`,
each decreased by `diff`. -/
def registryAfterCommit (t0 t1 diff : dReal) (Z : List dReal) : List dReal :=
  Z.filter (fun z => decide (z ≤ t0)) ++
    (Z.filter (fun z => decide (t1 < z))).map (fun z => z - diff)

/-- The loop state that an outcome of an iteration carries. -/
def IterOutcome.state : IterOutcome → ShortcutLoopState
  | .stop st => st
  | .next st => st
  | .interrupted st => st

/-- Follows the specification: the postcondition on one output segment of
`SegmentFeasible2`: it is marked constraint-checked, it carries exactly `ndof`
accelerations and each of them lies within `[-aMax[i], aMax[i]]`. -/
def clampedAndChecked (amax : List dReal) (ndof : Nat) (r : RampND) : Prop :=
  r.constraintChecked = true ∧ r.a.length = ndof ∧
    ∀ i, i < ndof → -(amax.getD i 0) ≤ r.a.getD i 0 ∧ r.a.getD i 0 ≤ amax.getD i 0

/-- The value of `options` in `SegmentFeasible2` after the two `|=` steps, as
it is passed to `CheckPathAllConstraints` and tested by the manipulator
checks. -/
def segmentOptions (K : Consts) (P : Planner) (options : Nat) : Nat :=
  let options := if P._bUsePerturbation then options ||| K.CFO_CheckWithPerturbation else options
  if decide (P.params.fCosManipAngleThresh > -1 + K.g_fEpsilonLinear) || P._bmanipconstraints then
    options ||| K.CFO_FillCheckedConfiguration
  else options

/-- A host that passes every constraint check without modification and whose
re-validation `CheckRampND` rejects every ramp. -/
def strictHost : Host where
  CheckPathAllConstraints := fun _ _ _ _ _ _ => some (0, [], [])
  CheckManipConstraints2 := fun _ => some { retcode := 0 }
  CheckRampND := fun _ => false
  setgetState := fun x => some x

/-- A loop state of `_Shortcut` on `stopState` before the first iteration. -/
def stopLoopState : ShortcutLoopState where
  s := stopState
  tTotal := 4
  nItersFromPrevSuccessful := 0
  score := 1
  currentBestScore := 1
  iCurrentBestScore := 1
  vVisitedDiscretization := []
  nEndTimeDiscretization := 0

/-- An attempt that ends with a checked list of duration 0.9999. -/
def slimAttempt : AttemptState :=
  { bendingAttempt with
    shortcutRampNDVectOut :=
      [{ RampND.Initialize [0] [9999 / 10000] [1] [1] (9999 / 10000) with
          constraintChecked := true }] }

/-- A loop state of `_Shortcut` after four successful shortcuts, one iteration
after the last of them, with best score 1. -/
def fourDoneLoopState : ShortcutLoopState where
  s := { stopState with numSuccessful := 4 }
  tTotal := 4
  nItersFromPrevSuccessful := 1
  score := 1
  currentBestScore := 1
  iCurrentBestScore := 1
  vVisitedDiscretization := [0]
  nEndTimeDiscretization := 1

/-- A loop state of `_Shortcut` before the first iteration on a path of total
duration 33 (the bitmap is still empty). -/
def longLoopState : ShortcutLoopState where
  s := stopState
  tTotal := 33
  nItersFromPrevSuccessful := 0
  score := 1
  currentBestScore := 1
  iCurrentBestScore := 1
  vVisitedDiscretization := []
  nEndTimeDiscretization := 0

/-! ## `_SetMileStones` -/

/-- The two host functions that the densification of `_SetMileStones` calls:
`SetStateValues` (true when it returns 0) and `_neighstatefn` on `xmid` and
`xmidDelta` with `NSO_OnlyHardConstraints` (`none` for `NSS_Failed`, otherwise
the state that it leaves in `xmid`). -/
structure NeighHost where
  SetStateValues : List dReal → Bool
  _neighstatefn : List dReal → List dReal → Option (List dReal)

/-- The exits `return false` of `_SetMileStones`, named after their
warnings. -/
inductive MileStoneFailure where
  | couldNotSetValues
  | failedToGetNeighbor
  | tooManyConsecutiveExpansions
  | failedToTimeParameterize
deriving DecidableEq

/-- The variables of the densification loop of `_SetMileStones`. -/
structure DensifyState where
  vNewWaypoints : List (List dReal)
  vForceInitialChecking : List Nat
  nConsecutiveExpansions : Int
  iwaypoint : Nat

/-- The sum `dist` of the squared differences between the expected middle
point of `a`, `b` and `xmid`. -/
def midpointDist (ndof : Nat) (a b xmid : List dReal) : dReal :=
  (List.range ndof).foldl
    (fun dist idof =>
      let fExpected := (1 / 2) * (b.getD idof 0 + a.getD idof 0)
      let fError := fExpected - xmid.getD idof 0
      dist + fError * fError)
    0

/-- One iteration of the loop `while (iwaypoint + 1 < vNewWaypoints.size())`
of `_SetMileStones` (`distThresh = 0.00001`,
`nConsecutiveExpansionsAllowed = 10`). -/
def densifyStep (N : NeighHost) (ndof : Nat) (st : DensifyState) :
    Except MileStoneFailure DensifyState :=
  let a := st.vNewWaypoints.getD st.iwaypoint []
  let b := st.vNewWaypoints.getD (st.iwaypoint + 1) []
  let xmidDelta := (List.range ndof).map fun idof => (1 / 2) * (b.getD idof 0 - a.getD idof 0)
  if !N.SetStateValues a then .error .couldNotSetValues
  else
    match N._neighstatefn a xmidDelta with
    | none => .error .failedToGetNeighbor
    | some xmid =>
      if midpointDist ndof a b xmid > 1 / 100000 then
        let st := { st with
          vNewWaypoints := st.vNewWaypoints.insertIdx (st.iwaypoint + 1) xmid
          vForceInitialChecking :=
            (st.vForceInitialChecking.set (st.iwaypoint + 1) 1).insertIdx (st.iwaypoint + 1) 1
          nConsecutiveExpansions := st.nConsecutiveExpansions + 2 }
        if st.nConsecutiveExpansions > 10 then .error .tooManyConsecutiveExpansions
        else .ok st
      else
        .ok { st with
          nConsecutiveExpansions :=
            if st.nConsecutiveExpansions > 0 then st.nConsecutiveExpansions - 1
            else st.nConsecutiveExpansions
          iwaypoint := st.iwaypoint + 1 }

/-- The densification loop of `_SetMileStones` with `fuel` iterations left;
`none` when the fuel runs out. -/
def densifyLoop (N : NeighHost) (ndof : Nat) :
    Nat → DensifyState → Option (Except MileStoneFailure DensifyState)
  | 0, _ => none
  | fuel + 1, st =>
    if st.iwaypoint + 1 < st.vNewWaypoints.length then
      match densifyStep N ndof st with
      | .error e => some (.error e)
      | .ok st2 => densifyLoop N ndof fuel st2
    else some (.ok st)

/-- The members that `_SetMileStones` builds: the path, the zero-velocity
registry with its neighbour bounds, and `_maxInitialRampTime`. -/
structure MileStoneState where
  path : List RampND
  _zeroVelPoints : List dReal
  _zeroVelPointNeighbors : List (dReal × dReal)
  _maxInitialRampTime : dReal

/-- The block "keep track of zero-velocity waypoints" of the second loop of
`_SetMileStones` for the ramps `rampndVect` of one pair of waypoints, with
`front` and `back` its first and last ramp. -/
def recordStop (rampndVect : List RampND) (front back : RampND) (st : MileStoneState) :
    MileStoneState :=
  let duration := totalDuration rampndVect
  let z :=
    match st._zeroVelPoints.getLast? with
    | none => st._zeroVelPoints ++ [duration]
    | some zback => st._zeroVelPoints ++ [zback + duration]
  let nb :=
    match st._zeroVelPoints.getLast?, st._zeroVelPointNeighbors.getLast? with
    | some _, some n => st._zeroVelPointNeighbors.dropLast ++ [(n.1, n.2 + front.duration)]
    | _, _ => st._zeroVelPointNeighbors
  let zback := z.getLast?.getD 0
  { path := st.path ++ rampndVect
    _zeroVelPoints := z
    _zeroVelPointNeighbors := nb ++ [(zback - back.duration, zback)]
    _maxInitialRampTime :=
      if duration > st._maxInitialRampTime then duration else st._maxInitialRampTime }

/-- The loop `for iwaypoint = 1 .. numWaypoints - 1` of `_SetMileStones` over
the waypoints that follow `prev`: `none` stands for `return false` (or for an
empty interpolation, whose first ramp the source reads). -/
def mileStoneLoop (K : Consts) (H : Host) (P : Planner) (I : ParabolicInterpolator)
    (options : Nat) (vForceInitialChecking : List Nat) :
    List (List dReal) → List dReal → Nat → MileStoneState → Option MileStoneState
  | [], _, _, st => some st
  | w :: rest, prev, iwaypoint, st =>
    match _ComputeRampWithZeroVelEndpoints K H P I prev w options with
    | none => none
    | some rampndVect =>
      let rampndVect :=
        if !P.params.verifyinitialpath && vForceInitialChecking.getD iwaypoint 0 = 0 then
          rampndVect.map fun r => { r with constraintChecked := true }
        else rampndVect
      match rampndVect.head?, rampndVect.getLast? with
      | some front, some back =>
        mileStoneLoop K H P I options vForceInitialChecking rest w (iwaypoint + 1)
          (recordStop rampndVect front back st)
      | _, _ => none

/-- `ParabolicSmoother2::_SetMileStones`: the error of the failing exit, or the
path, registry, neighbour bounds and `_maxInitialRampTime` it leaves.
`neigh` is `_neighstatefn` when it is set; `fuel` bounds the densification
loop (`none` when it runs out).  `maxInitialRampTime0` is the value of the
member on entry. -/
def _SetMileStones (K : Consts) (H : Host) (P : Planner) (I : ParabolicInterpolator)
    (neigh : Option NeighHost) (fuel : Nat) (maxInitialRampTime0 : dReal)
    (vWaypoints : List (List dReal)) : Option (Except MileStoneFailure MileStoneState) :=
  let st0 : MileStoneState :=
    { path := [], _zeroVelPoints := [], _zeroVelPointNeighbors := [],
      _maxInitialRampTime := maxInitialRampTime0 }
  match vWaypoints with
  | [] => some (.ok st0)
  | [w] => some (.ok { st0 with path := [RampND.SetConstant P.params.dof w 0] })
  | w0 :: w1 :: ws =>
    let options :=
      if !P.params.verifyinitialpath then
        clearBits (clearBits K.CFO_CheckTimeBasedConstraints K.CFO_CheckEnvCollisions)
          K.CFO_CheckSelfCollisions
      else K.CFO_CheckTimeBasedConstraints
    let dense : Option (Except MileStoneFailure DensifyState) :=
      match neigh with
      | some N =>
        densifyLoop N P.params.dof fuel
          { vNewWaypoints := w0 :: w1 :: ws
            vForceInitialChecking := List.replicate (w0 :: w1 :: ws).length 0
            nConsecutiveExpansions := 0, iwaypoint := 0 }
      | none =>
        some (.ok
          { vNewWaypoints := w0 :: w1 :: ws
            vForceInitialChecking := List.replicate (w0 :: w1 :: ws).length 0
            nConsecutiveExpansions := 0, iwaypoint := 0 })
    dense.map fun d =>
      match d with
      | .error e => .error e
      | .ok d =>
        match d.vNewWaypoints with
        | [] => .ok st0
        | first :: rest =>
          match mileStoneLoop K H P I options d.vForceInitialChecking rest first 1 st0 with
          | none => .error .failedToTimeParameterize
          | some st =>
            .ok { st with
              _zeroVelPoints := st._zeroVelPoints.dropLast
              _zeroVelPointNeighbors := st._zeroVelPointNeighbors.dropLast }

/-- A neighbour function that steers every waypoint to the requested middle
point displaced by 1 in each DOF; every state can be set. -/
def offsetNeighHost : NeighHost where
  SetStateValues := fun _ => true
  _neighstatefn := fun xmid xmidDelta => some (List.zipWith (fun x d => x + d + 1) xmid xmidDelta)

/-- Follows the specification: the accumulated time of the stop behind the
ramp lists `R_1 .. R_(k+1)`, the sum of their durations. -/
def stopTime (Rs : List (List RampND)) (k : Nat) : dReal :=
  ((Rs.take (k + 1)).map totalDuration).sum

/-- Follows the specification: the neighbourhood of stop `k`: `t_left` is the
stop time less the duration of the last ramp entering the stop, `t_right` the
stop time plus the duration of the first ramp leaving it (no ramp leaves the
last waypoint). -/
def stopNeighbour (Rs : List (List RampND)) (k : Nat) : dReal × dReal :=
  (stopTime Rs k - ((Rs.getD k []).getLast?.map fun r => r.duration).getD 0,
   stopTime Rs k + ((Rs.getD (k + 1) []).head?.map fun r => r.duration).getD 0)

/-- The state that the second loop of `_SetMileStones` reaches from `st` when
the pairs of waypoints are interpolated by the ramp lists `Rs`. -/
def recordStops (Rs : List (List RampND)) (st : MileStoneState) : MileStoneState :=
  Rs.foldl
    (fun s R => recordStop R (R.head?.getD default) (R.getLast?.getD default) s) st

/-- An interpolator whose zero-velocity trajectory between two one-DOF
waypoints at distance 1 is the bang-bang profile under unit limits: one second
of acceleration to velocity 1 at the middle point, one second of
deceleration. -/
def unitStopInterpolator : ParabolicInterpolator where
  ComputeZeroVelNDTrajectory := fun x0 x1 _ _ =>
    [RampND.Initialize x0 (List.zipWith (fun a b => (a + b) / 2) x0 x1) [0] [1] 1,
     RampND.Initialize (List.zipWith (fun a b => (a + b) / 2) x0 x1) x1 [1] [0] 1]
  ComputeArbitraryVelNDTrajectory := fun _ _ _ _ _ _ _ => none
  ComputeNDTrajectoryFixedDuration := fun _ _ _ _ _ => none

/-- The members that `_SetMileStones` leaves for the waypoints `[0]`, `[1]`,
`[2]` with `unitStopInterpolator`: the path `stopPath` and its one stop. -/
def threeMileStones : MileStoneState where
  path := stopPath
  _zeroVelPoints := [2]
  _zeroVelPointNeighbors := [(1, 3)]
  _maxInitialRampTime := 2

/-- Parameters of a one-DOF planner with velocity limit 2, acceleration limit
10, step length 1/10, no manipulator angle threshold and no state setter, so
that `PlanPath` goes from the initial path to the emission. -/
def repairParameters : Parameters where
  dof := 1
  _vConfigVelocityLimit := [2]
  _vConfigAccelerationLimit := [10]
  _vConfigLowerLimit := [-10]
  _vConfigUpperLimit := [10]
  fCosManipAngleThresh := -1
  maxmanipspeed := 0
  maxmanipaccel := 0
  _fStepLength := 1 / 10
  _nMaxIterations := 1
  fSearchVelAccelMult := 4 / 5
  verifyinitialpath := false
  _hastimestamps := true
  hasSetStateFn := false

/-- The planner with the parameters `repairParameters`. -/
def repairPlanner : Planner where
  params := repairParameters
  _bUsePerturbation := true
  _bmanipconstraints := false
  _bUseNewHeuristic := true

/-- A host that reports a collision (code 1) for every segment traversed in
exactly one second and accepts everything else without modification. -/
def repairHost : Host where
  CheckPathAllConstraints := fun _ _ _ _ t _ =>
    if t = 1 then some (1, [], []) else some (0, [], [])
  CheckManipConstraints2 := fun _ => some { retcode := 0 }
  CheckRampND := fun _ => true
  setgetState := fun x => some x

/-- Three ramps of total duration `d` from position 1 to position 2 with the
velocity 1 at both ends: a deceleration to 19/20 during `20 - 19 d`, a cruise
during `39 d - 40` and the mirrored acceleration. -/
def stretched (d : dReal) : List RampND :=
  [RampND.Initialize [1] [1 + 39 / 40 * (20 - 19 * d)] [1] [19 / 20] (20 - 19 * d),
   RampND.Initialize [1 + 39 / 40 * (20 - 19 * d)] [2 - 39 / 40 * (20 - 19 * d)]
     [19 / 20] [19 / 20] (39 * d - 40),
   RampND.Initialize [2 - 39 / 40 * (20 - 19 * d)] [2] [19 / 20] [1] (20 - 19 * d)]

/-- An interpolator whose fixed-duration interpolation fails for a duration
below 1.04 and answers with `stretched d` for a longer duration `d`. -/
def repairInterpolator : ParabolicInterpolator where
  ComputeZeroVelNDTrajectory := fun _ _ _ _ => []
  ComputeArbitraryVelNDTrajectory := fun _ _ _ _ _ _ _ => none
  ComputeNDTrajectoryFixedDuration := fun _ _ _ _ d =>
    if d < 104 / 100 then none else some (stretched d)

/-- A path of three ramps of one second each at the constant velocity 1 from
position 0 to position 3; the middle one is not yet checked. -/
def repairPath : List RampND :=
  [{ RampND.Initialize [0] [1] [1] [1] 1 with constraintChecked := true },
   RampND.Initialize [1] [2] [1] [1] 1,
   { RampND.Initialize [2] [3] [1] [1] 1 with constraintChecked := true }]

/-- The planner state on `repairPath`. -/
def repairState : ShortcutState where
  path := repairPath
  _zeroVelPoints := []
  _zeroVelPointNeighbors := []
  fStartTimeVelMult := 1
  fStartTimeAccelMult := 1
  numSuccessful := 0
  numSlowDowns := 0
  nTimeBasedConstraintsFailed := 0
  ncalls := 0
  nrand := 0
  cacheRampNDVect := []
  cacheRampNDVectOut := []
  cacheRampNDVectOut1 := []

/-- The duration of the fourth stretch try for a ramp of one second. -/
def fourthTry (K : Consts) : dReal :=
  1 + 5 * K.g_fRampEpsilon + 5 * K.g_fRampEpsilon + 5 * K.g_fRampEpsilon +
    5 / 100 * (1 + 5 * K.g_fRampEpsilon)

/-- The waypoints that the emission writes for `repairPath` when the middle
ramp is replaced by `stretched d`. -/
def repairTrajectory (d : dReal) : List TrajWaypoint :=
  [{ position := [0], velocity := [1], deltatime := 0 },
   { position := [1], velocity := [1], deltatime := 1 },
   { position := [1 + 39 / 40 * (20 - 19 * d)], velocity := [19 / 20],
     deltatime := 20 - 19 * d },
   { position := [2 - 39 / 40 * (20 - 19 * d)], velocity := [19 / 20],
     deltatime := 39 * d - 40 },
   { position := [2], velocity := [1], deltatime := 20 - 19 * d },
   { position := [3], velocity := [1], deltatime := 1 }]

/-- A host that accepts the first ramp of `bangBang` with the intermediate
configurations `7/16` and `1` at the times `1/2` and `1`, answers a segment of
elapsed time 4 with the configurations `3/2` and `2` at the times 2 and 4,
rejects a segment of elapsed time `1/2` with the time-based code 4 and accepts
everything else as it is. -/
def driftHost : Host where
  CheckPathAllConstraints := fun q0 _ _ _ t _ =>
    if t = 1 ∧ q0 = [0] then some (0, [7 / 16, 1], [1 / 2, 1])
    else if t = 4 then some (0, [3 / 2, 2], [2, 4])
    else if t = 1 / 2 then some (4, [], [])
    else some (0, [], [])
  CheckManipConstraints2 := fun _ => some { retcode := 0 }
  CheckRampND := fun _ => true
  setgetState := fun x => some x

/-- The ramps that `Check2` stitches for `bangBang` under `driftHost`: the last
one ends at position 2 with the velocity 1/2. -/
def driftStitched : List RampND :=
  [{ RampND.Initialize [0] [7 / 16] [0] [7 / 4] (1 / 2) with constraintChecked := true },
   { RampND.Initialize [7 / 16] [1] [7 / 4] [1 / 2] (1 / 2) with constraintChecked := true },
   { RampND.Initialize [1] [3 / 2] [1 / 2] [0] 2 with constraintChecked := true },
   { RampND.Initialize [3 / 2] [2] [0] [1 / 2] 2 with constraintChecked := true }]

/-- The candidate of the repair of the last ramp of `driftStitched`: from rest
at 3/2 to rest at 2 in two ramps of half a second. -/
def driftRepair : List RampND :=
  [RampND.Initialize [3 / 2] [7 / 4] [0] [1] (1 / 2),
   RampND.Initialize [7 / 4] [2] [1] [0] (1 / 2)]

/-- A candidate from rest at 3/2 to rest at 2 in three ramps of one second. -/
def driftCandidate : List RampND :=
  [RampND.Initialize [3 / 2] [13 / 8] [0] [1 / 4] 1,
   RampND.Initialize [13 / 8] [15 / 8] [1 / 4] [1 / 4] 1,
   RampND.Initialize [15 / 8] [2] [1 / 4] [0] 1]

/-- The ramps of `driftCandidate` after their check. -/
def driftBridge : List RampND :=
  driftCandidate.map fun r => { r with constraintChecked := true }

/-- An interpolator that meets the boundary values it is given on the queries
made here: `bangBang` from rest at 0, and from rest at 3/2 `driftRepair` when it
is asked to try harder and `driftCandidate` otherwise. -/
def driftInterpolator : ParabolicInterpolator where
  ComputeZeroVelNDTrajectory := fun _ _ _ _ => []
  ComputeArbitraryVelNDTrajectory := fun x0 _ _ _ _ _ tryHarder =>
    if x0 = [0] then some bangBang
    else if tryHarder then some driftRepair
    else some driftCandidate
  ComputeNDTrajectoryFixedDuration := fun _ _ _ _ _ => none

/-- The state at the start of a shortcut attempt on a window from rest at 0 to
rest at 2 under the limits 4 and 8. -/
def driftAttempt : AttemptState where
  x0Vect := [0]
  x1Vect := [2]
  v0Vect := [0]
  v1Vect := [0]
  vellimits := [4]
  accellimits := [8]
  fCurVelMult := 1
  fCurAccelMult := 1
  velReductionFactors := [1]
  accelReductionFactors := [1]
  shortcutRampNDVect := []
  shortcutRampNDVectOut := []
  shortcutRampNDVectOut1 := []
  numSlowDowns := 0
  nTimeBasedConstraintsFailed := 0
  ncalls := 0

/-- A one-DOF path from rest at 0 to rest at 2 in ten seconds: five seconds of
acceleration 2/25 and five seconds of acceleration -2/25. -/
def driftPath : List RampND :=
  [{ RampND.Initialize [0] [1] [0] [2 / 5] 5 with constraintChecked := true },
   { RampND.Initialize [1] [2] [2 / 5] [0] 5 with constraintChecked := true }]

/-- Collaborators on `driftPath`: the callback never interrupts; `EvalPos` and
`EvalVel` give the values of `driftPath` at the times 0 and 10. -/
def driftCollaborators : Collaborators where
  _CallCallbacks := fun _ => PlannerAction.PA_None
  Rand := fun _ => 0
  SampleSequenceOneUInt32 := fun _ => 0
  EvalPos := fun _ t => if t = 10 then [2] else [0]
  EvalVel := fun _ _ => [0]
  ReplaceSegment := fun path _ _ _ => path
  Cut := fun r _ => (r, r)
  GetMaxVelocitiesAccelerations := fun _ _ vellimits accellimits => (vellimits, accellimits)
  RaveSqrt := fun x => x

/-- The planner state on `driftPath` at the start of the shortcut loop. -/
def driftState : ShortcutState where
  path := driftPath
  _zeroVelPoints := []
  _zeroVelPointNeighbors := []
  fStartTimeVelMult := 1
  fStartTimeAccelMult := 1
  numSuccessful := 0
  numSlowDowns := 0
  nTimeBasedConstraintsFailed := 0
  ncalls := 0
  nrand := 0
  cacheRampNDVect := []
  cacheRampNDVectOut := []
  cacheRampNDVectOut1 := []

/-- A loop state of `_Shortcut` on `repairState` (empty registry, path of
duration 3) before an iteration. -/
def repairLoopState : ShortcutLoopState where
  s := repairState
  tTotal := 3
  nItersFromPrevSuccessful := 0
  score := 1
  currentBestScore := 1
  iCurrentBestScore := 1
  vVisitedDiscretization := []
  nEndTimeDiscretization := 0

/-- One iteration of the slowdown loop: `Sum.inl` with the outcome when the
iteration leaves the loop, `Sum.inr` with the surpass multiplier of the failed
check and the scaled state when the loop goes on to the next iteration.
`none` stands for `Check2` on an empty candidate. -/
def slowDownStep (K : Consts) (H : Host) (C : Collaborators) (P : Planner)
    (I : ParabolicInterpolator) (t0 t1 minTimeStep : dReal) (bx0 bx1 bv0 bv1 : List dReal)
    (iSlowDown : Nat) (st : AttemptState) : Option (AttemptOutcome ⊕ (dReal × AttemptState)) :=
  match I.ComputeArbitraryVelNDTrajectory st.x0Vect st.x1Vect st.v0Vect st.v1Vect st.vellimits
      st.accellimits false with
  | none => some (.inl (.finished false st))
  | some cand =>
    let st := { st with shortcutRampNDVect := cand }
    let segmentTime := totalDuration cand
    if segmentTime + minTimeStep > t1 - t0 then some (.inl (.finished false st))
    else if C._CallCallbacks st.ncalls = PlannerAction.PA_Interrupt then
      some (.inl (.interrupted { st with ncalls := st.ncalls + 1 }))
    else
      let st := { st with ncalls := st.ncalls + 1 }
      (checkBlock K H P I t0 t1 minTimeStep segmentTime st).bind fun c =>
        if c.1.retcode = 0 then some (.inl (.finished true c.2))
        else if c.1.retcode = K.CFO_CheckTimeBasedConstraints then
          let st := { c.2 with
            nTimeBasedConstraintsFailed := c.2.nTimeBasedConstraintsFailed + 1 }
          let s := scaleLimits C H P iSlowDown bx0 bx1 bv0 bv1 c.1 st
          if s.1 then some (.inr (c.1.fTimeBasedSurpassMult, s.2))
          else some (.inl (.finished false s.2))
        else some (.inl (.finished false c.2))

/-- The first `k` iterations of the slowdown loop when each of them ends with a
time-based failure and a scaling that does not abort: the surpass multipliers
in order and the state before iteration `k`; `none` otherwise. -/
def slowDowns (K : Consts) (H : Host) (C : Collaborators) (P : Planner)
    (I : ParabolicInterpolator) (t0 t1 minTimeStep : dReal) (bx0 bx1 bv0 bv1 : List dReal) :
    Nat → Nat → AttemptState → Option (List dReal × AttemptState)
  | 0, _, st => some ([], st)
  | k + 1, iSlowDown, st =>
    match slowDownStep K H C P I t0 t1 minTimeStep bx0 bx1 bv0 bv1 iSlowDown st with
    | some (.inr (m, st2)) =>
      (slowDowns K H C P I t0 t1 minTimeStep bx0 bx1 bv0 bv1 k (iSlowDown + 1) st2).map
        fun r => (m :: r.1, r.2)
    | _ => none

/-- The state with which an attempt on `[t0, t1]` enters the slowdown loop: the
boundary values read from the path, the initialised limits and the start
multipliers (`x0Vect`, `x1Vect` as returned by the state setting). -/
def attemptStart (C : Collaborators) (P : Planner) (t0 t1 : dReal) (s : ShortcutState)
    (x0Vect x1Vect : List dReal) : AttemptState :=
  let v0Vect := C.EvalVel s.path t0
  let v1Vect := C.EvalVel s.path t1
  let limits := initialLimits P s.fStartTimeVelMult s.fStartTimeAccelMult v0Vect v1Vect
  let dof := (s.path.head?.map fun r => r.x0.length).getD 0
  { x0Vect := x0Vect, x1Vect := x1Vect, v0Vect := v0Vect, v1Vect := v1Vect,
    vellimits := limits.1, accellimits := limits.2,
    fCurVelMult := s.fStartTimeVelMult, fCurAccelMult := s.fStartTimeAccelMult,
    velReductionFactors := List.replicate dof 1,
    accelReductionFactors := List.replicate dof 1,
    shortcutRampNDVect := s.cacheRampNDVect,
    shortcutRampNDVectOut := s.cacheRampNDVectOut,
    shortcutRampNDVectOut1 := s.cacheRampNDVectOut1,
    numSlowDowns := s.numSlowDowns,
    nTimeBasedConstraintsFailed := s.nTimeBasedConstraintsFailed,
    ncalls := s.ncalls }

/-- The attempt state of the window `[0, 10]` of `driftPath` after its first
slowdown: the time-based failure of the repair of the last stitched ramp has
the surpass multiplier 98/100. -/
def driftSlowed : AttemptState :=
  (scaleNormal { retcode := 4, fTimeBasedSurpassMult := 98 / 100 }
    { driftAttempt with
      x0Vect := [3 / 2]
      vellimits := raiseVellimits [4] driftStitched
      shortcutRampNDVect := driftRepair
      shortcutRampNDVectOut := driftStitched
      nTimeBasedConstraintsFailed := 1
      ncalls := 1 }).2

/-- The state of the densification loop of `_SetMileStones` after `k`
iterations of its body; `none` when the loop has been left before. -/
def densifyIterate (N : NeighHost) (ndof : Nat) : Nat → DensifyState → Option DensifyState
  | 0, st => some st
  | k + 1, st =>
    if st.iwaypoint + 1 < st.vNewWaypoints.length then
      match densifyStep N ndof st with
      | .error _ => none
      | .ok st2 => densifyIterate N ndof k st2
    else none

/-- The body of the loop over `readIndex` in the commit of a merge, on the
registry, the neighbour bounds and `writeIndex`. -/
def mergeRegistryStep (t0 t1 diff : dReal) (s : List dReal × List (dReal × dReal) × Nat)
    (readIndex : Nat) : List dReal × List (dReal × dReal) × Nat :=
  if s.1.getD readIndex 0 ≤ t0 then (s.1, s.2.1, s.2.2 + 1)
  else if s.1.getD readIndex 0 ≤ t1 then s
  else
    let n := s.2.1.getD readIndex (0, 0)
    (s.1.set s.2.2 (s.1.getD readIndex 0 - diff),
      s.2.1.set s.2.2 (n.1 - diff, n.2 - diff), s.2.2 + 1)

/-- Follows the specification: the neighbour bounds paired with the registry
after a merge on `[t0, t1]` that saves `diff`, from the list `L` of the stops
with their bounds: the bounds of the stops `≤ t0` unchanged, followed by the
bounds of the stops `> t1`, both decreased by `diff`. -/
def neighboursAfterMerge (t0 t1 diff : dReal) (L : List (dReal × (dReal × dReal))) :
    List (dReal × dReal) :=
  (L.filter (fun p => decide (p.1 ≤ t0))).map (fun p => p.2) ++
    (L.filter (fun p => decide (t1 < p.1))).map (fun p => (p.2.1 - diff, p.2.2 - diff))

/-- One iteration of the main loop of `_MergeConsecutiveSegments` at `index`:
`Sum.inl` with the returned pair when the iteration returns (interrupt),
`Sum.inr` with the next value of `index` and the next state when the loop goes
on.  `none` stands for `Check2` on an empty candidate. -/
def mergeStep (K : Consts) (H : Host) (C : Collaborators) (P : Planner)
    (I : ParabolicInterpolator) (minTimeStep : dReal) (index : Nat) (s : ShortcutState) :
    Option ((Int × ShortcutState) ⊕ (Nat × ShortcutState)) :=
  let t0 := (s._zeroVelPointNeighbors.getD index (0, 0)).1
  let t1 := (s._zeroVelPointNeighbors.getD index (0, 0)).2
  (runAttempt K H C P I minTimeStep t0 t1 s).map fun r =>
    match r with
    | none => .inr (index + 1, s)
    | some (.interrupted a) => .inl (-1, s.afterAttempt a)
    | some (.finished false a) => .inr (index + 1, s.afterAttempt a)
    | some (.finished true a) =>
      if a.shortcutRampNDVectOut.length = 0 then .inr (index + 1, s.afterAttempt a)
      else .inr (index, mergeCommit C P t0 t1 a s)

/-- The value of `index` and the state after `k` iterations of the main loop of
`_MergeConsecutiveSegments` that go on; `none` when the loop has been left
before. -/
def mergeIterate (K : Consts) (H : Host) (C : Collaborators) (P : Planner)
    (I : ParabolicInterpolator) (minTimeStep : dReal) :
    Nat → Nat → ShortcutState → Option (Nat × ShortcutState)
  | 0, index, s => some (index, s)
  | k + 1, index, s =>
    if index < s._zeroVelPoints.length then
      match mergeStep K H C P I minTimeStep index s with
      | some (.inr p) => mergeIterate K H C P I minTimeStep k p.1 p.2
      | _ => none
    else none

/-- Collaborators on `stopPath` whose progress callback interrupts at every
invocation. -/
def interruptCollaborators : Collaborators :=
  { stopCollaborators with _CallCallbacks := fun _ => PlannerAction.PA_Interrupt }

/-- The part of `PlanPath` between the test of the number of waypoints and the
main planning loop: the three ways of reading the input trajectory `ptraj`
(by the interpolation of its position group) and the marking of a perfectly
modelled path as checked.  The result is the planner state with the path and,
in the linear branch, the registry that `_SetMileStones` built, together with
`_maxInitialRampTime`; `some none` is the exit `return PS_Failed`, `none`
stands for a densification that runs out of `densifyFuel`.  `m` holds the
members on entry, `cacheRampND` the member `_cacheRampND`; the contents that the
branches leave in the ramp caches are not tracked, every later use writes a
cache before it reads it. -/
def planPathInit (K : Consts) (H : Host) (P : Planner) (I : ParabolicInterpolator)
    (neigh : Option NeighHost) (densifyFuel : Nat) (interpolation : String)
    (cacheRampND : RampND) (_maxInitialRampTime : dReal) (m : ShortcutState)
    (ptraj : List TrajWaypoint) : Option (Option (ShortcutState × dReal)) :=
  let ingested : Option (Option (ShortcutState × dReal × Bool)) :=
    if P.params._hastimestamps && interpolation == "quadratic" then
      some (some ({ m with path := ingestQuadratic K ptraj }, _maxInitialRampTime, true))
    else if P.params._hastimestamps && interpolation == "cubic" then
      some ((ingestCubic K H P I cacheRampND m.cacheRampNDVect ptraj).map fun path =>
        ({ m with path := path }, _maxInitialRampTime, false))
    else
      let bPathIsPerfectlyModeled : Bool :=
        interpolation.length == 0 || interpolation == "linear"
      (_SetMileStones K H P I neigh densifyFuel _maxInitialRampTime
          (filterWaypoints K (ptraj.map fun w => w.position))).map fun r =>
        match r with
        | .error _ => none
        | .ok ms =>
          some ({ m with path := ms.path, _zeroVelPoints := ms._zeroVelPoints,
                         _zeroVelPointNeighbors := ms._zeroVelPointNeighbors },
            ms._maxInitialRampTime, bPathIsPerfectlyModeled)
  ingested.map fun r => r.map fun t =>
    if !P.params.verifyinitialpath && t.2.2 then
      ({ t.1 with path := t.1.path.map fun r => { r with constraintChecked := true } }, t.2.1)
    else (t.1, t.2.1)

/-- `ParabolicSmoother2::PlanPath` on the caller's trajectory `ptraj`: the
returned status and the content of the caller's trajectory on return.  The
trajectory is read by the initializer and written by `ptraj->Swap(_pdummytraj)`
only, which `planMain` reports in `swapped`; behind the swap come the sampling
of the verbose debug level (`sampleOk` tells whether `ptraj->Sample` returns
without an exception) and `_ProcessPostPlanners` (`post`: its status and what
it leaves in the trajectory).  `none` stands for undefined behaviour of the
source or a loop that runs out of fuel. -/
def PlanPath (K : Consts) (H : Host) (C : Collaborators) (P : Planner)
    (I : ParabolicInterpolator) (neigh : Option NeighHost) (densifyFuel mergeFuel : Nat)
    (interpolation : String) (verbose : Bool) (sampleOk : List TrajWaypoint → Bool)
    (post : List TrajWaypoint → PlannerStatus × List TrajWaypoint) (cacheRampND : RampND)
    (_maxInitialRampTime : dReal) (m : ShortcutState) (ptraj : List TrajWaypoint) :
    Option (PlannerStatus × List TrajWaypoint) :=
  if ptraj.length < 2 then some (PlannerStatus.PS_Failed, ptraj)
  else
    (planPathInit K H P I neigh densifyFuel interpolation cacheRampND _maxInitialRampTime m
      ptraj).bind fun start =>
      match start with
      | none => some (PlannerStatus.PS_Failed, ptraj)
      | some s =>
        (planMain K H C P I s.2 (P.params._hastimestamps && interpolation == "quadratic")
          mergeFuel PlannerStatus.PS_HasSolution s.1).map fun r =>
          match r.swapped with
          | none => (r.status, ptraj)
          | some t =>
            if verbose && !sampleOk t then (PlannerStatus.PS_Failed, t) else post t

/-- The value of `newDuration` in the stretching loop of the emission `k`
tries after the try number `iDilate`, at which it had the value
`newDuration`: a failed try number 0 or 1 adds `5 * g_fRampEpsilon`, a later
one adds `timeIncrement`. -/
def stretchedDuration (K : Consts) (timeIncrement : dReal) : Nat → Nat → dReal → dReal
  | 0, _, newDuration => newDuration
  | k + 1, iDilate, newDuration =>
    stretchedDuration K timeIncrement k (iDilate + 1)
      (if iDilate > 1 then newDuration + timeIncrement
       else newDuration + 5 * K.g_fRampEpsilon)

/-- What the emission decides for a not yet checked ramp before it calls
`Check2`: the flags `bCheck`, `bTrimmedFront` and `bTrimmedBack`, the ramp
`rampndTrimmed` handed to the check and the remainder `remRampND`. -/
structure EmissionTrim where
  bCheck : Bool
  bTrimmedFront : Bool
  bTrimmedBack : Bool
  rampndTrimmed : RampND
  remRampND : RampND

/-- The trimming of the first and of the last ramp of the path by
`fTrimEdgesTime` in the emission of `PlanPath`. -/
def emissionTrim (K : Consts) (C : Collaborators) (P : Planner) (irampnd size : Nat)
    (ramp : RampND) : EmissionTrim :=
  let fTrimEdgesTime := P.params._fStepLength * 2
  let tooShort : Bool := decide (ramp.duration ≤ fTrimEdgesTime + K.g_fEpsilonLinear)
  let isFirst : Bool := decide (irampnd = 0)
  let isLast : Bool := !isFirst && decide (irampnd + 1 = size)
  let bTrimmedFront : Bool := isFirst && !tooShort
  let bTrimmedBack : Bool := isLast && !tooShort
  { bCheck := !((isFirst || isLast) && tooShort)
    bTrimmedFront := bTrimmedFront
    bTrimmedBack := bTrimmedBack
    rampndTrimmed :=
      if bTrimmedFront then (C.Cut ramp fTrimEdgesTime).2
      else if bTrimmedBack then (C.Cut ramp (ramp.duration - fTrimEdgesTime)).1
      else ramp
    remRampND :=
      if bTrimmedFront then (C.Cut ramp fTrimEdgesTime).1
      else (C.Cut ramp (ramp.duration - fTrimEdgesTime)).2 }

/-- The test of the emission that finalizes a not yet checked ramp as it is:
its check is skipped, or `Check2` on the trimmed ramp returns code 0. -/
def emittedAsIs (K : Consts) (H : Host) (C : Collaborators) (P : Planner) (irampnd size : Nat)
    (ramp : RampND) : Bool :=
  let T := emissionTrim K C P irampnd size ramp
  !T.bCheck ||
    match plannerCheck2 K H { P with _bUsePerturbation := false } [T.rampndTrimmed] 0xffff [] with
    | some c => decide (c.1.retcode = 0)
    | none => false

/-- Rounding to the nearest number with a significand of 53 bits, ties to the
even significand: the rounding of the arithmetic operations on `double`
(IEEE 754 binary64) with an unbounded exponent range, that is without overflow
and without subnormal numbers.  `dReal` is `double` in the source, so the
value that an operation leaves in a variable is the rounded exact result. -/
def roundDouble (x : dReal) : dReal :=
  if x = 0 then 0
  else
    let e : Int := Int.log 2 |x| - 52
    let y : dReal := |x| / (2 : dReal) ^ e
    let m : Int := ⌊y⌋
    let n : Int :=
      if y - m < 1 / 2 then m
      else if y - m > 1 / 2 then m + 1
      else if m % 2 = 0 then m else m + 1
    (if x < 0 then -1 else 1) * (n : dReal) * (2 : dReal) ^ e

/-- Auxiliary relation of the rounding error analysis (it has no counterpart
in the source): the computed value `xh` is the exact value `x` times a factor
between `(1/r)^k` and `r^k`, the trace of at most `k` roundings. -/
def nearBy (r : dReal) (k : Nat) (xh x : dReal) : Prop :=
  ∃ ρ : dReal, (1 / r) ^ k ≤ ρ ∧ ρ ≤ r ^ k ∧ xh = ρ * x

/-- The three sums of the collinearity test as the source computes them in
`double`: every subtraction, product and addition is followed by the rounding
`fl` (one rounding per operation, no fused multiply-add). -/
def collinearSumsFl (fl : dReal → dReal) (x0 x1 q : List dReal) : dReal × dReal × dReal :=
  (List.range q.length).foldl
    (fun (acc : dReal × dReal × dReal) idof =>
      let dx0 := fl (x0.getD idof 0 - q.getD idof 0)
      let dx1 := fl (x1.getD idof 0 - q.getD idof 0)
      (fl (acc.1 + fl (dx0 * dx1)), fl (acc.2.1 + fl (dx0 * dx0)), fl (acc.2.2 + fl (dx1 * dx1))))
    (0, 0, 0)

/-- The collinearity test in `double`; `collinearThresh` holds the rounded
value of the literal `1e-14`. -/
def isCollinearFl (fl : dReal → dReal) (x0 x1 q : List dReal) : Bool :=
  let s := collinearSumsFl fl x0 x1 q
  decide (|fl (fl (s.1 * s.1) - fl (s.2.1 * s.2.2))| < fl collinearThresh)

/-- The sum `d` of the duplicate test in `double`. -/
def l1DistanceFl (fl : dReal → dReal) (q w : List dReal) : dReal :=
  (List.range q.length).foldl (fun d idof => fl (d + |fl (q.getD idof 0 - w.getD idof 0)|)) 0

/-- The duplicate test `d <= q.size() * epsilon` in `double`. -/
def isDuplicateFl (fl : dReal → dReal) (K : Consts) (q w : List dReal) : Bool :=
  decide (l1DistanceFl fl q w ≤ fl ((q.length : dReal) * K.epsilon))

/-- One iteration of the waypoint filter in `double`. -/
def filterStepFl (fl : dReal → dReal) (K : Consts) (vWaypoints : List (List dReal))
    (q : List dReal) : List (List dReal) :=
  if vWaypoints.length > 1 ∧
      isCollinearFl fl (vWaypoints.getD (vWaypoints.length - 2) [])
        (vWaypoints.getD (vWaypoints.length - 1) []) q = true then
    vWaypoints.dropLast ++ [q]
  else if vWaypoints.length > 0 ∧
      isDuplicateFl fl K q (vWaypoints.getD (vWaypoints.length - 1) []) = true then
    vWaypoints
  else vWaypoints ++ [q]

/-- The waypoint filter of the linear branch of `PlanPath` in `double`. -/
def filterWaypointsFl (fl : dReal → dReal) (K : Consts) (waypoints : List (List dReal)) :
    List (List dReal) :=
  waypoints.foldl (filterStepFl fl K) []

/-- The accumulation of `expectedElapsedTime` and `totalWeight` as the source
computes it in `double`: every arithmetic operation is followed by the
rounding `fl`. -/
def elapsedTimeSumsFl (fl : dReal → dReal) (K : Consts) (q0 q1 dq0 dq1 : List dReal) :
    dReal × dReal :=
  (List.range q0.length).foldl
    (fun (acc : dReal × dReal) idof =>
      let avgVel := fl ((1 / 2) * fl (dq0.getD idof 0 + dq1.getD idof 0))
      if |avgVel| > K.g_fEpsilon then
        let fWeight := |fl (q1.getD idof 0 - q0.getD idof 0)|
        (fl (acc.1 + fl (fl (fWeight * fl (q1.getD idof 0 - q0.getD idof 0)) / avgVel)),
          fl (acc.2 + fWeight))
      else acc)
    (0, 0)

/-- The consistency block of `Check2` in `double`: the elapsed time and the
final velocity handed to `SegmentFeasible2`. -/
def recomputeElapsedFl (fl : dReal → dReal) (K : Consts) (q0 q1 dq0 dq1 : List dReal)
    (elapsedTime : dReal) : dReal × List dReal :=
  let s := elapsedTimeSumsFl fl K q0 q1 dq0 dq1
  if s.2 > K.g_fEpsilon then
    let newElapsedTime := fl (s.1 / s.2)
    if |newElapsedTime| > K.g_fRampEpsilon then
      if newElapsedTime > K.g_fEpsilon then
        let iElapsedTime := fl (1 / newElapsedTime)
        (newElapsedTime, (List.range q0.length).map fun idof =>
          fl (fl (fl (2 * iElapsedTime) * fl (q1.getD idof 0 - q0.getD idof 0)) -
            dq0.getD idof 0))
      else (newElapsedTime, dq0)
    else (elapsedTime, dq1)
  else (elapsedTime, dq1)

/-! ## Properties -/

theorem swapAt_lt (v : List Nat) (i j b : Nat) (hb : 0 < b) (h : ∀ x ∈ v, x < b) :
    ∀ x ∈ swapAt v i j, x < b := by
  have hget : ∀ k, v.getD k 0 < b := by
    intro k
    rcases Nat.lt_or_ge k v.length with hk | hk
    · rw [List.getD_eq_getElem _ _ hk]
      exact h _ (List.getElem_mem hk)
    · rw [List.getD_eq_default _ _ hk]
      exact hb
  intro x hx
  unfold swapAt at hx
  rcases List.mem_or_eq_of_mem_set hx with hx | hx
  · rcases List.mem_or_eq_of_mem_set hx with hx | hx
    · exact h x hx
    · exact hx ▸ hget j
  · exact hx ▸ hget i

theorem prioritizeSegments_lt (v : List Nat) (b : Nat) (hb : 0 < b) (h : ∀ x ∈ v, x < b) :
    ∀ x ∈ prioritizeSegments v, x < b := by
  unfold prioritizeSegments
  simp only
  split_ifs <;> repeat (first | exact h | apply swapAt_lt _ _ _ _ hb)

theorem vsearchsegments_lt (N : Nat) : ∀ x ∈ vsearchsegments N, x < 256 := by
  apply prioritizeSegments_lt _ _ (by decide)
  intro x hx
  simp only [vsearchsegmentsInit, List.mem_map] at hx
  obtain ⟨j, -, rfl⟩ := hx
  exact Nat.mod_lt _ (by decide)

theorem swapAt_length (v : List Nat) (i j : Nat) : (swapAt v i j).length = v.length := by
  simp [swapAt]

theorem swapAt_perm (v : List Nat) (i j : Nat) (hi : i < v.length) (hj : j < v.length) :
    (swapAt v i j).Perm v := by
  rw [List.perm_iff_count]
  intro a
  unfold swapAt
  rw [List.count_set _ _ _ _ (by simpa using hj), List.count_set _ _ _ _ hi]
  simp only [List.getD_eq_getElem _ _ hi, List.getD_eq_getElem _ _ hj, beq_iff_eq]
  have hpos : ∀ k (hk : k < v.length), v[k] = a → 0 < List.count a v := by
    intro k hk h
    subst h
    exact List.count_pos_iff.mpr (List.getElem_mem hk)
  have hi1 := hpos i hi
  have hj1 := hpos j hj
  by_cases hij : i = j
  · subst hij
    simp only [List.getElem_set_self]
    split_ifs <;> simp_all
  · rw [List.getElem_set_ne (by omega)]
    split_ifs <;> simp_all

theorem prioritizeSegments_perm (v : List Nat) : (prioritizeSegments v).Perm v := by
  rcases Nat.eq_zero_or_pos v.length with h0 | hpos
  · have : v = [] := List.length_eq_zero.mp h0
    subst this
    decide
  · unfold prioritizeSegments
    simp only
    split_ifs <;>
      repeat (first
        | exact List.Perm.refl _
        | refine (swapAt_perm _ _ _ (by first | omega | (simp only [swapAt_length]; omega))
            (by first | omega | (simp only [swapAt_length]; omega))).trans ?_)

theorem vsearchsegments_perm (N : Nat) (hN : N ≤ 256) :
    (vsearchsegments N).Perm (List.range N) := by
  have hinit : vsearchsegmentsInit N = List.range N := by
    unfold vsearchsegmentsInit
    conv_rhs => rw [← List.map_id (List.range N)]
    apply List.map_congr_left
    intro j hj
    have := List.mem_range.mp hj
    exact Nat.mod_eq_of_lt (by omega)
  unfold vsearchsegments
  rw [hinit]
  exact prioritizeSegments_perm _

/-- C2 (evaluation at the failing input).  The entries of `vsearchsegments` are
8-bit values, so with 257 stitched segments the probe order built by `Check2`
is not a permutation of `0..256`: index 256 is never probed (index 0 is
probed in its place). -/
theorem C2_vsearchsegments_257_not_permutation : ¬ (vsearchsegments 257).Perm (List.range 257) := by
  intro h
  have hmem : 256 ∈ vsearchsegments 257 := h.symm.subset (List.mem_range.mpr (by decide))
  exact absurd (vsearchsegments_lt 257 256 hmem) (by decide)

/-- C3 (evaluation at the failing input).  With 8 stitched segments the
collision sweep of `Check2` probes the indices in the order 4, 2, 6, 3, 0, 5,
1, 7: index `N/2` comes first, index 0 is probed fifth, and the remaining
indices are not ascending. -/
theorem C3_vsearchsegments_8 : vsearchsegments 8 = [4, 2, 6, 3, 0, 5, 1, 7] := by decide

theorem collisionSweep_pass (feas : FeasibilityCheckerBase)
    (hcf : ∀ q dq o, (feas.ConfigFeasible2 q dq o).retcode = 0) (o : Nat) (out : List RampND) :
    ∀ (idxs : List Nat) (s : List dReal × List dReal),
      collisionSweep feas o out idxs s =
        .ok (match idxs.getLast? with
          | some j => ((out.getD j default).x1, (out.getD j default).v1)
          | none => s) := by
  intro idxs
  induction idxs with
  | nil => intro s; rfl
  | cons j rest ih =>
    intro s
    rw [collisionSweep]
    simp only [hcf, ne_eq, not_true_eq_false, if_false]
    rw [ih]
    cases rest with
    | nil => rfl
    | cons k rest2 =>
      rw [List.getLast?_cons_cons, List.getLast?_eq_getLast _ (List.cons_ne_nil k rest2)]

theorem Check2_of_pass (K : Consts) (feas : FeasibilityCheckerBase) (bHasParameters : Bool)
    (fCos : dReal) (rampndVect : List RampND) (options : Nat) (out0 : List RampND)
    (front back : RampND) (st : Check2State)
    (hfront : rampndVect.head? = some front) (hback : rampndVect.getLast? = some back)
    (hcf : ∀ q dq o, (feas.ConfigFeasible2 q dq o).retcode = 0)
    (hseg : checkSegments K feas (bHasParameters && decide (fCos > -1 + K.g_fEpsilonLinear))
      (clearBits (clearBits options K.CFO_CheckEnvCollisions) K.CFO_CheckSelfCollisions)
      rampndVect
      { q0 := front.x0, dq0 := front.v0, dq1 := back.v1, switchtime := 0,
        rampndVectOut := [] } = .ok st)
    (hcoll : options &&& K.CFO_CheckEnvCollisions = K.CFO_CheckEnvCollisions ∨
      options &&& K.CFO_CheckSelfCollisions = K.CFO_CheckSelfCollisions) :
    Check2 K feas bHasParameters fCos rampndVect options out0 =
      some (
        (match (vsearchsegments st.rampndVectOut.length).getLast? with
          | some j =>
            finalValuesLoop K back.x1 back.v1 (st.rampndVectOut.getD j default).x1
              (st.rampndVectOut.getD j default).v1
              (List.range (st.rampndVectOut.getD j default).x1.length) false
          | none =>
            finalValuesLoop K back.x1 back.v1 st.q0 st.dq0 (List.range st.q0.length) false),
        st.rampndVectOut) := by
  have hor : (decide (options &&& K.CFO_CheckEnvCollisions = K.CFO_CheckEnvCollisions) ||
      decide (options &&& K.CFO_CheckSelfCollisions = K.CFO_CheckSelfCollisions)) = true := by
    rcases hcoll with h | h <;> simp [h]
  unfold Check2
  simp only [hfront, hback, hcf, ne_eq, not_true_eq_false, if_false, hseg, hor, if_true,
    collisionSweep_pass feas hcf]
  cases (vsearchsegments st.rampndVectOut.length).getLast? <;> rfl

theorem checkSegments_twoRamps (K : Consts) (o : Nat) :
    checkSegments K passingChecker false o twoRamps
      { q0 := [0], dq0 := [1], dq1 := [1], switchtime := 0, rampndVectOut := [] } =
    .ok { q0 := [2], dq0 := [1], dq1 := [1], switchtime := 2, rampndVectOut := twoRamps } := by
  simp only [twoRamps, checkSegments, passingChecker, RampND.Initialize]
  norm_num

theorem Check2_twoRamps (K : Consts) (h0 : 0 ≤ K.g_fEpsilonLinear) (h1 : K.g_fRampEpsilon < 1)
    (options : Nat)
    (hcoll : options &&& K.CFO_CheckEnvCollisions = K.CFO_CheckEnvCollisions ∨
      options &&& K.CFO_CheckSelfCollisions = K.CFO_CheckSelfCollisions) :
    Check2 K passingChecker true (-1) twoRamps options [] =
      some ({ retcode := K.CFO_FinalValuesNotReached }, twoRamps) := by
  have hb : (true && decide ((-1 : dReal) > -1 + K.g_fEpsilonLinear)) = false := by
    simp only [Bool.true_and, decide_eq_false_iff_not, not_lt]
    linarith
  have hseg := checkSegments_twoRamps K
    (clearBits (clearBits options K.CFO_CheckEnvCollisions) K.CFO_CheckSelfCollisions)
  rw [Check2_of_pass K passingChecker true (-1) twoRamps options [] _ _ _ rfl rfl
    (fun _ _ _ => rfl) (by rw [hb]; exact hseg) hcoll]
  have hv : vsearchsegments 2 = [1, 0] := by decide
  have habs : |(2 : dReal) - 1| > K.g_fRampEpsilon := by
    rw [show |(2 : dReal) - 1| = 1 by norm_num]
    exact h1
  simp only [twoRamps, List.length_cons, List.length_nil, hv, List.getLast?, List.getLast,
    List.getD_cons_zero, RampND.Initialize, List.length_singleton, List.range_succ,
    List.range_zero, List.nil_append, finalValuesLoop, habs, if_true]

/-- C1 (evaluation at the failing input).  `Check2` is given the two-ramp
candidate `twoRamps` with collision checking requested; every external check
passes and the stitched output is the candidate itself (N = 2), whose last
segment ends exactly at the requested final position `[2]` and velocity `[1]`.
Nevertheless `Check2` returns final-values-not-reached: after the collision
sweep `q0` holds the end of the segment probed last, which is segment 0. -/
theorem C1_check2_two_segments_final_values :
    Check2 openraveConsts passingChecker true (-1) twoRamps 0xffff [] =
      some ({ retcode := openraveConsts.CFO_FinalValuesNotReached }, twoRamps) ∧
    openraveConsts.CFO_FinalValuesNotReached ≠ 0 ∧
    twoRamps.getLast?.map (fun r => (r.x1, r.v1)) = some ([2], [1]) :=
  ⟨Check2_twoRamps openraveConsts (by norm_num [openraveConsts]) (by norm_num [openraveConsts])
      0xffff (Or.inl (by decide)),
    by decide, rfl⟩

theorem cubicStep_parabolic (K : Consts) (H : Host) (P : Planner) (I : ParabolicInterpolator)
    (st : CubicState) (w : TrajWaypoint) (ht : w.deltatime > K.g_fEpsilonLinear)
    (hp : isParabolicPiece st.x0Vect w.position st.v0Vect w.velocity w.deltatime = true) :
    cubicStep K H P I st w =
      some { x0Vect := w.position, v0Vect := w.velocity,
             tempRampND :=
               { RampND.Initialize st.x0Vect w.position st.v0Vect w.velocity w.deltatime with
                 constraintChecked := !P.params.verifyinitialpath },
             tempRampNDVect := st.tempRampNDVect,
             path := st.path ++ st.tempRampNDVect } := by
  simp [cubicStep, ht, hp]

theorem isParabolicPiece_cubicInput : isParabolicPiece [0] [1] [1] [1] 1 = true := by
  norm_num [isParabolicPiece, List.range_succ]

theorem ingestCubic_cubicInput (K : Consts) (H : Host) (P : Planner) (I : ParabolicInterpolator)
    (c : RampND) (hK : K.g_fEpsilonLinear < 1) :
    ingestCubic K H P I c [] cubicInput = some [] := by
  have hstep := cubicStep_parabolic K H P I
    { x0Vect := [0], v0Vect := [1], tempRampND := c, tempRampNDVect := [], path := [] }
    { position := [1], velocity := [1], deltatime := 1 } hK isParabolicPiece_cubicInput
  simp only [ingestCubic, cubicInput, List.foldlM_cons, List.foldlM_nil, hstep]
  rfl

/-- C5 (evaluation at the failing input).  The cubic input `cubicInput` has
one interval, of delta time 1 > epsilon, whose cubic coefficient is 0, so the
piece is parabolic.  On a planner whose ramp cache is empty the cubic branch
appends no segment at all for it: the segment is built in `tempRampND`, but the
loop that follows appends the content of `tempRampNDVect`. -/
theorem C5_cubic_parabolic_piece_not_appended :
    isParabolicPiece [0] [1] [1] [1] 1 = true ∧
    (1 : dReal) > openraveConsts.g_fEpsilonLinear ∧
    ingestCubic openraveConsts plainHost plainPlanner idleInterpolator default [] cubicInput =
      some [] :=
  ⟨isParabolicPiece_cubicInput, by norm_num [openraveConsts],
    ingestCubic_cubicInput _ _ _ _ _ (by norm_num [openraveConsts])⟩

theorem ingestQuadratic_stillInput (K : Consts) (hK : 0 ≤ K.g_fEpsilonLinear) :
    ingestQuadratic K stillInput = [] := by
  have h : ¬ ((0 : dReal) > K.g_fEpsilonLinear) := not_lt.mpr hK
  simp [ingestQuadratic, stillInput, quadraticStep, h]


theorem l1Distance_self (q : List dReal) : l1Distance q q = 0 := by
  unfold l1Distance
  have h : ∀ (l : List Nat) (d : dReal),
      l.foldl (fun d idof => d + |q.getD idof 0 - q.getD idof 0|) d = d := by
    intro l
    induction l with
    | nil => intro d; rfl
    | cons i l ih => intro d; simp [List.foldl_cons, ih]
  exact h _ 0

theorem filterStep_ne_nil (K : Consts) (acc : List (List dReal)) (q : List dReal) :
    filterStep K acc q ≠ [] := by
  unfold filterStep
  split_ifs with h1 h2
  · simp
  · intro h
    rw [h] at h2
    simp at h2
  · simp

theorem l1Distance_single (a b : dReal) : l1Distance [a] [b] = |a - b| := by
  simp [l1Distance, List.range_succ]

theorem collinearSums_single (a b q : dReal) :
    collinearSums [a] [b] [q] = ((a - q) * (b - q), (a - q) * (a - q), (b - q) * (b - q)) := by
  simp [collinearSums, List.range_succ]

theorem collinearThresh_pos : 0 < collinearThresh := by
  norm_num [collinearThresh]

theorem isCollinear_single (a b q : dReal) : isCollinear [a] [b] [q] = true := by
  have h : (a - q) * (b - q) * ((a - q) * (b - q)) - (a - q) * (a - q) * ((b - q) * (b - q)) = 0 := by
    ring
  simp only [isCollinear, collinearSums_single, h, abs_zero, decide_eq_true_eq]
  exact collinearThresh_pos

theorem filterWaypoints_return (K : Consts) (h1 : K.epsilon < 1) :
    filterWaypoints K [[0], [1], [0]] = [[0], [0]] := by
  have hd : isDuplicate K [1] [0] = false := by
    simp only [isDuplicate, l1Distance_single, decide_eq_false_iff_not, not_le]
    norm_num
    exact h1
  have hc : isCollinear [0] [1] [0] = true := isCollinear_single 0 1 0
  simp [filterWaypoints, filterStep, hd, hc]

/-- C8 (evaluation at the failing input).  For the input waypoints `[0]`,
`[1]`, `[0]` the filter hands `[0]`, `[0]` to `_SetMileStones`: two
consecutive waypoints that are duplicates of each other.  The third waypoint
passes the collinearity test and overwrites the last kept one without the
duplicate test being made. -/
theorem C8_filter_returning_path_keeps_duplicate :
    filterWaypoints openraveConsts [[0], [1], [0]] = [[0], [0]] ∧
    isDuplicate openraveConsts [0] [0] = true := by
  refine ⟨filterWaypoints_return _ (by norm_num [openraveConsts]), ?_⟩
  simp only [isDuplicate, l1Distance_self, decide_eq_true_eq]
  norm_num [openraveConsts]

theorem planMain_empty_path (K : Consts) (H : Host) (C : Collaborators) (P : Planner)
    (I : ParabolicInterpolator) (m : dReal) (isQuadratic : Bool) (fuel : Nat)
    (post : PlannerStatus) (s : ShortcutState) (hpath : s.path = [])
    (hreg : s._zeroVelPoints = [])
    (h0 : C._CallCallbacks s.ncalls ≠ PlannerAction.PA_Interrupt)
    (h1 : C._CallCallbacks (s.ncalls + 1) ≠ PlannerAction.PA_Interrupt) :
    planMain K H C P I m isQuadratic fuel post s = none := by
  unfold planMain
  simp only [h0, if_false]
  by_cases hs : P.params.hasSetStateFn = true
  · simp [hs, _MergeConsecutiveSegments, hreg, _Shortcut, hpath]
  · simp [hs, h1, hpath]

/-- C10, refuted for the code: the quadratic branch skips every interval with
a delta time of at most `g_fEpsilonLinear` and has no failure exit, so the two
waypoint input `stillInput` (second delta time 0) leaves the path empty; the
main block then reaches `_Shortcut`, which reads `rampndVect.front()` of the
empty path (`none` in the model). -/
theorem C10_quadratic_ingestion_leaves_empty_path :
    stillInput.length = 2 ∧
    ingestQuadratic openraveConsts stillInput = [] ∧
    planMain openraveConsts plainHost quietCollaborators plainPlanner idleInterpolator 1 true 1
      PlannerStatus.PS_HasSolution stillState = none := by
  have hq := ingestQuadratic_stillInput openraveConsts (by norm_num [openraveConsts])
  exact ⟨rfl, hq, planMain_empty_path _ _ _ _ _ _ _ _ _ stillState hq rfl
    (by simp [quietCollaborators]) (by simp [quietCollaborators])⟩

theorem nextVelocities_one (K : Consts) (vm x p v iDeltaTime w : dReal)
    (hv : ¬ (|2 * iDeltaTime * (p - x) - v| > vm + K.g_fRampEpsilon)) :
    nextVelocities K [vm] [x] [p] [v] iDeltaTime (List.range 1) [w] =
      .ok [2 * iDeltaTime * (p - x) - v] := by
  simp only [List.range_succ, List.range_zero, List.nil_append, nextVelocities,
    List.getD_cons_zero, if_neg hv, List.set_cons_zero]

theorem clampAccelerations_one (am a : dReal) (seg : RampND) (hseg : seg.a = [a])
    (h1 : -am ≤ a) (h2 : a ≤ am) : clampAccelerations [am] 1 seg = (seg, false) := by
  have h1' : ¬ a < -am := not_lt.mpr h1
  have h2' : ¬ a > am := not_lt.mpr h2
  simp only [clampAccelerations, List.range_succ, List.range_zero, List.nil_append,
    List.foldl_cons, List.foldl_nil, hseg, List.getD_cons_zero, if_neg h1', if_neg h2']

theorem modifiedLoop_one (K : Consts) (H : Host) (P : Planner) (vm am : dReal)
    (hvm : P.params._vConfigVelocityLimit = [vm])
    (ham : P.params._vConfigAccelerationLimit = [am])
    (time : dReal) (times : List dReal) (p : dReal) (configs : List dReal)
    (x v w curTime : dReal) (out : List RampND)
    (hd : time - curTime > K.g_fRampEpsilon)
    (hv : ¬ (|2 * (1 / (time - curTime)) * (p - x) - v| > vm + K.g_fRampEpsilon))
    (ha1 : -am ≤ (2 * (1 / (time - curTime)) * (p - x) - v - v) / (time - curTime))
    (ha2 : (2 * (1 / (time - curTime)) * (p - x) - v - v) / (time - curTime) ≤ am) :
    modifiedLoop K H P 1 (time :: times) (p :: configs)
        { curPos := [x], curVel := [v], newVel := [w], curTime := curTime,
          rampndVectOut := out } =
      modifiedLoop K H P 1 times configs
        { curPos := [p], curVel := [2 * (1 / (time - curTime)) * (p - x) - v], newVel := [v],
          curTime := time,
          rampndVectOut := out ++
            [{ RampND.Initialize [x] [p] [v] [2 * (1 / (time - curTime)) * (p - x) - v]
                (time - curTime) with constraintChecked := true }] } := by
  have hc := clampAccelerations_one am _
    (RampND.Initialize [x] [p] [v] [2 * (1 / (time - curTime)) * (p - x) - v] (time - curTime))
    rfl ha1 ha2
  rw [modifiedLoop]
  simp only [if_pos hd, hvm, ham, List.take, nextVelocities_one K vm x p v _ w hv, hc,
    Bool.false_and, Bool.false_eq_true, if_false, List.drop]

theorem finishSegment_of_output (K : Consts) (H : Host) (P : Planner)
    (q0 q1 dq0 dq1 : List dReal) (t : dReal) (o : Nat) (out : List RampND)
    (hm : P._bmanipconstraints = false) (hout : out ≠ []) :
    finishSegment K H P q0 q1 dq0 dq1 t o out = ({ retcode := 0 }, out) := by
  have hlen : ¬ out.length = 0 := by
    intro h
    exact hout (List.length_eq_zero.mp h)
  simp only [finishSegment, if_neg hlen, hm, Bool.false_and, Bool.false_eq_true, if_false]

theorem SegmentFeasible2_modified (K : Consts) (H : Host) (P : Planner)
    (q0 q1 dq0 dq1 : List dReal) (t : dReal) (o : Nat) (configs times : List dReal)
    (st : ModifiedState)
    (ht : ¬ (t ≤ K.g_fEpsilon))
    (hexp : P.params.fCosManipAngleThresh > -1 + K.g_fEpsilonLinear)
    (hm : P._bmanipconstraints = false)
    (hchk : ∀ o', H.CheckPathAllConstraints q0 q1 dq0 dq1 t o' = some (0, configs, times))
    (htimes : times.length > 0)
    (hloop : modifiedLoop K H P q0.length times configs
      { curPos := q0, curVel := dq0, newVel := List.replicate q0.length 0, curTime := 0,
        rampndVectOut := [] } = .ok st)
    (hlast : lastConfigurationReached K st.curPos q1 q0.length = true)
    (hout : st.rampndVectOut ≠ []) :
    SegmentFeasible2 K H P q0 q1 dq0 dq1 t o = ({ retcode := 0 }, st.rampndVectOut) := by
  unfold SegmentFeasible2
  simp only [if_neg ht, hexp, decide_True, Bool.true_or, if_true, hm, Bool.false_and,
    Bool.false_eq_true, if_false, hchk, ne_eq, not_true_eq_false, htimes, Bool.true_and,
    Bool.and_self, hloop, hlast, finishSegment_of_output K H P q0 q1 dq0 dq1 t _ _ hm hout]

theorem recomputeElapsed_one (K : Consts) (q0 q1 dq0 dq1 elapsedTime : dReal)
    (havg : |1 / 2 * (dq0 + dq1)| > K.g_fEpsilon)
    (hw : 0 + |q1 - q0| > K.g_fEpsilon)
    (hn : |(0 + |q1 - q0| * (q1 - q0) / (1 / 2 * (dq0 + dq1))) / (0 + |q1 - q0|)| >
      K.g_fRampEpsilon)
    (hp : (0 + |q1 - q0| * (q1 - q0) / (1 / 2 * (dq0 + dq1))) / (0 + |q1 - q0|) > K.g_fEpsilon) :
    recomputeElapsed K [q0] [q1] [dq0] [dq1] elapsedTime =
      ((0 + |q1 - q0| * (q1 - q0) / (1 / 2 * (dq0 + dq1))) / (0 + |q1 - q0|),
        [2 * (1 / ((0 + |q1 - q0| * (q1 - q0) / (1 / 2 * (dq0 + dq1))) / (0 + |q1 - q0|))) *
          (q1 - q0) - dq0]) := by
  have hs : elapsedTimeSums K [q0] [q1] [dq0] [dq1] =
      (0 + |q1 - q0| * (q1 - q0) / (1 / 2 * (dq0 + dq1)), 0 + |q1 - q0|) := by
    simp only [elapsedTimeSums, List.length_singleton, List.range_succ, List.range_zero,
      List.nil_append, List.foldl_cons, List.foldl_nil, List.getD_cons_zero, if_pos havg]
  simp only [recomputeElapsed, hs, if_pos hw, if_pos hn, if_pos hp, List.length_singleton,
    List.range_succ, List.range_zero, List.nil_append, List.map_cons, List.map_nil,
    List.getD_cons_zero]

theorem bending_loop1 (K : Consts) (hR0 : 0 ≤ K.g_fRampEpsilon) (hR : K.g_fRampEpsilon < 1 / 2) :
    modifiedLoop K bendingHost bendingPlanner 1 [1 / 2, 1] [7 / 16, 1]
        { curPos := [0], curVel := [0], newVel := [0], curTime := 0, rampndVectOut := [] } =
      .ok { curPos := [1], curVel := [1 / 2], newVel := [7 / 4], curTime := 1,
            rampndVectOut := bentRamps.take 2 } := by
  rw [modifiedLoop_one K _ _ 4 8 rfl rfl (1 / 2) [1] (7 / 16) [1] 0 0 0 0 []
    (by norm_num; linarith)
    (by norm_num [abs_of_pos]; linarith)
    (by norm_num) (by norm_num)]
  rw [modifiedLoop_one K _ _ 4 8 rfl rfl 1 [] 1 [] (7 / 16) _ 0 (1 / 2) _
    (by norm_num; linarith)
    (by norm_num [abs_of_pos]; linarith)
    (by norm_num) (by norm_num)]
  rw [modifiedLoop]
  norm_num [bentRamps, RampND.Initialize]

theorem lastConfigurationReached_one (K : Consts) (hER : K.g_fEpsilon ≤ K.g_fRampEpsilon)
    (x : dReal) : lastConfigurationReached K [x] [x] 1 = true := by
  have h : ¬ (|x - x| + K.g_fEpsilon > K.g_fRampEpsilon) := by
    rw [sub_self, abs_zero, zero_add]
    exact not_lt.mpr hER
  simp only [lastConfigurationReached, List.range_succ, List.range_zero, List.nil_append,
    List.all_cons, List.all_nil, List.getD_cons_zero, h, decide_False, Bool.not_false,
    Bool.and_self]

theorem bending_first (K : Consts) (hE : K.g_fEpsilon < 1 / 4)
    (hER : K.g_fEpsilon ≤ K.g_fRampEpsilon) (hR0 : 0 ≤ K.g_fRampEpsilon)
    (hR : K.g_fRampEpsilon < 1 / 2) (hL : K.g_fEpsilonLinear < 1) (o : Nat) :
    SegmentFeasible2 K bendingHost bendingPlanner [0] [1] [0] [2] 1 o =
      ({ retcode := 0 }, bentRamps.take 2) :=
  SegmentFeasible2_modified K bendingHost bendingPlanner [0] [1] [0] [2] 1 o [7 / 16, 1]
    [1 / 2, 1] _ (by linarith) (by simp only [bendingPlanner, bendingParameters]; linarith) rfl
    (fun _ => by simp [bendingHost]) (by decide) (bending_loop1 K hR0 hR)
    (lastConfigurationReached_one K hER 1) (by simp [bentRamps])

theorem bending_loop2 (K : Consts) (hR0 : 0 ≤ K.g_fRampEpsilon) (hR : K.g_fRampEpsilon < 1 / 2) :
    modifiedLoop K bendingHost bendingPlanner 1 [4] [2]
        { curPos := [1], curVel := [1 / 2], newVel := [0], curTime := 0, rampndVectOut := [] } =
      .ok { curPos := [2], curVel := [0], newVel := [1 / 2], curTime := 4,
            rampndVectOut := bentRamps.drop 2 } := by
  rw [modifiedLoop_one K _ _ 4 8 rfl rfl 4 [] 2 [] 1 (1 / 2) 0 0 []
    (by norm_num; linarith)
    (by norm_num; linarith)
    (by norm_num) (by norm_num)]
  rw [modifiedLoop]
  norm_num [bentRamps, RampND.Initialize]

theorem bending_second (K : Consts) (hE : K.g_fEpsilon < 1 / 4)
    (hER : K.g_fEpsilon ≤ K.g_fRampEpsilon) (hR0 : 0 ≤ K.g_fRampEpsilon)
    (hR : K.g_fRampEpsilon < 1 / 2) (hL : K.g_fEpsilonLinear < 1) (o : Nat) :
    SegmentFeasible2 K bendingHost bendingPlanner [1] [2] [1 / 2] [0] 4 o =
      ({ retcode := 0 }, bentRamps.drop 2) :=
  SegmentFeasible2_modified K bendingHost bendingPlanner [1] [2] [1 / 2] [0] 4 o [2] [4] _
    (by linarith) (by simp only [bendingPlanner, bendingParameters]; linarith) rfl
    (fun _ => by norm_num [bendingHost]) (by decide) (bending_loop2 K hR0 hR)
    (lastConfigurationReached_one K hER 2) (by simp [bentRamps])

theorem bending_elapsed1 (K : Consts) (hE : K.g_fEpsilon < 1 / 4)
    (hR : K.g_fRampEpsilon < 1 / 2) :
    recomputeElapsed K [0] [1] [0] [2] (0 + 1 - 0) = (1, [2]) := by
  rw [recomputeElapsed_one K 0 1 0 2 _ (by norm_num; linarith) (by norm_num; linarith)
    (by norm_num; linarith) (by norm_num; linarith)]
  norm_num

theorem bending_elapsed2 (K : Consts) (hE : K.g_fEpsilon < 1 / 4)
    (hR : K.g_fRampEpsilon < 1 / 2) :
    recomputeElapsed K [1] [2] [1 / 2] [0] (0 + 1 + 1 - (0 + 1)) = (4, [0]) := by
  rw [recomputeElapsed_one K 1 2 (1 / 2) 0 _ (by norm_num [abs_of_pos]; linarith)
    (by norm_num; linarith) (by norm_num; linarith) (by norm_num; linarith)]
  norm_num

theorem bending_segments (K : Consts) (hE : K.g_fEpsilon < 1 / 4)
    (hER : K.g_fEpsilon ≤ K.g_fRampEpsilon) (hR0 : 0 ≤ K.g_fRampEpsilon)
    (hR : K.g_fRampEpsilon < 1 / 2) (hL : K.g_fEpsilonLinear < 1) (o : Nat) :
    checkSegments K (smootherChecker K bendingHost bendingPlanner) true o bangBang
        { q0 := [0], dq0 := [0], dq1 := [0], switchtime := 0, rampndVectOut := [] } =
      .ok { q0 := [2], dq0 := [0], dq1 := [0], switchtime := 0 + 1 + 1,
            rampndVectOut := bentRamps } := by
  simp only [bangBang, checkSegments, smootherChecker, RampND.Initialize, if_true]
  simp only [bending_elapsed1 K hE hR, bending_first K hE hER hR0 hR hL o]
  simp only [bentRamps, List.take, ne_eq, not_true_eq_false, if_false, List.nil_append,
    List.length_cons, List.length_nil, List.getLast?, List.getLast, RampND.Initialize]
  simp only [bending_elapsed2 K hE hR, bending_second K hE hER hR0 hR hL o]
  simp [bentRamps, RampND.Initialize]

theorem bending_config (K : Consts) (q dq : List dReal) (o : Nat) :
    ((smootherChecker K bendingHost bendingPlanner).ConfigFeasible2 q dq o).retcode = 0 := by
  simp only [smootherChecker, ConfigFeasible2, bendingHost]
  norm_num
  split_ifs <;> rfl

theorem bending_check2 (K : Consts) (hE : K.g_fEpsilon < 1 / 4)
    (hER : K.g_fEpsilon ≤ K.g_fRampEpsilon) (hR0 : 0 ≤ K.g_fRampEpsilon)
    (hR : K.g_fRampEpsilon < 1 / 2) (hL : K.g_fEpsilonLinear < 1)
    (hbit : 0xffff &&& K.CFO_CheckEnvCollisions = K.CFO_CheckEnvCollisions)
    (out0 : List RampND) :
    plannerCheck2 K bendingHost bendingPlanner bangBang 0xffff out0 =
      some ({ retcode := 0 }, bentRamps) := by
  have hexp : (true && decide (bendingPlanner.params.fCosManipAngleThresh >
      -1 + K.g_fEpsilonLinear)) = true := by
    simp only [bendingPlanner, bendingParameters, Bool.true_and, decide_eq_true_eq]
    linarith
  have hseg := bending_segments K hE hER hR0 hR hL
    (clearBits (clearBits 0xffff K.CFO_CheckEnvCollisions) K.CFO_CheckSelfCollisions)
  unfold plannerCheck2
  rw [Check2_of_pass K _ true _ bangBang 0xffff out0
    (RampND.Initialize [0] [1] [0] [2] 1) (RampND.Initialize [1] [2] [2] [0] 1) _
    (by simp [bangBang]) (by simp [bangBang]) (bending_config K)
    (by rw [hexp]; exact hseg) (Or.inl hbit)]
  have hv : vsearchsegments 3 = [1, 0, 2] := by decide
  have h0 : ¬ (|(2 : dReal) - 2| > K.g_fRampEpsilon) := by
    rw [sub_self, abs_zero]
    exact not_lt.mpr hR0
  have h1 : ¬ (|(0 : dReal) - 0| > K.g_fRampEpsilon) := by
    rw [sub_self, abs_zero]
    exact not_lt.mpr hR0
  simp only [bentRamps, List.length_cons, List.length_nil, hv, List.getLast?, List.getLast,
    List.getD_cons_zero, List.getD_cons_succ, RampND.Initialize, List.length_singleton,
    List.range_succ, List.range_zero, List.nil_append, finalValuesLoop, h0, h1, if_false,
    decide_False, Bool.or_self]

theorem totalDuration_bangBang : totalDuration bangBang = 2 := by
  norm_num [totalDuration, bangBang, RampND.Initialize]

theorem totalDuration_bentRamps : totalDuration bentRamps = 5 := by
  norm_num [totalDuration, bentRamps, RampND.Initialize]

theorem raiseVellimits_bentRamps : raiseVellimits [2] bentRamps = [2] := by
  norm_num [raiseVellimits, bentRamps, RampND.Initialize, List.range_succ, abs_of_pos]

theorem bending_checkBlock (K : Consts) (hE : K.g_fEpsilon < 1 / 4)
    (hER : K.g_fEpsilon ≤ K.g_fRampEpsilon) (hR0 : 0 ≤ K.g_fRampEpsilon)
    (hR : K.g_fRampEpsilon < 1 / 2) (hL : K.g_fEpsilonLinear < 1)
    (hbit : 0xffff &&& K.CFO_CheckEnvCollisions = K.CFO_CheckEnvCollisions)
    (t0 t1 m seg : dReal) (st : AttemptState) (hx1 : st.x1Vect = [2])
    (hcand : st.shortcutRampNDVect = bangBang) (hvl : st.vellimits = [2]) :
    checkBlock K bendingHost bendingPlanner bangBangInterpolator t0 t1 m seg st =
      some ({ retcode := 0 }, { st with shortcutRampNDVectOut := bentRamps }) := by
  unfold checkBlock
  simp only [bendingHost, hx1, hcand]
  have := bending_check2 K hE hER hR0 hR hL hbit st.shortcutRampNDVectOut
  simp only [bendingHost] at this
  simp only [this, Option.some_bind, ne_eq, not_true_eq_false, if_false, hvl,
    raiseVellimits_bentRamps]

theorem bending_attempt (K : Consts) (hE : K.g_fEpsilon < 1 / 4)
    (hER : K.g_fEpsilon ≤ K.g_fRampEpsilon) (hR0 : 0 ≤ K.g_fRampEpsilon)
    (hR : K.g_fRampEpsilon < 1 / 2) (hL : K.g_fEpsilonLinear < 1)
    (hbit : 0xffff &&& K.CFO_CheckEnvCollisions = K.CFO_CheckEnvCollisions) (fuel i : Nat) :
    slowDownLoop K bendingHost quietCollaborators bendingPlanner bangBangInterpolator 0 3
        (99 / 1000) [0] [2] [0] [0] (fuel + 1) i bendingAttempt =
      some (.finished true { bendingAttempt with
        shortcutRampNDVect := bangBang, shortcutRampNDVectOut := bentRamps, ncalls := 2 }) := by
  have hguard : ¬ (totalDuration bangBang + 99 / 1000 > (3 : dReal) - 0) := by
    rw [totalDuration_bangBang]
    norm_num
  have hI : ∀ a b c d e f g,
      bangBangInterpolator.ComputeArbitraryVelNDTrajectory a b c d e f g = some bangBang :=
    fun _ _ _ _ _ _ _ => rfl
  have hC : ∀ n, quietCollaborators._CallCallbacks n = PlannerAction.PA_None := fun _ => rfl
  rw [slowDownLoop]
  simp only [hI, if_neg hguard, hC, if_false]
  rw [bending_checkBlock K hE hER hR0 hR hL hbit _ _ _ _ _ rfl rfl rfl]
  simp [bendingAttempt]

theorem stop_initialLimits (v : dReal) (hv0 : 0 ≤ v) (hv1 : v ≤ 1) :
    initialLimits stopPlanner 1 1 [v] [v] = ([1], [1]) := by
  have h1 : ¬ ((1 : dReal) < max |v| |v|) := by
    rw [max_self, abs_of_nonneg hv0]
    exact not_lt.mpr hv1
  have h2 : max (max |v| |v|) ((1 : dReal) * 1) = 1 := by
    rw [max_self, abs_of_nonneg hv0, mul_one]
    exact max_eq_right hv1
  simp only [initialLimits, stopPlanner, stopParameters, Bool.false_and, Bool.false_eq_true,
    if_false, List.length_singleton, List.range_succ, List.range_zero, List.nil_append,
    List.foldl_cons, List.foldl_nil, List.getD_cons_zero, h1, h2]
  norm_num

theorem stop_merge_attempt (K : Consts) (s : ShortcutState)
    (hv : s.fStartTimeVelMult = 1) (ha : s.fStartTimeAccelMult = 1) (hn : s.ncalls = 1) :
    ∃ a, runAttempt K stopHost stopCollaborators stopPlanner stopInterpolator (99 / 100) 1 3 s =
      some (some (.interrupted a)) ∧ a.ncalls = 2 := by
  have hp1 : stopCollaborators.EvalPos s.path 1 = [1 / 2] := by simp [stopCollaborators]
  have hp3 : stopCollaborators.EvalPos s.path 3 = [3 / 2] := by
    simp only [stopCollaborators]
    norm_num
  have hv1 : stopCollaborators.EvalVel s.path 1 = [1] := by simp [stopCollaborators]
  have hv3 : stopCollaborators.EvalVel s.path 3 = [1] := by simp [stopCollaborators]
  have hset : ∀ x, stopHost.setgetState x = some x := fun _ => rfl
  have hI : ∀ a b d e f g,
      stopInterpolator.ComputeArbitraryVelNDTrajectory a b [1] d e f g = some stopBridge := by
    intro a b d e f g
    simp [stopInterpolator]
  have hdur : totalDuration stopBridge = 1 := by
    norm_num [totalDuration, stopBridge, RampND.Initialize]
  have hguard : ¬ ((1 : dReal) + 99 / 100 > 3 - 1) := by norm_num
  have hcb : stopCollaborators._CallCallbacks 1 = PlannerAction.PA_Interrupt := by
    simp [stopCollaborators]
  unfold runAttempt
  simp only [hp1, hp3, hv1, hv3, hset, hv, ha, stop_initialLimits 1 (by norm_num) le_rfl, hn]
  rw [show (100 : Nat) = 99 + 1 from rfl, slowDownLoop]
  simp only [hI, hdur, if_neg hguard, hcb, if_true, Option.map_some']
  exact ⟨_, rfl, rfl⟩

theorem stop_mergeLoop (K : Consts) (fuel : Nat) (s : ShortcutState)
    (hz : s._zeroVelPoints = [2]) (hnb : s._zeroVelPointNeighbors = [(1, 3)])
    (hv : s.fStartTimeVelMult = 1) (ha : s.fStartTimeAccelMult = 1) (hn : s.ncalls = 1) :
    ∃ a, mergeLoop K stopHost stopCollaborators stopPlanner stopInterpolator (99 / 100)
        (fuel + 1) 0 s = some (-1, s.afterAttempt a) ∧ a.ncalls = 2 := by
  obtain ⟨a, hrun, hac⟩ := stop_merge_attempt K s hv ha hn
  refine ⟨a, ?_, hac⟩
  rw [mergeLoop, if_pos (by simp [hz]), hnb]
  simp only [List.getD_cons_zero, hrun, Option.some_bind]

theorem stop_merge (K : Consts) (fuel : Nat) (s : ShortcutState) (hpath : s.path = stopPath)
    (hz : s._zeroVelPoints = [2]) (hnb : s._zeroVelPointNeighbors = [(1, 3)])
    (hn : s.ncalls = 1) :
    ∃ s2, _MergeConsecutiveSegments K stopHost stopCollaborators stopPlanner stopInterpolator
        (99 / 100) (fuel + 1) s = some (-1, s2) ∧ s2.path = stopPath ∧ s2.ncalls = 2 := by
  obtain ⟨a, hrun, hac⟩ := stop_mergeLoop K fuel
    { s with fStartTimeVelMult := 1, fStartTimeAccelMult := 1, numSuccessful := 0,
             numSlowDowns := 0, nTimeBasedConstraintsFailed := 0 } hz hnb rfl rfl hn
  unfold _MergeConsecutiveSegments
  rw [if_neg (by simp [hz])]
  exact ⟨_, hrun, hpath, hac⟩

theorem stop_check2 (K : Consts) (hTB : K.CFO_CheckTimeBasedConstraints ≠ 1)
    (out0 : List RampND) :
    plannerCheck2 K stopHost stopPlanner stopWhole 0xffff out0 = some ({ retcode := 1 }, out0) := by
  have hcfg : ConfigFeasible2 K stopHost stopPlanner [0] [0] 0xffff = { retcode := 1 } := by
    simp only [ConfigFeasible2, stopHost, if_true]
    rw [if_neg (fun h => hTB h.symm)]
  unfold plannerCheck2 Check2
  simp only [stopWhole, RampND.Initialize, List.head?_cons, smootherChecker, hcfg]
  simp [hcfg]

theorem stop_shortcut_attempt (K : Consts) (hTB : K.CFO_CheckTimeBasedConstraints ≠ 1)
    (s : ShortcutState)
    (hv : s.fStartTimeVelMult = 1) (ha : s.fStartTimeAccelMult = 1) (hn : s.ncalls = 2) :
    ∃ a, runAttempt K stopHost stopCollaborators stopPlanner stopInterpolator (99 / 100) 0 4 s =
      some (some (.finished false a)) ∧ a.ncalls = 3 := by
  have hp0 : stopCollaborators.EvalPos s.path 0 = [0] := by simp [stopCollaborators]
  have hp4 : stopCollaborators.EvalPos s.path 4 = [2] := by
    simp only [stopCollaborators]
    norm_num
  have hv0 : stopCollaborators.EvalVel s.path 0 = [0] := by simp [stopCollaborators]
  have hv4 : stopCollaborators.EvalVel s.path 4 = [0] := by
    simp only [stopCollaborators]
    norm_num
  have hset : ∀ x, stopHost.setgetState x = some x := fun _ => rfl
  have hI : ∀ a b d e f g,
      stopInterpolator.ComputeArbitraryVelNDTrajectory a b [0] d e f g = some stopWhole := by
    intro a b d e f g
    simp [stopInterpolator]
  have hdur : totalDuration stopWhole = 3 := by
    norm_num [totalDuration, stopWhole, RampND.Initialize]
  have hguard : ¬ ((3 : dReal) + 99 / 100 > 4 - 0) := by norm_num
  have hcb : stopCollaborators._CallCallbacks 2 ≠ PlannerAction.PA_Interrupt := by
    simp [stopCollaborators]
  have h10 : (1 : Nat) ≠ 0 := by decide
  unfold runAttempt
  simp only [hp0, hp4, hv0, hv4, hset, hv, ha, stop_initialLimits 0 le_rfl (by norm_num), hn]
  rw [show (100 : Nat) = 99 + 1 from rfl, slowDownLoop]
  simp only [hI, hdur, if_neg hguard, if_neg hcb, checkBlock, hset, stop_check2 K hTB,
    Option.some_bind, ne_eq, h10, not_false_eq_true, if_true, if_false, Option.map_some',
    if_neg (Ne.symm hTB)]
  exact ⟨_, rfl, rfl⟩

theorem truncInt_stop_end : truncInt ((4 : dReal) * (1 / (99 / 100))) = 4 := by
  have h : (0 : dReal) ≤ 4 * (1 / (99 / 100)) := by norm_num
  rw [truncInt, if_pos h, Int.floor_eq_iff]
  constructor <;> norm_num

theorem truncInt_stop_start : truncInt ((0 : dReal) * (1 / (99 / 100))) = 0 := by
  simp [truncInt]

theorem toSizeT_25 : toSizeT ((4 + 1) * (4 + 1)) = 25 := by decide

theorem toSizeT_4 : toSizeT (0 * (4 + 1) + 4) = 4 := by decide

theorem stop_visitPair :
    visitPair stopPlanner (99 / 100) 0 4 (4 + 1) (List.replicate 25 0) =
      some (some ((List.replicate 25 0).set 4 1)) := by
  unfold visitPair
  simp only [truncInt_stop_end, truncInt_stop_start, toSizeT_4]
  simp [stopPlanner, markVisited]

theorem stop_iteration (K : Consts) (hTB : K.CFO_CheckTimeBasedConstraints ≠ 1) (m : dReal)
    (st : ShortcutLoopState) (ht : st.tTotal = 4) (hi : st.nItersFromPrevSuccessful = 0)
    (hf : st.s.nTimeBasedConstraintsFailed = 0) (hvis : st.vVisitedDiscretization = [])
    (hv : st.s.fStartTimeVelMult = 1) (ha : st.s.fStartTimeAccelMult = 1)
    (hn : st.s.ncalls = 2) :
    ∃ st2, shortcutIteration K stopHost stopCollaborators stopPlanner stopInterpolator m
        (99 / 100) 1 0 st = some (.next st2) ∧ st2.s.path = st.s.path ∧ st2.s.ncalls = 3 ∧
        st2.s.numSuccessful = st.s.numSuccessful := by
  obtain ⟨a, hrun, hac⟩ := stop_shortcut_attempt K hTB st.s hv ha hn
  have h1 : ¬ ((4 : dReal) < 99 / 100) := by norm_num
  have h2 : ¬ ((4 : dReal) - 0 < 99 / 100) := by norm_num
  have h3 : ¬ (0 + 0 > min 100 (1 / 2)) := by decide
  have h4 : ((4 : Int) + 1 ≤ 0x8000) := by decide
  unfold shortcutIteration
  simp only [ht, hi, hf, hvis, if_neg h1, if_neg h3, List.length_nil, if_true, truncInt_stop_end,
    if_pos h4, toSizeT_25, sampleWindow, if_neg h2, stop_visitPair, Option.some_bind, hrun,
    Option.map_some']
  exact ⟨_, rfl, rfl, hac, rfl⟩

theorem totalDuration_stopPath : totalDuration stopPath = 4 := by
  norm_num [totalDuration, stopPath, RampND.Initialize]

theorem stop_shortcut (K : Consts) (hTB : K.CFO_CheckTimeBasedConstraints ≠ 1) (m : dReal)
    (s : ShortcutState) (hpath : s.path = stopPath) (hn : s.ncalls = 2) :
    ∃ s3, _Shortcut K stopHost stopCollaborators stopPlanner stopInterpolator m 1 (99 / 100) s =
      some (0, s3) ∧ s3.path = stopPath ∧ s3.ncalls = 3 := by
  obtain ⟨st2, hit, hp2, hn2, hs2⟩ := stop_iteration K hTB m
    { s := { s with fStartTimeVelMult := 1, fStartTimeAccelMult := 1, numSuccessful := 0,
                    numSlowDowns := 0, nTimeBasedConstraintsFailed := 0 },
      tTotal := totalDuration s.path, nItersFromPrevSuccessful := 0, score := 1,
      currentBestScore := 1, iCurrentBestScore := 1, vVisitedDiscretization := [],
      nEndTimeDiscretization := 0 }
    (by rw [hpath]; exact totalDuration_stopPath) rfl rfl rfl rfl rfl hn
  have hne : ∃ r rest, s.path = r :: rest := ⟨_, _, hpath⟩
  obtain ⟨r, rest, hcons⟩ := hne
  unfold _Shortcut
  rw [hcons]
  simp only
  rw [← hcons, shortcutLoop, Nat.sub_self, hit]
  simp only [Option.some_bind, shortcutLoop, Option.map_some']
  refine ⟨st2.s, ?_, hp2.trans hpath, hn2⟩
  rw [hs2]
  rfl

theorem stop_emit (K : Consts) (n : Nat) :
    emitRamps K stopHost stopCollaborators stopPlanner stopInterpolator false 0 4 stopPath 0 n
        [{ position := [0], velocity := [0], deltatime := 0 }] 0 =
      some (.ok ([{ position := [0], velocity := [0], deltatime := 0 },
                  { position := [1 / 2], velocity := [1], deltatime := 1 },
                  { position := [1], velocity := [0], deltatime := 1 },
                  { position := [3 / 2], velocity := [1], deltatime := 1 },
                  { position := [2], velocity := [0], deltatime := 1 }], 4)) := by
  simp [emitRamps, stopPath, RampND.Initialize, stopHost]
  norm_num

theorem stop_planMain (K : Consts) (hTB : K.CFO_CheckTimeBasedConstraints ≠ 1) (m : dReal)
    (fuel : Nat) (post : PlannerStatus) :
    planMain K stopHost stopCollaborators stopPlanner stopInterpolator m false (fuel + 1) post
      stopState = some { status := post, swapped := some stopTrajectory } := by
  obtain ⟨s2, hmerge, hp2, hn2⟩ := stop_merge K fuel
    { stopState with ncalls := stopState.ncalls + 1 } rfl rfl rfl rfl
  obtain ⟨s3, hshort, hp3, hn3⟩ := stop_shortcut K hTB m s2 hp2 hn2
  have hP : ({ stopPlanner with _bUsePerturbation := true } : Planner) = stopPlanner := rfl
  have hstep : stopPlanner.params._fStepLength * (99 / 100) = 99 / 100 := by
    norm_num [stopPlanner, stopParameters]
  have hset : stopPlanner.params.hasSetStateFn = true := rfl
  have hiter : stopPlanner.params._nMaxIterations.toNat = 1 := rfl
  have hc0 : stopCollaborators._CallCallbacks stopState.ncalls ≠ PlannerAction.PA_Interrupt := by
    simp [stopCollaborators, stopState]
  have hc3 : stopCollaborators._CallCallbacks 3 ≠ PlannerAction.PA_Interrupt := by
    simp [stopCollaborators]
  have hdur : |(4 : dReal) - trajectoryDuration stopTrajectory| ≤ 1 / 100 := by
    norm_num [trajectoryDuration, stopTrajectory]
  have hemit := stop_emit K (3 + 1)
  unfold planMain
  simp only [hP, hstep, hset, hiter, if_neg hc0, if_true, hmerge, Option.some_bind, hshort,
    hn3, if_neg hc3, hp3]
  simp only [stopPath, RampND.Initialize, List.length_cons, List.length_nil] at hemit ⊢
  simp only [Int.lt_irrefl, if_false]
  erw [hemit]
  simp only [Option.map_some']
  exact congrArg some (if_pos hdur)

/-- C6, refuted for the code: the slowdown loop tests the duration of the
interpolated candidate only.  On the window `[0, 3]` the candidate `bangBang`
of duration 2 passes the test `segmentTime + minTimeStep > t1 - t0`, `Check2`
stitches the non-empty list `bentRamps` for it and returns 0, and the loop ends
with `bSuccess` and that list in `shortcutRampNDVectOut`, which the commit
splices in: its total duration 5 exceeds the length 3 of the window. -/
theorem C6_committed_list_longer_than_window :
    slowDownLoop openraveConsts bendingHost quietCollaborators bendingPlanner
        bangBangInterpolator 0 3 (99 / 1000) [0] [2] [0] [0] 99 1 bendingAttempt =
      some (.finished true { bendingAttempt with
        shortcutRampNDVect := bangBang, shortcutRampNDVectOut := bentRamps, ncalls := 2 }) ∧
    totalDuration bangBang + 99 / 1000 ≤ 3 - 0 ∧
    bentRamps.length ≠ 0 ∧
    (3 : dReal) - 0 < totalDuration bentRamps := by
  refine ⟨bending_attempt openraveConsts (by norm_num [openraveConsts])
    (by norm_num [openraveConsts]) (by norm_num [openraveConsts]) (by norm_num [openraveConsts])
    (by norm_num [openraveConsts]) (by decide) 98 1, ?_, by decide, ?_⟩
  · rw [totalDuration_bangBang]
    norm_num
  · rw [totalDuration_bentRamps]
    norm_num

/-- C4, refuted for the code: on `stopPath` the progress callback returns
`PA_Interrupt` at its second invocation, which is the one made inside the
slowdown loop of `_MergeConsecutiveSegments`.  The merger returns -1, but
`PlanPath` does not test that value: it goes on to `_Shortcut` and to the
emission and returns the status of the post planners (here `PS_HasSolution`)
with the trajectory swapped in, not `PS_Interrupted`. -/
theorem C4_merger_interrupt_not_forwarded :
    stopCollaborators._CallCallbacks 1 = PlannerAction.PA_Interrupt ∧
    (∃ s2, _MergeConsecutiveSegments openraveConsts stopHost stopCollaborators stopPlanner
        stopInterpolator (99 / 100) 1 { stopState with ncalls := 1 } = some (-1, s2)) ∧
    planMain openraveConsts stopHost stopCollaborators stopPlanner stopInterpolator 2 false 1
        PlannerStatus.PS_HasSolution stopState =
      some { status := PlannerStatus.PS_HasSolution, swapped := some stopTrajectory } := by
  refine ⟨by simp [stopCollaborators], ?_, ?_⟩
  · obtain ⟨s2, h, _⟩ := stop_merge openraveConsts 0 { stopState with ncalls := 1 }
      rfl rfl rfl rfl
    exact ⟨s2, h⟩
  · exact stop_planMain openraveConsts (by decide) 2 0 PlannerStatus.PS_HasSolution

theorem registryAfterCommit_append_le (t0 t1 diff : dReal) (h01 : t0 ≤ t1) (l : List dReal)
    (z : dReal) (hz : z ≤ t0) (hl : ∀ x ∈ l, x ≤ z) :
    registryAfterCommit t0 t1 diff l = l ∧
    registryAfterCommit t0 t1 diff (l ++ [z]) = l ++ [z] := by
  have h1 : l.filter (fun z => decide (z ≤ t0)) = l :=
    List.filter_eq_self.mpr (fun x hx => by simpa using (hl x hx).trans hz)
  have h2 : l.filter (fun z => decide (t1 < z)) = [] :=
    List.filter_eq_nil_iff.mpr (fun x hx => by
      simp only [decide_eq_true_eq, not_lt]
      exact ((hl x hx).trans hz).trans h01)
  have h3 : ¬ t1 < z := not_lt.mpr (hz.trans h01)
  constructor
  · simp [registryAfterCommit, h1, h2]
  · simp [registryAfterCommit, List.filter_append, h1, h2, hz, h3]

theorem registryAfterCommit_append_mid (t0 t1 diff : dReal) (l : List dReal)
    (z : dReal) (h0 : ¬ z ≤ t0) (h1 : z ≤ t1) :
    registryAfterCommit t0 t1 diff (l ++ [z]) = registryAfterCommit t0 t1 diff l := by
  have h3 : ¬ t1 < z := not_lt.mpr h1
  simp [registryAfterCommit, List.filter_append, h0, h3]

theorem registryAfterCommit_append_gt (t0 t1 diff : dReal) (l : List dReal)
    (z : dReal) (h0 : ¬ z ≤ t0) (h1 : ¬ z ≤ t1) :
    registryAfterCommit t0 t1 diff (l ++ [z]) = registryAfterCommit t0 t1 diff l ++ [z - diff] := by
  have h3 : t1 < z := not_le.mp h1
  simp [registryAfterCommit, List.filter_append, h0, h3]

theorem take_set_self (l : List dReal) (n : Nat) (a : dReal) :
    (l.set n a).take n = l.take n := by
  rw [List.set_take]
  exact List.set_eq_of_length_le (by simp)

theorem shortcutRegistry_fold (t0 t1 diff : dReal) (h01 : t0 ≤ t1) (Z : List dReal)
    (hs : Z.Pairwise (fun a b => a ≤ b)) :
    ∀ k, k ≤ Z.length →
      ((List.range k).foldl
        (fun (s : List dReal × Nat) readIndex =>
          if s.1.getD readIndex 0 ≤ t0 then (s.1, s.2 + 1)
          else if s.1.getD readIndex 0 ≤ t1 then s
          else (s.1.set s.2 (s.1.getD readIndex 0 - diff), s.2 + 1))
        (Z, 0)).1.length = Z.length ∧
      ((List.range k).foldl
        (fun (s : List dReal × Nat) readIndex =>
          if s.1.getD readIndex 0 ≤ t0 then (s.1, s.2 + 1)
          else if s.1.getD readIndex 0 ≤ t1 then s
          else (s.1.set s.2 (s.1.getD readIndex 0 - diff), s.2 + 1))
        (Z, 0)).2 ≤ k ∧
      ((List.range k).foldl
        (fun (s : List dReal × Nat) readIndex =>
          if s.1.getD readIndex 0 ≤ t0 then (s.1, s.2 + 1)
          else if s.1.getD readIndex 0 ≤ t1 then s
          else (s.1.set s.2 (s.1.getD readIndex 0 - diff), s.2 + 1))
        (Z, 0)).1.take
          ((List.range k).foldl
            (fun (s : List dReal × Nat) readIndex =>
              if s.1.getD readIndex 0 ≤ t0 then (s.1, s.2 + 1)
              else if s.1.getD readIndex 0 ≤ t1 then s
              else (s.1.set s.2 (s.1.getD readIndex 0 - diff), s.2 + 1))
            (Z, 0)).2 = registryAfterCommit t0 t1 diff (Z.take k) ∧
      ((List.range k).foldl
        (fun (s : List dReal × Nat) readIndex =>
          if s.1.getD readIndex 0 ≤ t0 then (s.1, s.2 + 1)
          else if s.1.getD readIndex 0 ≤ t1 then s
          else (s.1.set s.2 (s.1.getD readIndex 0 - diff), s.2 + 1))
        (Z, 0)).1.drop k = Z.drop k := by
  intro k
  induction k with
  | zero =>
    intro _
    simp [registryAfterCommit]
  | succ k ih =>
    intro hk
    have hk' : k < Z.length := hk
    obtain ⟨hlen, hw, htake, hdrop⟩ := ih (Nat.le_of_lt hk')
    rw [List.range_succ, List.foldl_append]
    simp only [List.foldl_cons, List.foldl_nil]
    generalize (List.range k).foldl
        (fun (s : List dReal × Nat) readIndex =>
          if s.1.getD readIndex 0 ≤ t0 then (s.1, s.2 + 1)
          else if s.1.getD readIndex 0 ≤ t1 then s
          else (s.1.set s.2 (s.1.getD readIndex 0 - diff), s.2 + 1))
        (Z, 0) = s at hlen hw htake hdrop ⊢
    obtain ⟨X, w⟩ := s
    simp only at hlen hw htake hdrop ⊢
    have hkX : k < X.length := by omega
    have hget : X.getD k 0 = Z.getD k 0 := by
      have h1 : (X.drop k).head? = (Z.drop k).head? := by rw [hdrop]
      simpa [List.head?_drop, List.getD_eq_getElem?_getD, hkX, hk'] using h1
    have hZtake : Z.take (k + 1) = Z.take k ++ [Z.getD k 0] := by
      rw [List.take_succ]
      simp [List.getD_eq_getElem?_getD, hk']
    have hXdrop : X.drop k = X.getD k 0 :: X.drop (k + 1) := by
      rw [List.drop_eq_getElem_cons hkX]
      simp [List.getD_eq_getElem?_getD, hkX]
    have hZdrop : Z.drop k = Z.getD k 0 :: Z.drop (k + 1) := by
      rw [List.drop_eq_getElem_cons hk']
      simp [List.getD_eq_getElem?_getD, hk']
    have hdrop1 : X.drop (k + 1) = Z.drop (k + 1) := by
      rw [hXdrop, hZdrop] at hdrop
      exact (List.cons.inj hdrop).2
    have hXtake : X.take (k + 1) = X.take k ++ [X.getD k 0] := by
      rw [List.take_succ]
      simp [List.getD_eq_getElem?_getD, hkX]
    have hwlen : w = (registryAfterCommit t0 t1 diff (Z.take k)).length := by
      rw [← htake, List.length_take]
      omega
    rw [hget]
    by_cases hz0 : Z.getD k 0 ≤ t0
    · rw [if_pos hz0]
      have hall : ∀ x ∈ Z.take k, x ≤ Z.getD k 0 := by
        intro x hx
        have hsplit : Z = Z.take k ++ Z.drop k := (List.take_append_drop k Z).symm
        rw [hsplit, hZdrop] at hs
        exact (List.pairwise_append.mp hs).2.2 x hx _ (List.mem_cons_self _ _)
      obtain ⟨e1, e2⟩ := registryAfterCommit_append_le t0 t1 diff h01 (Z.take k) _ hz0 hall
      have hwk : w = k := by
        rw [hwlen, e1, List.length_take]
        omega
      subst hwk
      refine ⟨hlen, le_refl _, ?_, hdrop1⟩
      rw [hZtake, e2, hXtake, hget, htake, e1]
    · rw [if_neg hz0]
      by_cases hz1 : Z.getD k 0 ≤ t1
      · rw [if_pos hz1]
        refine ⟨hlen, Nat.le_succ_of_le hw, ?_, hdrop1⟩
        rw [hZtake, registryAfterCommit_append_mid t0 t1 diff _ _ hz0 hz1]
        exact htake
      · rw [if_neg hz1]
        have hwX : w < X.length := by omega
        refine ⟨?_, ?_, ?_, ?_⟩
        · simp only [List.length_set]
          exact hlen
        · simp only
          omega
        · simp only
          rw [hZtake, registryAfterCommit_append_gt t0 t1 diff _ _ hz0 hz1, ← htake]
          rw [List.take_succ, take_set_self]
          simp [hwX]
        · simp only
          rw [List.drop_set_of_lt _ _ (by omega : w < k + 1)]
          exact hdrop1

theorem shortcutRegistryUpdate_eq (t0 t1 diff : dReal) (h01 : t0 ≤ t1) (Z : List dReal)
    (hs : Z.Pairwise (fun a b => a ≤ b)) :
    shortcutRegistryUpdate t0 t1 diff Z = registryAfterCommit t0 t1 diff Z := by
  have h := (shortcutRegistry_fold t0 t1 diff h01 Z hs Z.length (le_refl _)).2.2.1
  rw [List.take_length] at h
  exact h

theorem mergeRegistry_fold (t0 t1 diff : dReal) (l : List Nat) :
    ∀ (X : List dReal) (Y : List (dReal × dReal)) (w : Nat),
      ((l.foldl
        (fun (s : List dReal × List (dReal × dReal) × Nat) readIndex =>
          if s.1.getD readIndex 0 ≤ t0 then (s.1, s.2.1, s.2.2 + 1)
          else if s.1.getD readIndex 0 ≤ t1 then s
          else
            let n := s.2.1.getD readIndex (0, 0)
            (s.1.set s.2.2 (s.1.getD readIndex 0 - diff),
              s.2.1.set s.2.2 (n.1 - diff, n.2 - diff), s.2.2 + 1))
        (X, Y, w)).1,
       (l.foldl
        (fun (s : List dReal × List (dReal × dReal) × Nat) readIndex =>
          if s.1.getD readIndex 0 ≤ t0 then (s.1, s.2.1, s.2.2 + 1)
          else if s.1.getD readIndex 0 ≤ t1 then s
          else
            let n := s.2.1.getD readIndex (0, 0)
            (s.1.set s.2.2 (s.1.getD readIndex 0 - diff),
              s.2.1.set s.2.2 (n.1 - diff, n.2 - diff), s.2.2 + 1))
        (X, Y, w)).2.2) =
      l.foldl
        (fun (s : List dReal × Nat) readIndex =>
          if s.1.getD readIndex 0 ≤ t0 then (s.1, s.2 + 1)
          else if s.1.getD readIndex 0 ≤ t1 then s
          else (s.1.set s.2 (s.1.getD readIndex 0 - diff), s.2 + 1))
        (X, w) := by
  induction l with
  | nil => intro X Y w; rfl
  | cons r rest ih =>
    intro X Y w
    simp only [List.foldl_cons]
    by_cases h0 : X.getD r 0 ≤ t0
    · simp only [if_pos h0]
      exact ih X Y (w + 1)
    · by_cases h1 : X.getD r 0 ≤ t1
      · simp only [if_neg h0, if_pos h1]
        exact ih X Y w
      · simp only [if_neg h0, if_neg h1]
        exact ih _ _ _

theorem mergeRegistryUpdate_eq (t0 t1 diff : dReal) (h01 : t0 ≤ t1) (Z : List dReal)
    (nb : List (dReal × dReal)) (hs : Z.Pairwise (fun a b => a ≤ b)) :
    (mergeRegistryUpdate t0 t1 diff Z nb).1 = registryAfterCommit t0 t1 diff Z := by
  have h := mergeRegistry_fold t0 t1 diff (List.range Z.length) Z nb 0
  have e := shortcutRegistryUpdate_eq t0 t1 diff h01 Z hs
  unfold shortcutRegistryUpdate at e
  unfold mergeRegistryUpdate
  simp only
  rw [← e, ← h]

/-- C12.  For a nondecreasing registry and a window `t0 ≤ t1`, the commit of
`_Shortcut` and the commit of `_MergeConsecutiveSegments` leave the registry
equal to the entries `≤ t0` (unchanged, in order) followed by the entries
`> t1`, each decreased by the saved duration
`(t1 - t0) - (duration of the committed list)`; the entries in `(t0, t1]` are
dropped and nothing is added. -/
theorem C12_registry_update_on_commit (C : Collaborators) (P : Planner) (t0 t1 : dReal)
    (a : AttemptState) (st : ShortcutLoopState) (s : ShortcutState) (h01 : t0 ≤ t1)
    (hst : st.s._zeroVelPoints.Pairwise (fun x y => x ≤ y))
    (hs : s._zeroVelPoints.Pairwise (fun x y => x ≤ y)) :
    (∃ st2, (shortcutCommit C P t0 t1 a st = .stop st2 ∨
        shortcutCommit C P t0 t1 a st = .next st2) ∧
      st2.s._zeroVelPoints =
        registryAfterCommit t0 t1 ((t1 - t0) - totalDuration a.shortcutRampNDVectOut)
          st.s._zeroVelPoints) ∧
    (mergeCommit C P t0 t1 a s)._zeroVelPoints =
      registryAfterCommit t0 t1 ((t1 - t0) - totalDuration a.shortcutRampNDVectOut)
        s._zeroVelPoints := by
  constructor
  · unfold shortcutCommit
    simp only
    split_ifs <;>
      first
      | exact ⟨_, Or.inl rfl, shortcutRegistryUpdate_eq _ _ _ h01 _ hst⟩
      | exact ⟨_, Or.inr rfl, shortcutRegistryUpdate_eq _ _ _ h01 _ hst⟩
  · unfold mergeCommit
    exact mergeRegistryUpdate_eq _ _ _ h01 _ _ hs

theorem sampleWindow_path (C : Collaborators) (m : dReal) (numIters iters : Nat) (tTotal : dReal)
    (s : ShortcutState) :
    (sampleWindow C m numIters iters tTotal s).2.2.path = s.path ∧
    (sampleWindow C m numIters iters tTotal s).2.2._zeroVelPoints = s._zeroVelPoints ∧
    (sampleWindow C m numIters iters tTotal s).2.2._zeroVelPointNeighbors =
      s._zeroVelPointNeighbors := by
  unfold sampleWindow
  simp only
  split_ifs <;> exact ⟨rfl, rfl, rfl⟩

theorem shortcutIteration_keeps (K : Consts) (H : Host) (C : Collaborators) (P : Planner)
    (I : ParabolicInterpolator) (m minTimeStep : dReal) (numIters iters : Nat)
    (st : ShortcutLoopState) (out : IterOutcome)
    (h : shortcutIteration K H C P I m minTimeStep numIters iters st = some out) :
    (out.state.s.path = st.s.path ∧ out.state.s._zeroVelPoints = st.s._zeroVelPoints ∧
      out.state.s._zeroVelPointNeighbors = st.s._zeroVelPointNeighbors) ∨
    ∃ a, runAttempt K H C P I minTimeStep
        (sampleWindow C m numIters iters st.tTotal st.s).1
        (sampleWindow C m numIters iters st.tTotal st.s).2.1
        (sampleWindow C m numIters iters st.tTotal st.s).2.2 =
          some (some (.finished true a)) ∧ a.shortcutRampNDVectOut.length ≠ 0 := by
  have hw := sampleWindow_path C m numIters iters st.tTotal st.s
  unfold shortcutIteration at h
  simp only at h
  by_cases h1 : st.tTotal < minTimeStep
  · rw [if_pos h1] at h
    cases h
    exact Or.inl ⟨rfl, rfl, rfl⟩
  rw [if_neg h1] at h
  by_cases h2 : st.nItersFromPrevSuccessful + st.s.nTimeBasedConstraintsFailed >
      min 100 (numIters / 2)
  · rw [if_pos h2] at h
    cases h
    exact Or.inl ⟨rfl, rfl, rfl⟩
  rw [if_neg h2] at h
  by_cases hv : st.vVisitedDiscretization.length = 0
  all_goals
    simp only [hv, if_true, if_false] at h
    by_cases h3 : (sampleWindow C m numIters iters st.tTotal st.s).2.1 -
        (sampleWindow C m numIters iters st.tTotal st.s).1 < minTimeStep
    · rw [if_pos h3] at h
      cases h
      exact Or.inl hw
    rw [if_neg h3] at h
    simp only [Option.bind_eq_some, Option.map_eq_some'] at h
    obtain ⟨vis, -, hm⟩ := h
    cases vis with
    | none =>
      cases hm
      exact Or.inl hw
    | some v =>
      simp only [Option.map_eq_some'] at hm
      obtain ⟨r, hr, hout⟩ := hm
      rcases r with _ | a | ⟨b, a⟩
      · cases hout
        exact Or.inl hw
      · cases hout
        exact Or.inl hw
      · cases b
        · cases hout
          exact Or.inl hw
        · by_cases hlen : a.shortcutRampNDVectOut.length = 0
          · simp only [hlen, if_true] at hout
            cases hout
            exact Or.inl hw
          · exact Or.inr ⟨a, hr, hlen⟩

theorem getD_set_ne (l : List dReal) (n i : Nat) (v : dReal) (h : n ≠ i) :
    (l.set n v).getD i 0 = l.getD i 0 := by
  simp [List.getD_eq_getElem?_getD, List.getElem?_set_ne h]

theorem getD_set_self (l : List dReal) (n : Nat) (v : dReal) (h : n < l.length) :
    (l.set n v).getD n 0 = v := by
  simp [List.getD_eq_getElem?_getD, h]

theorem getD_of_length_le (l : List dReal) (n : Nat) (h : l.length ≤ n) : l.getD n 0 = 0 := by
  simp [List.getD_eq_getElem?_getD, List.getElem?_eq_none h]

theorem clampAccelerations_bounds (amax : List dReal) (seg : RampND) :
    ∀ ndof, (∀ i, i < ndof → 0 ≤ amax.getD i 0) →
      ∀ i, i < ndof →
        -(amax.getD i 0) ≤ (clampAccelerations amax ndof seg).1.a.getD i 0 ∧
        (clampAccelerations amax ndof seg).1.a.getD i 0 ≤ amax.getD i 0 := by
  intro ndof
  induction ndof with
  | zero => intro _ i hi; omega
  | succ n ih =>
    intro hamax i hi
    have ih' := ih (fun j hj => hamax j (Nat.lt_succ_of_lt hj))
    have hn := hamax n (Nat.lt_succ_self n)
    unfold clampAccelerations at ih' ⊢
    rw [List.range_succ, List.foldl_append]
    simp only [List.foldl_cons, List.foldl_nil]
    generalize (List.range n).foldl
      (fun (s : RampND × Bool) idof =>
        if s.1.a.getD idof 0 < -(amax.getD idof 0) then
          ({ s.1 with a := s.1.a.set idof (-(amax.getD idof 0)) }, true)
        else if s.1.a.getD idof 0 > amax.getD idof 0 then
          ({ s.1 with a := s.1.a.set idof (amax.getD idof 0) }, true)
        else s)
      (seg, false) = s at ih' ⊢
    by_cases hlen : n < s.1.a.length
    · by_cases h1 : s.1.a.getD n 0 < -(amax.getD n 0)
      · rw [if_pos h1]
        simp only
        by_cases hin : i = n
        · subst hin
          rw [getD_set_self _ _ _ hlen]
          constructor <;> linarith
        · rw [getD_set_ne _ _ _ _ (Ne.symm hin)]
          exact ih' i (by omega)
      · rw [if_neg h1]
        by_cases h2 : s.1.a.getD n 0 > amax.getD n 0
        · rw [if_pos h2]
          simp only
          by_cases hin : i = n
          · subst hin
            rw [getD_set_self _ _ _ hlen]
            constructor <;> linarith
          · rw [getD_set_ne _ _ _ _ (Ne.symm hin)]
            exact ih' i (by omega)
        · rw [if_neg h2]
          by_cases hin : i = n
          · subst hin
            exact ⟨not_lt.mp h1, not_lt.mp h2⟩
          · exact ih' i (by omega)
    · have h0 : s.1.a.getD n 0 = 0 := getD_of_length_le _ _ (not_lt.mp hlen)
      have h1 : ¬ s.1.a.getD n 0 < -(amax.getD n 0) := by rw [h0]; linarith
      have h2 : ¬ s.1.a.getD n 0 > amax.getD n 0 := by rw [h0]; linarith
      rw [if_neg h1, if_neg h2]
      by_cases hin : i = n
      · subst hin
        rw [h0]
        constructor <;> linarith
      · exact ih' i (by omega)

theorem clampAccelerations_length (amax : List dReal) (seg : RampND) :
    ∀ ndof, (clampAccelerations amax ndof seg).1.a.length = seg.a.length := by
  intro ndof
  induction ndof with
  | zero => rfl
  | succ n ih =>
    unfold clampAccelerations at ih ⊢
    rw [List.range_succ, List.foldl_append]
    simp only [List.foldl_cons, List.foldl_nil]
    generalize (List.range n).foldl
      (fun (s : RampND × Bool) idof =>
        if s.1.a.getD idof 0 < -(amax.getD idof 0) then
          ({ s.1 with a := s.1.a.set idof (-(amax.getD idof 0)) }, true)
        else if s.1.a.getD idof 0 > amax.getD idof 0 then
          ({ s.1 with a := s.1.a.set idof (amax.getD idof 0) }, true)
        else s)
      (seg, false) = s at ih ⊢
    split_ifs
    · simpa using ih
    · simpa using ih
    · exact ih

theorem nextVelocities_length (K : Consts) (vmax curPos newPos curVel : List dReal)
    (iDeltaTime : dReal) :
    ∀ (idofs : List Nat) (newVel out : List dReal),
      nextVelocities K vmax curPos newPos curVel iDeltaTime idofs newVel = .ok out →
      out.length = newVel.length := by
  intro idofs
  induction idofs with
  | nil =>
    intro newVel out h
    rw [nextVelocities] at h
    cases h
    rfl
  | cons idof rest ih =>
    intro newVel out h
    rw [nextVelocities] at h
    split_ifs at h
    rw [ih _ _ h, List.length_set]

theorem Initialize_a_length (x0 x1 v0 v1 : List dReal) (t : dReal) :
    (RampND.Initialize x0 x1 v0 v1 t).a.length = min v0.length v1.length := by
  simp [RampND.Initialize]

theorem clampedAndChecked_clamp (amax : List dReal) (ndof : Nat) (seg : RampND)
    (hamax : ∀ i, i < ndof → 0 ≤ amax.getD i 0) (hlen : seg.a.length = ndof) :
    clampedAndChecked amax ndof
      { (clampAccelerations amax ndof seg).1 with constraintChecked := true } :=
  ⟨rfl, (clampAccelerations_length amax seg ndof).trans hlen,
    clampAccelerations_bounds amax seg ndof hamax⟩

theorem modifiedLoop_clamped (K : Consts) (H : Host) (P : Planner) (ndof : Nat)
    (hamax : ∀ i, i < ndof → 0 ≤ P.params._vConfigAccelerationLimit.getD i 0) :
    ∀ (times configs : List dReal) (st : ModifiedState),
      st.curVel.length = ndof → st.newVel.length = ndof →
      (∀ r ∈ st.rampndVectOut, clampedAndChecked P.params._vConfigAccelerationLimit ndof r) →
      match modifiedLoop K H P ndof times configs st with
      | .ok st2 =>
        ∀ r ∈ st2.rampndVectOut, clampedAndChecked P.params._vConfigAccelerationLimit ndof r
      | .error e => ∀ r ∈ e.2, clampedAndChecked P.params._vConfigAccelerationLimit ndof r := by
  intro times
  induction times with
  | nil =>
    intro configs st _ _ hst
    rw [modifiedLoop]
    exact hst
  | cons time times ih =>
    intro configs st hcur hnew hst
    rw [modifiedLoop]
    simp only
    by_cases hd : time - st.curTime > K.g_fRampEpsilon
    · rw [if_pos hd]
      cases hv : nextVelocities K P.params._vConfigVelocityLimit st.curPos (configs.take ndof)
          st.curVel (1 / (time - st.curTime)) (List.range ndof) st.newVel with
      | error ret => exact hst
      | ok newVel =>
        have hl : newVel.length = ndof := (nextVelocities_length _ _ _ _ _ _ _ _ _ hv).trans hnew
        simp only
        split_ifs with hc
        · exact hst
        · apply ih _ _ hl hcur
          intro r hr
          rcases List.mem_append.mp hr with h | h
          · exact hst r h
          · rw [List.mem_singleton] at h
            rw [h]
            refine clampedAndChecked_clamp _ _ _ hamax ?_
            rw [Initialize_a_length, hcur, hl, min_self]
    · rw [if_neg hd]
      exact ih _ _ hcur hnew hst

theorem finishSegment_clamped (K : Consts) (H : Host) (P : Planner)
    (q0 q1 dq0 dq1 : List dReal) (t : dReal) (o : Nat) (out : List RampND)
    (hamax : ∀ i, i < q0.length → 0 ≤ P.params._vConfigAccelerationLimit.getD i 0)
    (hdq0 : dq0.length = q0.length) (hdq1 : dq1.length = q0.length)
    (hout : ∀ r ∈ out, clampedAndChecked P.params._vConfigAccelerationLimit q0.length r) :
    ∀ r ∈ (finishSegment K H P q0 q1 dq0 dq1 t o out).2,
      clampedAndChecked P.params._vConfigAccelerationLimit q0.length r := by
  have hnew : ∀ r ∈ out ++ [{ (clampAccelerations P.params._vConfigAccelerationLimit q0.length
      (RampND.Initialize q0 q1 dq0 dq1 t)).1 with constraintChecked := true }],
      clampedAndChecked P.params._vConfigAccelerationLimit q0.length r := by
    intro r hr
    rcases List.mem_append.mp hr with h | h
    · exact hout r h
    · rw [List.mem_singleton] at h
      rw [h]
      refine clampedAndChecked_clamp _ _ _ hamax ?_
      rw [Initialize_a_length, hdq0, hdq1, min_self]
  have htail : ∀ l : List RampND,
      (∀ r ∈ l, clampedAndChecked P.params._vConfigAccelerationLimit q0.length r) →
      ∀ r ∈ (if (P._bmanipconstraints &&
            decide (o &&& K.CFO_CheckTimeBasedConstraints ≠ 0)) = true then
          match manipRejection H l with
          | some ret => (ret, l)
          | none => (({ retcode := 0 } : CheckReturn), l)
        else (({ retcode := 0 } : CheckReturn), l)).2,
        clampedAndChecked P.params._vConfigAccelerationLimit q0.length r := by
    intro l hl
    split_ifs
    · split <;> exact hl
    · exact hl
  unfold finishSegment
  simp only
  by_cases hlen : out.length = 0
  · by_cases hc : ((clampAccelerations P.params._vConfigAccelerationLimit q0.length
        (RampND.Initialize q0 q1 dq0 dq1 t)).2 &&
        !H.CheckRampND (clampAccelerations P.params._vConfigAccelerationLimit q0.length
          (RampND.Initialize q0 q1 dq0 dq1 t)).1) = true
    · simp only [hlen, if_true, hc]
      exact hout
    · simp only [hlen, if_true, hc, Bool.false_eq_true, if_false]
      exact htail _ hnew
  · simp only [hlen, if_false]
    exact htail _ hout

theorem manipRejection_retcode (H : Host) (l : List RampND) (ret : CheckReturn)
    (h : manipRejection H l = some ret) : ret.retcode ≠ 0 := by
  unfold manipRejection at h
  split at h
  · cases h
    decide
  · split_ifs at h with hc
    cases h
    exact hc

theorem finishSegment_revalidation (K : Consts) (H : Host) (P : Planner)
    (q0 q1 dq0 dq1 : List dReal) (t : dReal) (o : Nat)
    (hc : (clampAccelerations P.params._vConfigAccelerationLimit q0.length
      (RampND.Initialize q0 q1 dq0 dq1 t)).2 = true)
    (hr : H.CheckRampND (clampAccelerations P.params._vConfigAccelerationLimit q0.length
      (RampND.Initialize q0 q1 dq0 dq1 t)).1 = false) :
    finishSegment K H P q0 q1 dq0 dq1 t o [] =
      ({ retcode := K.CFO_CheckTimeBasedConstraints, fTimeBasedSurpassMult := 9 / 10 }, []) := by
  unfold finishSegment
  simp only [List.length_nil, if_true, hc, hr, Bool.not_false, Bool.and_self]

theorem modifiedLoop_revalidation (K : Consts) (H : Host) (P : Planner) (ndof : Nat)
    (time : dReal) (times configs : List dReal) (st : ModifiedState) (newVel : List dReal)
    (hd : time - st.curTime > K.g_fRampEpsilon)
    (hv : nextVelocities K P.params._vConfigVelocityLimit st.curPos (configs.take ndof)
      st.curVel (1 / (time - st.curTime)) (List.range ndof) st.newVel = .ok newVel)
    (hc : (clampAccelerations P.params._vConfigAccelerationLimit ndof
      (RampND.Initialize st.curPos (configs.take ndof) st.curVel newVel
        (time - st.curTime))).2 = true)
    (hr : H.CheckRampND (clampAccelerations P.params._vConfigAccelerationLimit ndof
      (RampND.Initialize st.curPos (configs.take ndof) st.curVel newVel
        (time - st.curTime))).1 = false) :
    modifiedLoop K H P ndof (time :: times) configs st =
      .error ({ retcode := K.CFO_CheckTimeBasedConstraints, fTimeBasedSurpassMult := 9 / 10 },
        st.rampndVectOut) := by
  rw [modifiedLoop]
  simp only [if_pos hd, hv, hc, hr, Bool.not_false, Bool.and_self, if_true]

theorem SegmentFeasible2_options (K : Consts) (H : Host) (P : Planner)
    (q0 q1 dq0 dq1 : List dReal) (t : dReal) (o : Nat) (ht : t > K.g_fEpsilon) :
    SegmentFeasible2 K H P q0 q1 dq0 dq1 t o =
      match (if P._bmanipconstraints &&
            decide (segmentOptions K P o &&& K.CFO_CheckTimeBasedConstraints ≠ 0) then
          (manipRejection H [RampND.Initialize q0 q1 dq0 dq1 t]).map fun ret =>
            (ret, [RampND.Initialize q0 q1 dq0 dq1 t])
        else none : Option (CheckReturn × List RampND)) with
      | some e => e
      | none =>
        match H.CheckPathAllConstraints q0 q1 dq0 dq1 t (segmentOptions K P o) with
        | none => ({ retcode := 0xffff }, [])
        | some (ret, configurations, configurationtimes) =>
          if ret ≠ 0 then
            (if ret = K.CFO_CheckTimeBasedConstraints then
                { retcode := ret, fTimeBasedSurpassMult := 98 / 100 }
              else { retcode := ret }, [])
          else if decide (P.params.fCosManipAngleThresh > -1 + K.g_fEpsilonLinear) &&
              decide (configurationtimes.length > 0) then
            match modifiedLoop K H P q0.length configurationtimes configurations
                { curPos := q0, curVel := dq0, newVel := List.replicate q0.length 0,
                  curTime := 0, rampndVectOut := [] } with
            | .error e => e
            | .ok st =>
              if lastConfigurationReached K st.curPos q1 q0.length then
                finishSegment K H P q0 q1 dq0 dq1 t (segmentOptions K P o) st.rampndVectOut
              else ({ retcode := K.CFO_FinalValuesNotReached }, st.rampndVectOut)
          else finishSegment K H P q0 q1 dq0 dq1 t (segmentOptions K P o) [] := by
  unfold SegmentFeasible2
  rw [if_neg (not_le.mpr ht)]
  rfl

theorem SegmentFeasible2_cases (K : Consts) (H : Host) (P : Planner)
    (q0 q1 dq0 dq1 : List dReal) (t : dReal) (o : Nat) (ht : t > K.g_fEpsilon)
    (hamax : ∀ i, i < q0.length → 0 ≤ P.params._vConfigAccelerationLimit.getD i 0)
    (hdq0 : dq0.length = q0.length) (hdq1 : dq1.length = q0.length) :
    (SegmentFeasible2 K H P q0 q1 dq0 dq1 t o).1.retcode ≠ 0 ∨
    ∀ r ∈ (SegmentFeasible2 K H P q0 q1 dq0 dq1 t o).2,
      clampedAndChecked P.params._vConfigAccelerationLimit q0.length r := by
  have hnil : ∀ r ∈ ([] : List RampND),
      clampedAndChecked P.params._vConfigAccelerationLimit q0.length r := by
    intro r hr
    cases hr
  rw [SegmentFeasible2_options K H P q0 q1 dq0 dq1 t o ht]
  generalize segmentOptions K P o = o2
  split
  · rename_i e he
    left
    split at he
    · simp only [Option.map_eq_some'] at he
      obtain ⟨ret, hrej, rfl⟩ := he
      exact manipRejection_retcode H _ ret hrej
    · cases he
  · right
    split
    · exact hnil
    · rename_i ret configurations configurationtimes hhost
      by_cases h1 : ret ≠ 0
      · rw [if_pos h1]
        exact hnil
      · rw [if_neg h1]
        split
        · have hinv := modifiedLoop_clamped K H P q0.length hamax configurationtimes
            configurations
            { curPos := q0, curVel := dq0, newVel := List.replicate q0.length 0, curTime := 0,
              rampndVectOut := [] } hdq0 (List.length_replicate _ _) hnil
          split
          · rename_i e hloop
            rw [hloop] at hinv
            exact hinv
          · rename_i st hloop
            rw [hloop] at hinv
            split
            · exact finishSegment_clamped K H P q0 q1 dq0 dq1 t _ _ hamax hdq0 hdq1 hinv
            · exact hinv
        · exact finishSegment_clamped K H P q0 q1 dq0 dq1 t _ _ hamax hdq0 hdq1 hnil

theorem SegmentFeasible2_revalidation (K : Consts) (H : Host) (P : Planner)
    (q0 q1 dq0 dq1 : List dReal) (t : dReal) (o : Nat) (configs times : List dReal)
    (ht : t > K.g_fEpsilon)
    (hearly : (P._bmanipconstraints &&
        decide (segmentOptions K P o &&& K.CFO_CheckTimeBasedConstraints ≠ 0)) = true →
      manipRejection H [RampND.Initialize q0 q1 dq0 dq1 t] = none)
    (hhost : H.CheckPathAllConstraints q0 q1 dq0 dq1 t (segmentOptions K P o) =
      some (0, configs, times))
    (hno : (decide (P.params.fCosManipAngleThresh > -1 + K.g_fEpsilonLinear) &&
      decide (times.length > 0)) = false)
    (hc : (clampAccelerations P.params._vConfigAccelerationLimit q0.length
      (RampND.Initialize q0 q1 dq0 dq1 t)).2 = true)
    (hr : H.CheckRampND (clampAccelerations P.params._vConfigAccelerationLimit q0.length
      (RampND.Initialize q0 q1 dq0 dq1 t)).1 = false) :
    SegmentFeasible2 K H P q0 q1 dq0 dq1 t o =
      ({ retcode := K.CFO_CheckTimeBasedConstraints, fTimeBasedSurpassMult := 9 / 10 }, []) := by
  rw [SegmentFeasible2_options K H P q0 q1 dq0 dq1 t o ht]
  have he : (if (P._bmanipconstraints &&
            decide (segmentOptions K P o &&& K.CFO_CheckTimeBasedConstraints ≠ 0)) = true then
          (manipRejection H [RampND.Initialize q0 q1 dq0 dq1 t]).map fun ret =>
            (ret, [RampND.Initialize q0 q1 dq0 dq1 t])
        else none : Option (CheckReturn × List RampND)) = none := by
    split_ifs with h
    · rw [hearly h]
      rfl
    · rfl
  rw [he]
  simp only [hhost, ne_eq, not_true_eq_false, if_false, hno, Bool.false_eq_true,
    finishSegment_revalidation K H P q0 q1 dq0 dq1 t _ hc hr]

theorem SegmentFeasible2_loop_error (K : Consts) (H : Host) (P : Planner)
    (q0 q1 dq0 dq1 : List dReal) (t : dReal) (o : Nat) (configs times : List dReal)
    (e : CheckReturn × List RampND)
    (ht : t > K.g_fEpsilon)
    (hearly : (P._bmanipconstraints &&
        decide (segmentOptions K P o &&& K.CFO_CheckTimeBasedConstraints ≠ 0)) = true →
      manipRejection H [RampND.Initialize q0 q1 dq0 dq1 t] = none)
    (hhost : H.CheckPathAllConstraints q0 q1 dq0 dq1 t (segmentOptions K P o) =
      some (0, configs, times))
    (hexp : (decide (P.params.fCosManipAngleThresh > -1 + K.g_fEpsilonLinear) &&
      decide (times.length > 0)) = true)
    (hloop : modifiedLoop K H P q0.length times configs
      { curPos := q0, curVel := dq0, newVel := List.replicate q0.length 0, curTime := 0,
        rampndVectOut := [] } = .error e) :
    SegmentFeasible2 K H P q0 q1 dq0 dq1 t o = e := by
  rw [SegmentFeasible2_options K H P q0 q1 dq0 dq1 t o ht]
  have he : (if (P._bmanipconstraints &&
            decide (segmentOptions K P o &&& K.CFO_CheckTimeBasedConstraints ≠ 0)) = true then
          (manipRejection H [RampND.Initialize q0 q1 dq0 dq1 t]).map fun ret =>
            (ret, [RampND.Initialize q0 q1 dq0 dq1 t])
        else none : Option (CheckReturn × List RampND)) = none := by
    split_ifs with h
    · rw [hearly h]
      rfl
    · rfl
  rw [he]
  simp only [hhost, ne_eq, not_true_eq_false, if_false, hexp, if_true, hloop]

/-- C14.  With non-negative acceleration limits, velocity vectors of the
length of `q0` and `timeElapsed > g_fEpsilon`: when `SegmentFeasible2` returns
code 0, every segment in its output is marked constraint-checked, carries one
acceleration per DOF and has each of them within `[-aMax[i], aMax[i]]`.  When
an acceleration was clamped and `CheckRampND` rejects the clamped segment, the
result is the time-based failure with surpass multiplier 0.9, with or without
manipulator constraints: for the segment built from the arguments, once the
early manipulator check (if it is made) and the host check have let the call
through (second part), in every iteration of the loop over the returned
configurations (third part), and `SegmentFeasible2` returns the failure of
that loop as it is (fourth part). -/
theorem C14_acceleration_clamp (K : Consts) (H : Host) (P : Planner)
    (q0 q1 dq0 dq1 : List dReal) (t : dReal) (o : Nat) (ht : t > K.g_fEpsilon)
    (hamax : ∀ i, i < q0.length → 0 ≤ P.params._vConfigAccelerationLimit.getD i 0)
    (hdq0 : dq0.length = q0.length) (hdq1 : dq1.length = q0.length) :
    ((SegmentFeasible2 K H P q0 q1 dq0 dq1 t o).1.retcode = 0 →
      ∀ r ∈ (SegmentFeasible2 K H P q0 q1 dq0 dq1 t o).2,
        clampedAndChecked P.params._vConfigAccelerationLimit q0.length r) ∧
    (∀ configs times : List dReal,
      ((P._bmanipconstraints &&
          decide (segmentOptions K P o &&& K.CFO_CheckTimeBasedConstraints ≠ 0)) = true →
        manipRejection H [RampND.Initialize q0 q1 dq0 dq1 t] = none) →
      H.CheckPathAllConstraints q0 q1 dq0 dq1 t (segmentOptions K P o) =
        some (0, configs, times) →
      (decide (P.params.fCosManipAngleThresh > -1 + K.g_fEpsilonLinear) &&
        decide (times.length > 0)) = false →
      (clampAccelerations P.params._vConfigAccelerationLimit q0.length
        (RampND.Initialize q0 q1 dq0 dq1 t)).2 = true →
      H.CheckRampND (clampAccelerations P.params._vConfigAccelerationLimit q0.length
        (RampND.Initialize q0 q1 dq0 dq1 t)).1 = false →
      SegmentFeasible2 K H P q0 q1 dq0 dq1 t o =
        ({ retcode := K.CFO_CheckTimeBasedConstraints, fTimeBasedSurpassMult := 9 / 10 }, [])) ∧
    (∀ (time : dReal) (times configs : List dReal) (st : ModifiedState) (newVel : List dReal),
      time - st.curTime > K.g_fRampEpsilon →
      nextVelocities K P.params._vConfigVelocityLimit st.curPos (configs.take q0.length)
        st.curVel (1 / (time - st.curTime)) (List.range q0.length) st.newVel = .ok newVel →
      (clampAccelerations P.params._vConfigAccelerationLimit q0.length
        (RampND.Initialize st.curPos (configs.take q0.length) st.curVel newVel
          (time - st.curTime))).2 = true →
      H.CheckRampND (clampAccelerations P.params._vConfigAccelerationLimit q0.length
        (RampND.Initialize st.curPos (configs.take q0.length) st.curVel newVel
          (time - st.curTime))).1 = false →
      modifiedLoop K H P q0.length (time :: times) configs st =
        .error ({ retcode := K.CFO_CheckTimeBasedConstraints, fTimeBasedSurpassMult := 9 / 10 },
          st.rampndVectOut)) ∧
    (∀ (configs times : List dReal) (e : CheckReturn × List RampND),
      ((P._bmanipconstraints &&
          decide (segmentOptions K P o &&& K.CFO_CheckTimeBasedConstraints ≠ 0)) = true →
        manipRejection H [RampND.Initialize q0 q1 dq0 dq1 t] = none) →
      H.CheckPathAllConstraints q0 q1 dq0 dq1 t (segmentOptions K P o) =
        some (0, configs, times) →
      (decide (P.params.fCosManipAngleThresh > -1 + K.g_fEpsilonLinear) &&
        decide (times.length > 0)) = true →
      modifiedLoop K H P q0.length times configs
        { curPos := q0, curVel := dq0, newVel := List.replicate q0.length 0, curTime := 0,
          rampndVectOut := [] } = .error e →
      SegmentFeasible2 K H P q0 q1 dq0 dq1 t o = e) := by
  refine ⟨?_, ?_, ?_, ?_⟩
  · intro hret
    rcases SegmentFeasible2_cases K H P q0 q1 dq0 dq1 t o ht hamax hdq0 hdq1 with h | h
    · exact absurd hret h
    · exact h
  · intro configs times hearly hhost hno hc hr
    exact SegmentFeasible2_revalidation K H P q0 q1 dq0 dq1 t o configs times ht hearly hhost
      hno hc hr
  · intro time times configs st newVel hd hv hc hr
    exact modifiedLoop_revalidation K H P q0.length time times configs st newVel hd hv hc hr
  · intro configs times e hearly hhost hexp hloop
    exact SegmentFeasible2_loop_error K H P q0 q1 dq0 dq1 t o configs times e ht hearly hhost
      hexp hloop

theorem SegmentFeasible2_clamped_accepted :
    SegmentFeasible2 openraveConsts plainHost plainPlanner [0] [1] [0] [2] 1 0 =
      ({ retcode := 0 },
        [{ RampND.Initialize [0] [1] [0] [2] 1 with a := [1], constraintChecked := true }]) := by
  have ht : (1 : dReal) > openraveConsts.g_fEpsilon := by norm_num [openraveConsts]
  have hclamp : clampAccelerations plainPlanner.params._vConfigAccelerationLimit
      ([0] : List dReal).length (RampND.Initialize [0] [1] [0] [2] 1) =
      ({ RampND.Initialize [0] [1] [0] [2] 1 with a := [1] }, true) := by
    norm_num [clampAccelerations, plainPlanner, plainParameters, RampND.Initialize,
      List.range_succ]
  have hm : plainPlanner._bmanipconstraints = false := rfl
  have hhost : ∀ o2, plainHost.CheckPathAllConstraints [0] [1] [0] [2] 1 o2 =
      some (0, [], []) := fun _ => rfl
  have hr : ∀ r, plainHost.CheckRampND r = true := fun _ => rfl
  rw [SegmentFeasible2_options _ _ _ _ _ _ _ _ _ ht]
  simp only [hm, Bool.false_and, Bool.false_eq_true, if_false, hhost, ne_eq, not_true_eq_false,
    List.length_nil, gt_iff_lt, lt_self_iff_false, decide_False, Bool.and_false, finishSegment,
    if_true, hclamp, hr, Bool.not_true, Bool.and_false, List.nil_append]

/-- C14 (witness): one DOF with acceleration limit 1 and the segment from rest
at 0 to velocity 2 at 1 in one second (acceleration 2).  On `plainHost`, whose
re-validation accepts, the call returns code 0 with the acceleration clamped
to 1 and the segment marked checked; on `strictHost`, whose re-validation
rejects, the result is the time-based failure with multiplier 0.9. -/
theorem C14_acceleration_clamp_witness :
    (1 : dReal) > openraveConsts.g_fEpsilon ∧
    (∀ i, i < ([0] : List dReal).length →
      0 ≤ plainPlanner.params._vConfigAccelerationLimit.getD i 0) ∧
    (SegmentFeasible2 openraveConsts plainHost plainPlanner [0] [1] [0] [2] 1 0).1.retcode = 0 ∧
    (SegmentFeasible2 openraveConsts plainHost plainPlanner [0] [1] [0] [2] 1 0).2 =
      [{ RampND.Initialize [0] [1] [0] [2] 1 with a := [1], constraintChecked := true }] ∧
    (∀ r ∈ (SegmentFeasible2 openraveConsts plainHost plainPlanner [0] [1] [0] [2] 1 0).2,
      clampedAndChecked plainPlanner.params._vConfigAccelerationLimit ([0] : List dReal).length
        r) ∧
    SegmentFeasible2 openraveConsts strictHost plainPlanner [0] [1] [0] [2] 1 0 =
      ({ retcode := openraveConsts.CFO_CheckTimeBasedConstraints,
         fTimeBasedSurpassMult := 9 / 10 }, []) := by
  have ht : (1 : dReal) > openraveConsts.g_fEpsilon := by norm_num [openraveConsts]
  have hamax : ∀ i, i < ([0] : List dReal).length →
      0 ≤ plainPlanner.params._vConfigAccelerationLimit.getD i 0 := by
    intro i hi
    have : i = 0 := by simpa using hi
    subst this
    norm_num [plainPlanner, plainParameters]
  have hclamp : clampAccelerations plainPlanner.params._vConfigAccelerationLimit
      ([0] : List dReal).length (RampND.Initialize [0] [1] [0] [2] 1) =
      ({ RampND.Initialize [0] [1] [0] [2] 1 with a := [1] }, true) := by
    norm_num [clampAccelerations, plainPlanner, plainParameters, RampND.Initialize,
      List.range_succ]
  have hp := C14_acceleration_clamp openraveConsts plainHost plainPlanner [0] [1] [0] [2] 1 0
    ht hamax rfl rfl
  have hs := C14_acceleration_clamp openraveConsts strictHost plainPlanner [0] [1] [0] [2] 1 0
    ht hamax rfl rfl
  have hret : (SegmentFeasible2 openraveConsts plainHost plainPlanner [0] [1] [0] [2] 1 0).1.retcode
      = 0 := by rw [SegmentFeasible2_clamped_accepted]
  refine ⟨ht, hamax, hret, by rw [SegmentFeasible2_clamped_accepted], hp.1 hret,
    hs.2.1 [] [] (fun h => by cases h) rfl ?_ ?_ ?_⟩
  · simp
  · rw [hclamp]
  · rfl

/-- C12 (witness): the registry `[2]` of `stopState` and a commit on the
window `[1, 3]`. -/
theorem C12_registry_update_on_commit_witness :
    (1 : dReal) ≤ 3 ∧
    stopLoopState.s._zeroVelPoints.Pairwise (fun x y => x ≤ y) ∧
    stopState._zeroVelPoints.Pairwise (fun x y => x ≤ y) ∧
    ((∃ st2, (shortcutCommit stopCollaborators stopPlanner 1 3 bendingAttempt stopLoopState =
          .stop st2 ∨
        shortcutCommit stopCollaborators stopPlanner 1 3 bendingAttempt stopLoopState =
          .next st2) ∧
      st2.s._zeroVelPoints =
        registryAfterCommit 1 3 ((3 - 1) - totalDuration bendingAttempt.shortcutRampNDVectOut)
          stopLoopState.s._zeroVelPoints) ∧
    (mergeCommit stopCollaborators stopPlanner 1 3 bendingAttempt stopState)._zeroVelPoints =
      registryAfterCommit 1 3 ((3 - 1) - totalDuration bendingAttempt.shortcutRampNDVectOut)
        stopState._zeroVelPoints) :=
  ⟨by norm_num, by simp [stopLoopState, stopState], by simp [stopState],
    C12_registry_update_on_commit stopCollaborators stopPlanner 1 3 bendingAttempt stopLoopState
      stopState (by norm_num) (by simp [stopLoopState, stopState]) (by simp [stopState])⟩

/-- C13.  In every slowdown iteration (any attempt state `st`, any iteration
number), when the interpolated candidate `cand` has
`segmentTime + minTimeStep > t1 - t0`, the slowdown loop ends at once with
`bSuccess` false: the result is the same for every host, so no feasibility
check of the host is consulted, and only the candidate cache differs from
`st`.  And an iteration of `_Shortcut` whose attempt did not end with
`bSuccess` (on a non-empty checked list) leaves the path, the registry and the
neighbour bounds as they were. -/
theorem C13_too_long_candidate_rejected (K : Consts) (C : Collaborators) (P : Planner)
    (I : ParabolicInterpolator) (t0 t1 minTimeStep : dReal) (bx0 bx1 bv0 bv1 : List dReal)
    (fuel iSlowDown : Nat) (st : AttemptState) (cand : List RampND)
    (hI : I.ComputeArbitraryVelNDTrajectory st.x0Vect st.x1Vect st.v0Vect st.v1Vect st.vellimits
      st.accellimits false = some cand)
    (hlong : totalDuration cand + minTimeStep > t1 - t0) :
    (∀ H : Host, slowDownLoop K H C P I t0 t1 minTimeStep bx0 bx1 bv0 bv1 (fuel + 1) iSlowDown
        st = some (.finished false { st with shortcutRampNDVect := cand })) ∧
    ∀ (H : Host) (m : dReal) (numIters iters : Nat) (ls : ShortcutLoopState)
      (out : IterOutcome),
      shortcutIteration K H C P I m minTimeStep numIters iters ls = some out →
      (∀ a, runAttempt K H C P I minTimeStep
          (sampleWindow C m numIters iters ls.tTotal ls.s).1
          (sampleWindow C m numIters iters ls.tTotal ls.s).2.1
          (sampleWindow C m numIters iters ls.tTotal ls.s).2.2 =
            some (some (.finished true a)) → a.shortcutRampNDVectOut.length = 0) →
      out.state.s.path = ls.s.path ∧ out.state.s._zeroVelPoints = ls.s._zeroVelPoints ∧
        out.state.s._zeroVelPointNeighbors = ls.s._zeroVelPointNeighbors := by
  constructor
  · intro H
    rw [slowDownLoop]
    simp only [hI, if_pos hlong]
  · intro H m numIters iters ls out hout hno
    rcases shortcutIteration_keeps K H C P I m minTimeStep numIters iters ls out hout with h | h
    · exact h
    · obtain ⟨a, ha, hlen⟩ := h
      exact absurd (hno a ha) hlen

/-- C13 (witness): the three second candidate `stopWhole` on the window
`[0, 3]` with `minTimeStep = 0.99`. -/
theorem C13_too_long_candidate_rejected_witness :
    stopInterpolator.ComputeArbitraryVelNDTrajectory bendingAttempt.x0Vect bendingAttempt.x1Vect
      bendingAttempt.v0Vect bendingAttempt.v1Vect bendingAttempt.vellimits
      bendingAttempt.accellimits false = some stopWhole ∧
    totalDuration stopWhole + 99 / 100 > (3 : dReal) - 0 ∧
    ∀ H : Host, slowDownLoop openraveConsts H stopCollaborators stopPlanner stopInterpolator 0 3
        (99 / 100) [0] [2] [0] [0] (99 + 1) 0 bendingAttempt =
      some (.finished false { bendingAttempt with shortcutRampNDVect := stopWhole }) := by
  have hI : stopInterpolator.ComputeArbitraryVelNDTrajectory bendingAttempt.x0Vect
      bendingAttempt.x1Vect bendingAttempt.v0Vect bendingAttempt.v1Vect bendingAttempt.vellimits
      bendingAttempt.accellimits false = some stopWhole := by
    simp [stopInterpolator, bendingAttempt]
  have hlong : totalDuration stopWhole + 99 / 100 > (3 : dReal) - 0 := by
    norm_num [totalDuration, stopWhole, RampND.Initialize]
  exact ⟨hI, hlong,
    (C13_too_long_candidate_rejected openraveConsts stopCollaborators stopPlanner stopInterpolator
      0 3 (99 / 100) [0] [2] [0] [0] 99 0 bendingAttempt stopWhole hI hlong).1⟩

theorem shortcutCommit_stop_iff (C : Collaborators) (P : Planner) (t0 t1 : dReal)
    (a : AttemptState) (st : ShortcutLoopState) :
    (∃ st2, shortcutCommit C P t0 t1 a st = .stop st2) ↔
      (((t1 - t0) - totalDuration a.shortcutRampNDVectOut) / (st.nItersFromPrevSuccessful : dReal) *
          (if ((t1 - t0) - totalDuration a.shortcutRampNDVectOut) /
              (st.nItersFromPrevSuccessful : dReal) > st.currentBestScore then
            1 / (((t1 - t0) - totalDuration a.shortcutRampNDVectOut) /
              (st.nItersFromPrevSuccessful : dReal))
          else st.iCurrentBestScore) < 1 / 1000 ∧
        st.s.numSuccessful + 1 > 5) := by
  unfold shortcutCommit
  simp only [ShortcutState.afterAttempt]
  constructor
  · rintro ⟨st2, h⟩
    by_contra hc
    rw [if_neg hc] at h
    cases h
  · intro hc
    rw [if_pos hc]
    exact ⟨_, rfl⟩

/-- C16 (counterexample).  The fifth successful shortcut has the score 0.0001
against the best score 1, below the cutoff ratio 0.001, and the loop of
`_Shortcut` goes on: the source tests `numShortcuts > 5`. -/
theorem C16_fifth_shortcut_does_not_stop :
    ∃ st2, shortcutCommit stopCollaborators stopPlanner 0 1 slimAttempt fourDoneLoopState =
        .next st2 ∧
      st2.s.numSuccessful = 5 ∧ st2.score / st2.currentBestScore < 1 / 1000 := by
  have hd : totalDuration slimAttempt.shortcutRampNDVectOut = 9999 / 10000 := by
    norm_num [totalDuration, slimAttempt, RampND.Initialize]
  have hscore : ((1 : dReal) - 0 - 9999 / 10000) / ((1 : Nat) : dReal) = 1 / 10000 := by
    norm_num
  have h1 : ¬ ((1 : dReal) / 10000 > 1) := by norm_num
  have h5 : ¬ ((1 : dReal) / 10000 * 1 < 1 / 1000 ∧ 4 + 1 > 5) := by
    intro h
    exact absurd h.2 (by decide)
  unfold shortcutCommit
  simp only [ShortcutState.afterAttempt, hd, fourDoneLoopState, stopState, hscore, if_neg h1,
    if_neg h5]
  refine ⟨_, rfl, rfl, ?_⟩
  norm_num

/-- C16 (amended).  With `iCurrentBestScore = 1 / currentBestScore` (true at
the start of `_Shortcut` and kept by every commit), the loop stops right after
a successful commit if and only if the score of the commit divided by the
updated best score is below `cutoffRatio = 0.001` and MORE than 5 shortcuts
have succeeded, the committed one included; the updated state keeps the
relation between the two best-score variables. -/
theorem C16_score_cutoff (C : Collaborators) (P : Planner) (t0 t1 : dReal)
    (a : AttemptState) (st : ShortcutLoopState)
    (hinv : st.iCurrentBestScore = 1 / st.currentBestScore) :
    ((∃ st2, shortcutCommit C P t0 t1 a st = .stop st2) ↔
      (((t1 - t0) - totalDuration a.shortcutRampNDVectOut) /
          (st.nItersFromPrevSuccessful : dReal) /
          max (((t1 - t0) - totalDuration a.shortcutRampNDVectOut) /
            (st.nItersFromPrevSuccessful : dReal)) st.currentBestScore < 1 / 1000 ∧
        st.s.numSuccessful + 1 > 5)) ∧
    ∀ st2, (shortcutCommit C P t0 t1 a st = .stop st2 ∨
        shortcutCommit C P t0 t1 a st = .next st2) →
      st2.iCurrentBestScore = 1 / st2.currentBestScore ∧
      st2.currentBestScore = max (((t1 - t0) - totalDuration a.shortcutRampNDVectOut) /
        (st.nItersFromPrevSuccessful : dReal)) st.currentBestScore ∧
      st2.s.numSuccessful = st.s.numSuccessful + 1 := by
  constructor
  · rw [shortcutCommit_stop_iff]
    by_cases hs : ((t1 - t0) - totalDuration a.shortcutRampNDVectOut) /
        (st.nItersFromPrevSuccessful : dReal) > st.currentBestScore
    · rw [if_pos hs, max_eq_left (le_of_lt hs), mul_one_div]
    · rw [if_neg hs, max_eq_right (not_lt.mp hs), hinv, mul_one_div]
  · intro st2 h
    unfold shortcutCommit at h
    simp only [ShortcutState.afterAttempt] at h
    by_cases hs : ((t1 - t0) - totalDuration a.shortcutRampNDVectOut) /
        (st.nItersFromPrevSuccessful : dReal) > st.currentBestScore
    · simp only [if_pos hs] at h
      rw [max_eq_left (le_of_lt hs)]
      split_ifs at h <;> rcases h with h | h <;> cases h <;> exact ⟨rfl, rfl, rfl⟩
    · simp only [if_neg hs] at h
      rw [max_eq_right (not_lt.mp hs)]
      split_ifs at h <;> rcases h with h | h <;> cases h <;> exact ⟨hinv, rfl, rfl⟩

/-- C16 (witness): the loop state `fourDoneLoopState` and the attempt
`slimAttempt` on the window `[0, 1]`. -/
theorem C16_score_cutoff_witness :
    fourDoneLoopState.iCurrentBestScore = 1 / fourDoneLoopState.currentBestScore ∧
    ((∃ st2, shortcutCommit stopCollaborators stopPlanner 0 1 slimAttempt fourDoneLoopState =
        .stop st2) ↔
      ((((1 : dReal) - 0) - totalDuration slimAttempt.shortcutRampNDVectOut) /
          (fourDoneLoopState.nItersFromPrevSuccessful : dReal) /
          max ((((1 : dReal) - 0) - totalDuration slimAttempt.shortcutRampNDVectOut) /
            (fourDoneLoopState.nItersFromPrevSuccessful : dReal))
            fourDoneLoopState.currentBestScore < 1 / 1000 ∧
        fourDoneLoopState.s.numSuccessful + 1 > 5)) :=
  ⟨by norm_num [fourDoneLoopState],
    (C16_score_cutoff stopCollaborators stopPlanner 0 1 slimAttempt fourDoneLoopState
      (by norm_num [fourDoneLoopState])).1⟩

theorem specialWindow_inside (r0 r1 t T : dReal) (hr0 : 0 ≤ r0 ∧ r0 < 1) (hr1 : 0 ≤ r1 ∧ r1 < 1)
    (ht : 0 ≤ t ∧ t ≤ T) :
    0 ≤ t - r0 * min (3 / 4) t ∧ t - r0 * min (3 / 4) t ≤ t + r1 * min (3 / 4) (T - t) ∧
      t + r1 * min (3 / 4) (T - t) ≤ T := by
  have hmin0 : 0 ≤ min (3 / 4 : dReal) t := le_min (by norm_num) ht.1
  have hmin1 : 0 ≤ min (3 / 4 : dReal) (T - t) := le_min (by norm_num) (by linarith)
  have h0 : r0 * min (3 / 4) t ≤ t := by
    calc r0 * min (3 / 4) t ≤ 1 * min (3 / 4) t :=
          mul_le_mul_of_nonneg_right (le_of_lt hr0.2) hmin0
      _ = min (3 / 4) t := one_mul _
      _ ≤ t := min_le_right _ _
  have h1 : r1 * min (3 / 4) (T - t) ≤ T - t := by
    calc r1 * min (3 / 4) (T - t) ≤ 1 * min (3 / 4) (T - t) :=
          mul_le_mul_of_nonneg_right (le_of_lt hr1.2) hmin1
      _ = min (3 / 4) (T - t) := one_mul _
      _ ≤ T - t := min_le_right _ _
  have h2 : 0 ≤ r0 * min (3 / 4) t := mul_nonneg hr0.1 hmin0
  have h3 : 0 ≤ r1 * min (3 / 4) (T - t) := mul_nonneg hr1.1 hmin1
  refine ⟨by linarith, by linarith, by linarith⟩

theorem normalWindow_inside (r0 r1 T m : dReal) (hr0 : 0 ≤ r0 ∧ r0 < 1) (hr1 : 0 ≤ r1 ∧ r1 < 1)
    (hT : 0 ≤ T) (hm : 0 ≤ m) :
    0 ≤ (if r0 * T > r1 * T then r1 * T else r0 * T) ∧
    (if r0 * T > r1 * T then r1 * T else r0 * T) ≤
      (if (if r0 * T > r1 * T then r0 * T else r1 * T) -
          (if r0 * T > r1 * T then r1 * T else r0 * T) > 2 * m then
        (if r0 * T > r1 * T then r1 * T else r0 * T) + 2 * m
      else (if r0 * T > r1 * T then r0 * T else r1 * T)) ∧
    (if (if r0 * T > r1 * T then r0 * T else r1 * T) -
          (if r0 * T > r1 * T then r1 * T else r0 * T) > 2 * m then
        (if r0 * T > r1 * T then r1 * T else r0 * T) + 2 * m
      else (if r0 * T > r1 * T then r0 * T else r1 * T)) ≤ T ∧
    (if (if r0 * T > r1 * T then r0 * T else r1 * T) -
          (if r0 * T > r1 * T then r1 * T else r0 * T) > 2 * m then
        (if r0 * T > r1 * T then r1 * T else r0 * T) + 2 * m
      else (if r0 * T > r1 * T then r0 * T else r1 * T)) -
      (if r0 * T > r1 * T then r1 * T else r0 * T) ≤ 2 * m := by
  have h0 : 0 ≤ r0 * T := mul_nonneg hr0.1 hT
  have h1 : 0 ≤ r1 * T := mul_nonneg hr1.1 hT
  have h0T : r0 * T ≤ T := by
    calc r0 * T ≤ 1 * T := mul_le_mul_of_nonneg_right (le_of_lt hr0.2) hT
      _ = T := one_mul _
  have h1T : r1 * T ≤ T := by
    calc r1 * T ≤ 1 * T := mul_le_mul_of_nonneg_right (le_of_lt hr1.2) hT
      _ = T := one_mul _
  split_ifs <;> refine ⟨?_, ?_, ?_, ?_⟩ <;> linarith

/-- C20.  With `T ≥ 0`, `_maxInitialRampTime ≥ 0`, an iteration number below
`numIters`, all samples of `Rand` in `[0, 1)` and all registry entries in
`[0, T]`, the window sampled by an iteration of `_Shortcut` satisfies
`0 ≤ t0 ≤ t1 ≤ T` in every branch; iteration 0 uses exactly `(0, T)`; and in
the branch "proceed normally" `t1 - t0 ≤ 2 * _maxInitialRampTime`. -/
theorem C20_sampled_window_inside (C : Collaborators) (m : dReal) (numIters iters : Nat)
    (T : dReal) (s : ShortcutState) (hT : 0 ≤ T) (hm : 0 ≤ m) (hit : iters < numIters)
    (hrand : ∀ n, 0 ≤ C.Rand n ∧ C.Rand n < 1)
    (hZ : ∀ z ∈ s._zeroVelPoints, 0 ≤ z ∧ z ≤ T) :
    (0 ≤ (sampleWindow C m numIters iters T s).1 ∧
      (sampleWindow C m numIters iters T s).1 ≤ (sampleWindow C m numIters iters T s).2.1 ∧
      (sampleWindow C m numIters iters T s).2.1 ≤ T) ∧
    (iters = 0 → (sampleWindow C m numIters iters T s).1 = 0 ∧
      (sampleWindow C m numIters iters T s).2.1 = T) ∧
    (iters ≠ 0 →
      ((decide (s._zeroVelPoints.length > 0) && decide (C.Rand s.nrand ≤ 1 / 10)) ||
        decide ((numIters : Int) - (iters : Int) ≤ (s._zeroVelPoints.length : Int))) = false →
      (sampleWindow C m numIters iters T s).2.1 - (sampleWindow C m numIters iters T s).1 ≤
        2 * m) := by
  unfold sampleWindow
  by_cases h0 : iters = 0
  · rw [if_pos h0]
    exact ⟨⟨le_refl _, hT, le_refl _⟩, fun _ => ⟨rfl, rfl⟩, fun h => absurd h0 h⟩
  · rw [if_neg h0]
    by_cases hb : ((decide (s._zeroVelPoints.length > 0) && decide (C.Rand s.nrand ≤ 1 / 10)) ||
        decide ((numIters : Int) - (iters : Int) ≤ (s._zeroVelPoints.length : Int))) = true
    · have hsize : 0 < s._zeroVelPoints.length := by
        simp only [Bool.or_eq_true, Bool.and_eq_true, decide_eq_true_eq] at hb
        rcases hb with h | h
        · exact h.1
        · omega
      have hmem : ∀ k, 0 ≤ s._zeroVelPoints.getD (k % s._zeroVelPoints.length) 0 ∧
          s._zeroVelPoints.getD (k % s._zeroVelPoints.length) 0 ≤ T := by
        intro k
        have hlt : k % s._zeroVelPoints.length < s._zeroVelPoints.length := Nat.mod_lt _ hsize
        rw [List.getD_eq_getElem _ _ hlt]
        exact hZ _ (List.getElem_mem _)
      rw [if_pos hb]
      refine ⟨?_, fun h => absurd h h0, fun _ h => ?_⟩
      · split_ifs <;> exact specialWindow_inside _ _ _ _ (hrand _) (hrand _) (hmem _)
      · rw [hb] at h
        cases h
    · rw [if_neg hb]
      simp only
      have hw := normalWindow_inside (C.Rand
          (if decide (s._zeroVelPoints.length > 0) = true then
            { s with nrand := s.nrand + 1 } else s).nrand)
        (C.Rand ((if decide (s._zeroVelPoints.length > 0) = true then
            { s with nrand := s.nrand + 1 } else s).nrand + 1)) T m (hrand _) (hrand _) hT hm
      exact ⟨⟨hw.1, hw.2.1, hw.2.2.1⟩, fun h => absurd h h0, fun _ _ => hw.2.2.2⟩

/-- C20 (witness): iteration 1 of 3 on `stopState` (registry `[2]`, total
duration 4) with the sampler of `stopCollaborators`. -/
theorem C20_sampled_window_inside_witness :
    (0 : dReal) ≤ 4 ∧ (0 : dReal) ≤ 2 ∧ 1 < 3 ∧
    (∀ n, 0 ≤ stopCollaborators.Rand n ∧ stopCollaborators.Rand n < 1) ∧
    (∀ z ∈ stopState._zeroVelPoints, 0 ≤ z ∧ z ≤ (4 : dReal)) ∧
    (0 ≤ (sampleWindow stopCollaborators 2 3 1 4 stopState).1 ∧
      (sampleWindow stopCollaborators 2 3 1 4 stopState).1 ≤
        (sampleWindow stopCollaborators 2 3 1 4 stopState).2.1 ∧
      (sampleWindow stopCollaborators 2 3 1 4 stopState).2.1 ≤ 4) := by
  have hrand : ∀ n, 0 ≤ stopCollaborators.Rand n ∧ stopCollaborators.Rand n < 1 := by
    intro n
    simp [stopCollaborators]
  have hZ : ∀ z ∈ stopState._zeroVelPoints, 0 ≤ z ∧ z ≤ (4 : dReal) := by
    intro z hz
    have : z = 2 := by simpa [stopState] using hz
    subst this
    norm_num
  exact ⟨by norm_num, by norm_num, by decide, hrand, hZ,
    (C20_sampled_window_inside stopCollaborators 2 3 1 4 stopState (by norm_num) (by norm_num)
      (by decide) hrand hZ).1⟩

theorem truncInt_long_end : truncInt ((33 : dReal) * (1 / (99 / 100000))) = 33333 := by
  have h : (0 : dReal) ≤ 33 * (1 / (99 / 100000)) := by norm_num
  rw [truncInt, if_pos h, Int.floor_eq_iff]
  constructor <;> norm_num

theorem truncInt_long_start : truncInt ((0 : dReal) * (1 / (99 / 100000))) = 0 := by
  simp [truncInt]

theorem visitPair_long :
    visitPair stopPlanner (99 / 100000) 0 33 (33333 + 1) [] = none := by
  have hidx : toSizeT (0 * (33333 + 1) + 33333) = 33333 := by decide
  unfold visitPair
  simp only [truncInt_long_end, truncInt_long_start, hidx]
  simp [stopPlanner, markVisited]

/-- C15, refuted for the code: with `minTimeStep = 0.00099` and a total
duration of 33 s the number of time bins is 33334 > 0x8000, so the bitmap is
left empty (the cache is disabled).  In iteration 0 the pair index of the
window `(0, 33)` is 33333; the read is guarded by the size test, but the write
`vVisitedDiscretization[testPairIndex] = 1` is not: it addresses an empty
vector (`none` in the model). -/
theorem C15_bitmap_written_when_cache_disabled (K : Consts) (H : Host) (C : Collaborators)
    (I : ParabolicInterpolator) (m : dReal) :
    truncInt (longLoopState.tTotal * (1 / (99 / 100000))) + 1 = 33334 ∧
    ¬ ((33334 : Int) ≤ 0x8000) ∧
    visitPair stopPlanner (99 / 100000) 0 33 33334 [] = none ∧
    shortcutIteration K H C stopPlanner I m (99 / 100000) 100 0 longLoopState = none := by
  have h1 : ¬ ((33 : dReal) < 99 / 100000) := by norm_num
  have h2 : ¬ ((33 : dReal) - 0 < 99 / 100000) := by norm_num
  have h3 : ¬ (0 + 0 > min 100 (100 / 2)) := by decide
  have h4 : ¬ ((33333 : Int) + 1 ≤ 0x8000) := by decide
  refine ⟨?_, by decide, visitPair_long, ?_⟩
  · simp only [longLoopState, truncInt_long_end]
    rfl
  · unfold shortcutIteration
    simp only [longLoopState, stopState, if_neg h1, if_neg h3, List.length_nil, if_true,
      truncInt_long_end, if_neg h4, sampleWindow, if_neg h2, visitPair_long, Option.none_bind]

theorem densifyStep_offset (st : DensifyState) (a b : dReal) (rest : List (List dReal))
    (hw : st.vNewWaypoints = [a] :: [b] :: rest) (hi : st.iwaypoint = 0) :
    densifyStep offsetNeighHost 1 st =
      if st.nConsecutiveExpansions + 2 > 10 then .error .tooManyConsecutiveExpansions
      else .ok { st with
        vNewWaypoints := [a] :: [a + 1 / 2 * (b - a) + 1] :: [b] :: rest
        vForceInitialChecking := (st.vForceInitialChecking.set 1 1).insertIdx 1 1
        nConsecutiveExpansions := st.nConsecutiveExpansions + 2 } := by
  have hd : midpointDist 1 [a] [b] [a + 1 / 2 * (b - a) + 1] > 1 / 100000 := by
    simp only [midpointDist, List.range_succ, List.range_zero, List.nil_append, List.foldl_cons,
      List.foldl_nil, List.getD_cons_zero]
    have : 1 / 2 * (b + a) - (a + 1 / 2 * (b - a) + 1) = -1 := by ring
    rw [this]
    norm_num
  unfold densifyStep
  simp only [hw, hi, List.getD_cons_zero, List.getD_cons_succ, offsetNeighHost, Bool.not_true,
    Bool.false_eq_true, if_false, List.range_succ, List.range_zero, List.nil_append,
    List.map_cons, List.map_nil, List.zipWith_cons_cons, List.zipWith_nil_right, hd, if_true,
    Nat.zero_add, List.insertIdx_succ_cons, List.insertIdx_zero]

theorem densifyLoop_offset_run (k : Nat) :
    ∀ (st : DensifyState) (a b : dReal) (rest : List (List dReal)),
      st.vNewWaypoints = [a] :: [b] :: rest → st.iwaypoint = 0 →
      st.nConsecutiveExpansions + 2 * (k : Int) ≤ 10 →
      ∃ (st2 : DensifyState) (a2 b2 : dReal) (rest2 : List (List dReal)),
        st2.vNewWaypoints = [a2] :: [b2] :: rest2 ∧ st2.iwaypoint = 0 ∧
        st2.nConsecutiveExpansions = st.nConsecutiveExpansions + 2 * (k : Int) ∧
        ∀ fuel, densifyLoop offsetNeighHost 1 (k + fuel) st =
          densifyLoop offsetNeighHost 1 fuel st2 := by
  induction k with
  | zero =>
    intro st a b rest hw hi _
    exact ⟨st, a, b, rest, hw, hi, by simp, fun fuel => by rw [Nat.zero_add]⟩
  | succ k ih =>
    intro st a b rest hw hi hc
    have hc1 : ¬ (st.nConsecutiveExpansions + 2 > 10) := by
      push_cast at hc
      omega
    obtain ⟨st2, a2, b2, rest2, hw2, hi2, hn2, hrun⟩ := ih
      { st with
        vNewWaypoints := [a] :: [a + 1 / 2 * (b - a) + 1] :: [b] :: rest
        vForceInitialChecking := (st.vForceInitialChecking.set 1 1).insertIdx 1 1
        nConsecutiveExpansions := st.nConsecutiveExpansions + 2 }
      a (a + 1 / 2 * (b - a) + 1) ([b] :: rest) rfl hi (by
        push_cast at hc ⊢
        omega)
    refine ⟨st2, a2, b2, rest2, hw2, hi2, ?_, fun fuel => ?_⟩
    · rw [hn2]
      push_cast
      ring
    · rw [show k + 1 + fuel = (k + fuel) + 1 by omega, densifyLoop]
      have hlt : st.iwaypoint + 1 < st.vNewWaypoints.length := by
        rw [hi, hw]
        simp
      rw [if_pos hlt, densifyStep_offset st a b rest hw hi, if_neg hc1]
      exact hrun fuel

theorem densifyLoop_offset_fail (st : DensifyState) (a b : dReal) (rest : List (List dReal))
    (hw : st.vNewWaypoints = [a] :: [b] :: rest) (hi : st.iwaypoint = 0)
    (hc : st.nConsecutiveExpansions + 2 > 10) (fuel : Nat) :
    densifyLoop offsetNeighHost 1 (fuel + 1) st =
      some (.error .tooManyConsecutiveExpansions) := by
  have hlt : st.iwaypoint + 1 < st.vNewWaypoints.length := by
    rw [hi, hw]
    simp
  rw [densifyLoop, if_pos hlt, densifyStep_offset st a b rest hw hi, if_pos hc]

theorem setMileStones_offset (K : Consts) (H : Host) (I : ParabolicInterpolator) (m : dReal) :
    _SetMileStones K H plainPlanner I (some offsetNeighHost) 5 m [[0], [1]] = none ∧
    _SetMileStones K H plainPlanner I (some offsetNeighHost) 6 m [[0], [1]] =
      some (.error .tooManyConsecutiveExpansions) := by
  have hdof : plainPlanner.params.dof = 1 := rfl
  obtain ⟨st2, a2, b2, rest2, hw2, hi2, hn2, hrun⟩ := densifyLoop_offset_run 5
    { vNewWaypoints := [[0], [1]], vForceInitialChecking := List.replicate 2 0,
      nConsecutiveExpansions := 0, iwaypoint := 0 } 0 1 [] rfl rfl (by decide)
  have h5 := hrun 0
  have h6 := hrun 1
  rw [densifyLoop] at h5
  rw [densifyLoop_offset_fail st2 a2 b2 rest2 hw2 hi2 (by rw [hn2]; decide) 0] at h6
  unfold _SetMileStones
  simp only [hdof, List.length_cons, List.length_nil]
  constructor
  · rw [show (5 : Nat) = 5 + 0 from rfl, h5]
    rfl
  · rw [show (6 : Nat) = 5 + 1 from rfl, h6]
    rfl

/-- C17 (counterexample).  On the waypoints `[0]`, `[1]` with a neighbour
function that always returns a far middle point, `_SetMileStones` reports
"too many consecutive expansions" in the sixth iteration of its densification
loop, that is after six consecutive expansions: five iterations do not end the
loop, six do. -/
theorem C17_six_expansions_fail :
    _SetMileStones openraveConsts plainHost plainPlanner idleInterpolator (some offsetNeighHost)
      5 0 [[0], [1]] = none ∧
    _SetMileStones openraveConsts plainHost plainPlanner idleInterpolator (some offsetNeighHost)
      6 0 [[0], [1]] = some (.error .tooManyConsecutiveExpansions) :=
  setMileStones_offset openraveConsts plainHost idleInterpolator 0

/-- C17 (amended).  An iteration of the densification loop reports "too many
consecutive expansions" exactly when it is a midpoint expansion (the state was
set, the neighbour function returned a middle point further than `distThresh`
from the expected one) that brings the counter `nConsecutiveExpansions` above
10; an iteration that goes on is either an expansion, which raises the counter
by 2 and stays at the same waypoint, or an accepted waypoint, which lowers a
positive counter by 1 and moves on. -/
theorem C17_expansion_counter (N : NeighHost) (ndof : Nat) (st : DensifyState) :
    (densifyStep N ndof st = .error .tooManyConsecutiveExpansions ↔
      ∃ xmid, N.SetStateValues (st.vNewWaypoints.getD st.iwaypoint []) = true ∧
        N._neighstatefn (st.vNewWaypoints.getD st.iwaypoint [])
          ((List.range ndof).map fun idof =>
            (1 / 2) * ((st.vNewWaypoints.getD (st.iwaypoint + 1) []).getD idof 0 -
              (st.vNewWaypoints.getD st.iwaypoint []).getD idof 0)) = some xmid ∧
        midpointDist ndof (st.vNewWaypoints.getD st.iwaypoint [])
          (st.vNewWaypoints.getD (st.iwaypoint + 1) []) xmid > 1 / 100000 ∧
        st.nConsecutiveExpansions + 2 > 10) ∧
    ∀ st2, densifyStep N ndof st = .ok st2 →
      (st2.nConsecutiveExpansions = st.nConsecutiveExpansions + 2 ∧
        st2.iwaypoint = st.iwaypoint ∧
        ∃ xmid, st2.vNewWaypoints = st.vNewWaypoints.insertIdx (st.iwaypoint + 1) xmid) ∨
      (st2.nConsecutiveExpansions =
          (if st.nConsecutiveExpansions > 0 then st.nConsecutiveExpansions - 1
            else st.nConsecutiveExpansions) ∧
        st2.iwaypoint = st.iwaypoint + 1 ∧ st2.vNewWaypoints = st.vNewWaypoints) := by
  unfold densifyStep
  simp only
  cases hs : N.SetStateValues (st.vNewWaypoints.getD st.iwaypoint [])
  · simp
  · simp only [Bool.not_true, Bool.false_eq_true, if_false, true_and]
    cases hn : N._neighstatefn (st.vNewWaypoints.getD st.iwaypoint [])
        ((List.range ndof).map fun idof =>
          (1 / 2) * ((st.vNewWaypoints.getD (st.iwaypoint + 1) []).getD idof 0 -
            (st.vNewWaypoints.getD st.iwaypoint []).getD idof 0)) with
    | none => simp
    | some xmid =>
      simp only [Option.some.injEq, exists_eq_left']
      by_cases hd : midpointDist ndof (st.vNewWaypoints.getD st.iwaypoint [])
          (st.vNewWaypoints.getD (st.iwaypoint + 1) []) xmid > 1 / 100000
      · simp only [if_pos hd, hd, true_and]
        by_cases hc : st.nConsecutiveExpansions + 2 > 10
        · simp [if_pos hc, hc]
        · simp only [if_neg hc, hc, iff_false]
          refine ⟨by simp, ?_⟩
          intro st2 h
          cases h
          exact Or.inl ⟨rfl, rfl, xmid, rfl⟩
      · simp only [if_neg hd, hd, false_and, iff_false]
        refine ⟨by simp, ?_⟩
        intro st2 h
        cases h
        exact Or.inr ⟨rfl, rfl, rfl⟩

theorem stopTime_append (Rs : List (List RampND)) (R : List RampND) (k : Nat)
    (hk : k < Rs.length) : stopTime (Rs ++ [R]) k = stopTime Rs k := by
  unfold stopTime
  rw [List.take_append_of_le_length (by omega)]

theorem stopTime_last (Rs : List (List RampND)) (R : List RampND) :
    stopTime (Rs ++ [R]) Rs.length =
      (match Rs.length with
        | 0 => 0
        | n + 1 => stopTime Rs n) + totalDuration R := by
  unfold stopTime
  have h1 : (Rs ++ [R]).take (Rs.length + 1) = Rs ++ [R] :=
    List.take_of_length_le (by simp)
  rw [h1, List.map_append, List.sum_append]
  cases hR : Rs.length with
  | zero =>
    have : Rs = [] := List.length_eq_zero.mp hR
    simp [this]
  | succ n =>
    have : Rs.take (n + 1) = Rs := List.take_of_length_le (by omega)
    simp [this]

theorem duration_getD (o : Option RampND) :
    (o.getD default).duration = (o.map fun r => r.duration).getD 0 := by
  cases o <;> rfl

theorem stopNeighbour_append (Rs : List (List RampND)) (R : List RampND) (k : Nat)
    (hk : k + 1 < Rs.length) : stopNeighbour (Rs ++ [R]) k = stopNeighbour Rs k := by
  unfold stopNeighbour
  rw [stopTime_append Rs R k (by omega)]
  simp [List.getD_eq_getElem?_getD, List.getElem?_append_left, hk, Nat.lt_of_succ_lt hk,
    List.getElem_append_left]

theorem stopNeighbour_append_last (Rs : List (List RampND)) (R : List RampND) (n : Nat)
    (hlen : Rs.length = n + 1) :
    stopNeighbour (Rs ++ [R]) n =
      ((stopNeighbour Rs n).1, (stopNeighbour Rs n).2 + (R.head?.getD default).duration) := by
  have h1 : (Rs ++ [R]).getD n [] = Rs.getD n [] := by
    simp [List.getD_eq_getElem?_getD, List.getElem?_append_left, hlen]
  have h2 : (Rs ++ [R]).getD (n + 1) [] = R := by
    simp [List.getD_eq_getElem?_getD, ← hlen]
  have h3 : Rs.getD (n + 1) [] = [] := by
    rw [List.getD_eq_getElem?_getD, List.getElem?_eq_none (by omega)]
    rfl
  unfold stopNeighbour
  rw [stopTime_append Rs R n (by omega), h1, h2, h3, duration_getD]
  simp

theorem stopNeighbour_append_new (Rs : List (List RampND)) (R : List RampND) :
    stopNeighbour (Rs ++ [R]) Rs.length =
      (stopTime (Rs ++ [R]) Rs.length - (R.getLast?.getD default).duration,
        stopTime (Rs ++ [R]) Rs.length) := by
  have h1 : (Rs ++ [R]).getD Rs.length [] = R := by
    simp [List.getD_eq_getElem?_getD]
  have h2 : (Rs ++ [R]).getD (Rs.length + 1) [] = [] := by
    rw [List.getD_eq_getElem?_getD, List.getElem?_eq_none (by simp)]
    rfl
  unfold stopNeighbour
  rw [h1, h2, duration_getD]
  simp

theorem recordStops_closed (m0 : dReal) (Rs : List (List RampND)) :
    (recordStops Rs
        { path := [], _zeroVelPoints := [], _zeroVelPointNeighbors := [],
          _maxInitialRampTime := m0 }).path = Rs.flatten ∧
    (recordStops Rs
        { path := [], _zeroVelPoints := [], _zeroVelPointNeighbors := [],
          _maxInitialRampTime := m0 })._zeroVelPoints = (List.range Rs.length).map (stopTime Rs) ∧
    (recordStops Rs
        { path := [], _zeroVelPoints := [], _zeroVelPointNeighbors := [],
          _maxInitialRampTime := m0 })._zeroVelPointNeighbors =
      (List.range Rs.length).map (stopNeighbour Rs) := by
  induction Rs using List.reverseRecOn with
  | nil => simp [recordStops]
  | append_singleton Rs R ih =>
    obtain ⟨hp, hz, hn⟩ := ih
    have hfold : recordStops (Rs ++ [R])
        { path := [], _zeroVelPoints := [], _zeroVelPointNeighbors := [],
          _maxInitialRampTime := m0 } =
        recordStop R (R.head?.getD default) (R.getLast?.getD default)
          (recordStops Rs
                { path := [], _zeroVelPoints := [], _zeroVelPointNeighbors := [],
                  _maxInitialRampTime := m0 }) := by
      simp [recordStops, List.foldl_append]
    rw [hfold]
    generalize recordStops Rs
        { path := [], _zeroVelPoints := [], _zeroVelPointNeighbors := [],
          _maxInitialRampTime := m0 } = s at hp hz hn
    have hZmap : (List.range Rs.length).map (stopTime (Rs ++ [R])) =
        (List.range Rs.length).map (stopTime Rs) :=
      List.map_congr_left (fun k hk => stopTime_append Rs R k (List.mem_range.mp hk))
    cases hlen : Rs.length with
    | zero =>
      have hnil : Rs = [] := List.length_eq_zero.mp hlen
      subst hnil
      simp only [List.length_nil, List.range_zero, List.map_nil, List.flatten_nil] at hp hz hn
      refine ⟨?_, ?_, ?_⟩
      · simp [recordStop, hp]
      · simp [recordStop, hz, stopTime, List.range_succ]
      · simp only [recordStop, hz, hn, List.getLast?_nil, List.nil_append,
          List.length_singleton, List.range_succ, List.range_zero, List.map_cons, List.map_nil,
          List.getLast?_singleton, Option.getD_some, stopNeighbour, stopTime, duration_getD]
        simp
    | succ n =>
      have hlast : (List.range Rs.length).map (stopTime Rs) =
          (List.range n).map (stopTime Rs) ++ [stopTime Rs n] := by
        rw [hlen, List.range_succ, List.map_append]
        rfl
      have hnlast : (List.range Rs.length).map (stopNeighbour Rs) =
          (List.range n).map (stopNeighbour Rs) ++ [stopNeighbour Rs n] := by
        rw [hlen, List.range_succ, List.map_append]
        rfl
      have hst := stopTime_last Rs R
      rw [hlen] at hst
      simp only at hst
      refine ⟨?_, ?_, ?_⟩
      · simp [recordStop, hp]
      · simp only [recordStop, hz]
        rw [List.length_append, List.length_singleton, List.range_succ, List.map_append, hZmap,
          List.map_cons, List.map_nil, hlast,
          List.getLast?_append_of_ne_nil _ (List.cons_ne_nil _ _), List.getLast?_singleton]
        simp only
        rw [hlen, hst]
      · have hNmap : (List.range n).map (stopNeighbour (Rs ++ [R])) =
            (List.range n).map (stopNeighbour Rs) :=
          List.map_congr_left (fun k hk =>
            stopNeighbour_append Rs R k (by have := List.mem_range.mp hk; omega))
        have hnew := stopNeighbour_append_new Rs R
        rw [hlen] at hnew
        simp only [recordStop, hz, hn]
        rw [hlast, hnlast, List.getLast?_append_of_ne_nil _ (List.cons_ne_nil _ _),
          List.getLast?_append_of_ne_nil _ (List.cons_ne_nil _ _), List.getLast?_singleton,
          List.getLast?_singleton]
        simp only
        rw [List.length_append, List.length_singleton, hlen, List.range_succ, List.range_succ,
          List.map_append, List.map_append, hNmap, List.map_cons, List.map_nil, List.map_cons,
          List.map_nil, stopNeighbour_append_last Rs R n hlen, hnew, hst]
        simp

theorem mileStoneLoop_records (K : Consts) (H : Host) (P : Planner) (I : ParabolicInterpolator)
    (options : Nat) (force : List Nat) :
    ∀ (ws : List (List dReal)) (prev : List dReal) (iw : Nat) (st st2 : MileStoneState),
      mileStoneLoop K H P I options force ws prev iw st = some st2 →
      ∃ Rs : List (List RampND), Rs.length = ws.length ∧ (∀ R ∈ Rs, R ≠ []) ∧
        (∀ i, i < ws.length → ∃ raw,
          _ComputeRampWithZeroVelEndpoints K H P I ((prev :: ws).getD i []) (ws.getD i [])
            options = some raw ∧
          (Rs.getD i []).map (fun r => r.duration) = raw.map (fun r => r.duration)) ∧
        st2 = recordStops Rs st := by
  intro ws
  induction ws with
  | nil =>
    intro prev iw st st2 h
    rw [mileStoneLoop] at h
    cases h
    exact ⟨[], rfl, by simp, by simp, rfl⟩
  | cons w rest ih =>
    intro prev iw st st2 h
    rw [mileStoneLoop] at h
    cases hc : _ComputeRampWithZeroVelEndpoints K H P I prev w options with
    | none =>
      rw [hc] at h
      cases h
    | some raw =>
      rw [hc] at h
      simp only at h
      generalize hR : (if (!P.params.verifyinitialpath && decide (force.getD iw 0 = 0)) = true then
          raw.map fun r => { r with constraintChecked := true } else raw) = R at h
      have hdur : R.map (fun r => r.duration) = raw.map (fun r => r.duration) := by
        rw [← hR]
        split_ifs
        · rw [List.map_map]
          rfl
        · rfl
      cases hh : R.head? with
      | none =>
        rw [hh] at h
        cases h
      | some front =>
        cases hl : R.getLast? with
        | none =>
          rw [hh, hl] at h
          cases h
        | some back =>
          rw [hh, hl] at h
          simp only at h
          obtain ⟨Rs, hlen, hne, hrel, hst⟩ := ih w (iw + 1) _ st2 h
          refine ⟨R :: Rs, by simp [hlen], ?_, ?_, ?_⟩
          · intro R2 hR2
            rcases List.mem_cons.mp hR2 with h1 | h1
            · rw [h1]
              intro hnil
              rw [hnil] at hh
              cases hh
            · exact hne R2 h1
          · intro i hi
            cases i with
            | zero => exact ⟨raw, hc, hdur⟩
            | succ j =>
              have hj : j < rest.length := by
                simp only [List.length_cons] at hi
                omega
              simpa using hrel j hj
          · rw [hst]
            simp [recordStops, hh, hl]

theorem densifyStep_length (N : NeighHost) (ndof : Nat) (st st2 : DensifyState)
    (h : densifyStep N ndof st = .ok st2) :
    st.vNewWaypoints.length ≤ st2.vNewWaypoints.length := by
  unfold densifyStep at h
  simp only at h
  cases hs : N.SetStateValues (st.vNewWaypoints.getD st.iwaypoint [])
  · rw [hs] at h
    simp only [Bool.not_false, if_true] at h
    cases h
  · simp only [hs, Bool.not_true, Bool.false_eq_true, if_false] at h
    cases hn : N._neighstatefn (st.vNewWaypoints.getD st.iwaypoint [])
        ((List.range ndof).map fun idof =>
          (1 / 2) * ((st.vNewWaypoints.getD (st.iwaypoint + 1) []).getD idof 0 -
            (st.vNewWaypoints.getD st.iwaypoint []).getD idof 0)) with
    | none =>
      rw [hn] at h
      cases h
    | some xmid =>
      simp only [hn] at h
      by_cases hd : midpointDist ndof (st.vNewWaypoints.getD st.iwaypoint [])
          (st.vNewWaypoints.getD (st.iwaypoint + 1) []) xmid > 1 / 100000
      · simp only [if_pos hd] at h
        by_cases hc : st.nConsecutiveExpansions + 2 > 10
        · rw [if_pos hc] at h
          cases h
        · simp only [if_neg hc] at h
          cases h
          exact List.length_le_length_insertIdx _ _ _
      · simp only [if_neg hd] at h
        cases h
        exact le_refl _

theorem densifyLoop_length (N : NeighHost) (ndof : Nat) :
    ∀ (fuel : Nat) (st st2 : DensifyState),
      densifyLoop N ndof fuel st = some (.ok st2) →
      st.vNewWaypoints.length ≤ st2.vNewWaypoints.length := by
  intro fuel
  induction fuel with
  | zero =>
    intro st st2 h
    rw [densifyLoop] at h
    cases h
  | succ fuel ih =>
    intro st st2 h
    rw [densifyLoop] at h
    split_ifs at h
    · cases hs : densifyStep N ndof st with
      | error e =>
        rw [hs] at h
        cases h
      | ok st1 =>
        rw [hs] at h
        exact le_trans (densifyStep_length N ndof st st1 hs) (ih st1 st2 h)
    · cases h
      exact le_refl _

theorem lastDuration_nonneg (R : List RampND) (h : ∀ r ∈ R, 0 ≤ r.duration) :
    0 ≤ (R.getLast?.map fun r => r.duration).getD 0 := by
  cases hl : R.getLast? with
  | none => simp
  | some b =>
    simp only [Option.map_some', Option.getD_some]
    exact h b (List.mem_of_getLast?_eq_some hl)

theorem headDuration_nonneg (R : List RampND) (h : ∀ r ∈ R, 0 ≤ r.duration) :
    0 ≤ (R.head?.map fun r => r.duration).getD 0 := by
  cases hl : R.head? with
  | none => simp
  | some b =>
    simp only [Option.map_some', Option.getD_some]
    exact h b (List.mem_of_mem_head? hl)

theorem stopNeighbour_encloses (Rs : List (List RampND))
    (h : ∀ R ∈ Rs, ∀ r ∈ R, 0 ≤ r.duration) (k : Nat) :
    (stopNeighbour Rs k).1 ≤ stopTime Rs k ∧ stopTime Rs k ≤ (stopNeighbour Rs k).2 := by
  have hget : ∀ i, ∀ r ∈ Rs.getD i [], 0 ≤ r.duration := by
    intro i r hr
    by_cases hi : i < Rs.length
    · rw [List.getD_eq_getElem _ _ hi] at hr
      exact h _ (List.getElem_mem _) r hr
    · rw [List.getD_eq_getElem?_getD, List.getElem?_eq_none (by omega)] at hr
      cases hr
  have h1 := lastDuration_nonneg (Rs.getD k []) (hget k)
  have h2 := headDuration_nonneg (Rs.getD (k + 1) []) (hget (k + 1))
  unfold stopNeighbour
  constructor <;> simp only <;> linarith

theorem map_range_dropLast (f : Nat → dReal × dReal) (n : Nat) :
    ((List.range n).map f).dropLast = (List.range (n - 1)).map f := by
  cases n with
  | zero => rfl
  | succ m =>
    rw [List.range_succ, List.map_append, List.map_cons, List.map_nil, List.dropLast_concat]
    rfl

theorem map_range_dropLast_real (f : Nat → dReal) (n : Nat) :
    ((List.range n).map f).dropLast = (List.range (n - 1)).map f := by
  cases n with
  | zero => rfl
  | succ m =>
    rw [List.range_succ, List.map_append, List.map_cons, List.map_nil, List.dropLast_concat]
    rfl

/-- C19.  When `_SetMileStones` succeeds on at least two waypoints, let
`dense` be the waypoints after densification (`n` of them) and `Rs` the ramp
lists `R_1 .. R_(n-1)` with which `_ComputeRampWithZeroVelEndpoints`
interpolated the consecutive pairs (each non-empty; the path is their
concatenation).  Then the registry has the `n - 2` entries
`Z[k] = duration of R_1 .. R_(k+1)`, the neighbour list has the same length with
entry `k` equal to `(Z[k] - duration of the last ramp of R_(k+1),
Z[k] + duration of the first ramp of R_(k+2))`, and with non-negative ramp
durations `t_left ≤ Z[k] ≤ t_right`. -/
theorem C19_registry_built_by_initializer (K : Consts) (H : Host) (P : Planner)
    (I : ParabolicInterpolator) (neigh : Option NeighHost) (fuel : Nat) (m0 : dReal)
    (vWaypoints : List (List dReal)) (st : MileStoneState) (hn : 2 ≤ vWaypoints.length)
    (h : _SetMileStones K H P I neigh fuel m0 vWaypoints = some (.ok st)) :
    ∃ (dense : List (List dReal)) (Rs : List (List RampND)),
      vWaypoints.length ≤ dense.length ∧ Rs.length = dense.length - 1 ∧
      (∀ R ∈ Rs, R ≠ []) ∧
      (∀ i, i + 1 < dense.length → ∃ raw,
        _ComputeRampWithZeroVelEndpoints K H P I (dense.getD i []) (dense.getD (i + 1) [])
          (if !P.params.verifyinitialpath then
            clearBits (clearBits K.CFO_CheckTimeBasedConstraints K.CFO_CheckEnvCollisions)
              K.CFO_CheckSelfCollisions
          else K.CFO_CheckTimeBasedConstraints) = some raw ∧
        (Rs.getD i []).map (fun r => r.duration) = raw.map (fun r => r.duration)) ∧
      st.path = Rs.flatten ∧
      st._zeroVelPoints = (List.range (dense.length - 2)).map (stopTime Rs) ∧
      st._zeroVelPointNeighbors = (List.range (dense.length - 2)).map (stopNeighbour Rs) ∧
      ((∀ R ∈ Rs, ∀ r ∈ R, 0 ≤ r.duration) → ∀ k, k < dense.length - 2 →
        (stopNeighbour Rs k).1 ≤ stopTime Rs k ∧ stopTime Rs k ≤ (stopNeighbour Rs k).2) := by
  obtain ⟨w0, w1, ws, rfl⟩ : ∃ w0 w1 ws, vWaypoints = w0 :: w1 :: ws := by
    match vWaypoints, hn with
    | w0 :: w1 :: ws, _ => exact ⟨w0, w1, ws, rfl⟩
  unfold _SetMileStones at h
  simp only [Option.map_eq_some'] at h
  obtain ⟨d, hd, hres⟩ := h
  have hdlen : (w0 :: w1 :: ws).length ≤
      (match d with
        | .error _ => w0 :: w1 :: ws
        | .ok d => d.vNewWaypoints).length := by
    cases neigh with
    | none =>
      simp only at hd
      cases hd
      exact le_refl _
    | some N =>
      simp only at hd
      cases d with
      | error e => exact le_refl _
      | ok d => exact densifyLoop_length N _ _ _ d hd
  cases d with
  | error e => cases hres
  | ok d =>
    simp only at hdlen hres
    cases hdw : d.vNewWaypoints with
    | nil =>
      rw [hdw] at hdlen
      simp at hdlen
    | cons first rest =>
      rw [hdw] at hres hdlen
      simp only at hres
      cases hloop : mileStoneLoop K H P I
          (if !P.params.verifyinitialpath then
            clearBits (clearBits K.CFO_CheckTimeBasedConstraints K.CFO_CheckEnvCollisions)
              K.CFO_CheckSelfCollisions
          else K.CFO_CheckTimeBasedConstraints) d.vForceInitialChecking rest first 1
          { path := [], _zeroVelPoints := [], _zeroVelPointNeighbors := [],
            _maxInitialRampTime := m0 } with
      | none =>
        rw [hloop] at hres
        cases hres
      | some s1 =>
        rw [hloop] at hres
        simp only [Except.ok.injEq] at hres
        obtain ⟨Rs, hlen, hne, hrel, hs1⟩ := mileStoneLoop_records K H P I _ _ rest first 1 _ s1
          hloop
        obtain ⟨hp, hz, hnb⟩ := recordStops_closed m0 Rs
        rw [← hs1] at hp hz hnb
        refine ⟨first :: rest, Rs, hdlen, by simp [hlen], hne, ?_, ?_, ?_, ?_, ?_⟩
        · intro i hi
          have hi2 : i < rest.length := by
            simp only [List.length_cons] at hi
            omega
          simpa using hrel i hi2
        · rw [← hres]
          exact hp
        · rw [← hres]
          simp only
          rw [hz, map_range_dropLast_real, hlen]
          rfl
        · rw [← hres]
          simp only
          rw [hnb, map_range_dropLast, hlen]
          rfl
        · intro hdur k _
          exact stopNeighbour_encloses Rs hdur k

theorem SegmentFeasible2_unmodified (K : Consts) (H : Host) (P : Planner)
    (q0 q1 dq0 dq1 : List dReal) (t : dReal) (o : Nat) (configs : List dReal)
    (ht : t > K.g_fEpsilon) (hm : P._bmanipconstraints = false)
    (hhost : ∀ o2, H.CheckPathAllConstraints q0 q1 dq0 dq1 t o2 = some (0, configs, []))
    (hclamp : clampAccelerations P.params._vConfigAccelerationLimit q0.length
      (RampND.Initialize q0 q1 dq0 dq1 t) = (RampND.Initialize q0 q1 dq0 dq1 t, false)) :
    SegmentFeasible2 K H P q0 q1 dq0 dq1 t o =
      ({ retcode := 0 },
        [{ RampND.Initialize q0 q1 dq0 dq1 t with constraintChecked := true }]) := by
  unfold SegmentFeasible2
  simp only [if_neg (not_le.mpr ht), hm, Bool.false_and, Bool.false_eq_true, if_false, hhost,
    ne_eq, not_true_eq_false, List.length_nil, gt_iff_lt, lt_self_iff_false, decide_False,
    Bool.and_false, finishSegment, if_true, hclamp, List.nil_append]

theorem SegmentFeasible2_plain_one (K : Consts) (hE : K.g_fEpsilon < 1) (x0 x1 v0 v1 : dReal)
    (o : Nat) (h1 : -1 ≤ (v1 - v0) / 1) (h2 : (v1 - v0) / 1 ≤ 1) :
    SegmentFeasible2 K plainHost plainPlanner [x0] [x1] [v0] [v1] 1 o =
      ({ retcode := 0 },
        [{ RampND.Initialize [x0] [x1] [v0] [v1] 1 with constraintChecked := true }]) :=
  SegmentFeasible2_unmodified K plainHost plainPlanner [x0] [x1] [v0] [v1] 1 o [] hE rfl
    (fun _ => rfl)
    (clampAccelerations_one 1 ((v1 - v0) / 1) (RampND.Initialize [x0] [x1] [v0] [v1] 1) rfl h1 h2)

theorem unitStop_compute (K : Consts) (hE : K.g_fEpsilon < 1) (a b : dReal) (o : Nat) :
    _ComputeRampWithZeroVelEndpoints K plainHost plainPlanner unitStopInterpolator [a] [b] o =
      some [RampND.Initialize [a] [(a + b) / 2] [0] [1] 1,
        RampND.Initialize [(a + b) / 2] [b] [1] [0] 1] := by
  have hI : ∀ vl al, unitStopInterpolator.ComputeZeroVelNDTrajectory [a] [b] vl al =
      [RampND.Initialize [a] [(a + b) / 2] [0] [1] 1,
        RampND.Initialize [(a + b) / 2] [b] [1] [0] 1] := fun _ _ => rfl
  have s1 := SegmentFeasible2_plain_one K hE a ((a + b) / 2) 0 1 o (by norm_num) (by norm_num)
  have s2 := SegmentFeasible2_plain_one K hE ((a + b) / 2) b 1 0 o (by norm_num) (by norm_num)
  unfold _ComputeRampWithZeroVelEndpoints
  rw [show (1000 : Nat) = 999 + 1 from rfl, zeroVelTries]
  simp only [hI, List.head?_cons, zeroVelSegmentsCheck, RampND.Initialize,
    List.zipWith_cons_cons, List.zipWith_nil_right] at s1 s2 ⊢
  simp only [s1, s2, ne_eq, not_true_eq_false, if_false, Bool.false_eq_true, if_true]

theorem setMileStones_three (K : Consts) (hE : K.g_fEpsilon < 1) :
    _SetMileStones K plainHost plainPlanner unitStopInterpolator none 0 0 [[0], [1], [2]] =
      some (.ok { path := stopPath, _zeroVelPoints := [2], _zeroVelPointNeighbors := [(1, 3)],
                  _maxInitialRampTime := 2 }) := by
  have c1 := unitStop_compute K hE 0 1
  have c2 := unitStop_compute K hE 1 2
  have hv : plainPlanner.params.verifyinitialpath = false := rfl
  unfold _SetMileStones
  simp only [hv, Bool.not_false, if_true, Option.map_some', mileStoneLoop, c1, c2,
    List.length_cons, List.length_nil, List.replicate, List.getD_cons_zero, List.getD_cons_succ,
    Bool.true_and, decide_True, List.map_cons, List.map_nil, List.head?_cons, recordStop,
    RampND.Initialize, totalDuration, List.foldl_cons, List.foldl_nil, List.getLast?_nil,
    List.nil_append, List.zipWith_cons_cons, List.zipWith_nil_right, stopPath]
  norm_num [List.getLast?]

/-- C19 (witness): the waypoints `[0]`, `[1]`, `[2]` on a host that passes every
check: the registry is `[2]` with the neighbourhood `(1, 3)`. -/
theorem C19_registry_built_by_initializer_witness :
    2 ≤ ([[0], [1], [2]] : List (List dReal)).length ∧
    _SetMileStones openraveConsts plainHost plainPlanner unitStopInterpolator none 0 0
      [[0], [1], [2]] = some (.ok threeMileStones) ∧
    ∃ (dense : List (List dReal)) (Rs : List (List RampND)),
      ([[0], [1], [2]] : List (List dReal)).length ≤ dense.length ∧
      Rs.length = dense.length - 1 ∧
      (∀ R ∈ Rs, R ≠ []) ∧
      (∀ i, i + 1 < dense.length → ∃ raw,
        _ComputeRampWithZeroVelEndpoints openraveConsts plainHost plainPlanner
          unitStopInterpolator (dense.getD i []) (dense.getD (i + 1) [])
          (if !plainPlanner.params.verifyinitialpath then
            clearBits (clearBits openraveConsts.CFO_CheckTimeBasedConstraints
              openraveConsts.CFO_CheckEnvCollisions) openraveConsts.CFO_CheckSelfCollisions
          else openraveConsts.CFO_CheckTimeBasedConstraints) = some raw ∧
        (Rs.getD i []).map (fun r => r.duration) = raw.map (fun r => r.duration)) ∧
      threeMileStones.path = Rs.flatten ∧
      threeMileStones._zeroVelPoints = (List.range (dense.length - 2)).map (stopTime Rs) ∧
      threeMileStones._zeroVelPointNeighbors =
        (List.range (dense.length - 2)).map (stopNeighbour Rs) ∧
      ((∀ R ∈ Rs, ∀ r ∈ R, 0 ≤ r.duration) → ∀ k, k < dense.length - 2 →
        (stopNeighbour Rs k).1 ≤ stopTime Rs k ∧ stopTime Rs k ≤ (stopNeighbour Rs k).2) := by
  have h := setMileStones_three openraveConsts (by norm_num [openraveConsts])
  exact ⟨by decide, h,
    C19_registry_built_by_initializer openraveConsts plainHost plainPlanner unitStopInterpolator
      none 0 0 [[0], [1], [2]] threeMileStones (by decide) h⟩

theorem foldl_duration_sum : ∀ (l : List RampND) (e : dReal),
    l.foldl (fun d r => d + r.duration) e = e + (l.map fun r => r.duration).sum := by
  intro l
  induction l with
  | nil => intro e; simp
  | cons x xs ihx =>
    intro e
    rw [List.foldl_cons, ihx]
    simp only [List.map_cons, List.sum_cons]
    ring

theorem trajectoryDuration_append (emitted : List TrajWaypoint) (t : List RampND) :
    trajectoryDuration (emitted ++ t.map fun r =>
      ({ position := r.x1, velocity := r.v1, deltatime := r.duration } : TrajWaypoint)) =
      trajectoryDuration emitted + (t.map fun r => r.duration).sum := by
  simp [trajectoryDuration, List.map_append, List.sum_append, Function.comp_def]

theorem emitRamps_duration (K : Consts) (H : Host) (C : Collaborators) (P : Planner)
    (I : ParabolicInterpolator) (isQuadratic : Bool) (numShortcuts : Int) (size : Nat) :
    ∀ (path : List RampND) (irampnd ncalls : Nat) (emitted : List TrajWaypoint) (d0 : dReal)
      (traj : List TrajWaypoint) (d : dReal),
      emitRamps K H C P I isQuadratic numShortcuts size path irampnd ncalls emitted d0 =
        some (.ok (traj, d)) →
      trajectoryDuration traj - trajectoryDuration emitted = d - d0 ∧
      ((∀ r ∈ path, r.constraintChecked = true ∨
          ∀ i n t, checkEmittedRamp K H C P I i size r n = some (.ok t) → t = [r]) →
        d - d0 = (path.map fun r => r.duration).sum) := by
  intro path
  induction path with
  | nil =>
    intro irampnd ncalls emitted d0 traj d h
    rw [emitRamps] at h
    cases h
    simp
  | cons ramp rest ih =>
    intro irampnd ncalls emitted d0 traj d h
    rw [emitRamps] at h
    by_cases hfail : ((!(isQuadratic && decide (numShortcuts = 0)) || !ramp.constraintChecked) &&
        !H.CheckRampND ramp) = true
    · rw [if_pos hfail] at h
      cases h
    · rw [if_neg hfail] at h
      simp only [Option.bind_eq_some] at h
      obtain ⟨r, hfin, hrest⟩ := h
      cases r with
      | error status => cases hrest
      | ok t =>
        simp only at hrest
        obtain ⟨h1, h2⟩ := ih _ _ _ _ _ _ hrest
        rw [trajectoryDuration_append, foldl_duration_sum] at h1
        rw [foldl_duration_sum] at h2
        constructor
        · linarith
        · intro hall
          have h2' := h2 (fun r hr => hall r (List.mem_cons_of_mem _ hr))
          have ht : t.1 = [ramp] := by
            by_cases hc : ramp.constraintChecked = true
            · simp only [hc, Bool.not_true, Bool.false_eq_true, if_false] at hfin
              cases hfin
              rfl
            · rcases hall ramp (List.mem_cons_self _ _) with hc2 | hkeep
              · exact absurd hc2 hc
              · simp only [Bool.not_eq_true] at hc
                simp only [hc, Bool.not_false, if_true, Option.map_eq_some'] at hfin
                obtain ⟨e, he, hmap⟩ := hfin
                cases e with
                | error status => cases hmap
                | ok t2 =>
                  simp only [Except.map, Except.ok.injEq] at hmap
                  rw [← hmap]
                  exact hkeep _ _ _ he
          rw [ht] at h2'
          simp only [List.map_cons, List.map_nil, List.sum_cons, List.sum_nil, add_zero] at h2' ⊢
          linarith

theorem SegmentFeasible2_rejected (K : Consts) (H : Host) (P : Planner)
    (q0 q1 dq0 dq1 : List dReal) (t : dReal) (o code : Nat)
    (ht : t > K.g_fEpsilon) (hm : P._bmanipconstraints = false) (hcode : code ≠ 0)
    (hTB : code ≠ K.CFO_CheckTimeBasedConstraints)
    (hhost : ∀ o2, H.CheckPathAllConstraints q0 q1 dq0 dq1 t o2 = some (code, [], [])) :
    SegmentFeasible2 K H P q0 q1 dq0 dq1 t o = ({ retcode := code }, []) := by
  unfold SegmentFeasible2
  simp only [if_neg (not_le.mpr ht), hm, Bool.false_and, Bool.false_eq_true, if_false, hhost,
    ne_eq, hcode, not_false_eq_true, if_true, if_neg hTB]

theorem checkSegments_step (K : Consts) (feas : FeasibilityCheckerBase) (o : Nat)
    (r : RampND) (rest : List RampND) (st : Check2State) (seg : RampND)
    (hneed : feas.NeedDerivativeForFeasibility = true)
    (hseg : feas.SegmentFeasible2 st.q0 r.x1 st.dq0 r.v1 r.duration o =
      ({ retcode := 0 }, [seg])) :
    checkSegments K feas false o (r :: rest) st =
      checkSegments K feas false o rest
        { q0 := seg.x1, dq0 := seg.v1, dq1 := r.v1, switchtime := st.switchtime + r.duration,
          rampndVectOut := st.rampndVectOut ++ [seg] } := by
  have he : st.switchtime + r.duration - st.switchtime = r.duration := add_sub_cancel_left _ _
  rw [checkSegments]
  simp only [hneed, if_true, Bool.false_eq_true, if_false, he, hseg, ne_eq, not_true_eq_false,
    List.length_cons, List.length_nil, List.getLast?_append_of_ne_nil _ (List.cons_ne_nil seg []),
    List.getLast?_singleton]

theorem repair_configs (K : Consts) (P : Planner) (q dq : List dReal) (o : Nat) :
    ((smootherChecker K repairHost P).ConfigFeasible2 q dq o).retcode = 0 := by
  have h01 : ¬ ((0 : dReal) = 1) := by norm_num
  simp only [smootherChecker, ConfigFeasible2, repairHost, if_neg h01]
  split_ifs <;> rfl

theorem repair_check_original (K : Consts) (hE : K.g_fEpsilon < 1)
    (hL : 0 ≤ K.g_fEpsilonLinear) (hTB : K.CFO_CheckTimeBasedConstraints ≠ 1) (P : Planner)
    (hm : P._bmanipconstraints = false) (hf : P.params.fCosManipAngleThresh = -1)
    (o : Nat) (out0 : List RampND) :
    plannerCheck2 K repairHost P [RampND.Initialize [1] [2] [1] [1] 1] o out0 =
      some ({ retcode := 1 }, []) := by
  have hseg : ∀ o2, SegmentFeasible2 K repairHost P [1] [2] [1] [1] (0 + 1 - 0) o2 =
      ({ retcode := 1 }, []) := fun o2 =>
    SegmentFeasible2_rejected K repairHost P [1] [2] [1] [1] (0 + 1 - 0) o2 1
      (by norm_num; exact hE) hm (by decide) (Ne.symm hTB)
      (fun _ => by simp [repairHost])
  have hb : (true && decide (P.params.fCosManipAngleThresh > -1 + K.g_fEpsilonLinear)) =
      false := by
    rw [hf]
    simp only [Bool.true_and, decide_eq_false_iff_not, gt_iff_lt, not_lt]
    linarith
  have hcf := repair_configs K P
  have h10 : ¬ ((1 : Nat) = 0) := by decide
  unfold plannerCheck2 Check2
  simp only [List.head?_cons, List.getLast?_singleton, hcf, ne_eq, not_true_eq_false, if_false,
    checkSegments, RampND.Initialize, hb, Bool.false_eq_true]
  simp only [smootherChecker, if_true, hseg, h10, not_false_eq_true]

theorem repair_check_stretched (K : Consts) (hE : K.g_fEpsilon < 1 / 100)
    (hL : 0 ≤ K.g_fEpsilonLinear) (hR : 0 ≤ K.g_fRampEpsilon)
    (hcoll : 0xffff &&& K.CFO_CheckEnvCollisions = K.CFO_CheckEnvCollisions)
    (P : Planner) (hm : P._bmanipconstraints = false)
    (hf : P.params.fCosManipAngleThresh = -1)
    (ha : P.params._vConfigAccelerationLimit = [10])
    (d : dReal) (h1 : 105 / 100 ≤ d) (h2 : d ≤ 10501 / 10000) (out0 : List RampND) :
    plannerCheck2 K repairHost P (stretched d) 0xffff out0 =
      some ({ retcode := 0 },
        (stretched d).map fun r => { r with constraintChecked := true }) := by
  have hτ : (0 : dReal) < 20 - 19 * d := by linarith
  have hσ : (0 : dReal) < 39 * d - 40 := by linarith
  have hτ1 : ¬ (20 - 19 * d = 1) := by intro h; linarith
  have hσ1 : ¬ (39 * d - 40 = 1) := by intro h; linarith
  have hb : (true && decide (P.params.fCosManipAngleThresh > -1 + K.g_fEpsilonLinear)) =
      false := by
    rw [hf]
    simp only [Bool.true_and, decide_eq_false_iff_not, gt_iff_lt, not_lt]
    linarith
  have s1 : ∀ o, SegmentFeasible2 K repairHost P [1] [1 + 39 / 40 * (20 - 19 * d)] [1]
      [19 / 20] (20 - 19 * d) o = _ := fun o =>
    SegmentFeasible2_unmodified K repairHost P _ _ _ _ _ o [] (by linarith) hm
      (fun _ => by simp only [repairHost, if_neg hτ1])
      (by
        rw [ha]
        refine clampAccelerations_one 10 ((19 / 20 - 1) / (20 - 19 * d)) _ rfl ?_ ?_
        · rw [le_div_iff₀ hτ]; linarith
        · rw [div_le_iff₀ hτ]; linarith)
  have s2 : ∀ o, SegmentFeasible2 K repairHost P [1 + 39 / 40 * (20 - 19 * d)]
      [2 - 39 / 40 * (20 - 19 * d)] [19 / 20] [19 / 20] (39 * d - 40) o = _ := fun o =>
    SegmentFeasible2_unmodified K repairHost P _ _ _ _ _ o [] (by linarith) hm
      (fun _ => by simp only [repairHost, if_neg hσ1])
      (by
        rw [ha]
        refine clampAccelerations_one 10 ((19 / 20 - 19 / 20) / (39 * d - 40)) _ rfl ?_ ?_
        · rw [le_div_iff₀ hσ]; linarith
        · rw [div_le_iff₀ hσ]; linarith)
  have s3 : ∀ o, SegmentFeasible2 K repairHost P [2 - 39 / 40 * (20 - 19 * d)] [2] [19 / 20]
      [1] (20 - 19 * d) o = _ := fun o =>
    SegmentFeasible2_unmodified K repairHost P _ _ _ _ _ o [] (by linarith) hm
      (fun _ => by simp only [repairHost, if_neg hτ1])
      (by
        rw [ha]
        refine clampAccelerations_one 10 ((1 - 19 / 20) / (20 - 19 * d)) _ rfl ?_ ?_
        · rw [le_div_iff₀ hτ]; linarith
        · rw [div_le_iff₀ hτ]; linarith)
  have hseg : checkSegments K (smootherChecker K repairHost P)
      (true && decide (P.params.fCosManipAngleThresh > -1 + K.g_fEpsilonLinear))
      (clearBits (clearBits 0xffff K.CFO_CheckEnvCollisions) K.CFO_CheckSelfCollisions)
      (stretched d)
      { q0 := [1], dq0 := [1], dq1 := [1], switchtime := 0, rampndVectOut := [] } =
      .ok { q0 := [2], dq0 := [1], dq1 := [1],
            switchtime := 0 + (20 - 19 * d) + (39 * d - 40) + (20 - 19 * d),
            rampndVectOut := (stretched d).map fun r => { r with constraintChecked := true } } := by
    rw [hb, stretched]
    rw [checkSegments_step K _ _ _ _ _ _ rfl (s1 _), checkSegments_step K _ _ _ _ _ _ rfl (s2 _),
      checkSegments_step K _ _ _ _ _ _ rfl (s3 _)]
    rfl
  have h := Check2_of_pass K (smootherChecker K repairHost P) true
    P.params.fCosManipAngleThresh (stretched d) 0xffff out0
    (RampND.Initialize [1] [1 + 39 / 40 * (20 - 19 * d)] [1] [19 / 20] (20 - 19 * d))
    (RampND.Initialize [2 - 39 / 40 * (20 - 19 * d)] [2] [19 / 20] [1] (20 - 19 * d)) _
    rfl rfl (repair_configs K P) hseg (Or.inl hcoll)
  have hv : (vsearchsegments 3).getLast? = some 2 := by decide
  have hfin : ¬ (|(2 : dReal) - 2| > K.g_fRampEpsilon) := by
    rw [sub_self, abs_zero]; exact not_lt.mpr hR
  have hfin2 : ¬ (|(1 : dReal) - 1| > K.g_fRampEpsilon) := by
    rw [sub_self, abs_zero]; exact not_lt.mpr hR
  unfold plannerCheck2
  rw [h]
  simp only [stretched, List.map_cons, List.map_nil, List.length_cons, List.length_nil, hv,
    RampND.Initialize, List.getD_cons_succ, List.getD_cons_zero, List.range_succ,
    List.range_zero, List.nil_append, finalValuesLoop, if_neg hfin, hfin2, decide_False,
    Bool.or_false]

theorem repair_stretch (K : Consts) (hE : K.g_fEpsilon < 1 / 100)
    (hL : 0 ≤ K.g_fEpsilonLinear) (hR : 0 ≤ K.g_fRampEpsilon)
    (hR2 : K.g_fRampEpsilon ≤ 1 / 10 ^ 6)
    (hcoll : 0xffff &&& K.CFO_CheckEnvCollisions = K.CFO_CheckEnvCollisions)
    (P : Planner) (hm : P._bmanipconstraints = false)
    (hf : P.params.fCosManipAngleThresh = -1)
    (ha : P.params._vConfigAccelerationLimit = [10]) :
    stretchTries K repairHost P repairInterpolator (RampND.Initialize [1] [2] [1] [1] 1)
        (5 / 100 * (1 + 5 * K.g_fRampEpsilon)) 4 0 (1 + 5 * K.g_fRampEpsilon) =
      some (some ((stretched (fourthTry K)).map fun r => { r with constraintChecked := true })) := by
  have hI1 : ∀ a b c e d, d < 104 / 100 →
      repairInterpolator.ComputeNDTrajectoryFixedDuration a b c e d = none := by
    intro a b c e d hd
    simp only [repairInterpolator, if_pos hd]
  have hI2 : ∀ a b c e d, ¬ d < 104 / 100 →
      repairInterpolator.ComputeNDTrajectoryFixedDuration a b c e d = some (stretched d) := by
    intro a b c e d hd
    simp only [repairInterpolator, if_neg hd]
  have t0 : 1 + 5 * K.g_fRampEpsilon < 104 / 100 := by norm_num at hR2 ⊢; linarith
  have t1 : 1 + 5 * K.g_fRampEpsilon + 5 * K.g_fRampEpsilon < 104 / 100 := by
    norm_num at hR2 ⊢; linarith
  have t2 : 1 + 5 * K.g_fRampEpsilon + 5 * K.g_fRampEpsilon + 5 * K.g_fRampEpsilon <
      104 / 100 := by
    norm_num at hR2 ⊢; linarith
  have t3 : ¬ fourthTry K < 104 / 100 := by
    unfold fourthTry
    linarith
  have hlo : 105 / 100 ≤ fourthTry K := by unfold fourthTry; linarith
  have hhi : fourthTry K ≤ 10501 / 10000 := by
    unfold fourthTry
    norm_num at hR2 ⊢
    linarith
  have hchk := repair_check_stretched K hE hL hR hcoll P hm hf ha (fourthTry K) hlo hhi []
  have n01 : ¬ (0 > 1) := by decide
  have n11 : ¬ (0 + 1 > 1) := by decide
  have n21 : 0 + 1 + 1 > 1 := by decide
  rw [stretchTries, hI1 _ _ _ _ _ t0, if_neg n01]
  simp only []
  rw [stretchTries, hI1 _ _ _ _ _ t1, if_neg n11]
  simp only []
  rw [stretchTries, hI1 _ _ _ _ _ t2, if_pos n21]
  simp only []
  rw [stretchTries, show 1 + 5 * K.g_fRampEpsilon + 5 * K.g_fRampEpsilon +
    5 * K.g_fRampEpsilon + 5 / 100 * (1 + 5 * K.g_fRampEpsilon) = fourthTry K from rfl,
    hI2 _ _ _ _ _ t3]
  simp only [hchk, Option.some_bind, if_true]

theorem repair_checkEmitted (K : Consts) (hE : K.g_fEpsilon < 1 / 100)
    (hL : 0 ≤ K.g_fEpsilonLinear) (hR : 0 ≤ K.g_fRampEpsilon)
    (hR2 : K.g_fRampEpsilon ≤ 1 / 10 ^ 6) (hTB : K.CFO_CheckTimeBasedConstraints ≠ 1)
    (hcoll : 0xffff &&& K.CFO_CheckEnvCollisions = K.CFO_CheckEnvCollisions) (ncalls : Nat) :
    checkEmittedRamp K repairHost quietCollaborators repairPlanner repairInterpolator 1 3
        (RampND.Initialize [1] [2] [1] [1] 1) ncalls =
      some (.ok ((stretched (fourthTry K)).map fun r => { r with constraintChecked := true })) := by
  have hchk := repair_check_original K (by linarith) hL hTB
    { repairPlanner with _bUsePerturbation := false } rfl rfl 0xffff []
  have hstr := repair_stretch K hE hL hR hR2 hcoll
    { repairPlanner with _bUsePerturbation := false } rfl rfl rfl
  have h10 : ¬ ((1 : Nat) = 0) := by decide
  have h23 : ¬ ((1 : Nat) + 1 = 3) := by decide
  have hcb : quietCollaborators._CallCallbacks ncalls ≠ PlannerAction.PA_Interrupt := by
    simp [quietCollaborators]
  have hd : (RampND.Initialize [1] [2] [1] [1] 1).duration = 1 := rfl
  unfold checkEmittedRamp
  simp only [h10, h23, decide_False, Bool.not_false, Bool.true_and, Bool.false_and, Bool.false_or,
    Bool.not_false, Bool.false_eq_true, if_false, if_true, hchk, Option.some_bind, ne_eq,
    not_false_eq_true, hd, hstr, Option.map_some', if_neg hcb]

theorem repair_emit (K : Consts) (hE : K.g_fEpsilon < 1 / 100)
    (hL : 0 ≤ K.g_fEpsilonLinear) (hR : 0 ≤ K.g_fRampEpsilon)
    (hR2 : K.g_fRampEpsilon ≤ 1 / 10 ^ 6) (hTB : K.CFO_CheckTimeBasedConstraints ≠ 1)
    (hcoll : 0xffff &&& K.CFO_CheckEnvCollisions = K.CFO_CheckEnvCollisions) (ncalls : Nat)
    (n : Int) :
    ∃ d, emitRamps K repairHost quietCollaborators repairPlanner repairInterpolator false n 3
        repairPath 0 ncalls [{ position := [0], velocity := [1], deltatime := 0 }] 0 =
      some (.ok (repairTrajectory (fourthTry K), d)) := by
  have hce := repair_checkEmitted K hE hL hR hR2 hTB hcoll
  have hr : ∀ r, repairHost.CheckRampND r = true := fun _ => rfl
  unfold repairPath
  rw [emitRamps]
  simp only [hr, Bool.not_true, Bool.and_false, Bool.false_eq_true, if_false,
    RampND.Initialize, Option.some_bind]
  rw [emitRamps]
  simp only [hr, Bool.not_true, Bool.and_false, Bool.false_eq_true, if_false, Bool.not_false,
    if_true]
  simp only [RampND.Initialize] at hce
  rw [hce]
  simp only [Option.map_some', Except.map, Option.some_bind]
  rw [emitRamps]
  simp only [hr, Bool.not_true, Bool.and_false, Bool.false_eq_true, if_false,
    Option.some_bind]
  rw [emitRamps]
  exact ⟨_, rfl⟩

theorem repair_planMain (K : Consts) (hE : K.g_fEpsilon < 1 / 100)
    (hL : 0 ≤ K.g_fEpsilonLinear) (hR : 0 ≤ K.g_fRampEpsilon)
    (hR2 : K.g_fRampEpsilon ≤ 1 / 10 ^ 6) (hTB : K.CFO_CheckTimeBasedConstraints ≠ 1)
    (hcoll : 0xffff &&& K.CFO_CheckEnvCollisions = K.CFO_CheckEnvCollisions) (m : dReal)
    (fuel : Nat) (post : PlannerStatus) :
    planMain K repairHost quietCollaborators repairPlanner repairInterpolator m false fuel post
      repairState =
      some { status := post, swapped := some (repairTrajectory (fourthTry K)) } := by
  obtain ⟨d, hemit⟩ := repair_emit K hE hL hR hR2 hTB hcoll (0 + 1 + 1) 0
  have hdur := (emitRamps_duration K repairHost quietCollaborators repairPlanner
    repairInterpolator false 0 3 _ _ _ _ _ _ _ hemit).1
  have hz : trajectoryDuration
      [({ position := [0], velocity := [1], deltatime := 0 } : TrajWaypoint)] = 0 := by
    simp [trajectoryDuration]
  have hok : |d - trajectoryDuration (repairTrajectory (fourthTry K))| ≤ 1 / 100 := by
    rw [hz] at hdur
    have : d - trajectoryDuration (repairTrajectory (fourthTry K)) = 0 := by linarith
    rw [this, abs_zero]
    norm_num
  have hP : ({ repairPlanner with _bUsePerturbation := true } : Planner) = repairPlanner := rfl
  have hset : repairPlanner.params.hasSetStateFn = false := rfl
  have hc : ∀ n, quietCollaborators._CallCallbacks n ≠ PlannerAction.PA_Interrupt := by
    intro n
    simp [quietCollaborators]
  have h00 : ¬ ((0 : Int) < 0) := by decide
  unfold planMain
  simp only [hP, hset, if_neg (hc _), Bool.false_eq_true, if_false, Option.some_bind, h00]
  simp only [repairState, repairPath, RampND.Initialize, List.length_cons, List.length_nil]
    at hemit ⊢
  erw [hemit]
  simp only [Option.map_some']
  exact congrArg some (if_pos hok)

theorem repairTrajectory_duration (d : dReal) :
    trajectoryDuration (repairTrajectory d) = 2 + d := by
  simp only [trajectoryDuration, repairTrajectory, List.map_cons, List.map_nil, List.sum_cons,
    List.sum_nil]
  ring

theorem totalDuration_repairPath : totalDuration repairPath = 3 := by
  norm_num [totalDuration, repairPath, RampND.Initialize]

theorem repair_difference (K : Consts) (hR : 0 ≤ K.g_fRampEpsilon) :
    |trajectoryDuration (repairTrajectory (fourthTry K)) - totalDuration repairPath| >
      1 / 100 := by
  have h : (1 : dReal) / 100 < 2 + fourthTry K - 3 := by
    unfold fourthTry
    linarith
  rw [repairTrajectory_duration, totalDuration_repairPath, abs_of_pos (by linarith)]
  exact h

/-- C11, refuted as stated: the emission compares the duration of the emitted
trajectory with the sum of the durations of the finalized ramps, not with the
duration of the path.  On `repairPath` (duration 3) the host rejects the
unchecked middle ramp, the first three stretch tries fail and the fourth one,
of duration `1 + 15 g_fRampEpsilon + 0.05 (1 + 5 g_fRampEpsilon)`, is
accepted: `PlanPath` completes the emission with the status it was going to
return, and the emitted trajectory is more than 0.01 longer than the path. -/
theorem C11_stretched_segment_changes_duration :
    planMain openraveConsts repairHost quietCollaborators repairPlanner repairInterpolator 0
        false 0 PlannerStatus.PS_HasSolution repairState =
      some { status := PlannerStatus.PS_HasSolution,
             swapped := some (repairTrajectory (fourthTry openraveConsts)) } ∧
    |trajectoryDuration (repairTrajectory (fourthTry openraveConsts)) -
        totalDuration repairPath| > 1 / 100 :=
  ⟨repair_planMain openraveConsts (by norm_num [openraveConsts])
      (by norm_num [openraveConsts]) (by norm_num [openraveConsts])
      (by norm_num [openraveConsts]) (by decide) (by decide) 0 0 PlannerStatus.PS_HasSolution,
    repair_difference openraveConsts (by norm_num [openraveConsts])⟩

theorem SegmentFeasible2_timeBased (K : Consts) (H : Host) (P : Planner)
    (q0 q1 dq0 dq1 : List dReal) (t : dReal) (o : Nat)
    (ht : t > K.g_fEpsilon) (hm : P._bmanipconstraints = false)
    (hcode : K.CFO_CheckTimeBasedConstraints ≠ 0)
    (hhost : ∀ o2, H.CheckPathAllConstraints q0 q1 dq0 dq1 t o2 =
      some (K.CFO_CheckTimeBasedConstraints, [], [])) :
    SegmentFeasible2 K H P q0 q1 dq0 dq1 t o =
      ({ retcode := K.CFO_CheckTimeBasedConstraints, fTimeBasedSurpassMult := 98 / 100 }, []) := by
  unfold SegmentFeasible2
  simp only [if_neg (not_le.mpr ht), hm, Bool.false_and, Bool.false_eq_true, if_false, hhost,
    ne_eq, hcode, not_false_eq_true, if_true]

theorem checkSegments_step_rejected (K : Consts) (feas : FeasibilityCheckerBase) (o : Nat)
    (r : RampND) (rest : List RampND) (st : Check2State) (ret : CheckReturn)
    (segs : List RampND) (e : dReal) (v : List dReal)
    (hneed : feas.NeedDerivativeForFeasibility = true)
    (hrec : recomputeElapsed K st.q0 r.x1 st.dq0 r.v1
      (st.switchtime + r.duration - st.switchtime) = (e, v))
    (hseg : feas.SegmentFeasible2 st.q0 r.x1 st.dq0 v e o = (ret, segs))
    (hret : ret.retcode ≠ 0) :
    checkSegments K feas true o (r :: rest) st = .error (ret, st.rampndVectOut) := by
  rw [checkSegments]
  simp only [hneed, if_true, hrec, hseg, ne_eq, hret, not_false_eq_true]

theorem drift_configs (K : Consts) (P : Planner) (q dq : List dReal) (o : Nat) :
    ((smootherChecker K driftHost P).ConfigFeasible2 q dq o).retcode = 0 := by
  have h01 : ¬ ((0 : dReal) = 1 ∧ q = [0]) := by
    intro h
    exact absurd h.1 (by norm_num)
  have h04 : ¬ ((0 : dReal) = 4) := by norm_num
  have h02 : ¬ ((0 : dReal) = 1 / 2) := by norm_num
  simp only [smootherChecker, ConfigFeasible2, driftHost, if_neg h01, if_neg h04, if_neg h02]
  split_ifs <;> rfl

theorem drift_loop1 (K : Consts) (hR0 : 0 ≤ K.g_fRampEpsilon) (hR : K.g_fRampEpsilon < 1 / 2) :
    modifiedLoop K driftHost bendingPlanner 1 [1 / 2, 1] [7 / 16, 1]
        { curPos := [0], curVel := [0], newVel := [0], curTime := 0, rampndVectOut := [] } =
      .ok { curPos := [1], curVel := [1 / 2], newVel := [7 / 4], curTime := 1,
            rampndVectOut := driftStitched.take 2 } := by
  rw [modifiedLoop_one K _ _ 4 8 rfl rfl (1 / 2) [1] (7 / 16) [1] 0 0 0 0 []
    (by norm_num; linarith)
    (by norm_num [abs_of_pos]; linarith)
    (by norm_num) (by norm_num)]
  rw [modifiedLoop_one K _ _ 4 8 rfl rfl 1 [] 1 [] (7 / 16) _ 0 (1 / 2) _
    (by norm_num; linarith)
    (by norm_num [abs_of_pos]; linarith)
    (by norm_num) (by norm_num)]
  rw [modifiedLoop]
  norm_num [driftStitched, RampND.Initialize]

theorem drift_loop2 (K : Consts) (hR0 : 0 ≤ K.g_fRampEpsilon) (hR : K.g_fRampEpsilon < 1 / 2) :
    modifiedLoop K driftHost bendingPlanner 1 [2, 4] [3 / 2, 2]
        { curPos := [1], curVel := [1 / 2], newVel := [0], curTime := 0, rampndVectOut := [] } =
      .ok { curPos := [2], curVel := [1 / 2], newVel := [0], curTime := 4,
            rampndVectOut := driftStitched.drop 2 } := by
  rw [modifiedLoop_one K _ _ 4 8 rfl rfl 2 [4] (3 / 2) [2] 1 (1 / 2) 0 0 []
    (by norm_num; linarith)
    (by norm_num [abs_of_pos]; linarith)
    (by norm_num) (by norm_num)]
  rw [modifiedLoop_one K _ _ 4 8 rfl rfl 4 [] 2 [] (3 / 2) _ (1 / 2) 2 _
    (by norm_num; linarith)
    (by norm_num [abs_of_pos]; linarith)
    (by norm_num) (by norm_num)]
  rw [modifiedLoop]
  norm_num [driftStitched, RampND.Initialize]

theorem drift_first (K : Consts) (hE : K.g_fEpsilon < 1 / 16)
    (hER : K.g_fEpsilon ≤ K.g_fRampEpsilon) (hR0 : 0 ≤ K.g_fRampEpsilon)
    (hR : K.g_fRampEpsilon < 1 / 2) (hL : K.g_fEpsilonLinear < 1) (o : Nat) :
    SegmentFeasible2 K driftHost bendingPlanner [0] [1] [0] [2] 1 o =
      ({ retcode := 0 }, driftStitched.take 2) :=
  SegmentFeasible2_modified K driftHost bendingPlanner [0] [1] [0] [2] 1 o [7 / 16, 1]
    [1 / 2, 1] _ (by linarith) (by simp only [bendingPlanner, bendingParameters]; linarith) rfl
    (fun _ => by simp [driftHost]) (by decide) (drift_loop1 K hR0 hR)
    (lastConfigurationReached_one K hER 1) (by simp [driftStitched])

theorem drift_second (K : Consts) (hE : K.g_fEpsilon < 1 / 16)
    (hER : K.g_fEpsilon ≤ K.g_fRampEpsilon) (hR0 : 0 ≤ K.g_fRampEpsilon)
    (hR : K.g_fRampEpsilon < 1 / 2) (hL : K.g_fEpsilonLinear < 1) (o : Nat) :
    SegmentFeasible2 K driftHost bendingPlanner [1] [2] [1 / 2] [0] 4 o =
      ({ retcode := 0 }, driftStitched.drop 2) :=
  SegmentFeasible2_modified K driftHost bendingPlanner [1] [2] [1 / 2] [0] 4 o [3 / 2, 2]
    [2, 4] _ (by linarith) (by simp only [bendingPlanner, bendingParameters]; linarith) rfl
    (fun _ => by norm_num [driftHost]) (by decide) (drift_loop2 K hR0 hR)
    (lastConfigurationReached_one K hER 2) (by simp [driftStitched])

theorem drift_expected (K : Consts) (hL : K.g_fEpsilonLinear < 1) :
    (true && decide (bendingPlanner.params.fCosManipAngleThresh > -1 + K.g_fEpsilonLinear)) =
      true := by
  simp only [bendingPlanner, bendingParameters, Bool.true_and, decide_eq_true_eq]
  linarith

theorem drift_segments (K : Consts) (hE : K.g_fEpsilon < 1 / 16)
    (hER : K.g_fEpsilon ≤ K.g_fRampEpsilon) (hR0 : 0 ≤ K.g_fRampEpsilon)
    (hR : K.g_fRampEpsilon < 1 / 2) (hL : K.g_fEpsilonLinear < 1) (o : Nat) :
    checkSegments K (smootherChecker K driftHost bendingPlanner) true o bangBang
        { q0 := [0], dq0 := [0], dq1 := [0], switchtime := 0, rampndVectOut := [] } =
      .ok { q0 := [2], dq0 := [1 / 2], dq1 := [0], switchtime := 0 + 1 + 1,
            rampndVectOut := driftStitched } := by
  have e1 : recomputeElapsed K [0] [1] [0] [2] (0 + 1 - 0) = (1, [2]) := by
    rw [recomputeElapsed_one K 0 1 0 2 _ (by norm_num; linarith) (by norm_num; linarith)
      (by norm_num; linarith) (by norm_num; linarith)]
    norm_num
  have e2 : recomputeElapsed K [1] [2] [1 / 2] [0] (0 + 1 + 1 - (0 + 1)) = (4, [0]) := by
    rw [recomputeElapsed_one K 1 2 (1 / 2) 0 _ (by norm_num [abs_of_pos]; linarith)
      (by norm_num; linarith) (by norm_num; linarith) (by norm_num; linarith)]
    norm_num
  simp only [bangBang, checkSegments, smootherChecker, RampND.Initialize, if_true]
  simp only [e1, drift_first K hE hER hR0 hR hL o]
  simp only [driftStitched, List.take, ne_eq, not_true_eq_false, if_false, List.nil_append,
    List.length_cons, List.length_nil, List.getLast?, List.getLast, RampND.Initialize]
  simp only [e2, drift_second K hE hER hR0 hR hL o]
  simp [driftStitched, RampND.Initialize]

theorem drift_check2_first (K : Consts) (hE : K.g_fEpsilon < 1 / 16)
    (hER : K.g_fEpsilon ≤ K.g_fRampEpsilon) (hR0 : 0 ≤ K.g_fRampEpsilon)
    (hR : K.g_fRampEpsilon < 1 / 2) (hL : K.g_fEpsilonLinear < 1)
    (hbit : 0xffff &&& K.CFO_CheckEnvCollisions = K.CFO_CheckEnvCollisions)
    (out0 : List RampND) :
    plannerCheck2 K driftHost bendingPlanner bangBang 0xffff out0 =
      some ({ retcode := 0, bDifferentVelocity := true }, driftStitched) := by
  have hseg := drift_segments K hE hER hR0 hR hL
    (clearBits (clearBits 0xffff K.CFO_CheckEnvCollisions) K.CFO_CheckSelfCollisions)
  unfold plannerCheck2
  rw [Check2_of_pass K _ true _ bangBang 0xffff out0
    (RampND.Initialize [0] [1] [0] [2] 1) (RampND.Initialize [1] [2] [2] [0] 1) _
    (by simp [bangBang]) (by simp [bangBang]) (drift_configs K bendingPlanner)
    (by rw [drift_expected K hL]; exact hseg) (Or.inl hbit)]
  have hv : (vsearchsegments 4).getLast? = some 3 := by decide
  have h0 : ¬ (|(2 : dReal) - 2| > K.g_fRampEpsilon) := by
    rw [sub_self, abs_zero]
    exact not_lt.mpr hR0
  have h1 : |(0 : dReal) - 1 / 2| > K.g_fRampEpsilon := by
    norm_num [abs_of_pos]
    linarith
  simp only [driftStitched, List.length_cons, List.length_nil, hv,
    List.getD_cons_zero, List.getD_cons_succ, RampND.Initialize, List.length_singleton,
    List.range_succ, List.range_zero, List.nil_append, finalValuesLoop, h0, h1, if_false,
    decide_True, Bool.or_true]

theorem drift_check2_repair (K : Consts) (hE : K.g_fEpsilon < 1 / 16)
    (hR : K.g_fRampEpsilon < 1 / 2) (hL : K.g_fEpsilonLinear < 1)
    (hTB : K.CFO_CheckTimeBasedConstraints = 4) (o : Nat) (out0 : List RampND) :
    plannerCheck2 K driftHost bendingPlanner driftRepair o out0 =
      some ({ retcode := 4, fTimeBasedSurpassMult := 98 / 100 }, []) := by
  have e1 : recomputeElapsed K [3 / 2] [7 / 4] [0] [1] (0 + 1 / 2 - 0) = (1 / 2, [1]) := by
    rw [recomputeElapsed_one K (3 / 2) (7 / 4) 0 1 _ (by norm_num [abs_of_pos]; linarith)
      (by norm_num [abs_of_pos]; linarith) (by norm_num [abs_of_pos]; linarith)
      (by norm_num [abs_of_pos]; linarith)]
    norm_num [abs_of_pos]
  have hs : ∀ o2, SegmentFeasible2 K driftHost bendingPlanner [3 / 2] [7 / 4] [0] [1]
      (1 / 2) o2 = ({ retcode := 4, fTimeBasedSurpassMult := 98 / 100 }, []) := by
    intro o2
    have h := SegmentFeasible2_timeBased K driftHost bendingPlanner [3 / 2] [7 / 4] [0] [1]
      (1 / 2) o2 (by linarith) rfl (by rw [hTB]; decide)
      (fun _ => by rw [hTB]; norm_num [driftHost])
    rw [hTB] at h
    exact h
  have hseg : checkSegments K (smootherChecker K driftHost bendingPlanner) true
      (clearBits (clearBits o K.CFO_CheckEnvCollisions) K.CFO_CheckSelfCollisions) driftRepair
      { q0 := [3 / 2], dq0 := [0], dq1 := [0], switchtime := 0, rampndVectOut := [] } =
      .error ({ retcode := 4, fTimeBasedSurpassMult := 98 / 100 }, []) :=
    checkSegments_step_rejected K _ _ _ _ _ _ [] (1 / 2) [1] rfl e1 (hs _) (by decide)
  have hcf := drift_configs K bendingPlanner
  unfold plannerCheck2 Check2
  simp only [driftRepair, List.head?_cons, List.getLast?_cons_cons, List.getLast?_singleton,
    hcf, ne_eq, not_true_eq_false, if_false, drift_expected K hL, RampND.Initialize]
  simp only [driftRepair, RampND.Initialize] at hseg
  rw [hseg]

theorem drift_plain (K : Consts) (hE : K.g_fEpsilon < 1 / 16) (x0 x1 v0 v1 : dReal) (o : Nat)
    (hx : x0 ≠ 0) (h1 : -8 ≤ (v1 - v0) / 1) (h2 : (v1 - v0) / 1 ≤ 8) :
    SegmentFeasible2 K driftHost bendingPlanner [x0] [x1] [v0] [v1] 1 o =
      ({ retcode := 0 },
        [{ RampND.Initialize [x0] [x1] [v0] [v1] 1 with constraintChecked := true }]) := by
  have hq : ¬ ([x0] = [(0 : dReal)]) := by
    intro h
    exact hx (List.head_eq_of_cons_eq h)
  have h4 : ¬ ((1 : dReal) = 4) := by norm_num
  have h2' : ¬ ((1 : dReal) = 1 / 2) := by norm_num
  exact SegmentFeasible2_unmodified K driftHost bendingPlanner [x0] [x1] [v0] [v1] 1 o []
    (by linarith) rfl
    (fun _ => by simp only [driftHost, hq, and_false, if_false, h4, h2'])
    (clampAccelerations_one 8 ((v1 - v0) / 1) (RampND.Initialize [x0] [x1] [v0] [v1] 1) rfl h1 h2)

theorem drift_candidate_segments (K : Consts) (hE : K.g_fEpsilon < 1 / 16)
    (hR : K.g_fRampEpsilon < 1 / 2) (o : Nat) :
    checkSegments K (smootherChecker K driftHost bendingPlanner) true o driftCandidate
        { q0 := [3 / 2], dq0 := [0], dq1 := [0], switchtime := 0, rampndVectOut := [] } =
      .ok { q0 := [2], dq0 := [0], dq1 := [0], switchtime := 0 + 1 + 1 + 1,
            rampndVectOut := driftBridge } := by
  have e1 : recomputeElapsed K [3 / 2] [13 / 8] [0] [1 / 4] (0 + 1 - 0) = (1, [1 / 4]) := by
    rw [recomputeElapsed_one K (3 / 2) (13 / 8) 0 (1 / 4) _ (by norm_num [abs_of_pos]; linarith)
      (by norm_num [abs_of_pos]; linarith) (by norm_num [abs_of_pos]; linarith)
      (by norm_num [abs_of_pos]; linarith)]
    norm_num [abs_of_pos]
  have e2 : recomputeElapsed K [13 / 8] [15 / 8] [1 / 4] [1 / 4] (0 + 1 + 1 - (0 + 1)) =
      (1, [1 / 4]) := by
    rw [recomputeElapsed_one K (13 / 8) (15 / 8) (1 / 4) (1 / 4) _
      (by norm_num [abs_of_pos]; linarith)
      (by norm_num [abs_of_pos]; linarith) (by norm_num [abs_of_pos]; linarith)
      (by norm_num [abs_of_pos]; linarith)]
    norm_num [abs_of_pos]
  have e3 : recomputeElapsed K [15 / 8] [2] [1 / 4] [0] (0 + 1 + 1 + 1 - (0 + 1 + 1)) =
      (1, [0]) := by
    rw [recomputeElapsed_one K (15 / 8) 2 (1 / 4) 0 _ (by norm_num [abs_of_pos]; linarith)
      (by norm_num [abs_of_pos]; linarith) (by norm_num [abs_of_pos]; linarith)
      (by norm_num [abs_of_pos]; linarith)]
    norm_num [abs_of_pos]
  have s1 := drift_plain K hE (3 / 2) (13 / 8) 0 (1 / 4) o (by norm_num) (by norm_num)
    (by norm_num)
  have s2 := drift_plain K hE (13 / 8) (15 / 8) (1 / 4) (1 / 4) o (by norm_num) (by norm_num)
    (by norm_num)
  have s3 := drift_plain K hE (15 / 8) 2 (1 / 4) 0 o (by norm_num) (by norm_num)
    (by norm_num)
  simp only [RampND.Initialize, List.zipWith_cons_cons, List.zipWith_nil_right] at s1 s2 s3
  simp only [driftCandidate, checkSegments, smootherChecker, RampND.Initialize, if_true,
    List.zipWith_cons_cons, List.zipWith_nil_right]
  simp only [e1, s1, ne_eq, not_true_eq_false, if_false, List.nil_append,
    List.length_cons, List.length_nil, List.getLast?, List.getLast]
  simp only [e2, s2, ne_eq, not_true_eq_false, if_false, List.cons_append, List.nil_append,
    List.length_cons, List.length_nil, List.getLast?, List.getLast]
  simp only [e3, s3, ne_eq, not_true_eq_false, if_false, List.cons_append, List.nil_append,
    List.length_cons, List.length_nil, List.getLast?, List.getLast]
  simp [driftBridge, driftCandidate, RampND.Initialize]

theorem drift_check2_candidate (K : Consts) (hE : K.g_fEpsilon < 1 / 16)
    (hR0 : 0 ≤ K.g_fRampEpsilon) (hR : K.g_fRampEpsilon < 1 / 2) (hL : K.g_fEpsilonLinear < 1)
    (hbit : 0xffff &&& K.CFO_CheckEnvCollisions = K.CFO_CheckEnvCollisions)
    (out0 : List RampND) :
    plannerCheck2 K driftHost bendingPlanner driftCandidate 0xffff out0 =
      some ({ retcode := 0 }, driftBridge) := by
  have hseg := drift_candidate_segments K hE hR
    (clearBits (clearBits 0xffff K.CFO_CheckEnvCollisions) K.CFO_CheckSelfCollisions)
  unfold plannerCheck2
  rw [Check2_of_pass K _ true _ driftCandidate 0xffff out0
    (RampND.Initialize [3 / 2] [13 / 8] [0] [1 / 4] 1) (RampND.Initialize [15 / 8] [2] [1 / 4] [0] 1)
    _ (by simp [driftCandidate]) (by simp [driftCandidate]) (drift_configs K bendingPlanner)
    (by rw [drift_expected K hL]; exact hseg) (Or.inl hbit)]
  have hv : (vsearchsegments 3).getLast? = some 2 := by decide
  have h0 : ¬ (|(2 : dReal) - 2| > K.g_fRampEpsilon) := by
    rw [sub_self, abs_zero]
    exact not_lt.mpr hR0
  have h1 : ¬ (|(0 : dReal) - 0| > K.g_fRampEpsilon) := by
    rw [sub_self, abs_zero]
    exact not_lt.mpr hR0
  simp only [driftBridge, driftCandidate, List.map_cons, List.map_nil, List.length_cons,
    List.length_nil, hv, List.getD_cons_zero, List.getD_cons_succ, RampND.Initialize,
    List.length_singleton, List.range_succ, List.range_zero, List.nil_append, finalValuesLoop,
    h0, h1, if_false, decide_False, Bool.or_self]

theorem totalDuration_driftRepair : totalDuration driftRepair = 1 := by
  norm_num [totalDuration, driftRepair, RampND.Initialize]

theorem totalDuration_driftCandidate : totalDuration driftCandidate = 3 := by
  norm_num [totalDuration, driftCandidate, RampND.Initialize]

theorem drift_checkBlock_repair (K : Consts) (hE : K.g_fEpsilon < 1 / 16)
    (hER : K.g_fEpsilon ≤ K.g_fRampEpsilon) (hR0 : 0 ≤ K.g_fRampEpsilon)
    (hR : K.g_fRampEpsilon < 1 / 2) (hL : K.g_fEpsilonLinear < 1)
    (hbit : 0xffff &&& K.CFO_CheckEnvCollisions = K.CFO_CheckEnvCollisions)
    (hTB : K.CFO_CheckTimeBasedConstraints = 4)
    (st : AttemptState) (hx1 : st.x1Vect = [2]) (hcand : st.shortcutRampNDVect = bangBang) :
    checkBlock K driftHost bendingPlanner driftInterpolator 0 10 (99 / 1000) 2 st =
      some ({ retcode := 4, fTimeBasedSurpassMult := 98 / 100 },
        { st with
          x0Vect := [3 / 2], v0Vect := [0], x1Vect := [2],
          vellimits := raiseVellimits st.vellimits driftStitched,
          shortcutRampNDVect := driftRepair, shortcutRampNDVectOut := driftStitched,
          shortcutRampNDVectOut1 := [] }) := by
  have hset : ∀ x, driftHost.setgetState x = some x := fun _ => rfl
  have hI : ∀ b c d e f, driftInterpolator.ComputeArbitraryVelNDTrajectory [3 / 2] b c d e f
      true = some driftRepair := by
    intro b c d e f
    have h : ¬ ([3 / 2] = [(0 : dReal)]) := by norm_num
    simp only [driftInterpolator, if_neg h, if_true]
  have hlast : driftStitched.getLast? =
      some { RampND.Initialize [3 / 2] [2] [0] [1 / 2] 2 with constraintChecked := true } := rfl
  have hdur : ¬ (totalDuration driftRepair - 2 > (10 : dReal) - 0 - (2 + 99 / 1000)) := by
    rw [totalDuration_driftRepair]
    norm_num
  have h40 : ¬ ((4 : Nat) = 0) := by decide
  unfold checkBlock
  simp only [hset, hx1, hcand, drift_check2_first K hE hER hR0 hR hL hbit, Option.some_bind,
    ne_eq, not_true_eq_false, if_false, hlast, repairLastSegment, RampND.Initialize, hI,
    if_neg hdur, drift_check2_repair K hE hR hL hTB, h40, not_false_eq_true, if_true]

theorem drift_checkBlock_candidate (K : Consts) (hE : K.g_fEpsilon < 1 / 16)
    (hR0 : 0 ≤ K.g_fRampEpsilon) (hR : K.g_fRampEpsilon < 1 / 2) (hL : K.g_fEpsilonLinear < 1)
    (hbit : 0xffff &&& K.CFO_CheckEnvCollisions = K.CFO_CheckEnvCollisions)
    (seg : dReal) (st : AttemptState) (hx1 : st.x1Vect = [2])
    (hcand : st.shortcutRampNDVect = driftCandidate) :
    checkBlock K driftHost bendingPlanner driftInterpolator 0 10 (99 / 1000) seg st =
      some ({ retcode := 0 },
        { st with
          x1Vect := [2], vellimits := raiseVellimits st.vellimits driftBridge,
          shortcutRampNDVectOut := driftBridge }) := by
  have hset : ∀ x, driftHost.setgetState x = some x := fun _ => rfl
  unfold checkBlock
  simp only [hset, hx1, hcand, drift_check2_candidate K hE hR0 hR hL hbit, Option.some_bind,
    ne_eq, not_true_eq_false, if_false]

theorem drift_second_iteration (K : Consts) (hE : K.g_fEpsilon < 1 / 16)
    (hR0 : 0 ≤ K.g_fRampEpsilon) (hR : K.g_fRampEpsilon < 1 / 2) (hL : K.g_fEpsilonLinear < 1)
    (hbit : 0xffff &&& K.CFO_CheckEnvCollisions = K.CFO_CheckEnvCollisions)
    (C : Collaborators) (hC : ∀ n, C._CallCallbacks n = PlannerAction.PA_None)
    (fuel i : Nat) (st : AttemptState) (hx0 : st.x0Vect = [3 / 2]) (hx1 : st.x1Vect = [2]) :
    slowDownLoop K driftHost C bendingPlanner driftInterpolator 0 10
        (99 / 1000) [0] [2] [0] [0] (fuel + 1) i st =
      some (.finished true
        { st with
          x1Vect := [2], vellimits := raiseVellimits st.vellimits driftBridge,
          shortcutRampNDVect := driftCandidate, shortcutRampNDVectOut := driftBridge,
          ncalls := st.ncalls + 1 }) := by
  have hI : ∀ b c d e f, driftInterpolator.ComputeArbitraryVelNDTrajectory st.x0Vect b c d e f
      false = some driftCandidate := by
    intro b c d e f
    have h : ¬ ([3 / 2] = [(0 : dReal)]) := by norm_num
    rw [hx0]
    simp only [driftInterpolator, if_neg h, Bool.false_eq_true, if_false]
  have hguard : ¬ (totalDuration driftCandidate + 99 / 1000 > (10 : dReal) - 0) := by
    rw [totalDuration_driftCandidate]
    norm_num
  have hne : ¬ (PlannerAction.PA_None = PlannerAction.PA_Interrupt) := by decide
  have hblock := drift_checkBlock_candidate K hE hR0 hR hL hbit (totalDuration driftCandidate)
    { st with shortcutRampNDVect := driftCandidate, ncalls := st.ncalls + 1 } hx1 rfl
  rw [slowDownLoop]
  simp only [hI, if_neg hguard, hC, if_neg hne]
  rw [hblock]
  simp only [Option.some_bind, if_true]

theorem drift_attempt (K : Consts) (hE : K.g_fEpsilon < 1 / 16)
    (hER : K.g_fEpsilon ≤ K.g_fRampEpsilon) (hR0 : 0 ≤ K.g_fRampEpsilon)
    (hR : K.g_fRampEpsilon < 1 / 2) (hL : K.g_fEpsilonLinear < 1)
    (hbit : 0xffff &&& K.CFO_CheckEnvCollisions = K.CFO_CheckEnvCollisions)
    (hTB : K.CFO_CheckTimeBasedConstraints = 4)
    (C : Collaborators) (hC : ∀ n, C._CallCallbacks n = PlannerAction.PA_None) (fuel : Nat) :
    ∃ a, slowDownLoop K driftHost C bendingPlanner driftInterpolator 0 10
        (99 / 1000) [0] [2] [0] [0] (fuel + 2) 0 driftAttempt = some (.finished true a) ∧
      a.shortcutRampNDVectOut = driftBridge ∧ a.x0Vect = [3 / 2] ∧ a.x1Vect = [2] ∧
      a.numSlowDowns = 1 ∧ a.nTimeBasedConstraintsFailed = 1 := by
  have hI : ∀ b c d e f g, driftInterpolator.ComputeArbitraryVelNDTrajectory
      driftAttempt.x0Vect b c d e f g = some bangBang := by
    intro b c d e f g
    simp only [driftInterpolator, driftAttempt, if_true]
  have hguard : ¬ ((2 : dReal) + 99 / 1000 > 10 - 0) := by norm_num
  have hm : bendingPlanner._bmanipconstraints = false := rfl
  have hne : ¬ (PlannerAction.PA_None = PlannerAction.PA_Interrupt) := by decide
  have h40 : ¬ ((4 : Nat) = 0) := by decide
  have hv : ¬ ((1 : dReal) * (98 / 100) < 1 / 100) := by norm_num
  have ha : ¬ ((1 : dReal) * (98 / 100 * (98 / 100)) < 1 / 10000) := by norm_num
  have hblock := drift_checkBlock_repair K hE hER hR0 hR hL hbit hTB
    { driftAttempt with shortcutRampNDVect := bangBang, ncalls := driftAttempt.ncalls + 1 }
    rfl rfl
  rw [slowDownLoop]
  simp only [hI, totalDuration_bangBang, if_neg hguard, hC, if_neg hne]
  rw [hblock]
  simp only [Option.some_bind, h40, if_false, hTB, if_true, scaleLimits, hm,
    Bool.false_eq_true, scaleNormal, driftAttempt, hv, ha]
  rw [drift_second_iteration K hE hR0 hR hL hbit C hC fuel (0 + 1) _ rfl rfl]
  exact ⟨_, rfl, rfl, rfl, rfl, rfl, rfl⟩

theorem drift_initialLimits : initialLimits bendingPlanner 1 1 [0] [0] = ([4], [8]) := by
  have h1 : ¬ ((4 : dReal) < max |0| |0|) := by norm_num
  have h2 : ¬ ((4 : dReal) > max (max |0| |0|) (1 * 4)) := by norm_num
  have h3 : ¬ ((8 : dReal) > 1 * 8) := by norm_num
  simp only [initialLimits, bendingPlanner, bendingParameters, Bool.false_and,
    Bool.false_eq_true, if_false, List.length_singleton, List.range_succ, List.range_zero,
    List.nil_append, List.foldl_cons, List.foldl_nil, List.getD_cons_zero, h1, h2, h3]

theorem drift_runAttempt (K : Consts) (hE : K.g_fEpsilon < 1 / 16)
    (hER : K.g_fEpsilon ≤ K.g_fRampEpsilon) (hR0 : 0 ≤ K.g_fRampEpsilon)
    (hR : K.g_fRampEpsilon < 1 / 2) (hL : K.g_fEpsilonLinear < 1)
    (hbit : 0xffff &&& K.CFO_CheckEnvCollisions = K.CFO_CheckEnvCollisions)
    (hTB : K.CFO_CheckTimeBasedConstraints = 4) :
    ∃ a, runAttempt K driftHost driftCollaborators bendingPlanner driftInterpolator (99 / 1000)
        0 10 driftState = some (some (.finished true a)) ∧
      a.shortcutRampNDVectOut = driftBridge ∧ a.x0Vect = [3 / 2] ∧ a.x1Vect = [2] ∧
      a.numSlowDowns = 1 ∧ a.nTimeBasedConstraintsFailed = 1 := by
  obtain ⟨a, hrun, hrest⟩ := drift_attempt K hE hER hR0 hR hL hbit hTB driftCollaborators
    (fun _ => rfl) 98
  have hp0 : driftCollaborators.EvalPos driftState.path 0 = [0] := by
    simp [driftCollaborators]
  have hp1 : driftCollaborators.EvalPos driftState.path 10 = [2] := by
    simp [driftCollaborators]
  have hv : ∀ t, driftCollaborators.EvalVel driftState.path t = [0] := fun _ => rfl
  have hset : ∀ x, driftHost.setgetState x = some x := fun _ => rfl
  have hs1 : driftState.fStartTimeVelMult = 1 := rfl
  have hs2 : driftState.fStartTimeAccelMult = 1 := rfl
  refine ⟨a, ?_, hrest⟩
  unfold runAttempt
  simp only [hp0, hp1, hv, hset, hs1, hs2, drift_initialLimits]
  erw [hrun]
  rfl

/-- C18, refuted for the code: the repair of the last checked ramp overwrites
`x0Vect` and `v0Vect`, and a time-based failure of the repair lets the slowdown
loop go on with them.  On the window `[0, 10]` of `driftPath`, from rest at 0
to rest at 2, the first candidate `bangBang` is stitched to `driftStitched`,
which ends with the velocity 1/2; the repair starts from the last stitched
ramp (rest at 3/2) and its candidate fails with the time-based code; the next
slowdown iteration interpolates from 3/2, `Check2` accepts `driftCandidate`, and
the attempt ends with `bSuccess` and `driftBridge` in `shortcutRampNDVectOut`,
the list that the commit passes to `ReplaceSegment(t0, t1, .)`: it starts at
3/2 while the path is at 0 at `t0`.  The assumptions of the claim hold: the
state round trip is the identity, each interpolated list meets the boundary
values it was given, and `Check2` accepted the list. -/
theorem C18_bridge_starts_off_the_window :
    (∃ a, runAttempt openraveConsts driftHost driftCollaborators bendingPlanner
        driftInterpolator (99 / 1000) 0 10 driftState = some (some (.finished true a)) ∧
      a.shortcutRampNDVectOut = driftBridge ∧ a.nTimeBasedConstraintsFailed = 1) ∧
    driftCollaborators.EvalPos driftState.path 0 = [0] ∧
    driftCollaborators.EvalVel driftState.path 0 = [0] ∧
    (driftBridge.head?.map fun r => (r.x0, r.v0)) = some ([3 / 2], [0]) ∧
    |(3 / 2 : dReal) - 0| > openraveConsts.g_fRampEpsilon ∧
    plannerCheck2 openraveConsts driftHost bendingPlanner driftCandidate 0xffff [] =
      some ({ retcode := 0 }, driftBridge) ∧
    (∀ x, driftHost.setgetState x = some x) ∧
    (driftCandidate.head?.map fun r => (r.x0, r.v0)) = some ([3 / 2], [0]) ∧
    (driftCandidate.getLast?.map fun r => (r.x1, r.v1)) = some ([2], [0]) := by
  have hE : openraveConsts.g_fEpsilon < 1 / 16 := by norm_num [openraveConsts]
  have hER : openraveConsts.g_fEpsilon ≤ openraveConsts.g_fRampEpsilon := by
    norm_num [openraveConsts]
  have hR0 : 0 ≤ openraveConsts.g_fRampEpsilon := by norm_num [openraveConsts]
  have hR : openraveConsts.g_fRampEpsilon < 1 / 2 := by norm_num [openraveConsts]
  have hL : openraveConsts.g_fEpsilonLinear < 1 := by norm_num [openraveConsts]
  obtain ⟨a, hrun, hout, _, _, _, hfail⟩ :=
    drift_runAttempt openraveConsts hE hER hR0 hR hL (by decide) rfl
  refine ⟨⟨a, hrun, hout, hfail⟩, ?_, rfl, rfl, ?_,
    drift_check2_candidate openraveConsts hE hR0 hR hL (by decide) [], fun _ => rfl, rfl, rfl⟩
  · simp [driftCollaborators]
  · norm_num [openraveConsts, abs_of_pos]

theorem registryAfterCommit_sorted (t0 t1 d : dReal) (Z : List dReal) (hd : 0 ≤ d)
    (hs : Z.Pairwise (fun x y => x ≤ y)) :
    (registryAfterCommit t0 t1 ((t1 - t0) - d) Z).Pairwise (fun x y => x ≤ y) := by
  unfold registryAfterCommit
  rw [List.pairwise_append]
  refine ⟨hs.filter _, ?_, ?_⟩
  · rw [List.pairwise_map]
    exact (hs.filter _).imp (fun h => by linarith)
  · intro a ha b hb
    rw [List.mem_filter] at ha
    rw [List.mem_map] at hb
    obtain ⟨z, hz, rfl⟩ := hb
    rw [List.mem_filter] at hz
    have h1 : a ≤ t0 := of_decide_eq_true ha.2
    have h2 : t1 < z := of_decide_eq_true hz.2
    linarith

theorem registryAfterCommit_inside (t0 t1 d T : dReal) (Z : List dReal) (h0 : 0 ≤ t0)
    (h1T : t1 ≤ T) (hd : 0 ≤ d) (hZ : ∀ z ∈ Z, 0 ≤ z ∧ z ≤ T) :
    ∀ z ∈ registryAfterCommit t0 t1 ((t1 - t0) - d) Z, 0 ≤ z ∧ z ≤ T - ((t1 - t0) - d) := by
  intro z hz
  unfold registryAfterCommit at hz
  rw [List.mem_append] at hz
  rcases hz with hz | hz
  · rw [List.mem_filter] at hz
    have h1 : z ≤ t0 := of_decide_eq_true hz.2
    have h2 := hZ z hz.1
    constructor
    · exact h2.1
    · linarith
  · rw [List.mem_map] at hz
    obtain ⟨y, hy, rfl⟩ := hz
    rw [List.mem_filter] at hy
    have h1 : t1 < y := of_decide_eq_true hy.2
    have h2 := hZ y hy.1
    constructor
    · linarith
    · linarith [h2.2]

/-- C26.  If the registry is nondecreasing with all entries in `[0, T]`, the
window satisfies `0 ≤ t0 ≤ t1 ≤ T` and the committed list has a duration `d`
with `0 ≤ d ≤ t1 - t0`, then the registry that the commit of `_Shortcut`
leaves is nondecreasing again and all its entries lie in `[0, T - D]` with
`D = (t1 - t0) - d`. -/
theorem C26_registry_stays_ordered (C : Collaborators) (P : Planner) (t0 t1 T : dReal)
    (a : AttemptState) (st : ShortcutLoopState)
    (hs : st.s._zeroVelPoints.Pairwise (fun x y => x ≤ y))
    (hZ : ∀ z ∈ st.s._zeroVelPoints, 0 ≤ z ∧ z ≤ T)
    (h0 : 0 ≤ t0) (h01 : t0 ≤ t1) (h1T : t1 ≤ T)
    (hd0 : 0 ≤ totalDuration a.shortcutRampNDVectOut)
    (hd1 : totalDuration a.shortcutRampNDVectOut ≤ t1 - t0) :
    (shortcutCommit C P t0 t1 a st).state.s._zeroVelPoints =
        shortcutRegistryUpdate t0 t1 ((t1 - t0) - totalDuration a.shortcutRampNDVectOut)
          st.s._zeroVelPoints ∧
    (shortcutCommit C P t0 t1 a st).state.s._zeroVelPoints.Pairwise (fun x y => x ≤ y) ∧
    (∀ z ∈ (shortcutCommit C P t0 t1 a st).state.s._zeroVelPoints,
      0 ≤ z ∧ z ≤ T - ((t1 - t0) - totalDuration a.shortcutRampNDVectOut)) ∧
    T - ((t1 - t0) - totalDuration a.shortcutRampNDVectOut) ≤ T := by
  have hreg : (shortcutCommit C P t0 t1 a st).state.s._zeroVelPoints =
      shortcutRegistryUpdate t0 t1 ((t1 - t0) - totalDuration a.shortcutRampNDVectOut)
        st.s._zeroVelPoints := by
    unfold shortcutCommit
    simp only [ShortcutState.afterAttempt]
    split_ifs <;> rfl
  refine ⟨hreg, ?_, ?_, by linarith⟩
  · rw [hreg, shortcutRegistryUpdate_eq _ _ _ h01 _ hs]
    exact registryAfterCommit_sorted t0 t1 _ _ hd0 hs
  · rw [hreg, shortcutRegistryUpdate_eq _ _ _ h01 _ hs]
    exact registryAfterCommit_inside t0 t1 _ T _ h0 h1T hd0 hZ

theorem totalDuration_slimAttempt :
    totalDuration slimAttempt.shortcutRampNDVectOut = 9999 / 10000 := by
  norm_num [totalDuration, slimAttempt, RampND.Initialize]

/-- C26 (witness): the registry `[2]` of a path of duration 4 and the commit of
`slimAttempt` (a list of duration 0.9999) on the window `[0, 1]`. -/
theorem C26_registry_stays_ordered_witness :
    fourDoneLoopState.s._zeroVelPoints.Pairwise (fun x y => x ≤ y) ∧
    (∀ z ∈ fourDoneLoopState.s._zeroVelPoints, 0 ≤ z ∧ z ≤ (4 : dReal)) ∧
    (0 : dReal) ≤ 0 ∧ (0 : dReal) ≤ 1 ∧ (1 : dReal) ≤ 4 ∧
    0 ≤ totalDuration slimAttempt.shortcutRampNDVectOut ∧
    totalDuration slimAttempt.shortcutRampNDVectOut ≤ 1 - 0 ∧
    ((shortcutCommit stopCollaborators stopPlanner 0 1 slimAttempt
        fourDoneLoopState).state.s._zeroVelPoints =
        shortcutRegistryUpdate 0 1 ((1 - 0) - totalDuration slimAttempt.shortcutRampNDVectOut)
          fourDoneLoopState.s._zeroVelPoints ∧
      (shortcutCommit stopCollaborators stopPlanner 0 1 slimAttempt
        fourDoneLoopState).state.s._zeroVelPoints.Pairwise (fun x y => x ≤ y) ∧
      (∀ z ∈ (shortcutCommit stopCollaborators stopPlanner 0 1 slimAttempt
          fourDoneLoopState).state.s._zeroVelPoints,
        0 ≤ z ∧ z ≤ 4 - ((1 - 0) - totalDuration slimAttempt.shortcutRampNDVectOut)) ∧
      4 - ((1 - 0) - totalDuration slimAttempt.shortcutRampNDVectOut) ≤ 4) := by
  have hs : fourDoneLoopState.s._zeroVelPoints.Pairwise (fun x y => x ≤ y) := by
    simp [fourDoneLoopState, stopState]
  have hZ : ∀ z ∈ fourDoneLoopState.s._zeroVelPoints, 0 ≤ z ∧ z ≤ (4 : dReal) := by
    intro z hz
    have : z = 2 := by simpa [fourDoneLoopState, stopState] using hz
    subst this
    norm_num
  have hd0 : 0 ≤ totalDuration slimAttempt.shortcutRampNDVectOut := by
    rw [totalDuration_slimAttempt]
    norm_num
  have hd1 : totalDuration slimAttempt.shortcutRampNDVectOut ≤ 1 - 0 := by
    rw [totalDuration_slimAttempt]
    norm_num
  exact ⟨hs, hZ, le_refl _, by norm_num, by norm_num, hd0, hd1,
    C26_registry_stays_ordered stopCollaborators stopPlanner 0 1 4 slimAttempt
      fourDoneLoopState hs hZ (le_refl _) (by norm_num) (by norm_num) hd0 hd1⟩

theorem sampleWindow_zero_cap (C : Collaborators) (numIters iters : Nat) (T : dReal)
    (s : ShortcutState) (hit : iters ≠ 0)
    (hnormal : ((decide (s._zeroVelPoints.length > 0) && decide (C.Rand s.nrand ≤ 1 / 10)) ||
      decide ((numIters : Int) - (iters : Int) ≤ (s._zeroVelPoints.length : Int))) = false) :
    (sampleWindow C 0 numIters iters T s).2.1 = (sampleWindow C 0 numIters iters T s).1 := by
  unfold sampleWindow
  rw [if_neg hit]
  simp only
  rw [if_neg (by rw [hnormal]; exact Bool.false_ne_true)]
  simp only [mul_zero, add_zero]
  split_ifs <;> linarith

/-- C28.  With `_maxInitialRampTime = 0` and `minTimeStep > 0`, an iteration
`iters ≥ 1` of `_Shortcut` that takes the branch "proceed normally" samples a
window with `t1 = t0`; the iteration then either stops the loop at its two
entry tests or ends at the test `t1 - t0 < minTimeStep`, with the same result
for every host and interpolator: no state is set, no callback is made, the
interpolator is not called and the path and the registry stay as they were. -/
theorem C28_zero_ramp_time_cap (K : Consts) (H : Host) (C : Collaborators) (P : Planner)
    (I : ParabolicInterpolator) (minTimeStep : dReal) (numIters iters : Nat)
    (st : ShortcutLoopState) (hmin : 0 < minTimeStep) (hit : iters ≠ 0)
    (hnormal : ((decide (st.s._zeroVelPoints.length > 0) &&
        decide (C.Rand st.s.nrand ≤ 1 / 10)) ||
      decide ((numIters : Int) - (iters : Int) ≤ (st.s._zeroVelPoints.length : Int))) = false) :
    (sampleWindow C 0 numIters iters st.tTotal st.s).2.1 =
      (sampleWindow C 0 numIters iters st.tTotal st.s).1 ∧
    (shortcutIteration K H C P I 0 minTimeStep numIters iters st = some (.stop st) ∨
      ∃ st2, shortcutIteration K H C P I 0 minTimeStep numIters iters st = some (.next st2) ∧
        st2.s = (sampleWindow C 0 numIters iters st.tTotal st.s).2.2 ∧
        st2.s.path = st.s.path ∧ st2.s._zeroVelPoints = st.s._zeroVelPoints ∧
        st2.s.ncalls = st.s.ncalls ∧ st2.s.numSuccessful = st.s.numSuccessful ∧
        st2.tTotal = st.tTotal) ∧
    ∀ (H2 : Host) (I2 : ParabolicInterpolator),
      shortcutIteration K H2 C P I2 0 minTimeStep numIters iters st =
        shortcutIteration K H C P I 0 minTimeStep numIters iters st := by
  have hw := sampleWindow_zero_cap C numIters iters st.tTotal st.s hit hnormal
  have hclose : (sampleWindow C 0 numIters iters st.tTotal st.s).2.1 -
      (sampleWindow C 0 numIters iters st.tTotal st.s).1 < minTimeStep := by
    rw [hw, sub_self]
    exact hmin
  have hfields : (sampleWindow C 0 numIters iters st.tTotal st.s).2.2.path = st.s.path ∧
      (sampleWindow C 0 numIters iters st.tTotal st.s).2.2._zeroVelPoints =
        st.s._zeroVelPoints ∧
      (sampleWindow C 0 numIters iters st.tTotal st.s).2.2.ncalls = st.s.ncalls ∧
      (sampleWindow C 0 numIters iters st.tTotal st.s).2.2.numSuccessful =
        st.s.numSuccessful := by
    unfold sampleWindow
    simp only
    split_ifs <;> exact ⟨rfl, rfl, rfl, rfl⟩
  have hall : ∀ (H2 : Host) (I2 : ParabolicInterpolator),
      shortcutIteration K H2 C P I2 0 minTimeStep numIters iters st = some (.stop st) ∨
      ∃ st2, shortcutIteration K H2 C P I2 0 minTimeStep numIters iters st =
          some (.next st2) ∧
        st2 = { st with
          nItersFromPrevSuccessful := st.nItersFromPrevSuccessful + 1
          nEndTimeDiscretization :=
            if st.vVisitedDiscretization.length = 0 then
              truncInt (st.tTotal * (1 / minTimeStep)) + 1
            else st.nEndTimeDiscretization
          vVisitedDiscretization :=
            if st.vVisitedDiscretization.length = 0 then
              (if truncInt (st.tTotal * (1 / minTimeStep)) + 1 ≤ 0x8000 then
                List.replicate
                  (toSizeT ((truncInt (st.tTotal * (1 / minTimeStep)) + 1) *
                    (truncInt (st.tTotal * (1 / minTimeStep)) + 1))) 0
              else [])
            else st.vVisitedDiscretization
          s := (sampleWindow C 0 numIters iters st.tTotal st.s).2.2 } := by
    intro H2 I2
    unfold shortcutIteration
    simp only
    by_cases h1 : st.tTotal < minTimeStep
    · rw [if_pos h1]
      exact Or.inl rfl
    rw [if_neg h1]
    by_cases h2 : st.nItersFromPrevSuccessful + st.s.nTimeBasedConstraintsFailed >
        min 100 (numIters / 2)
    · rw [if_pos h2]
      exact Or.inl rfl
    rw [if_neg h2]
    right
    by_cases hv : st.vVisitedDiscretization.length = 0
    all_goals
      simp only [hv, if_true, if_false]
      rw [if_pos hclose]
      exact ⟨_, rfl, rfl⟩
  refine ⟨hw, ?_, ?_⟩
  · rcases hall H I with h | ⟨st2, h, hst⟩
    · exact Or.inl h
    · refine Or.inr ⟨st2, h, ?_⟩
      subst hst
      exact ⟨rfl, hfields.1, hfields.2.1, hfields.2.2.1, hfields.2.2.2, rfl⟩
  · intro H2 I2
    rcases hall H I with h | ⟨st2, h, hst⟩ <;> rcases hall H2 I2 with h' | ⟨st3, h', hst'⟩
    · rw [h, h']
    · exfalso
      unfold shortcutIteration at h h'
      simp only at h h'
      by_cases h1 : st.tTotal < minTimeStep
      · rw [if_pos h1] at h'
        cases h'
      · rw [if_neg h1] at h h'
        by_cases h2 : st.nItersFromPrevSuccessful + st.s.nTimeBasedConstraintsFailed >
            min 100 (numIters / 2)
        · rw [if_pos h2] at h'
          cases h'
        · rw [if_neg h2] at h
          by_cases hv : st.vVisitedDiscretization.length = 0 <;>
            simp only [hv, if_true, if_false] at h <;>
            rw [if_pos hclose] at h <;> cases h
    · exfalso
      unfold shortcutIteration at h h'
      simp only at h h'
      by_cases h1 : st.tTotal < minTimeStep
      · rw [if_pos h1] at h
        cases h
      · rw [if_neg h1] at h h'
        by_cases h2 : st.nItersFromPrevSuccessful + st.s.nTimeBasedConstraintsFailed >
            min 100 (numIters / 2)
        · rw [if_pos h2] at h
          cases h
        · rw [if_neg h2] at h'
          by_cases hv : st.vVisitedDiscretization.length = 0 <;>
            simp only [hv, if_true, if_false] at h' <;>
            rw [if_pos hclose] at h' <;> cases h'
    · rw [h, h', hst, hst']

/-- C28 (witness): iteration 1 of 10 on `repairLoopState`, whose registry is
empty, with `minTimeStep = 0.099`: the window is empty and the iteration goes
on to the next one. -/
theorem C28_zero_ramp_time_cap_witness :
    (0 : dReal) < 99 / 1000 ∧ (1 : Nat) ≠ 0 ∧
    ((decide (repairLoopState.s._zeroVelPoints.length > 0) &&
        decide (quietCollaborators.Rand repairLoopState.s.nrand ≤ 1 / 10)) ||
      decide (((10 : Nat) : Int) - ((1 : Nat) : Int) ≤
        (repairLoopState.s._zeroVelPoints.length : Int))) = false ∧
    (sampleWindow quietCollaborators 0 10 1 repairLoopState.tTotal repairLoopState.s).2.1 =
      (sampleWindow quietCollaborators 0 10 1 repairLoopState.tTotal repairLoopState.s).1 ∧
    ∀ (H2 : Host) (I2 : ParabolicInterpolator),
      shortcutIteration openraveConsts H2 quietCollaborators repairPlanner I2 0 (99 / 1000) 10 1
          repairLoopState =
        shortcutIteration openraveConsts plainHost quietCollaborators repairPlanner
          idleInterpolator 0 (99 / 1000) 10 1 repairLoopState := by
  have hn : ((decide (repairLoopState.s._zeroVelPoints.length > 0) &&
        decide (quietCollaborators.Rand repairLoopState.s.nrand ≤ 1 / 10)) ||
      decide (((10 : Nat) : Int) - ((1 : Nat) : Int) ≤
        (repairLoopState.s._zeroVelPoints.length : Int))) = false := by
    simp [repairLoopState, repairState]
  have h := C28_zero_ramp_time_cap openraveConsts plainHost quietCollaborators repairPlanner
    idleInterpolator (99 / 1000) 10 1 repairLoopState (by norm_num) (by decide) hn
  exact ⟨by norm_num, by decide, hn, h.1, h.2.2⟩

theorem shortcutCommit_score (C : Collaborators) (P : Planner) (t0 t1 : dReal)
    (a : AttemptState) (st : ShortcutLoopState) :
    (shortcutCommit C P t0 t1 a st).state.score =
      ((t1 - t0) - totalDuration a.shortcutRampNDVectOut) /
        (st.nItersFromPrevSuccessful : dReal) := by
  unfold shortcutCommit
  simp only
  split_ifs <;> rfl

/-- C30.  In an iteration `iters < numIters` of `_Shortcut` the test of the
special sampling branch can only hold when the registry is not empty, so the
modulus `% _zeroVelPoints.size()` has a positive divisor (with an empty
registry and `iters ≥ 1` the window is the one of the branch "proceed
normally").  And every commit made by an iteration is made on a loop state
whose `nItersFromPrevSuccessful` is the value on entry plus one, hence at
least 1: the score is `diff` divided by that non-zero number. -/
theorem C30_no_division_by_zero (K : Consts) (H : Host) (C : Collaborators) (P : Planner)
    (I : ParabolicInterpolator) (m minTimeStep : dReal) (numIters iters : Nat)
    (st : ShortcutLoopState) (hit : iters < numIters) :
    (((decide (st.s._zeroVelPoints.length > 0) && decide (C.Rand st.s.nrand ≤ 1 / 10)) ||
        decide ((numIters : Int) - (iters : Int) ≤ (st.s._zeroVelPoints.length : Int))) = true →
      0 < st.s._zeroVelPoints.length) ∧
    (iters ≠ 0 → st.s._zeroVelPoints.length = 0 →
      sampleWindow C m numIters iters st.tTotal st.s =
        ((if C.Rand st.s.nrand * st.tTotal > C.Rand (st.s.nrand + 1) * st.tTotal then
            C.Rand (st.s.nrand + 1) * st.tTotal else C.Rand st.s.nrand * st.tTotal),
          (if (if C.Rand st.s.nrand * st.tTotal > C.Rand (st.s.nrand + 1) * st.tTotal then
                C.Rand st.s.nrand * st.tTotal else C.Rand (st.s.nrand + 1) * st.tTotal) -
              (if C.Rand st.s.nrand * st.tTotal > C.Rand (st.s.nrand + 1) * st.tTotal then
                C.Rand (st.s.nrand + 1) * st.tTotal else C.Rand st.s.nrand * st.tTotal) >
              2 * m then
            (if C.Rand st.s.nrand * st.tTotal > C.Rand (st.s.nrand + 1) * st.tTotal then
                C.Rand (st.s.nrand + 1) * st.tTotal else C.Rand st.s.nrand * st.tTotal) + 2 * m
          else
            (if C.Rand st.s.nrand * st.tTotal > C.Rand (st.s.nrand + 1) * st.tTotal then
                C.Rand st.s.nrand * st.tTotal else C.Rand (st.s.nrand + 1) * st.tTotal)),
          { st.s with nrand := st.s.nrand + 2 })) ∧
    ∀ out, shortcutIteration K H C P I m minTimeStep numIters iters st = some out →
      out = .stop st ∨
      ∃ st2, st2.nItersFromPrevSuccessful = st.nItersFromPrevSuccessful + 1 ∧
        (out = .next st2 ∨ out = .interrupted st2 ∨
          ∃ a, a.shortcutRampNDVectOut.length ≠ 0 ∧
            out = shortcutCommit C P (sampleWindow C m numIters iters st.tTotal st.s).1
              (sampleWindow C m numIters iters st.tTotal st.s).2.1 a st2 ∧
            (st2.nItersFromPrevSuccessful : dReal) ≠ 0 ∧
            out.state.score =
              (((sampleWindow C m numIters iters st.tTotal st.s).2.1 -
                  (sampleWindow C m numIters iters st.tTotal st.s).1) -
                totalDuration a.shortcutRampNDVectOut) /
              (st2.nItersFromPrevSuccessful : dReal)) := by
  have hsize : ((decide (st.s._zeroVelPoints.length > 0) &&
        decide (C.Rand st.s.nrand ≤ 1 / 10)) ||
      decide ((numIters : Int) - (iters : Int) ≤ (st.s._zeroVelPoints.length : Int))) = true →
      0 < st.s._zeroVelPoints.length := by
    intro hb
    simp only [Bool.or_eq_true, Bool.and_eq_true, decide_eq_true_eq] at hb
    rcases hb with h | h
    · exact h.1
    · omega
  refine ⟨hsize, ?_, ?_⟩
  · intro h0 hlen
    have hb : ¬ (((decide (st.s._zeroVelPoints.length > 0) &&
        decide (C.Rand st.s.nrand ≤ 1 / 10)) ||
      decide ((numIters : Int) - (iters : Int) ≤ (st.s._zeroVelPoints.length : Int))) =
        true) := by
      intro hb
      have := hsize hb
      omega
    have hd : decide (st.s._zeroVelPoints.length > 0) = false := by
      simp [hlen]
    unfold sampleWindow
    rw [if_neg h0]
    simp only
    rw [if_neg hb]
    simp only [hd, Bool.false_eq_true, if_false]
  · intro out h
    unfold shortcutIteration at h
    simp only at h
    by_cases h1 : st.tTotal < minTimeStep
    · rw [if_pos h1] at h
      cases h
      exact Or.inl rfl
    rw [if_neg h1] at h
    by_cases h2 : st.nItersFromPrevSuccessful + st.s.nTimeBasedConstraintsFailed >
        min 100 (numIters / 2)
    · rw [if_pos h2] at h
      cases h
      exact Or.inl rfl
    rw [if_neg h2] at h
    right
    by_cases hv : st.vVisitedDiscretization.length = 0
    all_goals
      simp only [hv, if_true, if_false] at h
      by_cases h3 : (sampleWindow C m numIters iters st.tTotal st.s).2.1 -
          (sampleWindow C m numIters iters st.tTotal st.s).1 < minTimeStep
      · rw [if_pos h3] at h
        cases h
        exact ⟨_, rfl, Or.inl rfl⟩
      rw [if_neg h3] at h
      simp only [Option.bind_eq_some, Option.map_eq_some'] at h
      obtain ⟨vis, -, hm⟩ := h
      cases vis with
      | none =>
        cases hm
        exact ⟨_, rfl, Or.inl rfl⟩
      | some v =>
        simp only [Option.map_eq_some'] at hm
        obtain ⟨r, -, hout⟩ := hm
        rcases r with _ | a | ⟨b, a⟩
        · cases hout
          exact ⟨_, rfl, Or.inl rfl⟩
        · cases hout
          exact ⟨_, rfl, Or.inr (Or.inl rfl)⟩
        · cases b
          · cases hout
            exact ⟨_, rfl, Or.inl rfl⟩
          · by_cases hlen : a.shortcutRampNDVectOut.length = 0
            · simp only [hlen, if_true] at hout
              cases hout
              exact ⟨_, rfl, Or.inl rfl⟩
            · simp only [hlen, if_false] at hout
              refine ⟨_, rfl, Or.inr (Or.inr ⟨a, hlen, hout.symm, ?_, ?_⟩)⟩
              · simp only [Nat.cast_add, Nat.cast_one]
                positivity
              · rw [← hout, shortcutCommit_score]

/-- C30 (witness): iteration 1 of 10 on `stopLoopState`, whose registry is
`[2]`. -/
theorem C30_no_division_by_zero_witness :
    (1 : Nat) < 10 ∧
    (((decide (stopLoopState.s._zeroVelPoints.length > 0) &&
          decide (stopCollaborators.Rand stopLoopState.s.nrand ≤ 1 / 10)) ||
        decide (((10 : Nat) : Int) - ((1 : Nat) : Int) ≤
          (stopLoopState.s._zeroVelPoints.length : Int))) = true →
      0 < stopLoopState.s._zeroVelPoints.length) ∧
    ∀ out, shortcutIteration openraveConsts stopHost stopCollaborators stopPlanner
        stopInterpolator 2 (99 / 100) 10 1 stopLoopState = some out →
      out = .stop stopLoopState ∨
      ∃ st2, st2.nItersFromPrevSuccessful = stopLoopState.nItersFromPrevSuccessful + 1 ∧
        (out = .next st2 ∨ out = .interrupted st2 ∨
          ∃ a, a.shortcutRampNDVectOut.length ≠ 0 ∧
            out = shortcutCommit stopCollaborators stopPlanner
              (sampleWindow stopCollaborators 2 10 1 stopLoopState.tTotal stopLoopState.s).1
              (sampleWindow stopCollaborators 2 10 1 stopLoopState.tTotal stopLoopState.s).2.1
              a st2 ∧
            (st2.nItersFromPrevSuccessful : dReal) ≠ 0 ∧
            out.state.score =
              (((sampleWindow stopCollaborators 2 10 1 stopLoopState.tTotal
                    stopLoopState.s).2.1 -
                  (sampleWindow stopCollaborators 2 10 1 stopLoopState.tTotal
                    stopLoopState.s).1) -
                totalDuration a.shortcutRampNDVectOut) /
              (st2.nItersFromPrevSuccessful : dReal)) :=
  ⟨by decide,
    (C30_no_division_by_zero openraveConsts stopHost stopCollaborators stopPlanner
      stopInterpolator 2 (99 / 100) 10 1 stopLoopState (by decide)).1,
    (C30_no_division_by_zero openraveConsts stopHost stopCollaborators stopPlanner
      stopInterpolator 2 (99 / 100) 10 1 stopLoopState (by decide)).2.2⟩

theorem foldl_set_getD (f : Nat → dReal → dReal) (l : List dReal) :
    ∀ n, n ≤ l.length →
      ((List.range n).foldl (fun v j => v.set j (f j (v.getD j 0))) l).length = l.length ∧
      ∀ j, ((List.range n).foldl (fun v j => v.set j (f j (v.getD j 0))) l).getD j 0 =
        if j < n then f j (l.getD j 0) else l.getD j 0 := by
  intro n
  induction n with
  | zero =>
    intro _
    simp
  | succ n ih =>
    intro hn
    obtain ⟨hl, hg⟩ := ih (by omega)
    rw [List.range_succ, List.foldl_append, List.foldl_cons, List.foldl_nil]
    refine ⟨by rw [List.length_set, hl], ?_⟩
    intro j
    by_cases hj : n = j
    · subst hj
      rw [getD_set_self _ _ _ (by rw [hl]; omega), hg n, if_neg (lt_irrefl _),
        if_pos (Nat.lt_succ_self _)]
    · rw [getD_set_ne _ _ _ _ hj, hg j]
      by_cases hlt : j < n
      · rw [if_pos hlt, if_pos (by omega)]
      · rw [if_neg hlt, if_neg (by omega)]

theorem foldl_pair_split (A B : List dReal → Nat → List dReal) :
    ∀ (L : List Nat) (x y : List dReal),
      L.foldl (fun (l : List dReal × List dReal) j => (A l.1 j, B l.2 j)) (x, y) =
        (L.foldl A x, L.foldl B y) := by
  intro L
  induction L with
  | nil => intro x y; rfl
  | cons j rest ih =>
    intro x y
    rw [List.foldl_cons, List.foldl_cons, List.foldl_cons, ih]

theorem set_if_getD (l : List dReal) (j : Nat) (c : Prop) [Decidable c] (a : dReal) :
    (if c then l.set j a else l) = l.set j (if c then a else l.getD j 0) := by
  by_cases hc : c
  · rw [if_pos hc, if_pos hc]
  · rw [if_neg hc, if_neg hc]
    by_cases hj : j < l.length
    · rw [List.getD_eq_getElem _ _ hj]
      apply List.ext_getElem (by simp)
      intro i h1 h2
      rw [List.getElem_set]
      split_ifs with h
      · subst h
        rfl
      · rfl
    · rw [List.set_eq_of_length_le (by omega)]

theorem initialLimits_eq (P : Planner) (fv fa : dReal) (v0 v1 : List dReal)
    (hm : (P._bmanipconstraints && P._bUseNewHeuristic) = false) :
    initialLimits P fv fa v0 v1 =
      ((List.range P.params._vConfigVelocityLimit.length).foldl
          (fun v j => v.set j
            ((fun j x =>
              if x < max |v0.getD j 0| |v1.getD j 0| then max |v0.getD j 0| |v1.getD j 0|
              else if x > max (max |v0.getD j 0| |v1.getD j 0|)
                  (fv * P.params._vConfigVelocityLimit.getD j 0) then
                max (max |v0.getD j 0| |v1.getD j 0|)
                  (fv * P.params._vConfigVelocityLimit.getD j 0)
              else x) j (v.getD j 0)))
          P.params._vConfigVelocityLimit,
        (List.range P.params._vConfigVelocityLimit.length).foldl
          (fun v j => v.set j
            ((fun j x =>
              if x > fa * P.params._vConfigAccelerationLimit.getD j 0 then
                fa * P.params._vConfigAccelerationLimit.getD j 0
              else x) j (v.getD j 0)))
          P.params._vConfigAccelerationLimit) := by
  unfold initialLimits
  simp only [hm, Bool.false_eq_true, if_false]
  rw [← foldl_pair_split]
  congr 1
  funext l j
  congr 1
  · by_cases h1 : l.1.getD j 0 < max |v0.getD j 0| |v1.getD j 0|
    · rw [if_pos h1, if_pos h1]
    · rw [if_neg h1, if_neg h1, set_if_getD]
  · rw [set_if_getD]

theorem initialLimits_vel (P : Planner) (fv fa : dReal) (v0 v1 : List dReal)
    (hm : (P._bmanipconstraints && P._bUseNewHeuristic) = false) (j : Nat)
    (hj : j < P.params._vConfigVelocityLimit.length) :
    (initialLimits P fv fa v0 v1).1.getD j 0 =
      if P.params._vConfigVelocityLimit.getD j 0 < max |v0.getD j 0| |v1.getD j 0| then
        max |v0.getD j 0| |v1.getD j 0|
      else if P.params._vConfigVelocityLimit.getD j 0 >
          max (max |v0.getD j 0| |v1.getD j 0|)
            (fv * P.params._vConfigVelocityLimit.getD j 0) then
        max (max |v0.getD j 0| |v1.getD j 0|) (fv * P.params._vConfigVelocityLimit.getD j 0)
      else P.params._vConfigVelocityLimit.getD j 0 := by
  rw [initialLimits_eq P fv fa v0 v1 hm]
  have h := (foldl_set_getD
    (fun j x =>
      if x < max |v0.getD j 0| |v1.getD j 0| then max |v0.getD j 0| |v1.getD j 0|
      else if x > max (max |v0.getD j 0| |v1.getD j 0|)
          (fv * P.params._vConfigVelocityLimit.getD j 0) then
        max (max |v0.getD j 0| |v1.getD j 0|)
          (fv * P.params._vConfigVelocityLimit.getD j 0)
      else x)
    P.params._vConfigVelocityLimit _ (le_refl _)).2 j
  rw [if_pos hj] at h
  exact h

theorem initialLimits_accel (P : Planner) (fv fa : dReal) (v0 v1 : List dReal)
    (hm : (P._bmanipconstraints && P._bUseNewHeuristic) = false)
    (hlen : P.params._vConfigVelocityLimit.length ≤ P.params._vConfigAccelerationLimit.length)
    (j : Nat) (hj : j < P.params._vConfigVelocityLimit.length) :
    (initialLimits P fv fa v0 v1).2.getD j 0 =
      if P.params._vConfigAccelerationLimit.getD j 0 >
          fa * P.params._vConfigAccelerationLimit.getD j 0 then
        fa * P.params._vConfigAccelerationLimit.getD j 0
      else P.params._vConfigAccelerationLimit.getD j 0 := by
  rw [initialLimits_eq P fv fa v0 v1 hm]
  have h := (foldl_set_getD
    (fun j x =>
      if x > fa * P.params._vConfigAccelerationLimit.getD j 0 then
        fa * P.params._vConfigAccelerationLimit.getD j 0
      else x)
    P.params._vConfigAccelerationLimit _ hlen).2 j
  rw [if_pos hj] at h
  exact h

theorem floorScaleVellimits_getD (v0 v1 vl : List dReal) (mult : dReal) (j : Nat)
    (hj : j < vl.length) :
    (floorScaleVellimits v0 v1 vl mult).getD j 0 =
      max (max |v0.getD j 0| |v1.getD j 0|) (mult * vl.getD j 0) := by
  unfold floorScaleVellimits
  have h := (foldl_set_getD
    (fun j x => max (max |v0.getD j 0| |v1.getD j 0|) (mult * x)) vl vl.length (le_refl _)).2 j
  rw [if_pos hj] at h
  exact h

/-- C21.  Without manipulator constraints, for every DOF `j` below the number
of velocity limits: after the initialisation of an attempt the velocity limit
is at least `max(|v0[j]|, |v1[j]|)`; when `0 < fStartTimeVelMult ≤ 1` and that
maximum is at most `vMax[j]`, it equals
`max(max(|v0[j]|, |v1[j]|), fStartTimeVelMult * vMax[j])`; and after every
scalar slowdown step that does not abort, the velocity limit is
`max(max(|v0[j]|, |v1[j]|), m * old)`, again at least `max(|v0[j]|, |v1[j]|)`
for the boundary velocities of the attempt state. -/
theorem C21_velocity_limit_floor (P : Planner) (fv fa : dReal) (v0 v1 : List dReal)
    (hm : P._bmanipconstraints = false) (j : Nat)
    (hj : j < P.params._vConfigVelocityLimit.length) :
    (initialLimits P fv fa v0 v1).1.getD j 0 ≥ max |v0.getD j 0| |v1.getD j 0| ∧
    (0 < fv → fv ≤ 1 →
      max |v0.getD j 0| |v1.getD j 0| ≤ P.params._vConfigVelocityLimit.getD j 0 →
      (initialLimits P fv fa v0 v1).1.getD j 0 =
        max (max |v0.getD j 0| |v1.getD j 0|)
          (fv * P.params._vConfigVelocityLimit.getD j 0)) ∧
    (∀ (retcheck : CheckReturn) (st st2 : AttemptState) (C : Collaborators) (H : Host)
        (i : Nat) (bx0 bx1 bv0 bv1 : List dReal) (k : Nat),
      scaleLimits C H P i bx0 bx1 bv0 bv1 retcheck st = (true, st2) →
      k < st.vellimits.length →
      st2.v0Vect = st.v0Vect ∧ st2.v1Vect = st.v1Vect ∧
      st2.vellimits.getD k 0 =
        max (max |st.v0Vect.getD k 0| |st.v1Vect.getD k 0|)
          (retcheck.fTimeBasedSurpassMult * st.vellimits.getD k 0) ∧
      st2.vellimits.getD k 0 ≥ max |st2.v0Vect.getD k 0| |st2.v1Vect.getD k 0|) := by
  have hm2 : (P._bmanipconstraints && P._bUseNewHeuristic) = false := by
    rw [hm]
    rfl
  have hv := initialLimits_vel P fv fa v0 v1 hm2 j hj
  refine ⟨?_, ?_, ?_⟩
  · rw [hv]
    split_ifs with h1 h2
    · exact le_refl _
    · exact le_max_left _ _
    · exact not_lt.mp h1
  · intro hf0 hf1 hle
    rw [hv, if_neg (not_lt.mpr hle)]
    have hnn : 0 ≤ P.params._vConfigVelocityLimit.getD j 0 :=
      le_trans (le_trans (abs_nonneg _) (le_max_left _ _)) hle
    have hfv : fv * P.params._vConfigVelocityLimit.getD j 0 ≤
        P.params._vConfigVelocityLimit.getD j 0 := by
      calc fv * P.params._vConfigVelocityLimit.getD j 0
          ≤ 1 * P.params._vConfigVelocityLimit.getD j 0 :=
            mul_le_mul_of_nonneg_right hf1 hnn
        _ = P.params._vConfigVelocityLimit.getD j 0 := one_mul _
    have hmax : max (max |v0.getD j 0| |v1.getD j 0|)
        (fv * P.params._vConfigVelocityLimit.getD j 0) ≤
        P.params._vConfigVelocityLimit.getD j 0 := max_le hle hfv
    split_ifs with h2
    · rfl
    · exact le_antisymm (not_lt.mp h2) hmax
  · intro retcheck st st2 C H i bx0 bx1 bv0 bv1 k hs hk
    unfold scaleLimits at hs
    rw [hm] at hs
    simp only [Bool.false_eq_true, if_false] at hs
    unfold scaleNormal at hs
    simp only at hs
    by_cases c1 : st.fCurVelMult * retcheck.fTimeBasedSurpassMult < 1 / 100
    · rw [if_pos c1] at hs
      cases hs
    rw [if_neg c1] at hs
    by_cases c2 : st.fCurAccelMult *
        (retcheck.fTimeBasedSurpassMult * retcheck.fTimeBasedSurpassMult) < 1 / 10000
    · rw [if_pos c2] at hs
      cases hs
    rw [if_neg c2] at hs
    cases hs
    refine ⟨rfl, rfl, floorScaleVellimits_getD _ _ _ _ k hk, ?_⟩
    simp only
    rw [floorScaleVellimits_getD _ _ _ _ k hk]
    exact le_max_left _ _

/-- C21 (witness): one DOF with velocity limit 1, boundary velocities 1/4 and
0 and `fStartTimeVelMult = 1/2`: the initial velocity limit is 1/2. -/
theorem C21_velocity_limit_floor_witness :
    plainPlanner._bmanipconstraints = false ∧
    0 < plainPlanner.params._vConfigVelocityLimit.length ∧
    (initialLimits plainPlanner (1 / 2) 1 [1 / 4] [0]).1.getD 0 0 ≥
      max |([1 / 4] : List dReal).getD 0 0| |([0] : List dReal).getD 0 0| ∧
    (initialLimits plainPlanner (1 / 2) 1 [1 / 4] [0]).1.getD 0 0 =
      max (max |([1 / 4] : List dReal).getD 0 0| |([0] : List dReal).getD 0 0|)
        (1 / 2 * plainPlanner.params._vConfigVelocityLimit.getD 0 0) := by
  have h := C21_velocity_limit_floor plainPlanner (1 / 2) 1 [1 / 4] [0] rfl 0 (by decide)
  refine ⟨rfl, by decide, h.1, h.2.1 (by norm_num) (by norm_num) ?_⟩
  norm_num [plainPlanner, plainParameters, abs_of_pos]

theorem slowDownLoop_step (K : Consts) (H : Host) (C : Collaborators) (P : Planner)
    (I : ParabolicInterpolator) (t0 t1 minTimeStep : dReal) (bx0 bx1 bv0 bv1 : List dReal)
    (fuel iSlowDown : Nat) (st : AttemptState) :
    slowDownLoop K H C P I t0 t1 minTimeStep bx0 bx1 bv0 bv1 (fuel + 1) iSlowDown st =
      (slowDownStep K H C P I t0 t1 minTimeStep bx0 bx1 bv0 bv1 iSlowDown st).bind fun r =>
        match r with
        | .inl out => some out
        | .inr p =>
          slowDownLoop K H C P I t0 t1 minTimeStep bx0 bx1 bv0 bv1 fuel (iSlowDown + 1) p.2 := by
  rw [slowDownLoop, slowDownStep]
  cases hI : I.ComputeArbitraryVelNDTrajectory st.x0Vect st.x1Vect st.v0Vect st.v1Vect
      st.vellimits st.accellimits false with
  | none => rfl
  | some cand =>
    simp only
    split_ifs with h1 h2
    · rfl
    · rfl
    · cases hc : checkBlock K H P I t0 t1 minTimeStep (totalDuration cand)
          { st with shortcutRampNDVect := cand, ncalls := st.ncalls + 1 } with
      | none => rfl
      | some c =>
        simp only [Option.some_bind]
        split_ifs <;> rfl

theorem slowDownLoop_slowDowns (K : Consts) (H : Host) (C : Collaborators) (P : Planner)
    (I : ParabolicInterpolator) (t0 t1 minTimeStep : dReal) (bx0 bx1 bv0 bv1 : List dReal)
    (fuel : Nat) :
    ∀ (k iSlowDown : Nat) (st st2 : AttemptState) (ms : List dReal),
      slowDowns K H C P I t0 t1 minTimeStep bx0 bx1 bv0 bv1 k iSlowDown st = some (ms, st2) →
      slowDownLoop K H C P I t0 t1 minTimeStep bx0 bx1 bv0 bv1 (k + fuel) iSlowDown st =
        slowDownLoop K H C P I t0 t1 minTimeStep bx0 bx1 bv0 bv1 fuel (iSlowDown + k) st2 := by
  intro k
  induction k with
  | zero =>
    intro i st st2 ms h
    rw [slowDowns] at h
    cases h
    simp
  | succ k ih =>
    intro i st st2 ms h
    rw [slowDowns] at h
    cases hs : slowDownStep K H C P I t0 t1 minTimeStep bx0 bx1 bv0 bv1 i st with
    | none => rw [hs] at h; cases h
    | some r =>
      rw [hs] at h
      cases r with
      | inl out => cases h
      | inr p =>
        obtain ⟨m, st1⟩ := p
        simp only [Option.map_eq_some'] at h
        obtain ⟨r2, hr2, heq⟩ := h
        obtain ⟨ms2, st3⟩ := r2
        simp only [Prod.mk.injEq] at heq
        obtain ⟨-, rfl⟩ := heq
        rw [show k + 1 + fuel = (k + fuel) + 1 from by omega, slowDownLoop_step, hs]
        simp only [Option.some_bind]
        rw [ih (i + 1) st1 st3 ms2 hr2]
        congr 1
        omega

theorem foldl_length_invariant {β : Type} (f : List dReal → β → List dReal)
    (hf : ∀ v x, (f v x).length = v.length) :
    ∀ (L : List β) (v : List dReal), (L.foldl f v).length = v.length := by
  intro L
  induction L with
  | nil => intro v; rfl
  | cons x rest ih =>
    intro v
    rw [List.foldl_cons, ih, hf]

theorem raiseVellimits_length (vl : List dReal) (out : List RampND) :
    (raiseVellimits vl out).length = vl.length := by
  unfold raiseVellimits
  apply foldl_length_invariant
  intro v r
  apply foldl_length_invariant
  intro w j
  simp only
  split_ifs
  · rw [List.length_set]
  · rfl

theorem repairLastSegment_keeps (K : Consts) (H : Host) (P : Planner)
    (I : ParabolicInterpolator) (t0 t1 minTimeStep segmentTime : dReal) (retcheck : CheckReturn)
    (back : RampND) (st : AttemptState) (c : CheckReturn × AttemptState)
    (h : repairLastSegment K H P I t0 t1 minTimeStep segmentTime retcheck back st = some c) :
    c.2.fCurVelMult = st.fCurVelMult ∧ c.2.fCurAccelMult = st.fCurAccelMult ∧
    c.2.accellimits = st.accellimits ∧ c.2.vellimits = st.vellimits := by
  unfold repairLastSegment at h
  simp only at h
  split at h
  · cases h
    exact ⟨rfl, rfl, rfl, rfl⟩
  · split_ifs at h
    · cases h
      exact ⟨rfl, rfl, rfl, rfl⟩
    · simp only [Option.bind_eq_some] at h
      obtain ⟨c2, -, h2⟩ := h
      split_ifs at h2 <;> cases h2 <;> exact ⟨rfl, rfl, rfl, rfl⟩

theorem checkBlock_keeps (K : Consts) (H : Host) (P : Planner) (I : ParabolicInterpolator)
    (t0 t1 minTimeStep segmentTime : dReal) (st : AttemptState) (c : CheckReturn × AttemptState)
    (h : checkBlock K H P I t0 t1 minTimeStep segmentTime st = some c) :
    c.2.fCurVelMult = st.fCurVelMult ∧ c.2.fCurAccelMult = st.fCurAccelMult ∧
    c.2.accellimits = st.accellimits ∧ c.2.vellimits.length = st.vellimits.length := by
  unfold checkBlock at h
  split at h
  · cases h
    exact ⟨rfl, rfl, rfl, rfl⟩
  · simp only [Option.bind_eq_some] at h
    obtain ⟨c2, -, h2⟩ := h
    split_ifs at h2
    · cases h2
      exact ⟨rfl, rfl, rfl, rfl⟩
    · split at h2
      · obtain ⟨h1, h2', h3, h4⟩ := repairLastSegment_keeps K H P I _ _ _ _ _ _ _ _ h2
        exact ⟨h1, h2', h3, by rw [h4]; exact raiseVellimits_length _ _⟩
      · cases h2
        exact ⟨rfl, rfl, rfl, raiseVellimits_length _ _⟩

theorem runAttempt_start (K : Consts) (H : Host) (C : Collaborators) (P : Planner)
    (I : ParabolicInterpolator) (minTimeStep t0 t1 : dReal) (s : ShortcutState)
    (x0 x1 : List dReal) (h0 : H.setgetState (C.EvalPos s.path t0) = some x0)
    (h1 : H.setgetState (C.EvalPos s.path t1) = some x1) :
    runAttempt K H C P I minTimeStep t0 t1 s =
      (slowDownLoop K H C P I t0 t1 minTimeStep (C.EvalPos s.path t0) (C.EvalPos s.path t1)
        (C.EvalVel s.path t0) (C.EvalVel s.path t1) 100 0
        (attemptStart C P t0 t1 s x0 x1)).map some := by
  unfold runAttempt
  rw [h0]
  simp only
  rw [h1]
  rfl

theorem scaleNormal_cases (r : CheckReturn) (st : AttemptState) :
    (scaleNormal r st).2.fCurVelMult = st.fCurVelMult * r.fTimeBasedSurpassMult ∧
    (scaleNormal r st).2.fCurAccelMult =
      st.fCurAccelMult * (r.fTimeBasedSurpassMult * r.fTimeBasedSurpassMult) ∧
    ((scaleNormal r st).1 = false ↔
      (st.fCurVelMult * r.fTimeBasedSurpassMult < 1 / 100 ∨
        st.fCurAccelMult * (r.fTimeBasedSurpassMult * r.fTimeBasedSurpassMult) < 1 / 10000)) ∧
    ((scaleNormal r st).1 = true →
      (scaleNormal r st).2.vellimits =
        floorScaleVellimits st.v0Vect st.v1Vect st.vellimits r.fTimeBasedSurpassMult ∧
      (scaleNormal r st).2.accellimits =
        scaleFirst st.vellimits.length st.accellimits
          (r.fTimeBasedSurpassMult * r.fTimeBasedSurpassMult)) := by
  unfold scaleNormal
  simp only
  by_cases c1 : st.fCurVelMult * r.fTimeBasedSurpassMult < 1 / 100
  · rw [if_pos c1]
    exact ⟨rfl, rfl, ⟨fun _ => Or.inl c1, fun _ => rfl⟩, fun h => by cases h⟩
  rw [if_neg c1]
  by_cases c2 : st.fCurAccelMult * (r.fTimeBasedSurpassMult * r.fTimeBasedSurpassMult) <
      1 / 10000
  · rw [if_pos c2]
    exact ⟨rfl, rfl, ⟨fun _ => Or.inr c2, fun _ => rfl⟩, fun h => by cases h⟩
  rw [if_neg c2]
  refine ⟨rfl, rfl, ⟨fun h => (by cases h), fun h => ?_⟩, fun _ => ⟨rfl, rfl⟩⟩
  rcases h with h | h
  · exact absurd h c1
  · exact absurd h c2

theorem floorScaleVellimits_length (v0 v1 vl : List dReal) (mult : dReal) :
    (floorScaleVellimits v0 v1 vl mult).length = vl.length := by
  unfold floorScaleVellimits
  exact (foldl_set_getD
    (fun j x => max (max |v0.getD j 0| |v1.getD j 0|) (mult * x)) vl vl.length (le_refl _)).1

theorem scaleFirst_getD (n : Nat) (v : List dReal) (mult : dReal) (hn : n ≤ v.length) :
    (scaleFirst n v mult).length = v.length ∧
    ∀ j, j < n → (scaleFirst n v mult).getD j 0 = v.getD j 0 * mult := by
  unfold scaleFirst
  have h := foldl_set_getD (fun _ x => x * mult) v n hn
  refine ⟨h.1, fun j hj => ?_⟩
  have h2 := h.2 j
  rw [if_pos hj] at h2
  exact h2

/-- What one iteration of the slowdown loop that goes on to the next one does
to the multipliers and to the limits, without manipulator constraints. -/
theorem slowDownStep_again (K : Consts) (H : Host) (C : Collaborators) (P : Planner)
    (I : ParabolicInterpolator) (t0 t1 minTimeStep : dReal) (bx0 bx1 bv0 bv1 : List dReal)
    (i : Nat) (st st2 : AttemptState) (m : dReal) (hm : P._bmanipconstraints = false)
    (h : slowDownStep K H C P I t0 t1 minTimeStep bx0 bx1 bv0 bv1 i st = some (.inr (m, st2))) :
    st2.fCurVelMult = st.fCurVelMult * m ∧ st2.fCurAccelMult = st.fCurAccelMult * (m * m) ∧
    st2.vellimits.length = st.vellimits.length ∧
    st2.accellimits = scaleFirst st.vellimits.length st.accellimits (m * m) ∧
    ¬ (st2.fCurVelMult < 1 / 100) ∧ ¬ (st2.fCurAccelMult < 1 / 10000) := by
  unfold slowDownStep at h
  split at h
  · cases h
  · rename_i cand hI
    dsimp only at h
    split_ifs at h with h1 h2
    · cases h
    · cases h
    simp only [Option.bind_eq_some] at h
    obtain ⟨c, hc, h3⟩ := h
    obtain ⟨k1, k2, k3, k4⟩ := checkBlock_keeps K H P I _ _ _ _ _ _ hc
    simp only at k1 k2 k3 k4
    split_ifs at h3 with h4 h5 h6
    · cases h3
    · simp only [Option.some.injEq, Sum.inr.injEq, Prod.mk.injEq] at h3
      obtain ⟨rfl, rfl⟩ := h3
      unfold scaleLimits at h6 ⊢
      rw [hm] at h6 ⊢
      simp only [Bool.false_eq_true, if_false] at h6 ⊢
      obtain ⟨s1, s2, s3, s4⟩ := scaleNormal_cases c.1
        { c.2 with nTimeBasedConstraintsFailed := c.2.nTimeBasedConstraintsFailed + 1 }
      obtain ⟨s5, s6⟩ := s4 h6
      have hnot : ¬ (c.2.fCurVelMult * c.1.fTimeBasedSurpassMult < 1 / 100 ∨
          c.2.fCurAccelMult * (c.1.fTimeBasedSurpassMult * c.1.fTimeBasedSurpassMult) <
            1 / 10000) := by
        intro hx
        have := s3.2 hx
        rw [h6] at this
        cases this
      rw [s1, s2, s5, s6, floorScaleVellimits_length]
      show c.2.fCurVelMult * c.1.fTimeBasedSurpassMult = _ ∧
        c.2.fCurAccelMult * (c.1.fTimeBasedSurpassMult * c.1.fTimeBasedSurpassMult) = _ ∧
        c.2.vellimits.length = _ ∧
        scaleFirst c.2.vellimits.length c.2.accellimits
          (c.1.fTimeBasedSurpassMult * c.1.fTimeBasedSurpassMult) = _ ∧
        ¬ (c.2.fCurVelMult * c.1.fTimeBasedSurpassMult < 1 / 100) ∧
        ¬ (c.2.fCurAccelMult * (c.1.fTimeBasedSurpassMult * c.1.fTimeBasedSurpassMult) <
          1 / 10000)
      rw [k4, k3]
      exact ⟨by rw [k1], by rw [k2], rfl, rfl, fun hx => hnot (Or.inl hx),
        fun hx => hnot (Or.inr hx)⟩
    · cases h3
    · cases h3

/-- The closed form of the multipliers and of the acceleration limits after `k`
consecutive slowdowns, from any state whose acceleration limits cover the
velocity limits. -/
theorem slowDowns_closed_form (K : Consts) (H : Host) (C : Collaborators) (P : Planner)
    (I : ParabolicInterpolator) (t0 t1 minTimeStep : dReal) (bx0 bx1 bv0 bv1 : List dReal)
    (hm : P._bmanipconstraints = false) :
    ∀ (k i : Nat) (st st2 : AttemptState) (ms : List dReal),
      st.vellimits.length ≤ st.accellimits.length →
      slowDowns K H C P I t0 t1 minTimeStep bx0 bx1 bv0 bv1 k i st = some (ms, st2) →
      ms.length = k ∧ st2.fCurVelMult = st.fCurVelMult * ms.prod ∧
      st2.fCurAccelMult = st.fCurAccelMult * (ms.map fun m => m ^ 2).prod ∧
      st2.vellimits.length = st.vellimits.length ∧
      st2.accellimits.length = st.accellimits.length ∧
      (∀ j, j < st.vellimits.length →
        st2.accellimits.getD j 0 = st.accellimits.getD j 0 * (ms.map fun m => m ^ 2).prod) ∧
      (0 < k → ¬ (st2.fCurVelMult < 1 / 100) ∧ ¬ (st2.fCurAccelMult < 1 / 10000)) := by
  intro k
  induction k with
  | zero =>
    intro i st st2 ms _ h
    rw [slowDowns] at h
    cases h
    simp
  | succ k ih =>
    intro i st st2 ms hlen h
    rw [slowDowns] at h
    cases hs : slowDownStep K H C P I t0 t1 minTimeStep bx0 bx1 bv0 bv1 i st with
    | none => rw [hs] at h; cases h
    | some r =>
      rw [hs] at h
      cases r with
      | inl out => cases h
      | inr p =>
        obtain ⟨m, st1⟩ := p
        simp only [Option.map_eq_some'] at h
        obtain ⟨r2, hr2, heq⟩ := h
        obtain ⟨ms2, st3⟩ := r2
        simp only [Prod.mk.injEq] at heq
        obtain ⟨rfl, rfl⟩ := heq
        obtain ⟨a1, a2, a3, a4, a5, a6⟩ :=
          slowDownStep_again K H C P I t0 t1 minTimeStep bx0 bx1 bv0 bv1 i st st1 m hm hs
        obtain ⟨f1, f2⟩ := scaleFirst_getD st.vellimits.length st.accellimits (m * m) hlen
        have hlen1 : st1.vellimits.length ≤ st1.accellimits.length := by
          rw [a3, a4, f1]
          exact hlen
        obtain ⟨b1, b2, b3, b4, b5, b6, b7⟩ := ih (i + 1) st1 st3 ms2 hlen1 hr2
        refine ⟨by rw [List.length_cons, b1], ?_, ?_, by rw [b4, a3], by rw [b5, a4, f1], ?_,
          ?_⟩
        · rw [b2, a1, List.prod_cons, mul_assoc]
        · rw [b3, a2, List.map_cons, List.prod_cons, pow_two, mul_assoc]
        · intro j hj
          rw [b6 j (by rw [a3]; exact hj), a4, f2 j hj, List.map_cons, List.prod_cons, pow_two,
            mul_assoc]
        · intro _
          by_cases hk : 0 < k
          · exact b7 hk
          · have hk0 : k = 0 := by omega
            subst hk0
            rw [slowDowns] at hr2
            cases hr2
            exact ⟨a5, a6⟩

/-- An iteration of the slowdown loop whose check fails with the time-based
code and whose scaled multipliers are below a floor leaves the loop with
`bSuccess = false`. -/
theorem slowDownStep_abort (K : Consts) (H : Host) (C : Collaborators) (P : Planner)
    (I : ParabolicInterpolator) (t0 t1 minTimeStep : dReal) (bx0 bx1 bv0 bv1 : List dReal)
    (i : Nat) (st : AttemptState) (cand : List RampND) (c : CheckReturn × AttemptState)
    (hm : P._bmanipconstraints = false) (hTB : K.CFO_CheckTimeBasedConstraints ≠ 0)
    (hI : I.ComputeArbitraryVelNDTrajectory st.x0Vect st.x1Vect st.v0Vect st.v1Vect st.vellimits
      st.accellimits false = some cand)
    (hdur : ¬ (totalDuration cand + minTimeStep > t1 - t0))
    (hcall : C._CallCallbacks st.ncalls ≠ PlannerAction.PA_Interrupt)
    (hc : checkBlock K H P I t0 t1 minTimeStep (totalDuration cand)
      { st with shortcutRampNDVect := cand, ncalls := st.ncalls + 1 } = some c)
    (hret : c.1.retcode = K.CFO_CheckTimeBasedConstraints)
    (hfloor : st.fCurVelMult * c.1.fTimeBasedSurpassMult < 1 / 100 ∨
      st.fCurAccelMult * c.1.fTimeBasedSurpassMult ^ 2 < 1 / 10000) :
    ∃ st2, slowDownStep K H C P I t0 t1 minTimeStep bx0 bx1 bv0 bv1 i st =
        some (.inl (.finished false st2)) ∧
      st2.fCurVelMult = st.fCurVelMult * c.1.fTimeBasedSurpassMult ∧
      st2.fCurAccelMult = st.fCurAccelMult * c.1.fTimeBasedSurpassMult ^ 2 := by
  obtain ⟨k1, k2, -, -⟩ := checkBlock_keeps K H P I _ _ _ _ _ _ hc
  simp only at k1 k2
  obtain ⟨s1, s2, s3, -⟩ := scaleNormal_cases c.1
    { c.2 with nTimeBasedConstraintsFailed := c.2.nTimeBasedConstraintsFailed + 1 }
  have hfalse := s3.2 (by
    show c.2.fCurVelMult * c.1.fTimeBasedSurpassMult < 1 / 100 ∨
      c.2.fCurAccelMult * (c.1.fTimeBasedSurpassMult * c.1.fTimeBasedSurpassMult) < 1 / 10000
    rw [k1, k2, ← pow_two]
    exact hfloor)
  have hne : ¬ (c.1.retcode = 0) := by rw [hret]; exact hTB
  refine ⟨(scaleNormal c.1
    { c.2 with nTimeBasedConstraintsFailed := c.2.nTimeBasedConstraintsFailed + 1 }).2, ?_,
    by rw [← k1]; exact s1, by rw [← k2, pow_two]; exact s2⟩
  unfold slowDownStep
  rw [hI]
  simp only
  rw [if_neg hdur, if_neg hcall, hc]
  simp only [Option.some_bind]
  rw [if_neg hne, if_pos hret]
  unfold scaleLimits
  rw [hm]
  simp only [Bool.false_eq_true, if_false]
  rw [hfalse]
  simp only [Bool.false_eq_true, if_false]

theorem attemptStart_limits (C : Collaborators) (P : Planner) (t0 t1 : dReal) (s : ShortcutState)
    (x0 x1 : List dReal) (hm : P._bmanipconstraints = false)
    (hfa1 : s.fStartTimeAccelMult ≤ 1)
    (hlen : P.params._vConfigVelocityLimit.length ≤ P.params._vConfigAccelerationLimit.length)
    (hnn : ∀ j, 0 ≤ P.params._vConfigAccelerationLimit.getD j 0) :
    (attemptStart C P t0 t1 s x0 x1).vellimits.length = P.params._vConfigVelocityLimit.length ∧
    (attemptStart C P t0 t1 s x0 x1).accellimits.length =
      P.params._vConfigAccelerationLimit.length ∧
    ∀ j, j < P.params._vConfigVelocityLimit.length →
      (attemptStart C P t0 t1 s x0 x1).accellimits.getD j 0 =
        s.fStartTimeAccelMult * P.params._vConfigAccelerationLimit.getD j 0 := by
  have hm2 : (P._bmanipconstraints && P._bUseNewHeuristic) = false := by
    rw [hm]
    rfl
  refine ⟨?_, ?_, ?_⟩
  · show (initialLimits P s.fStartTimeVelMult s.fStartTimeAccelMult _ _).1.length = _
    rw [initialLimits_eq P _ _ _ _ hm2]
    exact (foldl_set_getD
      (fun j x =>
        if x < max |(C.EvalVel s.path t0).getD j 0| |(C.EvalVel s.path t1).getD j 0| then
          max |(C.EvalVel s.path t0).getD j 0| |(C.EvalVel s.path t1).getD j 0|
        else if x > max (max |(C.EvalVel s.path t0).getD j 0| |(C.EvalVel s.path t1).getD j 0|)
            (s.fStartTimeVelMult * P.params._vConfigVelocityLimit.getD j 0) then
          max (max |(C.EvalVel s.path t0).getD j 0| |(C.EvalVel s.path t1).getD j 0|)
            (s.fStartTimeVelMult * P.params._vConfigVelocityLimit.getD j 0)
        else x)
      P.params._vConfigVelocityLimit _ (le_refl _)).1
  · show (initialLimits P s.fStartTimeVelMult s.fStartTimeAccelMult _ _).2.length = _
    rw [initialLimits_eq P _ _ _ _ hm2]
    exact (foldl_set_getD
      (fun j x =>
        if x > s.fStartTimeAccelMult * P.params._vConfigAccelerationLimit.getD j 0 then
          s.fStartTimeAccelMult * P.params._vConfigAccelerationLimit.getD j 0
        else x)
      P.params._vConfigAccelerationLimit _ hlen).1
  · intro j hj
    show (initialLimits P s.fStartTimeVelMult s.fStartTimeAccelMult _ _).2.getD j 0 = _
    rw [initialLimits_accel P _ _ _ _ hm2 hlen j hj]
    split_ifs with h
    · rfl
    · have h1 : s.fStartTimeAccelMult * P.params._vConfigAccelerationLimit.getD j 0 ≤
          P.params._vConfigAccelerationLimit.getD j 0 := by
        calc s.fStartTimeAccelMult * P.params._vConfigAccelerationLimit.getD j 0
            ≤ 1 * P.params._vConfigAccelerationLimit.getD j 0 :=
              mul_le_mul_of_nonneg_right hfa1 (hnn j)
          _ = P.params._vConfigAccelerationLimit.getD j 0 := one_mul _
      exact le_antisymm (not_lt.mp h) h1

/-- C22.  Without manipulator constraints, on an attempt whose boundary states
can be set, with `fStartTimeAccelMult ≤ 1`, nonnegative acceleration limits and
at least as many acceleration limits as velocity limits: when the first `k`
iterations of the slowdown loop end with time-based failures of surpass
multipliers `ms = [m_1, .., m_k]` and none of them aborts, the state `st` before
iteration `k` has `fCurVelMult = fStartTimeVelMult * prod ms`,
`fCurAccelMult = fStartTimeAccelMult * prod (m_i ^ 2)` and
`accellimits[j] = fStartTimeAccelMult * aMax[j] * prod (m_i ^ 2)` for every DOF
`j`; none of the multipliers is below its floor when `0 < k`; the attempt goes
on with the remaining `100 - k` iterations; after 100 slowdowns it ends with
`bSuccess = false`; and a further time-based failure whose multiplier brings
`fCurVelMult` below 1/100 or `fCurAccelMult` below 1/10000 ends the attempt with
`bSuccess = false` and the multipliers scaled once more. -/
theorem C22_scalar_slowdown (K : Consts) (H : Host) (C : Collaborators) (P : Planner)
    (I : ParabolicInterpolator) (minTimeStep t0 t1 : dReal) (s : ShortcutState)
    (x0 x1 : List dReal) (k : Nat) (ms : List dReal) (st : AttemptState)
    (hm : P._bmanipconstraints = false)
    (h0 : H.setgetState (C.EvalPos s.path t0) = some x0)
    (h1 : H.setgetState (C.EvalPos s.path t1) = some x1)
    (hfa1 : s.fStartTimeAccelMult ≤ 1)
    (hlen : P.params._vConfigVelocityLimit.length ≤ P.params._vConfigAccelerationLimit.length)
    (hnn : ∀ j, 0 ≤ P.params._vConfigAccelerationLimit.getD j 0)
    (hk : slowDowns K H C P I t0 t1 minTimeStep (C.EvalPos s.path t0) (C.EvalPos s.path t1)
      (C.EvalVel s.path t0) (C.EvalVel s.path t1) k 0 (attemptStart C P t0 t1 s x0 x1) =
        some (ms, st)) :
    ms.length = k ∧
    st.fCurVelMult = s.fStartTimeVelMult * ms.prod ∧
    st.fCurAccelMult = s.fStartTimeAccelMult * (ms.map fun m => m ^ 2).prod ∧
    (∀ j, j < P.params._vConfigVelocityLimit.length →
      st.accellimits.getD j 0 =
        s.fStartTimeAccelMult * P.params._vConfigAccelerationLimit.getD j 0 *
          (ms.map fun m => m ^ 2).prod) ∧
    (0 < k → 1 / 100 ≤ st.fCurVelMult ∧ 1 / 10000 ≤ st.fCurAccelMult) ∧
    (k ≤ 100 →
      runAttempt K H C P I minTimeStep t0 t1 s =
        (slowDownLoop K H C P I t0 t1 minTimeStep (C.EvalPos s.path t0) (C.EvalPos s.path t1)
          (C.EvalVel s.path t0) (C.EvalVel s.path t1) (100 - k) k st).map some) ∧
    (k = 100 →
      runAttempt K H C P I minTimeStep t0 t1 s = some (some (.finished false st))) ∧
    (k < 100 → ∀ (cand : List RampND) (c : CheckReturn × AttemptState),
      I.ComputeArbitraryVelNDTrajectory st.x0Vect st.x1Vect st.v0Vect st.v1Vect st.vellimits
        st.accellimits false = some cand →
      ¬ (totalDuration cand + minTimeStep > t1 - t0) →
      C._CallCallbacks st.ncalls ≠ PlannerAction.PA_Interrupt →
      checkBlock K H P I t0 t1 minTimeStep (totalDuration cand)
        { st with shortcutRampNDVect := cand, ncalls := st.ncalls + 1 } = some c →
      c.1.retcode = K.CFO_CheckTimeBasedConstraints →
      K.CFO_CheckTimeBasedConstraints ≠ 0 →
      (st.fCurVelMult * c.1.fTimeBasedSurpassMult < 1 / 100 ∨
        st.fCurAccelMult * c.1.fTimeBasedSurpassMult ^ 2 < 1 / 10000) →
      ∃ st2, runAttempt K H C P I minTimeStep t0 t1 s = some (some (.finished false st2)) ∧
        st2.fCurVelMult = st.fCurVelMult * c.1.fTimeBasedSurpassMult ∧
        st2.fCurAccelMult = st.fCurAccelMult * c.1.fTimeBasedSurpassMult ^ 2) := by
  obtain ⟨l1, l2, l3⟩ := attemptStart_limits C P t0 t1 s x0 x1 hm hfa1 hlen hnn
  obtain ⟨b1, b2, b3, b4, b5, b6, b7⟩ := slowDowns_closed_form K H C P I t0 t1 minTimeStep
    (C.EvalPos s.path t0) (C.EvalPos s.path t1) (C.EvalVel s.path t0) (C.EvalVel s.path t1) hm
    k 0 (attemptStart C P t0 t1 s x0 x1) st ms (by rw [l1, l2]; exact hlen) hk
  have hrun : k ≤ 100 →
      runAttempt K H C P I minTimeStep t0 t1 s =
        (slowDownLoop K H C P I t0 t1 minTimeStep (C.EvalPos s.path t0) (C.EvalPos s.path t1)
          (C.EvalVel s.path t0) (C.EvalVel s.path t1) (100 - k) k st).map some := by
    intro hk100
    rw [runAttempt_start K H C P I minTimeStep t0 t1 s x0 x1 h0 h1]
    have h := slowDownLoop_slowDowns K H C P I t0 t1 minTimeStep (C.EvalPos s.path t0)
      (C.EvalPos s.path t1) (C.EvalVel s.path t0) (C.EvalVel s.path t1) (100 - k) k 0
      (attemptStart C P t0 t1 s x0 x1) st ms hk
    rw [show k + (100 - k) = 100 from by omega, Nat.zero_add] at h
    rw [h]
  refine ⟨b1, b2, b3, ?_, ?_, hrun, ?_, ?_⟩
  · intro j hj
    rw [b6 j (by rw [l1]; exact hj), l3 j hj]
  · intro hpos
    exact ⟨not_lt.mp (b7 hpos).1, not_lt.mp (b7 hpos).2⟩
  · intro hk100
    rw [hrun (le_of_eq hk100), hk100]
    rfl
  · intro hlt cand c hI hdur hcall hc hret hTB hfloor
    obtain ⟨st2, hstep, e1, e2⟩ := slowDownStep_abort K H C P I t0 t1 minTimeStep
      (C.EvalPos s.path t0) (C.EvalPos s.path t1) (C.EvalVel s.path t0) (C.EvalVel s.path t1)
      k st cand c hm hTB hI hdur hcall hc hret hfloor
    refine ⟨st2, ?_, e1, e2⟩
    rw [hrun (le_of_lt hlt), show 100 - k = (99 - k) + 1 from by omega, slowDownLoop_step,
      hstep]
    rfl

theorem drift_attemptStart :
    attemptStart driftCollaborators bendingPlanner 0 10 driftState [0] [2] = driftAttempt := by
  have hv : ∀ t, driftCollaborators.EvalVel driftState.path t = [0] := fun _ => rfl
  have hs1 : driftState.fStartTimeVelMult = 1 := rfl
  have hs2 : driftState.fStartTimeAccelMult = 1 := rfl
  unfold attemptStart
  simp only [hv, hs1, hs2, drift_initialLimits]
  rfl

theorem drift_slowDowns (K : Consts) (hE : K.g_fEpsilon < 1 / 16)
    (hER : K.g_fEpsilon ≤ K.g_fRampEpsilon) (hR0 : 0 ≤ K.g_fRampEpsilon)
    (hR : K.g_fRampEpsilon < 1 / 2) (hL : K.g_fEpsilonLinear < 1)
    (hbit : 0xffff &&& K.CFO_CheckEnvCollisions = K.CFO_CheckEnvCollisions)
    (hTB : K.CFO_CheckTimeBasedConstraints = 4)
    (C : Collaborators) (hC : ∀ n, C._CallCallbacks n = PlannerAction.PA_None) :
    slowDowns K driftHost C bendingPlanner driftInterpolator 0 10 (99 / 1000) [0] [2] [0] [0]
      1 0 driftAttempt = some ([98 / 100], driftSlowed) := by
  have hI : ∀ b c d e f g, driftInterpolator.ComputeArbitraryVelNDTrajectory
      driftAttempt.x0Vect b c d e f g = some bangBang := by
    intro b c d e f g
    simp only [driftInterpolator, driftAttempt, if_true]
  have hguard : ¬ ((2 : dReal) + 99 / 1000 > 10 - 0) := by norm_num
  have hm : bendingPlanner._bmanipconstraints = false := rfl
  have hne : ¬ (PlannerAction.PA_None = PlannerAction.PA_Interrupt) := by decide
  have h40 : ¬ ((4 : Nat) = 0) := by decide
  have hv : ¬ ((1 : dReal) * (98 / 100) < 1 / 100) := by norm_num
  have ha : ¬ ((1 : dReal) * (98 / 100 * (98 / 100)) < 1 / 10000) := by norm_num
  have hblock := drift_checkBlock_repair K hE hER hR0 hR hL hbit hTB
    { driftAttempt with shortcutRampNDVect := bangBang, ncalls := driftAttempt.ncalls + 1 }
    rfl rfl
  rw [slowDowns, slowDownStep]
  simp only [hI, totalDuration_bangBang, if_neg hguard, hC, if_neg hne]
  rw [hblock]
  simp only [Option.some_bind, h40, if_false, hTB, if_true, scaleLimits, hm,
    Bool.false_eq_true, scaleNormal, driftAttempt, hv, ha, slowDowns, Option.map_some',
    driftSlowed]

/-- C22 (witness): the attempt on the window `[0, 10]` of `driftPath` has one
slowdown with the surpass multiplier 98/100, after which the multipliers are
98/100 and (98/100)^2 and the acceleration limit is 8 * (98/100)^2. -/
theorem C22_scalar_slowdown_witness :
    bendingPlanner._bmanipconstraints = false ∧
    slowDowns openraveConsts driftHost driftCollaborators bendingPlanner driftInterpolator 0 10
      (99 / 1000) (driftCollaborators.EvalPos driftState.path 0)
      (driftCollaborators.EvalPos driftState.path 10)
      (driftCollaborators.EvalVel driftState.path 0)
      (driftCollaborators.EvalVel driftState.path 10) 1 0
      (attemptStart driftCollaborators bendingPlanner 0 10 driftState [0] [2]) =
        some ([98 / 100], driftSlowed) ∧
    driftSlowed.fCurVelMult = driftState.fStartTimeVelMult * ([98 / 100] : List dReal).prod ∧
    driftSlowed.fCurAccelMult =
      driftState.fStartTimeAccelMult * (([98 / 100] : List dReal).map fun m => m ^ 2).prod ∧
    driftSlowed.accellimits.getD 0 0 =
      driftState.fStartTimeAccelMult *
        bendingPlanner.params._vConfigAccelerationLimit.getD 0 0 *
        (([98 / 100] : List dReal).map fun m => m ^ 2).prod := by
  have hk : slowDowns openraveConsts driftHost driftCollaborators bendingPlanner
      driftInterpolator 0 10 (99 / 1000) (driftCollaborators.EvalPos driftState.path 0)
      (driftCollaborators.EvalPos driftState.path 10)
      (driftCollaborators.EvalVel driftState.path 0)
      (driftCollaborators.EvalVel driftState.path 10) 1 0
      (attemptStart driftCollaborators bendingPlanner 0 10 driftState [0] [2]) =
        some ([98 / 100], driftSlowed) := by
    rw [drift_attemptStart]
    exact drift_slowDowns openraveConsts (by norm_num [openraveConsts])
      (by norm_num [openraveConsts]) (by norm_num [openraveConsts])
      (by norm_num [openraveConsts]) (by norm_num [openraveConsts]) (by decide) rfl
      driftCollaborators (fun _ => rfl)
  have hnn : ∀ j, 0 ≤ bendingPlanner.params._vConfigAccelerationLimit.getD j 0 := by
    intro j
    cases j with
    | zero => norm_num [bendingPlanner, bendingParameters]
    | succ n => simp [bendingPlanner, bendingParameters]
  have h := C22_scalar_slowdown openraveConsts driftHost driftCollaborators bendingPlanner
    driftInterpolator (99 / 1000) 0 10 driftState [0] [2] 1 [98 / 100] driftSlowed rfl
    (by simp [driftCollaborators, driftHost]) (by simp [driftCollaborators, driftHost])
    (by norm_num [driftState]) (by decide) hnn hk
  exact ⟨rfl, hk, h.2.1, h.2.2.1, h.2.2.2.1 0 (by decide)⟩

/-- What an iteration of the densification loop that does not return does:
either the waypoint is finalised, or a midpoint is inserted behind it and the
counter is raised by 2 without passing the cap. -/
theorem densifyStep_cases (N : NeighHost) (ndof : Nat) (st st2 : DensifyState)
    (h : densifyStep N ndof st = .ok st2) :
    (st2.iwaypoint = st.iwaypoint + 1 ∧ st2.vNewWaypoints = st.vNewWaypoints ∧
      st2.vForceInitialChecking = st.vForceInitialChecking ∧
      st2.nConsecutiveExpansions ≤ st.nConsecutiveExpansions ∧
      st.nConsecutiveExpansions - 1 ≤ st2.nConsecutiveExpansions) ∨
    (st2.iwaypoint = st.iwaypoint ∧
      (∃ xmid, st2.vNewWaypoints = st.vNewWaypoints.insertIdx (st.iwaypoint + 1) xmid) ∧
      st2.vForceInitialChecking =
        (st.vForceInitialChecking.set (st.iwaypoint + 1) 1).insertIdx (st.iwaypoint + 1) 1 ∧
      st2.nConsecutiveExpansions = st.nConsecutiveExpansions + 2 ∧
      st2.nConsecutiveExpansions ≤ 10) := by
  unfold densifyStep at h
  simp only at h
  cases hs : N.SetStateValues (st.vNewWaypoints.getD st.iwaypoint [])
  · rw [hs] at h
    simp only [Bool.not_false, if_true] at h
    cases h
  · simp only [hs, Bool.not_true, Bool.false_eq_true, if_false] at h
    cases hn : N._neighstatefn (st.vNewWaypoints.getD st.iwaypoint [])
        ((List.range ndof).map fun idof =>
          (1 / 2) * ((st.vNewWaypoints.getD (st.iwaypoint + 1) []).getD idof 0 -
            (st.vNewWaypoints.getD st.iwaypoint []).getD idof 0)) with
    | none =>
      rw [hn] at h
      cases h
    | some xmid =>
      simp only [hn] at h
      by_cases hd : midpointDist ndof (st.vNewWaypoints.getD st.iwaypoint [])
          (st.vNewWaypoints.getD (st.iwaypoint + 1) []) xmid > 1 / 100000
      · simp only [if_pos hd] at h
        by_cases hc : st.nConsecutiveExpansions + 2 > 10
        · rw [if_pos hc] at h
          cases h
        · simp only [if_neg hc] at h
          cases h
          exact Or.inr ⟨rfl, ⟨xmid, rfl⟩, rfl, rfl, not_lt.mp hc⟩
      · simp only [if_neg hd] at h
        cases h
        refine Or.inl ⟨rfl, rfl, rfl, ?_, ?_⟩
        · simp only
          split_ifs <;> omega
        · simp only
          split_ifs <;> omega

/-- The flag vector keeps the length of the waypoint list over an iteration
that starts with `iwaypoint + 1` inside the list. -/
theorem densifyStep_flags (N : NeighHost) (ndof : Nat) (st st2 : DensifyState)
    (h : densifyStep N ndof st = .ok st2)
    (hlen : st.vForceInitialChecking.length = st.vNewWaypoints.length)
    (hc : st.iwaypoint + 1 < st.vNewWaypoints.length) :
    st2.vForceInitialChecking.length = st2.vNewWaypoints.length := by
  rcases densifyStep_cases N ndof st st2 h with ⟨-, h2, h3, -, -⟩ | ⟨-, ⟨xmid, h2⟩, h3, -, -⟩
  · rw [h2, h3, hlen]
  · rw [h2, h3, List.length_insertIdx _ _ (by rw [List.length_set, hlen]; omega),
      List.length_insertIdx _ _ (by omega), List.length_set, hlen]

/-- Every iteration that does not return lowers
`3 * (size - 1 - iwaypoint) - 2 * nConsecutiveExpansions` by at least one and
keeps the counter at or below the cap. -/
theorem densifyStep_measure (N : NeighHost) (ndof : Nat) (st st2 : DensifyState)
    (h : densifyStep N ndof st = .ok st2)
    (hc : st.iwaypoint + 1 < st.vNewWaypoints.length)
    (h10 : st.nConsecutiveExpansions ≤ 10) :
    st2.nConsecutiveExpansions ≤ 10 ∧
    3 * ((st2.vNewWaypoints.length : Int) - 1 - st2.iwaypoint) -
        2 * st2.nConsecutiveExpansions + 1 ≤
      3 * ((st.vNewWaypoints.length : Int) - 1 - st.iwaypoint) -
        2 * st.nConsecutiveExpansions := by
  rcases densifyStep_cases N ndof st st2 h with ⟨h1, h2, -, h4, h5⟩ | ⟨h1, ⟨xmid, h2⟩, -, h4, h5⟩
  · rw [h1, h2]
    push_cast
    constructor <;> omega
  · rw [h1, h2, List.length_insertIdx _ _ (by omega), h4]
    rw [h4] at h5
    push_cast
    constructor <;> omega

/-- The densification loop returns when it is given more iterations than the
measure of its state plus 18. -/
theorem densifyLoop_returns (N : NeighHost) (ndof : Nat) :
    ∀ (fuel : Nat) (st : DensifyState), st.nConsecutiveExpansions ≤ 10 → 1 ≤ fuel →
      (st.iwaypoint + 1 < st.vNewWaypoints.length →
        3 * ((st.vNewWaypoints.length : Int) - 1 - st.iwaypoint) -
          2 * st.nConsecutiveExpansions + 19 ≤ fuel) →
      ∃ r, densifyLoop N ndof fuel st = some r := by
  intro fuel
  induction fuel with
  | zero =>
    intro st _ h1 _
    omega
  | succ fuel ih =>
    intro st h10 _ hM
    rw [densifyLoop]
    by_cases hc : st.iwaypoint + 1 < st.vNewWaypoints.length
    · rw [if_pos hc]
      cases hs : densifyStep N ndof st with
      | error e => exact ⟨_, rfl⟩
      | ok st2 =>
        obtain ⟨m1, m2⟩ := densifyStep_measure N ndof st st2 hs hc h10
        have hM1 := hM hc
        push_cast at hM1
        exact ih st2 m1 (by omega) (fun _ => by omega)
    · rw [if_neg hc]
      exact ⟨_, rfl⟩

/-- The number of iterations of the densification loop that do not return is
at most the measure of the starting state plus 18, and the flag vector keeps
the length of the waypoint list. -/
theorem densifyIterate_bound (N : NeighHost) (ndof : Nat) :
    ∀ (k : Nat) (st st2 : DensifyState), st.nConsecutiveExpansions ≤ 10 →
      st.vForceInitialChecking.length = st.vNewWaypoints.length →
      densifyIterate N ndof k st = some st2 →
      st2.vForceInitialChecking.length = st2.vNewWaypoints.length ∧
      st.vNewWaypoints.length ≤ st2.vNewWaypoints.length ∧
      (1 ≤ k → (k : Int) ≤ 3 * ((st.vNewWaypoints.length : Int) - 1 - st.iwaypoint) -
        2 * st.nConsecutiveExpansions + 18) := by
  intro k
  induction k with
  | zero =>
    intro st st2 _ hlen h
    rw [densifyIterate] at h
    cases h
    exact ⟨hlen, le_refl _, fun h => by omega⟩
  | succ k ih =>
    intro st st2 h10 hlen h
    rw [densifyIterate] at h
    by_cases hc : st.iwaypoint + 1 < st.vNewWaypoints.length
    · rw [if_pos hc] at h
      cases hs : densifyStep N ndof st with
      | error e =>
        rw [hs] at h
        cases h
      | ok st1 =>
        rw [hs] at h
        obtain ⟨m1, m2⟩ := densifyStep_measure N ndof st st1 hs hc h10
        obtain ⟨i1, i2, i3⟩ := ih st1 st2 m1 (densifyStep_flags N ndof st st1 hs hlen hc) h
        refine ⟨i1, le_trans (densifyStep_length N ndof st st1 hs) i2, fun _ => ?_⟩
        by_cases hk : 1 ≤ k
        · have := i3 hk
          push_cast
          omega
        · have hk0 : k = 0 := by omega
          subst hk0
          push_cast
          omega
    · rw [if_neg hc] at h
      cases h

/-- C29.  For every list `W` of at least two waypoints and every state-setting
and neighbour-state function, the densification loop of `_SetMileStones`
returns within `3 * |W| + 16` iterations; at most `3 * |W| + 15` iterations do
not return; an iteration that does not return either finalises a waypoint
(the index advances, the counter does not grow) or inserts a midpoint behind
the index and raises the counter by 2 without passing the cap 10; and after
any number of iterations the flag vector `vForceInitialChecking` has the length
of the densified waypoint list, which is at least `|W|`, so that the index
`iwaypoint + 1` written by the next expansion is inside the flag vector. -/
theorem C29_densification_terminates (N : NeighHost) (ndof : Nat) (W : List (List dReal))
    (hW : 2 ≤ W.length) :
    (∃ r, densifyLoop N ndof (3 * W.length + 16)
      { vNewWaypoints := W, vForceInitialChecking := List.replicate W.length 0,
        nConsecutiveExpansions := 0, iwaypoint := 0 } = some r) ∧
    (∀ (k : Nat) (st : DensifyState),
      densifyIterate N ndof k
        { vNewWaypoints := W, vForceInitialChecking := List.replicate W.length 0,
          nConsecutiveExpansions := 0, iwaypoint := 0 } = some st →
      k ≤ 3 * W.length + 15 ∧
      st.vForceInitialChecking.length = st.vNewWaypoints.length ∧
      W.length ≤ st.vNewWaypoints.length ∧
      (st.iwaypoint + 1 < st.vNewWaypoints.length →
        st.iwaypoint + 1 < st.vForceInitialChecking.length) ∧
      ∀ st2, densifyStep N ndof st = .ok st2 →
        (st2.iwaypoint = st.iwaypoint + 1 ∧ st2.vNewWaypoints = st.vNewWaypoints ∧
          st2.vForceInitialChecking = st.vForceInitialChecking ∧
          st2.nConsecutiveExpansions ≤ st.nConsecutiveExpansions ∧
          st.nConsecutiveExpansions - 1 ≤ st2.nConsecutiveExpansions) ∨
        (st2.iwaypoint = st.iwaypoint ∧
          (∃ xmid, st2.vNewWaypoints = st.vNewWaypoints.insertIdx (st.iwaypoint + 1) xmid) ∧
          st2.vForceInitialChecking =
            (st.vForceInitialChecking.set (st.iwaypoint + 1) 1).insertIdx
              (st.iwaypoint + 1) 1 ∧
          st2.nConsecutiveExpansions = st.nConsecutiveExpansions + 2 ∧
          st2.nConsecutiveExpansions ≤ 10)) := by
  have h010 : (0 : Int) ≤ 10 := by decide
  constructor
  · apply densifyLoop_returns N ndof _ _ h010 (by omega)
    intro _
    simp only
    push_cast
    omega
  · intro k st h
    obtain ⟨i1, i2, i3⟩ := densifyIterate_bound N ndof k _ st h010
      (by simp only [List.length_replicate]) h
    refine ⟨?_, i1, i2, fun hc => by rw [i1]; exact hc,
      fun st2 hs => densifyStep_cases N ndof st st2 hs⟩
    by_cases hk : 1 ≤ k
    · have := i3 hk
      simp only at this
      push_cast at this
      omega
    · omega

/-- C29 (witness): two waypoints of one DOF under `offsetNeighHost`: the loop
returns within 22 iterations. -/
theorem C29_densification_terminates_witness :
    2 ≤ ([[0], [1]] : List (List dReal)).length ∧
    ∃ r, densifyLoop offsetNeighHost 1 (3 * ([[0], [1]] : List (List dReal)).length + 16)
      { vNewWaypoints := [[0], [1]],
        vForceInitialChecking := List.replicate ([[0], [1]] : List (List dReal)).length 0,
        nConsecutiveExpansions := 0, iwaypoint := 0 } = some r :=
  ⟨by decide, (C29_densification_terminates offsetNeighHost 1 [[0], [1]] (by decide)).1⟩

theorem mergeRegistryUpdate_fold (t0 t1 diff : dReal) (z : List dReal)
    (nb : List (dReal × dReal)) :
    mergeRegistryUpdate t0 t1 diff z nb =
      (((List.range z.length).foldl (mergeRegistryStep t0 t1 diff) (z, nb, 0)).1.take
          ((List.range z.length).foldl (mergeRegistryStep t0 t1 diff) (z, nb, 0)).2.2,
        ((List.range z.length).foldl (mergeRegistryStep t0 t1 diff) (z, nb, 0)).2.1) := rfl

theorem list_getD_set_ne {α : Type} (l : List α) (n i : Nat) (v d : α) (h : n ≠ i) :
    (l.set n v).getD i d = l.getD i d := by
  simp [List.getD_eq_getElem?_getD, List.getElem?_set_ne h]

theorem list_take_set_succ {α : Type} (l : List α) (w : Nat) (v : α) (h : w < l.length) :
    (l.set w v).take (w + 1) = l.take w ++ [v] := by
  rw [List.take_succ, List.set_take]
  have h1 : (l.take w).set w v = l.take w := List.set_eq_of_length_le (by simp)
  have h2 : (l.set w v)[w]? = some v := by
    rw [List.getElem?_set_self h]
  rw [h2]
  simp
  exact h1

/-- The state of the loop over `readIndex` after `k` reads: the two vectors
keep their lengths, `writeIndex` is at most `k`, the entries at and behind
`writeIndex` are the original ones, and `writeIndex` is below `k` once a stop
in `(t0, t1]` has been read. -/
theorem mergeRegistryStep_fold (t0 t1 diff : dReal) (Z : List dReal)
    (nb : List (dReal × dReal)) :
    ∀ k, k ≤ Z.length →
      ((List.range k).foldl (mergeRegistryStep t0 t1 diff) (Z, nb, 0)).1.length = Z.length ∧
      ((List.range k).foldl (mergeRegistryStep t0 t1 diff) (Z, nb, 0)).2.1.length = nb.length ∧
      ((List.range k).foldl (mergeRegistryStep t0 t1 diff) (Z, nb, 0)).2.2 ≤ k ∧
      (∀ r, ((List.range k).foldl (mergeRegistryStep t0 t1 diff) (Z, nb, 0)).2.2 ≤ r →
        ((List.range k).foldl (mergeRegistryStep t0 t1 diff) (Z, nb, 0)).1.getD r 0 =
          Z.getD r 0) ∧
      (∀ r, ((List.range k).foldl (mergeRegistryStep t0 t1 diff) (Z, nb, 0)).2.2 ≤ r →
        ((List.range k).foldl (mergeRegistryStep t0 t1 diff) (Z, nb, 0)).2.1.getD r (0, 0) =
          nb.getD r (0, 0)) ∧
      ((∃ i, i < k ∧ t0 < Z.getD i 0 ∧ Z.getD i 0 ≤ t1) →
        ((List.range k).foldl (mergeRegistryStep t0 t1 diff) (Z, nb, 0)).2.2 < k) := by
  intro k
  induction k with
  | zero =>
    intro _
    refine ⟨rfl, rfl, le_refl _, fun _ _ => rfl, fun _ _ => rfl, ?_⟩
    rintro ⟨i, hi, -⟩
    omega
  | succ k ih =>
    intro hk
    obtain ⟨hX, hY, hw, hgX, hgY, hstrict⟩ := ih (by omega)
    rw [List.range_succ, List.foldl_append, List.foldl_cons, List.foldl_nil]
    generalize (List.range k).foldl (mergeRegistryStep t0 t1 diff) (Z, nb, 0) = s at *
    obtain ⟨X, Y, w⟩ := s
    simp only at hX hY hw hgX hgY hstrict
    have hget : X.getD k 0 = Z.getD k 0 := hgX k hw
    have hstep : ∀ i, i < k + 1 → t0 < Z.getD i 0 → Z.getD i 0 ≤ t1 →
        (i < k ∧ t0 < Z.getD i 0 ∧ Z.getD i 0 ≤ t1) ∨ i = k := by
      intro i hi h0 h1
      by_cases hik : i = k
      · exact Or.inr hik
      · exact Or.inl ⟨by omega, h0, h1⟩
    unfold mergeRegistryStep
    simp only [hget]
    by_cases hz0 : Z.getD k 0 ≤ t0
    · rw [if_pos hz0]
      refine ⟨hX, hY, by simp only; omega, fun r hr => hgX r (by simp only at hr; omega),
        fun r hr => hgY r (by simp only at hr; omega), ?_⟩
      rintro ⟨i, hi, h0, h1⟩
      rcases hstep i hi h0 h1 with h | h
      · have := hstrict ⟨i, h⟩
        simp only
        omega
      · subst h
        exact absurd hz0 (not_le.mpr h0)
    · rw [if_neg hz0]
      by_cases hz1 : Z.getD k 0 ≤ t1
      · rw [if_pos hz1]
        refine ⟨hX, hY, by simp only; omega, hgX, hgY, fun _ => ?_⟩
        simp only
        omega
      · rw [if_neg hz1]
        refine ⟨by simp only [List.length_set]; exact hX,
          by simp only [List.length_set]; exact hY, by simp only; omega, ?_, ?_, ?_⟩
        · intro r hr
          simp only at hr ⊢
          rw [getD_set_ne _ _ _ _ (by omega)]
          exact hgX r (by omega)
        · intro r hr
          simp only at hr ⊢
          rw [list_getD_set_ne _ _ _ _ _ (by omega)]
          exact hgY r (by omega)
        · rintro ⟨i, hi, h0, h1⟩
          rcases hstep i hi h0 h1 with h | h
          · have := hstrict ⟨i, h⟩
            simp only
            omega
          · subst h
            exact absurd h1 hz1

theorem neighboursAfterMerge_append_le (t0 t1 diff : dReal) (h01 : t0 ≤ t1)
    (L : List (dReal × (dReal × dReal))) (p : dReal × (dReal × dReal)) (hz : p.1 ≤ t0)
    (hl : ∀ x ∈ L, x.1 ≤ p.1) :
    neighboursAfterMerge t0 t1 diff L = L.map (fun p => p.2) ∧
    neighboursAfterMerge t0 t1 diff (L ++ [p]) = L.map (fun p => p.2) ++ [p.2] := by
  have h1 : L.filter (fun p => decide (p.1 ≤ t0)) = L :=
    List.filter_eq_self.mpr (fun x hx => by simpa using (hl x hx).trans hz)
  have h2 : L.filter (fun p => decide (t1 < p.1)) = [] :=
    List.filter_eq_nil_iff.mpr (fun x hx => by
      simp only [decide_eq_true_eq, not_lt]
      exact ((hl x hx).trans hz).trans h01)
  have h3 : ¬ t1 < p.1 := not_lt.mpr (hz.trans h01)
  constructor
  · simp [neighboursAfterMerge, h1, h2]
  · simp [neighboursAfterMerge, List.filter_append, h1, h2, hz, h3]

theorem neighboursAfterMerge_append_mid (t0 t1 diff : dReal)
    (L : List (dReal × (dReal × dReal))) (p : dReal × (dReal × dReal)) (h0 : ¬ p.1 ≤ t0)
    (h1 : p.1 ≤ t1) :
    neighboursAfterMerge t0 t1 diff (L ++ [p]) = neighboursAfterMerge t0 t1 diff L := by
  have h3 : ¬ t1 < p.1 := not_lt.mpr h1
  simp [neighboursAfterMerge, List.filter_append, h0, h3]

theorem neighboursAfterMerge_append_gt (t0 t1 diff : dReal)
    (L : List (dReal × (dReal × dReal))) (p : dReal × (dReal × dReal)) (h0 : ¬ p.1 ≤ t0)
    (h1 : ¬ p.1 ≤ t1) :
    neighboursAfterMerge t0 t1 diff (L ++ [p]) =
      neighboursAfterMerge t0 t1 diff L ++ [(p.2.1 - diff, p.2.2 - diff)] := by
  have h3 : t1 < p.1 := not_le.mp h1
  simp [neighboursAfterMerge, List.filter_append, h0, h3]

theorem zip_take_succ (Z : List dReal) (nb : List (dReal × dReal)) (k : Nat)
    (hk : k < Z.length) (hnb : Z.length ≤ nb.length) :
    (Z.zip nb).take (k + 1) = (Z.zip nb).take k ++ [(Z.getD k 0, nb.getD k (0, 0))] := by
  have hk2 : k < nb.length := by omega
  have h : (Z.zip nb)[k]? = some (Z[k], nb[k]) := by
    rw [List.getElem?_zip_eq_some]
    exact ⟨List.getElem?_eq_getElem hk, List.getElem?_eq_getElem hk2⟩
  rw [List.take_succ, h]
  simp [List.getD_eq_getElem?_getD, hk, hk2]

theorem mem_take_zip_fst :
    ∀ (Z : List dReal) (k : Nat) (nb2 : List (dReal × dReal)) (x : dReal × (dReal × dReal)),
      x ∈ (Z.zip nb2).take k → x.1 ∈ Z.take k := by
  intro Z
  induction Z with
  | nil =>
    intro k nb2 x hx
    simp at hx
  | cons z rest ih =>
    intro k nb2 x hx
    cases nb2 with
    | nil => simp at hx
    | cons n nb3 =>
      cases k with
      | zero => simp at hx
      | succ k =>
        rw [List.zip_cons_cons, List.take_succ_cons, List.mem_cons] at hx
        rw [List.take_succ_cons, List.mem_cons]
        rcases hx with hx | hx
        · left
          rw [hx]
        · right
          exact ih k nb3 x hx

/-- For a nondecreasing registry, the first `writeIndex` neighbour bounds after
`k` reads are the bounds paired with the stops read so far. -/
theorem mergeRegistryStep_paired (t0 t1 diff : dReal) (h01 : t0 ≤ t1) (Z : List dReal)
    (nb : List (dReal × dReal)) (hs : Z.Pairwise (fun a b => a ≤ b))
    (hnb : Z.length ≤ nb.length) :
    ∀ k, k ≤ Z.length →
      ((List.range k).foldl (mergeRegistryStep t0 t1 diff) (Z, nb, 0)).2.1.take
          ((List.range k).foldl (mergeRegistryStep t0 t1 diff) (Z, nb, 0)).2.2 =
        neighboursAfterMerge t0 t1 diff ((Z.zip nb).take k) := by
  intro k
  induction k with
  | zero =>
    intro _
    simp [neighboursAfterMerge]
  | succ k ih =>
    intro hk
    have hk' : k < Z.length := hk
    have htake := ih (by omega)
    obtain ⟨hX, hY, hw, hgX, hgY, -⟩ := mergeRegistryStep_fold t0 t1 diff Z nb k (by omega)
    rw [List.range_succ, List.foldl_append, List.foldl_cons, List.foldl_nil,
      zip_take_succ Z nb k hk' hnb]
    generalize (List.range k).foldl (mergeRegistryStep t0 t1 diff) (Z, nb, 0) = s at *
    obtain ⟨X, Y, w⟩ := s
    simp only at hX hY hw hgX hgY htake
    have hget : X.getD k 0 = Z.getD k 0 := hgX k hw
    have hgetY : Y.getD k (0, 0) = nb.getD k (0, 0) := hgY k hw
    have hwlen : w = (neighboursAfterMerge t0 t1 diff ((Z.zip nb).take k)).length := by
      rw [← htake, List.length_take]
      omega
    unfold mergeRegistryStep
    simp only [hget, hgetY]
    by_cases hz0 : Z.getD k 0 ≤ t0
    · rw [if_pos hz0]
      have hall : ∀ x ∈ (Z.zip nb).take k, x.1 ≤ Z.getD k 0 := by
        intro x hx
        have hx1 : x.1 ∈ Z.take k := mem_take_zip_fst Z k nb x hx
        have hZdrop : Z.drop k = Z.getD k 0 :: Z.drop (k + 1) := by
          rw [List.drop_eq_getElem_cons hk']
          simp [List.getD_eq_getElem?_getD, hk']
        have hsplit : Z = Z.take k ++ Z.drop k := (List.take_append_drop k Z).symm
        rw [hsplit, hZdrop] at hs
        exact (List.pairwise_append.mp hs).2.2 x.1 hx1 _ (List.mem_cons_self _ _)
      obtain ⟨e1, e2⟩ := neighboursAfterMerge_append_le t0 t1 diff h01 ((Z.zip nb).take k)
        (Z.getD k 0, nb.getD k (0, 0)) hz0 hall
      have hwk : w = k := by
        rw [hwlen, e1, List.length_map, List.length_take, List.length_zip]
        omega
      subst hwk
      simp only
      rw [e2, ← e1, ← htake, List.take_succ]
      have hwY : w < Y.length := by omega
      simp [List.getD_eq_getElem?_getD, hwY] at hgetY ⊢
      rw [← hgetY]
      simp [hwY]
    · rw [if_neg hz0]
      by_cases hz1 : Z.getD k 0 ≤ t1
      · rw [if_pos hz1, neighboursAfterMerge_append_mid t0 t1 diff _ _ hz0 hz1]
        exact htake
      · rw [if_neg hz1, neighboursAfterMerge_append_gt t0 t1 diff _ _ hz0 hz1]
        simp only
        rw [list_take_set_succ _ _ _ (by omega), htake]

theorem filter_zip_fst (q : dReal → Bool) :
    ∀ (Z : List dReal) (nb : List (dReal × dReal)), Z.length ≤ nb.length →
      ((Z.zip nb).filter (fun p => q p.1)).map (fun p => p.1) = Z.filter q := by
  intro Z
  induction Z with
  | nil => intro nb _; rfl
  | cons z rest ih =>
    intro nb h
    cases nb with
    | nil => simp at h
    | cons n nb2 =>
      have h2 : rest.length ≤ nb2.length := by
        simp only [List.length_cons] at h
        omega
      rw [List.zip_cons_cons, List.filter_cons, List.filter_cons]
      by_cases hq : q z = true
      · simp only [hq, if_true, List.map_cons]
        rw [ih nb2 h2]
      · simp only [hq, Bool.false_eq_true, if_false]
        exact ih nb2 h2

/-- The commit of a merge on a nondecreasing registry that is not longer than
the neighbour list: the neighbour list keeps its length, its entries behind
the new registry are the old ones, and the stops zipped with their bounds are
the old pairs with a stop `≤ t0`, unchanged, followed by the old pairs with a
stop `> t1`, all three components decreased by `diff`. -/
theorem mergeRegistryUpdate_paired (t0 t1 diff : dReal) (h01 : t0 ≤ t1) (Z : List dReal)
    (nb : List (dReal × dReal)) (hs : Z.Pairwise (fun a b => a ≤ b))
    (hnb : Z.length ≤ nb.length) :
    (mergeRegistryUpdate t0 t1 diff Z nb).2.length = nb.length ∧
    (mergeRegistryUpdate t0 t1 diff Z nb).1.length ≤ Z.length ∧
    (mergeRegistryUpdate t0 t1 diff Z nb).2.take (mergeRegistryUpdate t0 t1 diff Z nb).1.length =
      neighboursAfterMerge t0 t1 diff (Z.zip nb) ∧
    (∀ i, (mergeRegistryUpdate t0 t1 diff Z nb).1.length ≤ i →
      (mergeRegistryUpdate t0 t1 diff Z nb).2.getD i (0, 0) = nb.getD i (0, 0)) ∧
    (mergeRegistryUpdate t0 t1 diff Z nb).1.zip (mergeRegistryUpdate t0 t1 diff Z nb).2 =
      (Z.zip nb).filter (fun p => decide (p.1 ≤ t0)) ++
        ((Z.zip nb).filter (fun p => decide (t1 < p.1))).map
          (fun p => (p.1 - diff, (p.2.1 - diff, p.2.2 - diff))) := by
  have hreg := mergeRegistryUpdate_eq t0 t1 diff h01 Z nb hs
  obtain ⟨hX, hY, hw, -, hgY, -⟩ := mergeRegistryStep_fold t0 t1 diff Z nb Z.length (le_refl _)
  have hp := mergeRegistryStep_paired t0 t1 diff h01 Z nb hs hnb Z.length (le_refl _)
  have hz : (Z.zip nb).take Z.length = Z.zip nb :=
    List.take_of_length_le (by rw [List.length_zip]; omega)
  rw [hz] at hp
  rw [mergeRegistryUpdate_fold] at hreg ⊢
  generalize (List.range Z.length).foldl (mergeRegistryStep t0 t1 diff) (Z, nb, 0) = s at *
  obtain ⟨X, Y, w⟩ := s
  simp only at hX hY hw hgY hp hreg ⊢
  have hlen : (X.take w).length = w := by
    rw [List.length_take]
    omega
  rw [hlen]
  refine ⟨hY, hw, hp, hgY, ?_⟩
  have hsplit : (X.take w).zip Y = (X.take w).zip (Y.take w ++ Y.drop w) := by
    rw [List.take_append_drop]
  have h1 : ((Z.zip nb).filter (fun p => decide (p.1 ≤ t0))).map (fun p => p.1) =
      Z.filter (fun z => decide (z ≤ t0)) := filter_zip_fst (fun z => decide (z ≤ t0)) Z nb hnb
  have h2 : ((Z.zip nb).filter (fun p => decide (t1 < p.1))).map (fun p => p.1) =
      Z.filter (fun z => decide (t1 < z)) := filter_zip_fst (fun z => decide (t1 < z)) Z nb hnb
  rw [hsplit, hp, hreg]
  unfold registryAfterCommit neighboursAfterMerge
  rw [← h1, ← h2, List.map_map]
  have e : ∀ (A B : List (dReal × (dReal × dReal))) (tail : List (dReal × dReal)),
      (A.map (fun p => p.1) ++ B.map ((fun z => z - diff) ∘ fun p => p.1)).zip
        ((A.map (fun p => p.2) ++ B.map (fun p => (p.2.1 - diff, p.2.2 - diff))) ++ tail) =
      A ++ B.map (fun p => (p.1 - diff, (p.2.1 - diff, p.2.2 - diff))) := by
    intro A B tail
    have hzip : ∀ (xs : List dReal) (ys tl : List (dReal × dReal)), xs.length = ys.length →
        xs.zip (ys ++ tl) = xs.zip ys := by
      intro xs ys tl hl
      have := @List.zip_append _ _ xs [] ys tl hl
      simpa using this
    rw [hzip _ _ _ (by simp), List.zip_append (by simp), List.zip_map', List.zip_map']
    simp
  exact e _ _ _

theorem plain_configs (K : Consts) (P : Planner) (q dq : List dReal) (o : Nat) :
    ((smootherChecker K plainHost P).ConfigFeasible2 q dq o).retcode = 0 := by
  simp only [smootherChecker, ConfigFeasible2, plainHost]
  split_ifs <;> rfl

/-- The bridge over the stop of `stopPath` passes `Check2` under `plainHost`. -/
theorem stop_check2_bridge (K : Consts) (hE : K.g_fEpsilon < 1) (hL : 0 ≤ K.g_fEpsilonLinear)
    (hR : 0 ≤ K.g_fRampEpsilon)
    (hcoll : 0xffff &&& K.CFO_CheckEnvCollisions = K.CFO_CheckEnvCollisions)
    (out0 : List RampND) :
    plannerCheck2 K plainHost stopPlanner stopBridge 0xffff out0 =
      some ({ retcode := 0 }, stopBridge.map fun r => { r with constraintChecked := true }) := by
  have hb : (true && decide (stopPlanner.params.fCosManipAngleThresh > -1 + K.g_fEpsilonLinear)) =
      false := by
    have hf : stopPlanner.params.fCosManipAngleThresh = -1 := rfl
    rw [hf]
    simp only [Bool.true_and, decide_eq_false_iff_not, gt_iff_lt, not_lt]
    linarith
  have s1 : ∀ o, SegmentFeasible2 K plainHost stopPlanner [1 / 2] [3 / 2] [1] [1] 1 o = _ :=
    fun o => SegmentFeasible2_unmodified K plainHost stopPlanner _ _ _ _ _ o [] hE rfl
      (fun _ => rfl)
      (clampAccelerations_one 1 ((1 - 1) / 1) (RampND.Initialize [1 / 2] [3 / 2] [1] [1] 1) rfl
        (by norm_num) (by norm_num))
  have hseg : checkSegments K (smootherChecker K plainHost stopPlanner)
      (true && decide (stopPlanner.params.fCosManipAngleThresh > -1 + K.g_fEpsilonLinear))
      (clearBits (clearBits 0xffff K.CFO_CheckEnvCollisions) K.CFO_CheckSelfCollisions)
      stopBridge
      { q0 := [1 / 2], dq0 := [1], dq1 := [1], switchtime := 0, rampndVectOut := [] } =
      .ok { q0 := [3 / 2], dq0 := [1], dq1 := [1], switchtime := 0 + 1,
            rampndVectOut := stopBridge.map fun r => { r with constraintChecked := true } } := by
    rw [hb, stopBridge]
    rw [checkSegments_step K _ _ _ _ _ _ rfl (s1 _)]
    rfl
  have h := Check2_of_pass K (smootherChecker K plainHost stopPlanner) true
    stopPlanner.params.fCosManipAngleThresh stopBridge 0xffff out0
    (RampND.Initialize [1 / 2] [3 / 2] [1] [1] 1) (RampND.Initialize [1 / 2] [3 / 2] [1] [1] 1) _
    rfl rfl (plain_configs K stopPlanner) hseg (Or.inl hcoll)
  have hv : (vsearchsegments 1).getLast? = some 0 := by decide
  have hfin : ¬ (|(3 / 2 : dReal) - 3 / 2| > K.g_fRampEpsilon) := by
    rw [sub_self, abs_zero]; exact not_lt.mpr hR
  have hfin2 : ¬ (|(1 : dReal) - 1| > K.g_fRampEpsilon) := by
    rw [sub_self, abs_zero]; exact not_lt.mpr hR
  unfold plannerCheck2
  rw [h]
  simp only [stopBridge, List.map_cons, List.map_nil, List.length_cons, List.length_nil, hv,
    RampND.Initialize, List.getD_cons_succ, List.getD_cons_zero, List.range_succ,
    List.range_zero, List.nil_append, finalValuesLoop, if_neg hfin, hfin2, decide_False,
    Bool.or_false]

/-- The attempt on the window `[1, 3]` of `stopPath` under `plainHost`, before
the callback of `stopCollaborators` interrupts: the bridge is accepted. -/
theorem stop_merge_success (K : Consts) (hE : K.g_fEpsilon < 1) (hL : 0 ≤ K.g_fEpsilonLinear)
    (hR : 0 ≤ K.g_fRampEpsilon)
    (hcoll : 0xffff &&& K.CFO_CheckEnvCollisions = K.CFO_CheckEnvCollisions)
    (s : ShortcutState) (hv : s.fStartTimeVelMult = 1) (ha : s.fStartTimeAccelMult = 1)
    (hn : s.ncalls = 0) :
    ∃ a, runAttempt K plainHost stopCollaborators stopPlanner stopInterpolator (99 / 100) 1 3 s =
        some (some (.finished true a)) ∧
      a.shortcutRampNDVectOut = stopBridge.map (fun r => { r with constraintChecked := true }) ∧
      a.ncalls = 1 ∧ a.fCurVelMult = 1 ∧ a.fCurAccelMult = 1 := by
  have hp1 : stopCollaborators.EvalPos s.path 1 = [1 / 2] := by simp [stopCollaborators]
  have hp3 : stopCollaborators.EvalPos s.path 3 = [3 / 2] := by
    simp only [stopCollaborators]
    norm_num
  have hv1 : stopCollaborators.EvalVel s.path 1 = [1] := by simp [stopCollaborators]
  have hv3 : stopCollaborators.EvalVel s.path 3 = [1] := by simp [stopCollaborators]
  have hset : ∀ x, plainHost.setgetState x = some x := fun _ => rfl
  have hI : ∀ a b d e f g,
      stopInterpolator.ComputeArbitraryVelNDTrajectory a b [1] d e f g = some stopBridge := by
    intro a b d e f g
    simp [stopInterpolator]
  have hdur : totalDuration stopBridge = 1 := by
    norm_num [totalDuration, stopBridge, RampND.Initialize]
  have hguard : ¬ ((1 : dReal) + 99 / 100 > 3 - 1) := by norm_num
  have hcb : ¬ (stopCollaborators._CallCallbacks 0 = PlannerAction.PA_Interrupt) := by
    simp [stopCollaborators]
  have hchk := stop_check2_bridge K hE hL hR hcoll
  have h00 : ((0 : Nat) = 0) := rfl
  unfold runAttempt
  simp only [hp1, hp3, hv1, hv3, hset, hv, ha, stop_initialLimits 1 (by norm_num) le_rfl, hn]
  rw [show (100 : Nat) = 99 + 1 from rfl, slowDownLoop]
  simp only [hI, hdur, if_neg hguard, if_neg hcb, checkBlock, hset, hchk, Option.some_bind,
    ne_eq, not_true_eq_false, if_false, if_true, Option.map_some']
  exact ⟨_, rfl, rfl, rfl, rfl, rfl⟩

/-- The merger on `stopState` under `plainHost`: the first iteration merges
over the stop at time 2, the registry is left empty while the neighbour list
keeps its entry, and the loop ends with one merge. -/
theorem stop_merge_once (K : Consts) (hE : K.g_fEpsilon < 1) (hL : 0 ≤ K.g_fEpsilonLinear)
    (hR : 0 ≤ K.g_fRampEpsilon)
    (hcoll : 0xffff &&& K.CFO_CheckEnvCollisions = K.CFO_CheckEnvCollisions) (fuel : Nat) :
    ∃ s2, _MergeConsecutiveSegments K plainHost stopCollaborators stopPlanner stopInterpolator
        (99 / 100) (fuel + 2) stopState = some (1, s2) ∧
      s2._zeroVelPoints = [] ∧ s2._zeroVelPointNeighbors = [(1, 3)] := by
  obtain ⟨a, hrun, hout, -, -, -⟩ := stop_merge_success K hE hL hR hcoll
    { stopState with fStartTimeVelMult := 1, fStartTimeAccelMult := 1, numSuccessful := 0,
                     numSlowDowns := 0, nTimeBasedConstraintsFailed := 0 } rfl rfl rfl
  have hlen : ¬ (a.shortcutRampNDVectOut.length = 0) := by
    rw [hout]
    simp [stopBridge]
  have h23 : ¬ ((2 : dReal) ≤ 1) := by norm_num
  have h23b : (2 : dReal) ≤ 3 := by norm_num
  unfold _MergeConsecutiveSegments
  rw [if_neg (by simp [stopState]), mergeLoop, if_pos (by simp [stopState])]
  simp only [stopState, List.getD_cons_zero] at hrun ⊢
  rw [hrun]
  simp only [Option.some_bind, if_neg hlen]
  rw [mergeLoop]
  simp only [mergeCommit, ShortcutState.afterAttempt, mergeRegistryUpdate, List.length_singleton,
    List.range_succ, List.range_zero, List.nil_append, List.foldl_cons, List.foldl_nil,
    List.getD_cons_zero, if_neg h23, if_pos h23b, List.take_zero, List.length_nil,
    lt_self_iff_false, if_false]
  exact ⟨_, rfl, rfl, rfl⟩

/-- C25 (amended).  After the commit of a merge on `[t0, t1]` that saves
`D = (t1 - t0) - (duration of the committed list)`, for a nondecreasing
registry that is not longer than the neighbour list and `t0 ≤ t1`: the
neighbour list keeps its length (it is not resized with the registry), the
registry does not grow, the surviving stops zipped with the first neighbour
entries are the old pairs with a stop `≤ t0`, unchanged, followed by the old
pairs with a stop `> t1` with the stop and both bounds decreased by `D`, and
the entries of the neighbour list behind the new registry are the old ones. -/
theorem C25_neighbours_paired (C : Collaborators) (P : Planner) (t0 t1 : dReal)
    (a : AttemptState) (s : ShortcutState) (h01 : t0 ≤ t1)
    (hs : s._zeroVelPoints.Pairwise (fun x y => x ≤ y))
    (hnb : s._zeroVelPoints.length ≤ s._zeroVelPointNeighbors.length) :
    (mergeCommit C P t0 t1 a s)._zeroVelPointNeighbors.length =
      s._zeroVelPointNeighbors.length ∧
    (mergeCommit C P t0 t1 a s)._zeroVelPoints.length ≤ s._zeroVelPoints.length ∧
    (mergeCommit C P t0 t1 a s)._zeroVelPoints.zip
        (mergeCommit C P t0 t1 a s)._zeroVelPointNeighbors =
      (s._zeroVelPoints.zip s._zeroVelPointNeighbors).filter (fun p => decide (p.1 ≤ t0)) ++
        ((s._zeroVelPoints.zip s._zeroVelPointNeighbors).filter
          (fun p => decide (t1 < p.1))).map
          (fun p =>
            (p.1 - ((t1 - t0) - totalDuration a.shortcutRampNDVectOut),
              (p.2.1 - ((t1 - t0) - totalDuration a.shortcutRampNDVectOut),
                p.2.2 - ((t1 - t0) - totalDuration a.shortcutRampNDVectOut)))) ∧
    (∀ i, (mergeCommit C P t0 t1 a s)._zeroVelPoints.length ≤ i →
      (mergeCommit C P t0 t1 a s)._zeroVelPointNeighbors.getD i (0, 0) =
        s._zeroVelPointNeighbors.getD i (0, 0)) := by
  obtain ⟨h1, h2, -, h4, h5⟩ := mergeRegistryUpdate_paired t0 t1
    ((t1 - t0) - totalDuration a.shortcutRampNDVectOut) h01 s._zeroVelPoints
    s._zeroVelPointNeighbors hs hnb
  exact ⟨h1, h2, h5, h4⟩

/-- C25 (witness): the registry `[2]` of `stopState` with the neighbour bounds
`(1, 3)` and a commit on the window `[1, 3]`. -/
theorem C25_neighbours_paired_witness :
    (1 : dReal) ≤ 3 ∧ stopState._zeroVelPoints.Pairwise (fun x y => x ≤ y) ∧
    stopState._zeroVelPoints.length ≤ stopState._zeroVelPointNeighbors.length ∧
    (mergeCommit stopCollaborators stopPlanner 1 3 bendingAttempt
      stopState)._zeroVelPointNeighbors.length = stopState._zeroVelPointNeighbors.length :=
  ⟨by norm_num, by simp [stopState], by simp [stopState],
    (C25_neighbours_paired stopCollaborators stopPlanner 1 3 bendingAttempt stopState
      (by norm_num) (by simp [stopState]) (by simp [stopState])).1⟩

/-- C25, refuted as stated: the commit of a merge resizes the registry but not
the neighbour list.  The merger on `stopState` (stop at time 2 with the bounds
`(1, 3)`, as `_SetMileStones` builds them from the waypoints 0, 1, 2) merges
over the stop in its first iteration and returns 1; the registry is then
empty, the neighbour list still has its entry. -/
theorem C25_neighbours_longer_than_registry :
    ∃ s2, _MergeConsecutiveSegments openraveConsts plainHost stopCollaborators stopPlanner
        stopInterpolator (99 / 100) 2 stopState = some (1, s2) ∧
      s2._zeroVelPoints.length = 0 ∧ s2._zeroVelPointNeighbors.length = 1 := by
  obtain ⟨s2, h, hz, hn⟩ := stop_merge_once openraveConsts (by norm_num [openraveConsts])
    (by norm_num [openraveConsts]) (by norm_num [openraveConsts]) (by decide) 0
  exact ⟨s2, h, by rw [hz]; rfl, by rw [hn]; rfl⟩

theorem mergeLoop_step (K : Consts) (H : Host) (C : Collaborators) (P : Planner)
    (I : ParabolicInterpolator) (minTimeStep : dReal) (fuel index : Nat) (s : ShortcutState) :
    mergeLoop K H C P I minTimeStep (fuel + 1) index s =
      if index < s._zeroVelPoints.length then
        (mergeStep K H C P I minTimeStep index s).bind fun r =>
          match r with
          | .inl out => some out
          | .inr p => mergeLoop K H C P I minTimeStep fuel p.1 p.2
      else some ((s.numSuccessful : Int), s) := by
  rw [mergeLoop, mergeStep]
  by_cases hi : index < s._zeroVelPoints.length
  · rw [if_pos hi, if_pos hi]
    dsimp only
    cases hr : runAttempt K H C P I minTimeStep (s._zeroVelPointNeighbors.getD index (0, 0)).1
        (s._zeroVelPointNeighbors.getD index (0, 0)).2 s with
    | none => rfl
    | some r =>
      simp only [Option.some_bind, Option.map_some']
      cases r with
      | none => rfl
      | some out =>
        cases out with
        | interrupted a => rfl
        | finished b a =>
          cases b with
          | false => rfl
          | true =>
            simp only
            split_ifs <;> rfl
  · rw [if_neg hi, if_neg hi]

/-- An iteration of the merger loop either returns `-1`, or advances the index
with the registry and the neighbour bounds unchanged, or keeps the index and
commits a merge on the neighbour window of the index. -/
theorem mergeStep_cases (K : Consts) (H : Host) (C : Collaborators) (P : Planner)
    (I : ParabolicInterpolator) (minTimeStep : dReal) (index : Nat) (s : ShortcutState)
    (x : (Int × ShortcutState) ⊕ (Nat × ShortcutState))
    (h : mergeStep K H C P I minTimeStep index s = some x) :
    (∃ s2, x = .inl (-1, s2)) ∨
    (∃ s2, x = .inr (index + 1, s2) ∧ s2._zeroVelPoints = s._zeroVelPoints ∧
      s2._zeroVelPointNeighbors = s._zeroVelPointNeighbors ∧
      s2.numSuccessful = s.numSuccessful) ∨
    (∃ a, x = .inr (index, mergeCommit C P (s._zeroVelPointNeighbors.getD index (0, 0)).1
        (s._zeroVelPointNeighbors.getD index (0, 0)).2 a s) ∧
      runAttempt K H C P I minTimeStep (s._zeroVelPointNeighbors.getD index (0, 0)).1
        (s._zeroVelPointNeighbors.getD index (0, 0)).2 s = some (some (.finished true a)) ∧
      a.shortcutRampNDVectOut ≠ []) := by
  unfold mergeStep at h
  simp only [Option.map_eq_some'] at h
  obtain ⟨r, hr, hx⟩ := h
  cases r with
  | none =>
    simp only at hx
    exact Or.inr (Or.inl ⟨s, hx.symm, rfl, rfl, rfl⟩)
  | some out =>
    cases out with
    | interrupted a =>
      simp only at hx
      exact Or.inl ⟨_, hx.symm⟩
    | finished b a =>
      cases b with
      | false =>
        simp only at hx
        exact Or.inr (Or.inl ⟨_, hx.symm, rfl, rfl, rfl⟩)
      | true =>
        simp only at hx
        by_cases hl : a.shortcutRampNDVectOut.length = 0
        · rw [if_pos hl] at hx
          exact Or.inr (Or.inl ⟨_, hx.symm, rfl, rfl, rfl⟩)
        · rw [if_neg hl] at hx
          refine Or.inr (Or.inr ⟨a, hx.symm, hr, ?_⟩)
          intro he
          rw [he] at hl
          exact hl rfl

/-- The commit of a merge shortens the registry when a stop lies in
`(t0, t1]`, and never lengthens it. -/
theorem mergeCommit_length (C : Collaborators) (P : Planner) (t0 t1 : dReal) (a : AttemptState)
    (s : ShortcutState) :
    (mergeCommit C P t0 t1 a s)._zeroVelPoints.length ≤ s._zeroVelPoints.length ∧
    ((∃ i, i < s._zeroVelPoints.length ∧ t0 < s._zeroVelPoints.getD i 0 ∧
        s._zeroVelPoints.getD i 0 ≤ t1) →
      (mergeCommit C P t0 t1 a s)._zeroVelPoints.length < s._zeroVelPoints.length) ∧
    (mergeCommit C P t0 t1 a s).numSuccessful = s.numSuccessful + 1 := by
  obtain ⟨hX, -, hw, -, -, hstrict⟩ := mergeRegistryStep_fold t0 t1
    ((t1 - t0) - totalDuration a.shortcutRampNDVectOut) s._zeroVelPoints
    s._zeroVelPointNeighbors s._zeroVelPoints.length (le_refl _)
  unfold mergeCommit
  simp only [ShortcutState.afterAttempt]
  rw [mergeRegistryUpdate_fold]
  simp only [List.length_take]
  refine ⟨?_, fun h => ?_, trivial⟩
  · omega
  · have := hstrict h
    omega

theorem Check2_defined (K : Consts) (feas : FeasibilityCheckerBase) (bHasParameters : Bool)
    (fCos : dReal) (rampndVect : List RampND) (options : Nat) (out0 : List RampND)
    (hne : rampndVect ≠ []) :
    ∃ c, Check2 K feas bHasParameters fCos rampndVect options out0 = some c := by
  obtain ⟨front, hfront⟩ : ∃ front, rampndVect.head? = some front := by
    cases rampndVect with
    | nil => exact absurd rfl hne
    | cons r rest => exact ⟨r, rfl⟩
  obtain ⟨back, hback⟩ : ∃ back, rampndVect.getLast? = some back := by
    cases hl : rampndVect.getLast? with
    | none => exact absurd (List.getLast?_eq_none_iff.mp hl) hne
    | some b => exact ⟨b, rfl⟩
  unfold Check2
  rw [hfront, hback]
  simp only
  split_ifs
  · exact ⟨_, rfl⟩
  · exact ⟨_, rfl⟩
  · split
    · exact ⟨_, rfl⟩
    · split <;> exact ⟨_, rfl⟩
  · split
    · exact ⟨_, rfl⟩
    · split <;> exact ⟨_, rfl⟩

theorem checkBlock_defined (K : Consts) (H : Host) (P : Planner) (I : ParabolicInterpolator)
    (t0 t1 minTimeStep segmentTime : dReal) (st : AttemptState)
    (hI : ∀ x0 x1 v0 v1 vl al b cand,
      I.ComputeArbitraryVelNDTrajectory x0 x1 v0 v1 vl al b = some cand → cand ≠ [])
    (hne : st.shortcutRampNDVect ≠ []) :
    ∃ c, checkBlock K H P I t0 t1 minTimeStep segmentTime st = some c := by
  unfold checkBlock
  split
  · exact ⟨_, rfl⟩
  · obtain ⟨c, hc⟩ := Check2_defined K (smootherChecker K H P) true
      P.params.fCosManipAngleThresh st.shortcutRampNDVect 0xffff st.shortcutRampNDVectOut hne
    simp only [plannerCheck2, hc, Option.some_bind]
    split_ifs
    · exact ⟨_, rfl⟩
    · split
      · rename_i back _ _
        unfold repairLastSegment
        simp only
        split
        · exact ⟨_, rfl⟩
        · rename_i cand hcand
          split_ifs
          · exact ⟨_, rfl⟩
          · obtain ⟨c2, hc2⟩ := Check2_defined K (smootherChecker K H P) true
              P.params.fCosManipAngleThresh cand 0xffff st.shortcutRampNDVectOut1
              (hI _ _ _ _ _ _ _ _ hcand)
            simp only [plannerCheck2, hc2, Option.some_bind]
            split_ifs <;> exact ⟨_, rfl⟩
      · exact ⟨_, rfl⟩

theorem slowDownLoop_defined (K : Consts) (H : Host) (C : Collaborators) (P : Planner)
    (I : ParabolicInterpolator) (t0 t1 minTimeStep : dReal) (bx0 bx1 bv0 bv1 : List dReal)
    (hI : ∀ x0 x1 v0 v1 vl al b cand,
      I.ComputeArbitraryVelNDTrajectory x0 x1 v0 v1 vl al b = some cand → cand ≠ []) :
    ∀ (fuel i : Nat) (st : AttemptState),
      ∃ out, slowDownLoop K H C P I t0 t1 minTimeStep bx0 bx1 bv0 bv1 fuel i st = some out := by
  intro fuel
  induction fuel with
  | zero =>
    intro i st
    exact ⟨_, rfl⟩
  | succ fuel ih =>
    intro i st
    rw [slowDownLoop_step]
    unfold slowDownStep
    split
    · exact ⟨_, rfl⟩
    · rename_i cand hcand
      dsimp only
      split_ifs
      · exact ⟨_, rfl⟩
      · exact ⟨_, rfl⟩
      · obtain ⟨c, hc⟩ := checkBlock_defined K H P I t0 t1 minTimeStep (totalDuration cand)
          { st with shortcutRampNDVect := cand, ncalls := st.ncalls + 1 } hI
          (hI _ _ _ _ _ _ _ _ hcand)
        rw [hc]
        simp only [Option.some_bind]
        split_ifs
        · exact ⟨_, rfl⟩
        · exact ih _ _
        · exact ⟨_, rfl⟩
        · exact ⟨_, rfl⟩

/-- An attempt is defined when the interpolator never answers with an empty
list of ramps. -/
theorem runAttempt_defined (K : Consts) (H : Host) (C : Collaborators) (P : Planner)
    (I : ParabolicInterpolator) (minTimeStep t0 t1 : dReal) (s : ShortcutState)
    (hI : ∀ x0 x1 v0 v1 vl al b cand,
      I.ComputeArbitraryVelNDTrajectory x0 x1 v0 v1 vl al b = some cand → cand ≠ []) :
    ∃ r, runAttempt K H C P I minTimeStep t0 t1 s = some r := by
  unfold runAttempt
  split
  · exact ⟨_, rfl⟩
  · split
    · exact ⟨_, rfl⟩
    · obtain ⟨out, hout⟩ := slowDownLoop_defined K H C P I t0 t1 minTimeStep
        (C.EvalPos s.path t0) (C.EvalPos s.path t1) (C.EvalVel s.path t0) (C.EvalVel s.path t1)
        hI 100 0 _
      simp only
      rw [hout]
      exact ⟨_, rfl⟩

/-- The merger loop returns within `size - index + 1` evaluations of its
condition when every stop it visits lies in `(t_left, t_right]` of its
neighbour window and every attempt is defined; the returned number is `-1` or
lies between the merges counted so far and that count plus `size - index`. -/
theorem mergeLoop_returns (K : Consts) (H : Host) (C : Collaborators) (P : Planner)
    (I : ParabolicInterpolator) (minTimeStep : dReal)
    (hdef : ∀ t0 t1 st, ∃ r, runAttempt K H C P I minTimeStep t0 t1 st = some r) :
    ∀ (fuel index : Nat) (s : ShortcutState),
      (∀ j i2 s2, mergeIterate K H C P I minTimeStep j index s = some (i2, s2) →
        i2 < s2._zeroVelPoints.length →
        (s2._zeroVelPointNeighbors.getD i2 (0, 0)).1 < s2._zeroVelPoints.getD i2 0 ∧
        s2._zeroVelPoints.getD i2 0 ≤ (s2._zeroVelPointNeighbors.getD i2 (0, 0)).2) →
      s._zeroVelPoints.length - index < fuel →
      ∃ n s2, mergeLoop K H C P I minTimeStep fuel index s = some (n, s2) ∧
        (n = -1 ∨ ((s.numSuccessful : Int) ≤ n ∧
          n ≤ (s.numSuccessful : Int) + ((s._zeroVelPoints.length - index : Nat) : Int))) := by
  intro fuel
  induction fuel with
  | zero =>
    intro index s _ h
    omega
  | succ fuel ih =>
    intro index s hgood hfuel
    rw [mergeLoop_step]
    by_cases hi : index < s._zeroVelPoints.length
    · rw [if_pos hi]
      obtain ⟨r, hr⟩ := hdef (s._zeroVelPointNeighbors.getD index (0, 0)).1
        (s._zeroVelPointNeighbors.getD index (0, 0)).2 s
      have hx : ∃ x, mergeStep K H C P I minTimeStep index s = some x := by
        unfold mergeStep
        simp only [hr, Option.map_some']
        exact ⟨_, rfl⟩
      obtain ⟨x, hx⟩ := hx
      have hnext : ∀ i2 s2, x = .inr (i2, s2) →
          ∀ j i3 s3, mergeIterate K H C P I minTimeStep j i2 s2 = some (i3, s3) →
            i3 < s3._zeroVelPoints.length →
            (s3._zeroVelPointNeighbors.getD i3 (0, 0)).1 < s3._zeroVelPoints.getD i3 0 ∧
            s3._zeroVelPoints.getD i3 0 ≤ (s3._zeroVelPointNeighbors.getD i3 (0, 0)).2 := by
        intro i2 s2 hx2 j i3 s3 hj
        apply hgood (j + 1) i3 s3
        rw [mergeIterate, if_pos hi, hx, hx2]
        exact hj
      rw [hx]
      simp only [Option.some_bind]
      rcases mergeStep_cases K H C P I minTimeStep index s x hx with
        ⟨s2, rfl⟩ | ⟨s2, rfl, hz, -, hn⟩ | ⟨a, rfl, -, -⟩
      · exact ⟨-1, s2, rfl, Or.inl rfl⟩
      · obtain ⟨n, s3, hrun, hb⟩ := ih (index + 1) s2 (hnext _ _ rfl) (by rw [hz]; omega)
        refine ⟨n, s3, hrun, ?_⟩
        rcases hb with hb | ⟨hb1, hb2⟩
        · exact Or.inl hb
        · right
          rw [hn] at hb1
          rw [hn, hz] at hb2
          constructor
          · exact hb1
          · have : s._zeroVelPoints.length - (index + 1) ≤ s._zeroVelPoints.length - index := by
              omega
            omega
      · obtain ⟨c1, c2, c3⟩ := mergeCommit_length C P
          (s._zeroVelPointNeighbors.getD index (0, 0)).1
          (s._zeroVelPointNeighbors.getD index (0, 0)).2 a s
        have hin := hgood 0 index s rfl hi
        have hlt := c2 ⟨index, hi, hin.1, hin.2⟩
        obtain ⟨n, s3, hrun, hb⟩ := ih index _ (hnext _ _ rfl) (by omega)
        refine ⟨n, s3, hrun, ?_⟩
        rcases hb with hb | ⟨hb1, hb2⟩
        · exact Or.inl hb
        · right
          rw [c3] at hb1 hb2
          push_cast at hb1 hb2
          constructor
          · omega
          · omega
    · rw [if_neg hi]
      exact ⟨_, _, rfl, Or.inr ⟨le_refl _, by omega⟩⟩

/-- The number of iterations of the merger loop that go on is at most
`size - index` when every visited stop lies in `(t_left, t_right]`. -/
theorem mergeIterate_bound (K : Consts) (H : Host) (C : Collaborators) (P : Planner)
    (I : ParabolicInterpolator) (minTimeStep : dReal) :
    ∀ (k index : Nat) (s : ShortcutState) (i2 : Nat) (s2 : ShortcutState),
      (∀ j i3 s3, mergeIterate K H C P I minTimeStep j index s = some (i3, s3) →
        i3 < s3._zeroVelPoints.length →
        (s3._zeroVelPointNeighbors.getD i3 (0, 0)).1 < s3._zeroVelPoints.getD i3 0 ∧
        s3._zeroVelPoints.getD i3 0 ≤ (s3._zeroVelPointNeighbors.getD i3 (0, 0)).2) →
      mergeIterate K H C P I minTimeStep k index s = some (i2, s2) →
      k + (s2._zeroVelPoints.length - i2) ≤ s._zeroVelPoints.length - index := by
  intro k
  induction k with
  | zero =>
    intro index s i2 s2 _ h
    rw [mergeIterate] at h
    cases h
    omega
  | succ k ih =>
    intro index s i2 s2 hgood h
    have h0 := h
    rw [mergeIterate] at h
    by_cases hi : index < s._zeroVelPoints.length
    · rw [if_pos hi] at h
      cases hx : mergeStep K H C P I minTimeStep index s with
      | none =>
        rw [hx] at h
        cases h
      | some x =>
        rw [hx] at h
        have hnext : ∀ i4 s4, x = .inr (i4, s4) →
            ∀ j i3 s3, mergeIterate K H C P I minTimeStep j i4 s4 = some (i3, s3) →
              i3 < s3._zeroVelPoints.length →
              (s3._zeroVelPointNeighbors.getD i3 (0, 0)).1 < s3._zeroVelPoints.getD i3 0 ∧
              s3._zeroVelPoints.getD i3 0 ≤ (s3._zeroVelPointNeighbors.getD i3 (0, 0)).2 := by
          intro i4 s4 hx2 j i3 s3 hj
          apply hgood (j + 1) i3 s3
          rw [mergeIterate, if_pos hi, hx, hx2]
          exact hj
        rcases mergeStep_cases K H C P I minTimeStep index s x hx with
          ⟨s3, rfl⟩ | ⟨s3, rfl, hz, -, -⟩ | ⟨a, rfl, -, -⟩
        · cases h
        · have := ih (index + 1) s3 i2 s2 (hnext _ _ rfl) h
          rw [hz] at this
          omega
        · obtain ⟨-, c2, -⟩ := mergeCommit_length C P
            (s._zeroVelPointNeighbors.getD index (0, 0)).1
            (s._zeroVelPointNeighbors.getD index (0, 0)).2 a s
          have hin := hgood 0 index s rfl hi
          have hlt := c2 ⟨index, hi, hin.1, hin.2⟩
          have := ih index _ i2 s2 (hnext _ _ rfl) h
          omega
    · rw [if_neg hi] at h
      cases h

theorem clampAccelerations_duration (amax : List dReal) (seg : RampND) :
    ∀ ndof, (clampAccelerations amax ndof seg).1.duration = seg.duration := by
  intro ndof
  induction ndof with
  | zero => rfl
  | succ n ih =>
    unfold clampAccelerations at ih ⊢
    rw [List.range_succ, List.foldl_append]
    simp only [List.foldl_cons, List.foldl_nil]
    generalize (List.range n).foldl
      (fun (s : RampND × Bool) idof =>
        if s.1.a.getD idof 0 < -(amax.getD idof 0) then
          ({ s.1 with a := s.1.a.set idof (-(amax.getD idof 0)) }, true)
        else if s.1.a.getD idof 0 > amax.getD idof 0 then
          ({ s.1 with a := s.1.a.set idof (amax.getD idof 0) }, true)
        else s)
      (seg, false) = s at ih ⊢
    split_ifs
    · exact ih
    · exact ih
    · exact ih

theorem modifiedLoop_durations (K : Consts) (H : Host) (P : Planner) (ndof : Nat)
    (hR : 0 ≤ K.g_fRampEpsilon) :
    ∀ (times configs : List dReal) (st : ModifiedState),
      (∀ r ∈ st.rampndVectOut, 0 ≤ r.duration) →
      match modifiedLoop K H P ndof times configs st with
      | .ok st2 => ∀ r ∈ st2.rampndVectOut, 0 ≤ r.duration
      | .error e => ∀ r ∈ e.2, 0 ≤ r.duration := by
  intro times
  induction times with
  | nil =>
    intro configs st hst
    rw [modifiedLoop]
    exact hst
  | cons time times ih =>
    intro configs st hst
    rw [modifiedLoop]
    simp only
    by_cases hd : time - st.curTime > K.g_fRampEpsilon
    · rw [if_pos hd]
      cases hv : nextVelocities K P.params._vConfigVelocityLimit st.curPos (configs.take ndof)
          st.curVel (1 / (time - st.curTime)) (List.range ndof) st.newVel with
      | error ret => exact hst
      | ok newVel =>
        simp only
        split_ifs with hc
        · exact hst
        · apply ih
          intro r hr
          rcases List.mem_append.mp hr with h | h
          · exact hst r h
          · rw [List.mem_singleton] at h
            rw [h]
            show 0 ≤ (clampAccelerations _ _ _).1.duration
            rw [clampAccelerations_duration]
            show 0 ≤ time - st.curTime
            linarith
    · rw [if_neg hd]
      exact ih _ _ hst

theorem finishSegment_durations (K : Consts) (H : Host) (P : Planner)
    (q0 q1 dq0 dq1 : List dReal) (t : dReal) (o : Nat) (out : List RampND) (ht : 0 ≤ t)
    (hout : ∀ r ∈ out, 0 ≤ r.duration) :
    ∀ r ∈ (finishSegment K H P q0 q1 dq0 dq1 t o out).2, 0 ≤ r.duration := by
  have hnew : ∀ r ∈ out ++ [{ (clampAccelerations P.params._vConfigAccelerationLimit q0.length
      (RampND.Initialize q0 q1 dq0 dq1 t)).1 with constraintChecked := true }],
      0 ≤ r.duration := by
    intro r hr
    rcases List.mem_append.mp hr with h | h
    · exact hout r h
    · rw [List.mem_singleton] at h
      rw [h]
      show 0 ≤ (clampAccelerations _ _ _).1.duration
      rw [clampAccelerations_duration]
      exact ht
  have htail : ∀ l : List RampND, (∀ r ∈ l, 0 ≤ r.duration) →
      ∀ r ∈ (if (P._bmanipconstraints &&
            decide (o &&& K.CFO_CheckTimeBasedConstraints ≠ 0)) = true then
          match manipRejection H l with
          | some ret => (ret, l)
          | none => (({ retcode := 0 } : CheckReturn), l)
        else (({ retcode := 0 } : CheckReturn), l)).2, 0 ≤ r.duration := by
    intro l hl
    split_ifs
    · split <;> exact hl
    · exact hl
  unfold finishSegment
  simp only
  by_cases hlen : out.length = 0
  · by_cases hc : ((clampAccelerations P.params._vConfigAccelerationLimit q0.length
        (RampND.Initialize q0 q1 dq0 dq1 t)).2 &&
        !H.CheckRampND (clampAccelerations P.params._vConfigAccelerationLimit q0.length
          (RampND.Initialize q0 q1 dq0 dq1 t)).1) = true
    · simp only [hlen, if_true, hc]
      exact hout
    · simp only [hlen, if_true, hc, Bool.false_eq_true, if_false]
      exact htail _ hnew
  · simp only [hlen, if_false]
    exact htail _ hout

/-- Every segment that `SegmentFeasible2` leaves in its output has a duration
`≥ 0`, whatever the result of the check. -/
theorem SegmentFeasible2_durations (K : Consts) (H : Host) (P : Planner)
    (hE : 0 ≤ K.g_fEpsilon) (hR : 0 ≤ K.g_fRampEpsilon)
    (q0 q1 dq0 dq1 : List dReal) (t : dReal) (o : Nat) :
    ∀ r ∈ (SegmentFeasible2 K H P q0 q1 dq0 dq1 t o).2, 0 ≤ r.duration := by
  have hnil : ∀ r ∈ ([] : List RampND), 0 ≤ r.duration := by
    intro r hr
    cases hr
  by_cases ht : t ≤ K.g_fEpsilon
  · unfold SegmentFeasible2
    rw [if_pos ht]
    intro r hr
    rw [List.mem_singleton] at hr
    rw [hr]
    exact le_refl _
  · have ht2 : t > K.g_fEpsilon := not_le.mp ht
    have ht0 : 0 ≤ t := by linarith
    rw [SegmentFeasible2_options K H P q0 q1 dq0 dq1 t o ht2]
    generalize segmentOptions K P o = o2
    split
    · rename_i e he
      split at he
      · simp only [Option.map_eq_some'] at he
        obtain ⟨ret, -, rfl⟩ := he
        intro r hr
        rw [List.mem_singleton] at hr
        rw [hr]
        exact ht0
      · cases he
    · split
      · exact hnil
      · rename_i ret configurations configurationtimes hhost
        by_cases h1 : ret ≠ 0
        · rw [if_pos h1]
          exact hnil
        · rw [if_neg h1]
          split
          · have hinv := modifiedLoop_durations K H P q0.length hR configurationtimes
              configurations
              { curPos := q0, curVel := dq0, newVel := List.replicate q0.length 0, curTime := 0,
                rampndVectOut := [] } hnil
            split
            · rename_i e hloop
              rw [hloop] at hinv
              exact hinv
            · rename_i st hloop
              rw [hloop] at hinv
              split
              · exact finishSegment_durations K H P q0 q1 dq0 dq1 t _ _ ht0 hinv
              · exact hinv
          · exact finishSegment_durations K H P q0 q1 dq0 dq1 t _ _ ht0 hnil

theorem checkSegments_forall (K : Consts) (feas : FeasibilityCheckerBase) (b : Bool) (o : Nat)
    (Q : RampND → Prop)
    (hfeas : ∀ q0 q1 dq0 dq1 t o2, ∀ r ∈ (feas.SegmentFeasible2 q0 q1 dq0 dq1 t o2).2, Q r) :
    ∀ (ramps : List RampND) (st : Check2State), (∀ r ∈ st.rampndVectOut, Q r) →
      match checkSegments K feas b o ramps st with
      | .ok st2 => ∀ r ∈ st2.rampndVectOut, Q r
      | .error e => ∀ r ∈ e.2, Q r := by
  intro ramps
  induction ramps with
  | nil =>
    intro st hst
    rw [checkSegments]
    exact hst
  | cons r rest ih =>
    intro st hst
    rw [checkSegments]
    dsimp only
    generalize (if feas.NeedDerivativeForFeasibility = true then
        if b = true then recomputeElapsed K st.q0 r.x1 st.dq0 r.v1
          (st.switchtime + r.duration - st.switchtime)
        else (st.switchtime + r.duration - st.switchtime, r.v1)
      else (st.switchtime + r.duration - st.switchtime, st.dq1)) = p
    by_cases hret : (feas.SegmentFeasible2 st.q0 r.x1 st.dq0 p.2 p.1 o).1.retcode ≠ 0
    · rw [if_pos hret]
      exact hst
    · rw [if_neg hret]
      have hout : ∀ x ∈ st.rampndVectOut ++ (feas.SegmentFeasible2 st.q0 r.x1 st.dq0 p.2 p.1 o).2,
          Q x := by
        intro x hx
        rcases List.mem_append.mp hx with h | h
        · exact hst x h
        · exact hfeas _ _ _ _ _ _ x h
      have key : ∀ m : Except (CheckReturn × List RampND) Check2State,
          (∃ st2 : Check2State,
            st2.rampndVectOut =
              st.rampndVectOut ++ (feas.SegmentFeasible2 st.q0 r.x1 st.dq0 p.2 p.1 o).2 ∧
            m = checkSegments K feas b o rest st2) →
          match m with
          | .ok st2 => ∀ r ∈ st2.rampndVectOut, Q r
          | .error e => ∀ r ∈ e.2, Q r := by
        rintro m ⟨st2, hst2, rfl⟩
        apply ih
        rw [hst2]
        exact hout
      apply key
      split <;> exact ⟨_, rfl, rfl⟩

/-- The output of `Check2` is its content on entry with a non-zero code, or it
consists of segments that `SegmentFeasible2` has put out. -/
theorem Check2_forall (K : Consts) (feas : FeasibilityCheckerBase) (bHasParameters : Bool)
    (fCos : dReal) (rampndVect : List RampND) (options : Nat) (out0 : List RampND)
    (Q : RampND → Prop)
    (hfeas : ∀ q0 q1 dq0 dq1 t o2, ∀ r ∈ (feas.SegmentFeasible2 q0 q1 dq0 dq1 t o2).2, Q r)
    (c : CheckReturn × List RampND)
    (h : Check2 K feas bHasParameters fCos rampndVect options out0 = some c)
    (hc : c.1.retcode = 0) : ∀ r ∈ c.2, Q r := by
  have hnil : ∀ r ∈ ([] : List RampND), Q r := by
    intro r hr
    cases hr
  unfold Check2 at h
  split at h
  · rename_i front back _ _
    dsimp only at h
    split_ifs at h with h0 h1
    · cases h
      exact absurd hc h0
    · cases h
      exact absurd hc h1
    · have hinv := checkSegments_forall K feas
        (bHasParameters && decide (fCos > -1 + K.g_fEpsilonLinear))
        (clearBits (clearBits options K.CFO_CheckEnvCollisions) K.CFO_CheckSelfCollisions) Q
        hfeas rampndVect
        { q0 := front.x0, dq0 := front.v0, dq1 := back.v1, switchtime := 0,
          rampndVectOut := [] } hnil
      split at h
      · rename_i e he
        rw [he] at hinv
        cases h
        exact hinv
      · rename_i st hst
        rw [hst] at hinv
        split at h <;> cases h <;> exact hinv
    · have hinv := checkSegments_forall K feas
        (bHasParameters && decide (fCos > -1 + K.g_fEpsilonLinear))
        (clearBits (clearBits options K.CFO_CheckEnvCollisions) K.CFO_CheckSelfCollisions) Q
        hfeas rampndVect
        { q0 := front.x0, dq0 := front.v0, dq1 := back.v1, switchtime := 0,
          rampndVectOut := [] } hnil
      split at h
      · rename_i e he
        rw [he] at hinv
        cases h
        exact hinv
      · rename_i st hst
        rw [hst] at hinv
        split at h <;> cases h <;> exact hinv
  · cases h

theorem plannerCheck2_durations (K : Consts) (H : Host) (P : Planner)
    (hE : 0 ≤ K.g_fEpsilon) (hR : 0 ≤ K.g_fRampEpsilon) (rampndVect : List RampND) (o : Nat)
    (out0 : List RampND) (c : CheckReturn × List RampND)
    (h : plannerCheck2 K H P rampndVect o out0 = some c) (hc : c.1.retcode = 0) :
    ∀ r ∈ c.2, 0 ≤ r.duration :=
  Check2_forall K (smootherChecker K H P) true P.params.fCosManipAngleThresh rampndVect o out0
    (fun r => 0 ≤ r.duration)
    (fun q0 q1 dq0 dq1 t o2 => SegmentFeasible2_durations K H P hE hR q0 q1 dq0 dq1 t o2) c h hc

theorem checkBlock_durations (K : Consts) (H : Host) (P : Planner) (I : ParabolicInterpolator)
    (hE : 0 ≤ K.g_fEpsilon) (hR : 0 ≤ K.g_fRampEpsilon)
    (hFV : K.CFO_FinalValuesNotReached ≠ 0) (hSS : K.CFO_StateSettingError ≠ 0)
    (t0 t1 minTimeStep segmentTime : dReal) (st : AttemptState) (c : CheckReturn × AttemptState)
    (h : checkBlock K H P I t0 t1 minTimeStep segmentTime st = some c) (hc : c.1.retcode = 0) :
    ∀ r ∈ c.2.shortcutRampNDVectOut, 0 ≤ r.duration := by
  unfold checkBlock at h
  split at h
  · cases h
    exact absurd hc hSS
  · rename_i x1 _
    dsimp only at h
    rw [Option.bind_eq_some] at h
    obtain ⟨c1, hc1, h⟩ := h
    by_cases h1 : c1.1.retcode ≠ 0
    · rw [if_pos h1] at h
      cases h
      exact absurd hc h1
    · rw [if_neg h1] at h
      have hd1 := plannerCheck2_durations K H P hE hR _ _ _ c1 hc1 (not_not.mp h1)
      split at h
      · rename_i back hb hlast
        unfold repairLastSegment at h
        dsimp only at h
        split at h
        · cases h
          exact absurd hc hFV
        · rename_i cand hcand
          split_ifs at h with hs
          · cases h
            exact absurd hc hFV
          · rw [Option.bind_eq_some] at h
            obtain ⟨c2, hc2, h⟩ := h
            by_cases h2 : c2.1.retcode ≠ 0
            · rw [if_pos h2] at h
              cases h
              exact absurd hc h2
            · rw [if_neg h2] at h
              have hd2 := plannerCheck2_durations K H P hE hR _ _ _ c2 hc2 (not_not.mp h2)
              split_ifs at h
              · cases h
                exact absurd hc hFV
              · cases h
                intro r hr
                rcases List.mem_append.mp hr with hr | hr
                · exact hd1 r (List.mem_of_mem_dropLast hr)
                · exact hd2 r hr
      · cases h
        exact hd1

theorem slowDownLoop_durations (K : Consts) (H : Host) (C : Collaborators) (P : Planner)
    (I : ParabolicInterpolator) (hE : 0 ≤ K.g_fEpsilon) (hR : 0 ≤ K.g_fRampEpsilon)
    (hFV : K.CFO_FinalValuesNotReached ≠ 0) (hSS : K.CFO_StateSettingError ≠ 0)
    (t0 t1 minTimeStep : dReal) (bx0 bx1 bv0 bv1 : List dReal) :
    ∀ (fuel i : Nat) (st a : AttemptState),
      slowDownLoop K H C P I t0 t1 minTimeStep bx0 bx1 bv0 bv1 fuel i st =
        some (.finished true a) →
      ∀ r ∈ a.shortcutRampNDVectOut, 0 ≤ r.duration := by
  intro fuel
  induction fuel with
  | zero =>
    intro i st a h
    rw [slowDownLoop] at h
    cases h
  | succ fuel ih =>
    intro i st a h
    rw [slowDownLoop] at h
    split at h
    · cases h
    · rename_i cand hcand
      dsimp only at h
      split_ifs at h with h1 h2
      · cases h
      · cases h
      · rw [Option.bind_eq_some] at h
        obtain ⟨c, hc, h⟩ := h
        split_ifs at h with hr hTB hs
        · cases h
          exact checkBlock_durations K H P I hE hR hFV hSS _ _ _ _ _ c hc hr
        · exact ih _ _ _ h
        · cases h
        · cases h

/-- The list of ramps that a successful attempt hands to the commit consists
of ramps with a duration `≥ 0`. -/
theorem runAttempt_durations (K : Consts) (H : Host) (C : Collaborators) (P : Planner)
    (I : ParabolicInterpolator) (hE : 0 ≤ K.g_fEpsilon) (hR : 0 ≤ K.g_fRampEpsilon)
    (hFV : K.CFO_FinalValuesNotReached ≠ 0) (hSS : K.CFO_StateSettingError ≠ 0)
    (minTimeStep t0 t1 : dReal) (s : ShortcutState) (a : AttemptState)
    (h : runAttempt K H C P I minTimeStep t0 t1 s = some (some (.finished true a))) :
    ∀ r ∈ a.shortcutRampNDVectOut, 0 ≤ r.duration := by
  unfold runAttempt at h
  split at h
  · cases h
  · split at h
    · cases h
    · dsimp only at h
      rw [Option.map_eq_some'] at h
      obtain ⟨out, hout, he⟩ := h
      cases he
      exact slowDownLoop_durations K H C P I hE hR hFV hSS _ _ _ _ _ _ _ _ _ _ _ hout

theorem totalDuration_foldl_nonneg :
    ∀ (l : List RampND) (t : dReal), 0 ≤ t → (∀ r ∈ l, 0 ≤ r.duration) →
      0 ≤ l.foldl (fun t r => t + r.duration) t := by
  intro l
  induction l with
  | nil =>
    intro t ht _
    exact ht
  | cons r rest ih =>
    intro t ht h
    rw [List.foldl_cons]
    exact ih _ (add_nonneg ht (h r (List.mem_cons_self _ _)))
      (fun x hx => h x (List.mem_cons_of_mem _ hx))

theorem totalDuration_nonneg (l : List RampND) (h : ∀ r ∈ l, 0 ≤ r.duration) :
    0 ≤ totalDuration l :=
  totalDuration_foldl_nonneg l 0 (le_refl _) h

theorem zip_getD_mem (Z : List dReal) (nb : List (dReal × dReal)) (i : Nat)
    (hi : i < Z.length) (hnb : Z.length ≤ nb.length) :
    (Z.getD i 0, nb.getD i (0, 0)) ∈ Z.zip nb := by
  have hi2 : i < nb.length := by omega
  have h : (Z.zip nb)[i]? = some (Z[i], nb[i]) := by
    rw [List.getElem?_zip_eq_some]
    exact ⟨List.getElem?_eq_getElem hi, List.getElem?_eq_getElem hi2⟩
  have hm := List.getElem?_mem h
  simpa [List.getD_eq_getElem?_getD, hi, hi2] using hm

/-- The three facts about the registry on which the progress of the merger
rests are kept by the commit of a merge whose accepted ramps have a total
duration `≥ 0`: the registry is nondecreasing, it is not longer than the list
of neighbour bounds, and every stop lies in `(t_left, t_right]` of its bounds.
The registry after the commit is the one without the stops in `(t0, t1]`. -/
theorem mergeCommit_invariant (C : Collaborators) (P : Planner) (t0 t1 : dReal)
    (a : AttemptState) (s : ShortcutState) (h01 : t0 ≤ t1)
    (hD : 0 ≤ totalDuration a.shortcutRampNDVectOut)
    (hs : s._zeroVelPoints.Pairwise (fun x y => x ≤ y))
    (hnb : s._zeroVelPoints.length ≤ s._zeroVelPointNeighbors.length)
    (hw : ∀ i, i < s._zeroVelPoints.length →
      (s._zeroVelPointNeighbors.getD i (0, 0)).1 < s._zeroVelPoints.getD i 0 ∧
      s._zeroVelPoints.getD i 0 ≤ (s._zeroVelPointNeighbors.getD i (0, 0)).2) :
    (mergeCommit C P t0 t1 a s)._zeroVelPoints =
      registryAfterCommit t0 t1 ((t1 - t0) - totalDuration a.shortcutRampNDVectOut)
        s._zeroVelPoints ∧
    (mergeCommit C P t0 t1 a s)._zeroVelPoints.Pairwise (fun x y => x ≤ y) ∧
    (mergeCommit C P t0 t1 a s)._zeroVelPoints.length ≤
      (mergeCommit C P t0 t1 a s)._zeroVelPointNeighbors.length ∧
    (∀ i, i < (mergeCommit C P t0 t1 a s)._zeroVelPoints.length →
      ((mergeCommit C P t0 t1 a s)._zeroVelPointNeighbors.getD i (0, 0)).1 <
        (mergeCommit C P t0 t1 a s)._zeroVelPoints.getD i 0 ∧
      (mergeCommit C P t0 t1 a s)._zeroVelPoints.getD i 0 ≤
        ((mergeCommit C P t0 t1 a s)._zeroVelPointNeighbors.getD i (0, 0)).2) := by
  obtain ⟨h1, h2, -, -, h5⟩ := mergeRegistryUpdate_paired t0 t1
    ((t1 - t0) - totalDuration a.shortcutRampNDVectOut) h01 s._zeroVelPoints
    s._zeroVelPointNeighbors hs hnb
  have heq := mergeRegistryUpdate_eq t0 t1
    ((t1 - t0) - totalDuration a.shortcutRampNDVectOut) h01 s._zeroVelPoints
    s._zeroVelPointNeighbors hs
  have hsorted := registryAfterCommit_sorted t0 t1 (totalDuration a.shortcutRampNDVectOut)
    s._zeroVelPoints hD hs
  have hZ : (mergeCommit C P t0 t1 a s)._zeroVelPoints =
      (mergeRegistryUpdate t0 t1 ((t1 - t0) - totalDuration a.shortcutRampNDVectOut)
        s._zeroVelPoints s._zeroVelPointNeighbors).1 := rfl
  have hN : (mergeCommit C P t0 t1 a s)._zeroVelPointNeighbors =
      (mergeRegistryUpdate t0 t1 ((t1 - t0) - totalDuration a.shortcutRampNDVectOut)
        s._zeroVelPoints s._zeroVelPointNeighbors).2 := rfl
  rw [hZ, hN]
  generalize mergeRegistryUpdate t0 t1 ((t1 - t0) - totalDuration a.shortcutRampNDVectOut)
    s._zeroVelPoints s._zeroVelPointNeighbors = r at h1 h2 h5 heq
  have hlen : r.1.length ≤ r.2.length := by omega
  refine ⟨heq, by rw [heq]; exact hsorted, hlen, ?_⟩
  intro i hi
  have hm := zip_getD_mem r.1 r.2 i hi hlen
  rw [h5] at hm
  have hall : ∀ p ∈ s._zeroVelPoints.zip s._zeroVelPointNeighbors, p.2.1 < p.1 ∧ p.1 ≤ p.2.2 := by
    intro p hp
    obtain ⟨j, hj, hpj⟩ := List.getElem_of_mem hp
    rw [List.length_zip] at hj
    have hj1 : j < s._zeroVelPoints.length := by omega
    have hj2 : j < s._zeroVelPointNeighbors.length := by omega
    have := hw j hj1
    rw [List.getElem_zip] at hpj
    rw [← hpj]
    simpa [List.getD_eq_getElem?_getD, hj1, hj2] using this
  rcases List.mem_append.mp hm with hm | hm
  · exact hall _ (List.mem_filter.mp hm).1
  · rw [List.mem_map] at hm
    obtain ⟨p, hp, hpe⟩ := hm
    have := hall p (List.mem_filter.mp hp).1
    have e1 := congrArg Prod.fst hpe
    have e2 := congrArg (fun q => q.2.1) hpe
    have e3 := congrArg (fun q => q.2.2) hpe
    simp only at e1 e2 e3
    rw [← e1, ← e2, ← e3]
    constructor <;> linarith [this.1, this.2]

/-- The three facts about the registry hold in every state that the merger
loop reaches. -/
theorem mergeIterate_invariant (K : Consts) (H : Host) (C : Collaborators) (P : Planner)
    (I : ParabolicInterpolator) (minTimeStep : dReal)
    (hE : 0 ≤ K.g_fEpsilon) (hR : 0 ≤ K.g_fRampEpsilon)
    (hFV : K.CFO_FinalValuesNotReached ≠ 0) (hSS : K.CFO_StateSettingError ≠ 0) :
    ∀ (k index : Nat) (s : ShortcutState) (i2 : Nat) (s2 : ShortcutState),
      s._zeroVelPoints.Pairwise (fun x y => x ≤ y) →
      s._zeroVelPoints.length ≤ s._zeroVelPointNeighbors.length →
      (∀ i, i < s._zeroVelPoints.length →
        (s._zeroVelPointNeighbors.getD i (0, 0)).1 < s._zeroVelPoints.getD i 0 ∧
        s._zeroVelPoints.getD i 0 ≤ (s._zeroVelPointNeighbors.getD i (0, 0)).2) →
      mergeIterate K H C P I minTimeStep k index s = some (i2, s2) →
      s2._zeroVelPoints.Pairwise (fun x y => x ≤ y) ∧
      s2._zeroVelPoints.length ≤ s2._zeroVelPointNeighbors.length ∧
      (∀ i, i < s2._zeroVelPoints.length →
        (s2._zeroVelPointNeighbors.getD i (0, 0)).1 < s2._zeroVelPoints.getD i 0 ∧
        s2._zeroVelPoints.getD i 0 ≤ (s2._zeroVelPointNeighbors.getD i (0, 0)).2) := by
  intro k
  induction k with
  | zero =>
    intro index s i2 s2 hs hnb hw h
    rw [mergeIterate] at h
    cases h
    exact ⟨hs, hnb, hw⟩
  | succ k ih =>
    intro index s i2 s2 hs hnb hw h
    rw [mergeIterate] at h
    by_cases hi : index < s._zeroVelPoints.length
    · rw [if_pos hi] at h
      cases hx : mergeStep K H C P I minTimeStep index s with
      | none =>
        rw [hx] at h
        cases h
      | some x =>
        rw [hx] at h
        rcases mergeStep_cases K H C P I minTimeStep index s x hx with
          ⟨s3, rfl⟩ | ⟨s3, rfl, hz, hn, -⟩ | ⟨a, rfl, hrun, -⟩
        · cases h
        · exact ih (index + 1) s3 i2 s2 (by rw [hz]; exact hs) (by rw [hz, hn]; exact hnb)
            (by rw [hz, hn]; exact hw) h
        · have hin := hw index hi
          have hD := totalDuration_nonneg _
            (runAttempt_durations K H C P I hE hR hFV hSS minTimeStep _ _ s a hrun)
          obtain ⟨-, c2, c3, c4⟩ := mergeCommit_invariant C P _ _ a s
            (le_of_lt (lt_of_lt_of_le hin.1 hin.2)) hD hs hnb hw
          exact ih index _ i2 s2 c2 c3 c4 h
    · rw [if_neg hi] at h
      cases h

/-- C24 (amended).  On entry let the registry of `N` stops be nondecreasing,
not longer than the list of neighbour bounds, with every stop inside
`(t_left, t_right]` of its bounds, and let the interpolator never answer with
an empty list.  Then in every state that the loop reaches with an index inside
the registry the iteration is defined and it either is interrupted and returns
`-1`, or fails and advances the index by one with the registry, the neighbour
bounds and the merge count unchanged, or succeeds: it keeps the index, raises
the merge count by one and leaves the registry without its stops in
`(t_left, t_right]` of the current index (the later ones moved by the time
saved), among them the stop at the current index, so that the registry is
strictly shorter.  At most `N` iterations go on, `_MergeConsecutiveSegments`
returns within `N + 1` evaluations of the loop condition, and the returned
number is `-1` or a merge count between 0 and `N`. -/
theorem C24_merger_progress (K : Consts) (H : Host) (C : Collaborators) (P : Planner)
    (I : ParabolicInterpolator) (minTimeStep : dReal) (s : ShortcutState)
    (hE : 0 ≤ K.g_fEpsilon) (hR : 0 ≤ K.g_fRampEpsilon)
    (hFV : K.CFO_FinalValuesNotReached ≠ 0) (hSS : K.CFO_StateSettingError ≠ 0)
    (hI : ∀ x0 x1 v0 v1 vl al b cand,
      I.ComputeArbitraryVelNDTrajectory x0 x1 v0 v1 vl al b = some cand → cand ≠ [])
    (hs : s._zeroVelPoints.Pairwise (fun x y => x ≤ y))
    (hnb : s._zeroVelPoints.length ≤ s._zeroVelPointNeighbors.length)
    (hw : ∀ i, i < s._zeroVelPoints.length →
      (s._zeroVelPointNeighbors.getD i (0, 0)).1 < s._zeroVelPoints.getD i 0 ∧
      s._zeroVelPoints.getD i 0 ≤ (s._zeroVelPointNeighbors.getD i (0, 0)).2) :
    (∀ k index st,
      mergeIterate K H C P I minTimeStep k 0
        { s with fStartTimeVelMult := 1, fStartTimeAccelMult := 1, numSuccessful := 0,
                 numSlowDowns := 0, nTimeBasedConstraintsFailed := 0 } = some (index, st) →
      index < st._zeroVelPoints.length →
      ∃ x, mergeStep K H C P I minTimeStep index st = some x ∧
        ((∃ s2, x = .inl (-1, s2)) ∨
        (∃ s2, x = .inr (index + 1, s2) ∧ s2._zeroVelPoints = st._zeroVelPoints ∧
          s2._zeroVelPointNeighbors = st._zeroVelPointNeighbors ∧
          s2.numSuccessful = st.numSuccessful) ∨
        (∃ s2 d, x = .inr (index, s2) ∧ s2.numSuccessful = st.numSuccessful + 1 ∧
          (st._zeroVelPointNeighbors.getD index (0, 0)).1 < st._zeroVelPoints.getD index 0 ∧
          st._zeroVelPoints.getD index 0 ≤ (st._zeroVelPointNeighbors.getD index (0, 0)).2 ∧
          s2._zeroVelPoints =
            registryAfterCommit (st._zeroVelPointNeighbors.getD index (0, 0)).1
              (st._zeroVelPointNeighbors.getD index (0, 0)).2 d st._zeroVelPoints ∧
          s2._zeroVelPoints.length < st._zeroVelPoints.length))) ∧
    (∀ k index st,
      mergeIterate K H C P I minTimeStep k 0
        { s with fStartTimeVelMult := 1, fStartTimeAccelMult := 1, numSuccessful := 0,
                 numSlowDowns := 0, nTimeBasedConstraintsFailed := 0 } = some (index, st) →
      k ≤ s._zeroVelPoints.length) ∧
    (∃ n s2, _MergeConsecutiveSegments K H C P I minTimeStep (s._zeroVelPoints.length + 1) s =
        some (n, s2) ∧
      (n = -1 ∨ (0 ≤ n ∧ n ≤ (s._zeroVelPoints.length : Int)))) := by
  have hdef : ∀ t0 t1 st, ∃ r, runAttempt K H C P I minTimeStep t0 t1 st = some r :=
    fun t0 t1 st => runAttempt_defined K H C P I minTimeStep t0 t1 st hI
  have hinv := fun k index st =>
    mergeIterate_invariant K H C P I minTimeStep hE hR hFV hSS k 0
      { s with fStartTimeVelMult := 1, fStartTimeAccelMult := 1, numSuccessful := 0,
               numSlowDowns := 0, nTimeBasedConstraintsFailed := 0 } index st hs hnb hw
  have hgood : ∀ j i2 s2,
      mergeIterate K H C P I minTimeStep j 0
        { s with fStartTimeVelMult := 1, fStartTimeAccelMult := 1, numSuccessful := 0,
                 numSlowDowns := 0, nTimeBasedConstraintsFailed := 0 } = some (i2, s2) →
      i2 < s2._zeroVelPoints.length →
      (s2._zeroVelPointNeighbors.getD i2 (0, 0)).1 < s2._zeroVelPoints.getD i2 0 ∧
      s2._zeroVelPoints.getD i2 0 ≤ (s2._zeroVelPointNeighbors.getD i2 (0, 0)).2 :=
    fun j i2 s2 hj hi => (hinv j i2 s2 hj).2.2 i2 hi
  refine ⟨?_, ?_, ?_⟩
  · intro k index st hk hi
    obtain ⟨c1, c2, c3⟩ := hinv k index st hk
    obtain ⟨r, hr⟩ := hdef (st._zeroVelPointNeighbors.getD index (0, 0)).1
      (st._zeroVelPointNeighbors.getD index (0, 0)).2 st
    have hx : ∃ x, mergeStep K H C P I minTimeStep index st = some x := by
      unfold mergeStep
      simp only [hr, Option.map_some']
      exact ⟨_, rfl⟩
    obtain ⟨x, hx⟩ := hx
    refine ⟨x, hx, ?_⟩
    rcases mergeStep_cases K H C P I minTimeStep index st x hx with
      ⟨s2, rfl⟩ | ⟨s2, rfl, hz, hn, hc⟩ | ⟨a, rfl, hrun, -⟩
    · exact Or.inl ⟨s2, rfl⟩
    · exact Or.inr (Or.inl ⟨s2, rfl, hz, hn, hc⟩)
    · have hin := c3 index hi
      have hD := totalDuration_nonneg _
        (runAttempt_durations K H C P I hE hR hFV hSS minTimeStep _ _ st a hrun)
      obtain ⟨e1, -, -, -⟩ := mergeCommit_invariant C P _ _ a st
        (le_of_lt (lt_of_lt_of_le hin.1 hin.2)) hD c1 c2 c3
      obtain ⟨-, l2, l3⟩ := mergeCommit_length C P
        (st._zeroVelPointNeighbors.getD index (0, 0)).1
        (st._zeroVelPointNeighbors.getD index (0, 0)).2 a st
      exact Or.inr (Or.inr ⟨_, _, rfl, l3, hin.1, hin.2, e1, l2 ⟨index, hi, hin.1, hin.2⟩⟩)
  · intro k i2 s2 h
    have := mergeIterate_bound K H C P I minTimeStep k 0 _ i2 s2 hgood h
    simp only at this
    omega
  · unfold _MergeConsecutiveSegments
    by_cases h0 : s._zeroVelPoints.length = 0
    · rw [if_pos h0]
      exact ⟨0, s, rfl, Or.inr ⟨le_refl _, by omega⟩⟩
    · rw [if_neg h0]
      obtain ⟨n, s2, hrun, hb⟩ := mergeLoop_returns K H C P I minTimeStep hdef
        (s._zeroVelPoints.length + 1) 0 _ hgood (by simp only; omega)
      refine ⟨n, s2, hrun, ?_⟩
      rcases hb with hb | ⟨hb1, hb2⟩
      · exact Or.inl hb
      · right
        simp only at hb1 hb2
        push_cast at hb1 hb2
        constructor <;> omega

theorem stop_interpolator_nonempty : ∀ x0 x1 v0 v1 vl al b cand,
    stopInterpolator.ComputeArbitraryVelNDTrajectory x0 x1 v0 v1 vl al b = some cand →
      cand ≠ [] := by
  intro x0 x1 v0 v1 vl al b cand h
  simp only [stopInterpolator] at h
  split_ifs at h <;> cases h <;> simp [stopBridge, stopWhole]

/-- C24 (witness): the merger on `stopState` (one stop at time 2 inside its
neighbour window `(1, 3)`, as `_SetMileStones` registers it) under
`plainHost`: the hypotheses hold, the first iteration is a success that
leaves the registry empty, and the merger returns the merge count 1 within
two evaluations of the loop condition. -/
theorem C24_merger_progress_witness :
    stopState._zeroVelPoints.Pairwise (fun x y => x ≤ y) ∧
    stopState._zeroVelPoints.length ≤ stopState._zeroVelPointNeighbors.length ∧
    (∀ i, i < stopState._zeroVelPoints.length →
      (stopState._zeroVelPointNeighbors.getD i (0, 0)).1 < stopState._zeroVelPoints.getD i 0 ∧
      stopState._zeroVelPoints.getD i 0 ≤ (stopState._zeroVelPointNeighbors.getD i (0, 0)).2) ∧
    (∃ s2, _MergeConsecutiveSegments openraveConsts plainHost stopCollaborators stopPlanner
        stopInterpolator (99 / 100) 2 stopState = some (1, s2) ∧ s2._zeroVelPoints = []) ∧
    ∃ n s2, _MergeConsecutiveSegments openraveConsts plainHost stopCollaborators stopPlanner
        stopInterpolator (99 / 100) (stopState._zeroVelPoints.length + 1) stopState =
        some (n, s2) ∧
      (n = -1 ∨ (0 ≤ n ∧ n ≤ (stopState._zeroVelPoints.length : Int))) := by
  have hs : stopState._zeroVelPoints.Pairwise (fun x y => x ≤ y) := by simp [stopState]
  have hnb : stopState._zeroVelPoints.length ≤ stopState._zeroVelPointNeighbors.length := by
    simp [stopState]
  have hw : ∀ i, i < stopState._zeroVelPoints.length →
      (stopState._zeroVelPointNeighbors.getD i (0, 0)).1 < stopState._zeroVelPoints.getD i 0 ∧
      stopState._zeroVelPoints.getD i 0 ≤
        (stopState._zeroVelPointNeighbors.getD i (0, 0)).2 := by
    intro i hi
    have : i = 0 := by simpa [stopState] using hi
    subst this
    norm_num [stopState]
  obtain ⟨s2, h, hz, -⟩ := stop_merge_once openraveConsts (by norm_num [openraveConsts])
    (by norm_num [openraveConsts]) (by norm_num [openraveConsts]) (by decide) 0
  exact ⟨hs, hnb, hw, ⟨s2, h, hz⟩,
    (C24_merger_progress openraveConsts plainHost stopCollaborators stopPlanner
      stopInterpolator (99 / 100) stopState (by norm_num [openraveConsts])
      (by norm_num [openraveConsts]) (by decide) (by decide) stop_interpolator_nonempty
      hs hnb hw).2.2⟩

theorem interrupt_runAttempt (K : Consts) (s : ShortcutState)
    (hv : s.fStartTimeVelMult = 1) (ha : s.fStartTimeAccelMult = 1) :
    ∃ a, runAttempt K plainHost interruptCollaborators stopPlanner stopInterpolator (99 / 100)
      1 3 s = some (some (.interrupted a)) := by
  have hp1 : interruptCollaborators.EvalPos s.path 1 = [1 / 2] := by
    simp [interruptCollaborators, stopCollaborators]
  have hp3 : interruptCollaborators.EvalPos s.path 3 = [3 / 2] := by
    simp only [interruptCollaborators, stopCollaborators]
    norm_num
  have hv1 : interruptCollaborators.EvalVel s.path 1 = [1] := by
    simp [interruptCollaborators, stopCollaborators]
  have hv3 : interruptCollaborators.EvalVel s.path 3 = [1] := by
    simp [interruptCollaborators, stopCollaborators]
  have hset : ∀ x, plainHost.setgetState x = some x := fun _ => rfl
  have hI : ∀ a b d e f g,
      stopInterpolator.ComputeArbitraryVelNDTrajectory a b [1] d e f g = some stopBridge := by
    intro a b d e f g
    simp [stopInterpolator]
  have hdur : totalDuration stopBridge = 1 := by
    norm_num [totalDuration, stopBridge, RampND.Initialize]
  have hguard : ¬ ((1 : dReal) + 99 / 100 > 3 - 1) := by norm_num
  have hcb : ∀ n, interruptCollaborators._CallCallbacks n = PlannerAction.PA_Interrupt :=
    fun _ => rfl
  unfold runAttempt
  simp only [hp1, hp3, hv1, hv3, hset, hv, ha, stop_initialLimits 1 (by norm_num) le_rfl]
  rw [show (100 : Nat) = 99 + 1 from rfl, slowDownLoop]
  simp only [hI, hdur, if_neg hguard, hcb, if_true, Option.map_some']
  exact ⟨_, rfl⟩

theorem interrupt_mergeStep (K : Consts) (s : ShortcutState)
    (hnb : s._zeroVelPointNeighbors = [(1, 3)])
    (hv : s.fStartTimeVelMult = 1) (ha : s.fStartTimeAccelMult = 1) :
    ∃ a, mergeStep K plainHost interruptCollaborators stopPlanner stopInterpolator (99 / 100) 0 s =
      some (.inl (-1, s.afterAttempt a)) := by
  obtain ⟨a, hint⟩ := interrupt_runAttempt K s hv ha
  refine ⟨a, ?_⟩
  unfold mergeStep
  simp only [hnb, List.getD_cons_zero, hint, Option.map_some']

/-- C24, refuted as stated: an iteration of the merger loop has a third
outcome.  On `stopState` (`N = 1`: the stop 2 with the bounds `(1, 3)`) with a
progress callback that interrupts, the first iteration neither fails and
advances the index nor removes a stop: it returns at once, the registry still
holds its stop, and `_MergeConsecutiveSegments` returns `-1`, which is not a
merge count between 0 and `N`. -/
theorem C24_interrupted_iteration :
    stopState._zeroVelPoints.length = 1 ∧
    ∃ s2,
      mergeStep openraveConsts plainHost interruptCollaborators stopPlanner stopInterpolator
        (99 / 100) 0
        { stopState with fStartTimeVelMult := 1, fStartTimeAccelMult := 1, numSuccessful := 0,
                         numSlowDowns := 0, nTimeBasedConstraintsFailed := 0 } =
        some (.inl (-1, s2)) ∧
      s2._zeroVelPoints = stopState._zeroVelPoints ∧
      _MergeConsecutiveSegments openraveConsts plainHost interruptCollaborators stopPlanner
        stopInterpolator (99 / 100) 2 stopState = some (-1, s2) := by
  obtain ⟨a, hstep⟩ := interrupt_mergeStep openraveConsts
    { stopState with fStartTimeVelMult := 1, fStartTimeAccelMult := 1, numSuccessful := 0,
                     numSlowDowns := 0, nTimeBasedConstraintsFailed := 0 } rfl rfl rfl
  refine ⟨rfl, _, hstep, rfl, ?_⟩
  unfold _MergeConsecutiveSegments
  rw [if_neg (by simp [stopState]), mergeLoop_step, if_pos (by simp [stopState]), hstep]
  rfl

theorem checkEmittedRamp_error (K : Consts) (H : Host) (C : Collaborators) (P : Planner)
    (I : ParabolicInterpolator) (irampnd size : Nat) (ramp : RampND) (ncalls : Nat)
    (status : PlannerStatus)
    (h : checkEmittedRamp K H C P I irampnd size ramp ncalls = some (.error status)) :
    status = PlannerStatus.PS_Failed ∨ status = PlannerStatus.PS_Interrupted := by
  unfold checkEmittedRamp at h
  simp only [Option.map_eq_some'] at h
  obtain ⟨r, -, hr⟩ := h
  cases r with
  | none =>
    simp only at hr
    cases hr
    exact Or.inl rfl
  | some v =>
    simp only at hr
    split_ifs at hr
    cases hr
    exact Or.inr rfl

theorem emitRamps_error (K : Consts) (H : Host) (C : Collaborators) (P : Planner)
    (I : ParabolicInterpolator) (isQuadratic : Bool) (numShortcuts : Int) (size : Nat) :
    ∀ (ramps : List RampND) (irampnd ncalls : Nat) (emitted : List TrajWaypoint) (d : dReal)
      (status : PlannerStatus),
      emitRamps K H C P I isQuadratic numShortcuts size ramps irampnd ncalls emitted d =
        some (.error status) →
      status = PlannerStatus.PS_Failed ∨ status = PlannerStatus.PS_Interrupted := by
  intro ramps
  induction ramps with
  | nil =>
    intro irampnd ncalls emitted d status h
    rw [emitRamps] at h
    cases h
  | cons ramp rest ih =>
    intro irampnd ncalls emitted d status h
    rw [emitRamps] at h
    split_ifs at h with h1 h2
    · cases h
      exact Or.inl rfl
    · simp only [Option.bind_eq_some, Option.map_eq_some'] at h
      obtain ⟨r, ⟨c, hc, rfl⟩, hr⟩ := h
      cases c with
      | error st =>
        simp only [Except.map] at hr
        cases hr
        exact checkEmittedRamp_error K H C P I irampnd size ramp ncalls status hc
      | ok t =>
        simp only [Except.map] at hr
        exact ih _ _ _ _ _ hr
    · simp only [Option.some_bind] at h
      exact ih _ _ _ _ _ h

/-- The main block of `PlanPath` either returns `PS_Failed` or `PS_Interrupted`
without a swap, or swaps in the trajectory that the emission loop built over
all ramps of the path, with a total duration within 0.01 of the expected one,
and returns the status of the post planners. -/
theorem planMain_cases (K : Consts) (H : Host) (C : Collaborators) (P : Planner)
    (I : ParabolicInterpolator) (maxRamp : dReal) (isQuadratic : Bool) (mergeFuel : Nat)
    (postStatus : PlannerStatus) (s : ShortcutState) (r : PlanResult)
    (h : planMain K H C P I maxRamp isQuadratic mergeFuel postStatus s = some r) :
    (r.swapped = none ∧
      (r.status = PlannerStatus.PS_Failed ∨ r.status = PlannerStatus.PS_Interrupted)) ∨
    (∃ (n : Int) (s2 : ShortcutState) (front : RampND) (rest : List RampND)
        (t : List TrajWaypoint) (d : dReal),
      s2.path = front :: rest ∧
      emitRamps K H C { P with _bUsePerturbation := true } I isQuadratic n
        (front :: rest).length (front :: rest) 0 (s2.ncalls + 1)
        [{ position := front.x0, velocity := front.v0, deltatime := 0 }] 0 = some (.ok (t, d)) ∧
      |d - trajectoryDuration t| ≤ 1 / 100 ∧
      r = { status := postStatus, swapped := some t }) := by
  unfold planMain at h
  dsimp only at h
  by_cases h1 : C._CallCallbacks s.ncalls = PlannerAction.PA_Interrupt
  · rw [if_pos h1] at h
    cases h
    exact Or.inl ⟨rfl, Or.inr rfl⟩
  · rw [if_neg h1, Option.bind_eq_some] at h
    obtain ⟨x, -, hx⟩ := h
    by_cases h2 : x.1 < 0
    · rw [if_pos h2] at hx
      cases hx
      exact Or.inl ⟨rfl, Or.inr rfl⟩
    rw [if_neg h2] at hx
    by_cases h3 : C._CallCallbacks x.2.ncalls = PlannerAction.PA_Interrupt
    · rw [if_pos h3] at hx
      cases hx
      exact Or.inl ⟨rfl, Or.inr rfl⟩
    rw [if_neg h3] at hx
    split at hx
    · cases hx
    · rename_i front rest hpath
      simp only [Option.map_eq_some'] at hx
      obtain ⟨e, he, hr⟩ := hx
      cases e with
      | error status =>
        simp only at hr
        subst hr
        exact Or.inl ⟨rfl, emitRamps_error K H C _ I isQuadratic _ _ _ _ _ _ _ status he⟩
      | ok t =>
        simp only at hr
        by_cases h4 : |t.2 - trajectoryDuration t.1| ≤ 1 / 100
        · rw [if_pos h4] at hr
          subst hr
          exact Or.inr ⟨x.1, x.2, front, rest, t.1, t.2, hpath, he, h4, rfl⟩
        · rw [if_neg h4] at hr
          subst hr
          exact Or.inl ⟨rfl, Or.inl rfl⟩

/-- C27.  Whenever `PlanPath` returns, either the caller's trajectory is
exactly the input trajectory and the status is `PS_Failed` or `PS_Interrupted`,
or the main block got as far as the swap: the initializer succeeded, the
emission loop ran over every ramp of the path without an error exit, the
duration of the emitted trajectory `t` is within 0.01 of the expected one, and
the caller's trajectory is `t` as the code behind the swap leaves it (the
verbose sampling and the post planners).  In particular the returns for fewer
than 2 waypoints, for a failed initializer and for every return of the main
block without a swap leave the input trajectory in place. -/
theorem C27_output_atomic (K : Consts) (H : Host) (C : Collaborators) (P : Planner)
    (I : ParabolicInterpolator) (neigh : Option NeighHost) (densifyFuel mergeFuel : Nat)
    (interpolation : String) (verbose : Bool) (sampleOk : List TrajWaypoint → Bool)
    (post : List TrajWaypoint → PlannerStatus × List TrajWaypoint) (cacheRampND : RampND)
    (maxRamp : dReal) (m : ShortcutState) (ptraj : List TrajWaypoint)
    (r : PlannerStatus × List TrajWaypoint)
    (h : PlanPath K H C P I neigh densifyFuel mergeFuel interpolation verbose sampleOk post
      cacheRampND maxRamp m ptraj = some r) :
    ((r.2 = ptraj ∧
        (r.1 = PlannerStatus.PS_Failed ∨ r.1 = PlannerStatus.PS_Interrupted)) ∨
      (∃ (s : ShortcutState × dReal) (n : Int) (s2 : ShortcutState) (front : RampND)
          (rest : List RampND) (t : List TrajWaypoint) (d : dReal),
        2 ≤ ptraj.length ∧
        planPathInit K H P I neigh densifyFuel interpolation cacheRampND maxRamp m ptraj =
          some (some s) ∧
        planMain K H C P I s.2 (P.params._hastimestamps && interpolation == "quadratic")
          mergeFuel PlannerStatus.PS_HasSolution s.1 =
          some { status := PlannerStatus.PS_HasSolution, swapped := some t } ∧
        s2.path = front :: rest ∧
        emitRamps K H C { P with _bUsePerturbation := true } I
          (P.params._hastimestamps && interpolation == "quadratic") n
          (front :: rest).length (front :: rest) 0 (s2.ncalls + 1)
          [{ position := front.x0, velocity := front.v0, deltatime := 0 }] 0 =
          some (.ok (t, d)) ∧
        |d - trajectoryDuration t| ≤ 1 / 100 ∧
        r = (if verbose && !sampleOk t then (PlannerStatus.PS_Failed, t) else post t))) ∧
    (ptraj.length < 2 → r = (PlannerStatus.PS_Failed, ptraj)) ∧
    (planPathInit K H P I neigh densifyFuel interpolation cacheRampND maxRamp m ptraj =
        some none → r = (PlannerStatus.PS_Failed, ptraj)) ∧
    (∀ (s : ShortcutState × dReal) (pr : PlanResult), 2 ≤ ptraj.length →
      planPathInit K H P I neigh densifyFuel interpolation cacheRampND maxRamp m ptraj =
        some (some s) →
      planMain K H C P I s.2 (P.params._hastimestamps && interpolation == "quadratic")
        mergeFuel PlannerStatus.PS_HasSolution s.1 = some pr →
      pr.swapped = none → r = (pr.status, ptraj)) := by
  unfold PlanPath at h
  by_cases hlen : ptraj.length < 2
  · rw [if_pos hlen] at h
    cases h
    refine ⟨Or.inl ⟨rfl, Or.inl rfl⟩, fun _ => rfl, fun _ => rfl, fun _ _ h2 => ?_⟩
    omega
  · rw [if_neg hlen, Option.bind_eq_some] at h
    obtain ⟨start, hstart, hrest⟩ := h
    cases start with
    | none =>
      simp only at hrest
      cases hrest
      refine ⟨Or.inl ⟨rfl, Or.inl rfl⟩, fun h2 => absurd h2 hlen, fun _ => rfl, ?_⟩
      intro s pr _ hs
      rw [hstart] at hs
      cases hs
    | some s =>
      simp only [Option.map_eq_some'] at hrest
      obtain ⟨pr, hpr, hr⟩ := hrest
      have hcases := planMain_cases K H C P I s.2
        (P.params._hastimestamps && interpolation == "quadratic") mergeFuel
        PlannerStatus.PS_HasSolution s.1 pr hpr
      refine ⟨?_, fun h2 => absurd h2 hlen, ?_, ?_⟩
      · rcases hcases with ⟨hsw, hst⟩ | ⟨n, s2, front, rest, t, d, hp, he, hd, hpr2⟩
        · rw [hsw] at hr
          simp only at hr
          subst hr
          exact Or.inl ⟨rfl, hst⟩
        · subst hpr2
          simp only at hr
          exact Or.inr ⟨s, n, s2, front, rest, t, d, by omega, hstart, hpr, hp, he, hd,
            hr.symm⟩
      · intro hs
        rw [hstart] at hs
        cases hs
      · intro s' pr' _ hs hpr' hsw
        rw [hstart] at hs
        cases hs
        rw [hpr] at hpr'
        cases hpr'
        rw [hsw] at hr
        exact hr.symm

/-- C27 (witness): the trajectory `stopTrajectory` read as quadratic with
timestamps, with a progress callback that interrupts at the start of the main
block: `PlanPath` returns `PS_Interrupted`, the main block returns without a
swap, and the trajectory is the input. -/
theorem C27_output_atomic_witness :
    PlanPath openraveConsts plainHost stopCollaborators plainPlanner idleInterpolator none 0 0
        "quadratic" false (fun _ => true) (fun t => (PlannerStatus.PS_HasSolution, t))
        default 0 { stopState with ncalls := 1 } stopTrajectory =
      some (PlannerStatus.PS_Interrupted, stopTrajectory) ∧
    (∀ (s : ShortcutState × dReal) (pr : PlanResult), 2 ≤ stopTrajectory.length →
      planPathInit openraveConsts plainHost plainPlanner idleInterpolator none 0 "quadratic"
        default 0 { stopState with ncalls := 1 } stopTrajectory = some (some s) →
      planMain openraveConsts plainHost stopCollaborators plainPlanner idleInterpolator s.2
        (plainPlanner.params._hastimestamps && "quadratic" == "quadratic") 0
        PlannerStatus.PS_HasSolution s.1 = some pr →
      pr.swapped = none →
      (PlannerStatus.PS_Interrupted, stopTrajectory) = (pr.status, stopTrajectory)) := by
  have h : PlanPath openraveConsts plainHost stopCollaborators plainPlanner idleInterpolator
      none 0 0 "quadratic" false (fun _ => true) (fun t => (PlannerStatus.PS_HasSolution, t))
      default 0 { stopState with ncalls := 1 } stopTrajectory =
      some (PlannerStatus.PS_Interrupted, stopTrajectory) := by
    have hq : (plainPlanner.params._hastimestamps && "quadratic" == "quadratic") = true := by
      decide
    have hcb : stopCollaborators._CallCallbacks 1 = PlannerAction.PA_Interrupt := by
      simp [stopCollaborators]
    have hl : ¬ (stopTrajectory.length < 2) := by decide
    have hv : (!plainPlanner.params.verifyinitialpath && true) = true := rfl
    unfold PlanPath
    rw [if_neg hl]
    unfold planPathInit
    simp only [hq, hv, if_true, Option.map_some', Option.some_bind, planMain, stopState, hcb]
  exact ⟨h, (C27_output_atomic openraveConsts plainHost stopCollaborators plainPlanner
    idleInterpolator none 0 0 "quadratic" false (fun _ => true)
    (fun t => (PlannerStatus.PS_HasSolution, t)) default 0 { stopState with ncalls := 1 }
    stopTrajectory _ h).2.2.2⟩

/-- The quadratic and the cubic branch of the initializer leave
`_maxInitialRampTime` at its value on entry (0 after `_InitPlan`):
`_SetMileStones` is not run. -/
theorem planPathInit_ramp_time (K : Consts) (H : Host) (P : Planner) (I : ParabolicInterpolator)
    (neigh : Option NeighHost) (densifyFuel : Nat) (interpolation : String)
    (cacheRampND : RampND) (maxRamp : dReal) (m : ShortcutState) (ptraj : List TrajWaypoint)
    (s : ShortcutState × dReal) (hts : P.params._hastimestamps = true)
    (hq : interpolation = "quadratic" ∨ interpolation = "cubic")
    (h : planPathInit K H P I neigh densifyFuel interpolation cacheRampND maxRamp m ptraj =
      some (some s)) :
    s.2 = maxRamp := by
  unfold planPathInit at h
  rcases hq with hq | hq
  · subst hq
    simp only [hts, Bool.true_and, beq_self_eq_true, if_true, Option.map_some',
      Option.some.injEq] at h
    split_ifs at h <;> rw [← h]
  · subst hq
    have hne : ("cubic" == "quadratic") = false := by decide
    simp only [hts, Bool.true_and, hne, Bool.false_eq_true, if_false, beq_self_eq_true, if_true,
      Option.map_some', Option.some.injEq, Option.map_eq_some'] at h
    obtain ⟨t, ht, hs⟩ := h
    obtain ⟨path, -, rfl⟩ := ht
    split_ifs at hs <;> rw [← hs]

theorem checkEmittedRamp_eq (K : Consts) (H : Host) (C : Collaborators) (P : Planner)
    (I : ParabolicInterpolator) (irampnd size : Nat) (ramp : RampND) (ncalls : Nat) :
    checkEmittedRamp K H C P I irampnd size ramp ncalls =
      (if (emissionTrim K C P irampnd size ramp).bCheck then
        (plannerCheck2 K H { P with _bUsePerturbation := false }
            [(emissionTrim K C P irampnd size ramp).rampndTrimmed] 0xffff []).bind fun c =>
          if c.1.retcode ≠ 0 then
            (stretchTries K H { P with _bUsePerturbation := false } I
              (emissionTrim K C P irampnd size ramp).rampndTrimmed
              (5 / 100 * ((emissionTrim K C P irampnd size ramp).rampndTrimmed.duration +
                5 * K.g_fRampEpsilon)) 4 0
              ((emissionTrim K C P irampnd size ramp).rampndTrimmed.duration +
                5 * K.g_fRampEpsilon)).map
              fun r => r.map fun out =>
                if (emissionTrim K C P irampnd size ramp).bTrimmedFront then
                  (emissionTrim K C P irampnd size ramp).remRampND :: out
                else if (emissionTrim K C P irampnd size ramp).bTrimmedBack then
                  out ++ [(emissionTrim K C P irampnd size ramp).remRampND]
                else out
          else some (some [ramp])
      else some (some [ramp])).map fun r =>
        match r with
        | none => .error PlannerStatus.PS_Failed
        | some tempRampNDVect =>
          if C._CallCallbacks ncalls = PlannerAction.PA_Interrupt then
            .error PlannerStatus.PS_Interrupted
          else .ok tempRampNDVect := rfl

/-- A stretch try that is accepted is the checked form of the interpolation
for the duration that `newDuration` has at that try. -/
theorem stretchTries_accepted (K : Consts) (H : Host) (P : Planner) (I : ParabolicInterpolator)
    (r : RampND) (timeIncrement : dReal) :
    ∀ (fuel iDilate : Nat) (newDuration : dReal) (out : List RampND),
      stretchTries K H P I r timeIncrement fuel iDilate newDuration = some (some out) →
      ∃ k cand c, k < fuel ∧
        I.ComputeNDTrajectoryFixedDuration r.x0 r.x1 r.v0 r.v1
          (stretchedDuration K timeIncrement k iDilate newDuration) = some cand ∧
        plannerCheck2 K H P cand 0xffff [] = some c ∧ c.1.retcode = 0 ∧ out = c.2 := by
  intro fuel
  induction fuel with
  | zero =>
    intro iDilate newDuration out h
    rw [stretchTries] at h
    cases h
  | succ fuel ih =>
    intro iDilate newDuration out h
    rw [stretchTries] at h
    have hnext : ∀ out2, stretchTries K H P I r timeIncrement fuel (iDilate + 1)
        (if iDilate > 1 then newDuration + timeIncrement
         else newDuration + 5 * K.g_fRampEpsilon) = some (some out2) →
        ∃ k cand c, k < fuel + 1 ∧
          I.ComputeNDTrajectoryFixedDuration r.x0 r.x1 r.v0 r.v1
            (stretchedDuration K timeIncrement k iDilate newDuration) = some cand ∧
          plannerCheck2 K H P cand 0xffff [] = some c ∧ c.1.retcode = 0 ∧ out2 = c.2 := by
      intro out2 h2
      obtain ⟨k, cand, c, hk, hI, hc, hr, ho⟩ := ih _ _ _ h2
      exact ⟨k + 1, cand, c, by omega, hI, hc, hr, ho⟩
    cases hI : I.ComputeNDTrajectoryFixedDuration r.x0 r.x1 r.v0 r.v1 newDuration with
    | none =>
      rw [hI] at h
      exact hnext out h
    | some cand =>
      rw [hI] at h
      simp only [Option.bind_eq_some] at h
      obtain ⟨c, hc, h⟩ := h
      by_cases hr : c.1.retcode = 0
      · rw [if_pos hr] at h
        cases h
        exact ⟨0, cand, c, by omega, hI, hc, hr, rfl⟩
      · rw [if_neg hr] at h
        exact hnext out h

/-- The durations of the four stretch tries for a trimmed ramp of duration
`D`. -/
theorem stretchedDuration_tries (K : Consts) (D : dReal) :
    stretchedDuration K (5 / 100 * (D + 5 * K.g_fRampEpsilon)) 0 0 (D + 5 * K.g_fRampEpsilon) =
      D + 5 * K.g_fRampEpsilon ∧
    stretchedDuration K (5 / 100 * (D + 5 * K.g_fRampEpsilon)) 1 0 (D + 5 * K.g_fRampEpsilon) =
      D + 10 * K.g_fRampEpsilon ∧
    stretchedDuration K (5 / 100 * (D + 5 * K.g_fRampEpsilon)) 2 0 (D + 5 * K.g_fRampEpsilon) =
      D + 15 * K.g_fRampEpsilon ∧
    stretchedDuration K (5 / 100 * (D + 5 * K.g_fRampEpsilon)) 3 0 (D + 5 * K.g_fRampEpsilon) =
      D + 15 * K.g_fRampEpsilon + 5 / 100 * (D + 5 * K.g_fRampEpsilon) := by
  have n01 : ¬ (0 > 1) := by decide
  have n11 : ¬ (0 + 1 > 1) := by decide
  have n21 : 0 + 1 + 1 > 1 := by decide
  refine ⟨rfl, ?_, ?_, ?_⟩
  · simp only [stretchedDuration, if_neg n01]
    ring
  · simp only [stretchedDuration, if_neg n01, if_neg n11]
    ring
  · simp only [stretchedDuration, if_neg n01, if_neg n11, if_pos n21]
    ring

/-- An unchecked ramp whose check is skipped or passes is finalized as it
is. -/
theorem checkEmittedRamp_asIs (K : Consts) (H : Host) (C : Collaborators) (P : Planner)
    (I : ParabolicInterpolator) (irampnd size : Nat) (ramp : RampND) (ncalls : Nat)
    (t : List RampND) (hpass : emittedAsIs K H C P irampnd size ramp = true)
    (h : checkEmittedRamp K H C P I irampnd size ramp ncalls = some (.ok t)) : t = [ramp] := by
  rw [checkEmittedRamp_eq] at h
  unfold emittedAsIs at hpass
  dsimp only at hpass
  simp only [Option.map_eq_some'] at h
  obtain ⟨r, hr, hm⟩ := h
  have hself : r = some [ramp] := by
    by_cases hb : (emissionTrim K C P irampnd size ramp).bCheck = true
    · rw [if_pos hb] at hr
      rw [hb] at hpass
      simp only [Bool.not_true, Bool.false_or] at hpass
      cases hc : plannerCheck2 K H { P with _bUsePerturbation := false }
          [(emissionTrim K C P irampnd size ramp).rampndTrimmed] 0xffff [] with
      | none =>
        rw [hc] at hpass
        cases hpass
      | some c =>
        rw [hc] at hpass hr
        simp only [decide_eq_true_eq] at hpass
        simp only [Option.some_bind, ne_eq, hpass, not_true_eq_false, if_false] at hr
        cases hr
        rfl
    · rw [if_neg hb] at hr
      cases hr
      rfl
  subst hself
  simp only at hm
  split_ifs at hm
  cases hm
  rfl

/-- A finalized unchecked ramp is the ramp itself or the checked form of an
accepted stretch try, with the trimmed remainder put back. -/
theorem checkEmittedRamp_cases (K : Consts) (H : Host) (C : Collaborators) (P : Planner)
    (I : ParabolicInterpolator) (irampnd size : Nat) (ramp : RampND) (ncalls : Nat)
    (t : List RampND)
    (h : checkEmittedRamp K H C P I irampnd size ramp ncalls = some (.ok t)) :
    (emittedAsIs K H C P irampnd size ramp = true ∧ t = [ramp]) ∨
    (emittedAsIs K H C P irampnd size ramp = false ∧
      ∃ k cand c, k < 4 ∧
        I.ComputeNDTrajectoryFixedDuration
          (emissionTrim K C P irampnd size ramp).rampndTrimmed.x0
          (emissionTrim K C P irampnd size ramp).rampndTrimmed.x1
          (emissionTrim K C P irampnd size ramp).rampndTrimmed.v0
          (emissionTrim K C P irampnd size ramp).rampndTrimmed.v1
          (stretchedDuration K
            (5 / 100 * ((emissionTrim K C P irampnd size ramp).rampndTrimmed.duration +
              5 * K.g_fRampEpsilon)) k 0
            ((emissionTrim K C P irampnd size ramp).rampndTrimmed.duration +
              5 * K.g_fRampEpsilon)) = some cand ∧
        plannerCheck2 K H { P with _bUsePerturbation := false } cand 0xffff [] = some c ∧
        c.1.retcode = 0 ∧
        t = (if (emissionTrim K C P irampnd size ramp).bTrimmedFront then
              (emissionTrim K C P irampnd size ramp).remRampND :: c.2
            else if (emissionTrim K C P irampnd size ramp).bTrimmedBack then
              c.2 ++ [(emissionTrim K C P irampnd size ramp).remRampND]
            else c.2)) := by
  by_cases hpass : emittedAsIs K H C P irampnd size ramp = true
  · exact Or.inl ⟨hpass, checkEmittedRamp_asIs K H C P I irampnd size ramp ncalls t hpass h⟩
  · right
    have hpass2 : emittedAsIs K H C P irampnd size ramp = false := by
      simpa using hpass
    refine ⟨hpass2, ?_⟩
    rw [checkEmittedRamp_eq] at h
    unfold emittedAsIs at hpass2
    dsimp only at hpass2
    simp only [Bool.or_eq_false_iff, Bool.not_eq_false'] at hpass2
    obtain ⟨hb, hc0⟩ := hpass2
    rw [if_pos hb] at h
    simp only [Option.map_eq_some'] at h
    obtain ⟨r, hr, hm⟩ := h
    rw [Option.bind_eq_some] at hr
    obtain ⟨c1, hc1, hr⟩ := hr
    rw [hc1] at hc0
    simp only [decide_eq_false_iff_not] at hc0
    rw [if_pos hc0] at hr
    simp only [Option.map_eq_some'] at hr
    obtain ⟨r2, hr2, hrm⟩ := hr
    cases r2 with
    | none =>
      simp only [Option.map_none'] at hrm
      subst hrm
      simp only at hm
      cases hm
    | some out =>
      simp only [Option.map_some'] at hrm
      subst hrm
      simp only at hm
      by_cases hcb : C._CallCallbacks ncalls = PlannerAction.PA_Interrupt
      · rw [if_pos hcb] at hm
        cases hm
      · rw [if_neg hcb] at hm
        have ht := Except.ok.inj hm
        obtain ⟨k, cand, c, hk, hI, hc, hret, ho⟩ := stretchTries_accepted K H
          { P with _bUsePerturbation := false } I _ _ 4 0 _ out hr2
        exact ⟨k, cand, c, hk, hI, hc, hret, by rw [← ht, ho]⟩

/-- The emission loop finalizes every ramp of the path: a checked ramp as it
is, an unchecked one by `checkEmittedRamp`; the waypoints written and the sum
`fExpextedDuration` are those of the finalized ramps. -/
theorem emitRamps_finals (K : Consts) (H : Host) (C : Collaborators) (P : Planner)
    (I : ParabolicInterpolator) (isQuadratic : Bool) (numShortcuts : Int) (size : Nat) :
    ∀ (path : List RampND) (irampnd ncalls : Nat) (emitted : List TrajWaypoint) (d0 : dReal)
      (traj : List TrajWaypoint) (d : dReal),
      emitRamps K H C P I isQuadratic numShortcuts size path irampnd ncalls emitted d0 =
        some (.ok (traj, d)) →
      ∃ finals : List (List RampND), finals.length = path.length ∧
        traj = emitted ++ finals.flatten.map (fun r =>
          ({ position := r.x1, velocity := r.v1, deltatime := r.duration } : TrajWaypoint)) ∧
        d = d0 + (finals.flatten.map fun r => r.duration).sum ∧
        ∀ j r, path[j]? = some r → ∃ f, finals[j]? = some f ∧
          ((r.constraintChecked = true ∧ f = [r]) ∨
           (r.constraintChecked = false ∧
              ∃ n, checkEmittedRamp K H C P I (irampnd + j) size r n = some (.ok f))) := by
  intro path
  induction path with
  | nil =>
    intro irampnd ncalls emitted d0 traj d h
    rw [emitRamps] at h
    cases h
    refine ⟨[], rfl, by simp, by simp, ?_⟩
    intro j r hj
    simp at hj
  | cons ramp rest ih =>
    intro irampnd ncalls emitted d0 traj d h
    rw [emitRamps] at h
    by_cases hfail : ((!(isQuadratic && decide (numShortcuts = 0)) || !ramp.constraintChecked) &&
        !H.CheckRampND ramp) = true
    · rw [if_pos hfail] at h
      cases h
    · rw [if_neg hfail] at h
      simp only [Option.bind_eq_some] at h
      obtain ⟨r, hfin, hrest⟩ := h
      cases r with
      | error status => cases hrest
      | ok t =>
        simp only at hrest
        obtain ⟨finals, hlen, htraj, hd, hall⟩ := ih _ _ _ _ _ _ hrest
        have hhead : (ramp.constraintChecked = true ∧ t.1 = [ramp]) ∨
            (ramp.constraintChecked = false ∧
              ∃ n, checkEmittedRamp K H C P I irampnd size ramp n = some (.ok t.1)) := by
          by_cases hc : ramp.constraintChecked = true
          · left
            simp only [hc, Bool.not_true, Bool.false_eq_true, if_false] at hfin
            cases hfin
            exact ⟨hc, rfl⟩
          · right
            simp only [Bool.not_eq_true] at hc
            simp only [hc, Bool.not_false, if_true, Option.map_eq_some'] at hfin
            obtain ⟨e, he, hmap⟩ := hfin
            cases e with
            | error status => cases hmap
            | ok t2 =>
              simp only [Except.map, Except.ok.injEq] at hmap
              rw [← hmap]
              exact ⟨hc, ncalls, he⟩
        refine ⟨t.1 :: finals, by simp [hlen], ?_, ?_, ?_⟩
        · rw [htraj]
          simp [List.append_assoc]
        · rw [hd, foldl_duration_sum]
          simp [add_assoc]
        · intro j r hj
          cases j with
          | zero =>
            simp only [List.getElem?_cons_zero, Option.some.injEq] at hj
            subst hj
            exact ⟨t.1, List.getElem?_cons_zero, hhead⟩
          | succ j =>
            simp only [List.getElem?_cons_succ] at hj
            obtain ⟨f, hf, hcase⟩ := hall j r hj
            refine ⟨f, by simpa using hf, ?_⟩
            rw [show irampnd + (j + 1) = irampnd + 1 + j by omega]
            exact hcase

theorem flatten_singletons (path : List RampND) :
    (path.map fun r => [r]).flatten = path := by
  induction path with
  | nil => rfl
  | cons x xs ih => simpa using ih

theorem join_singletons (path : List RampND) (finals : List (List RampND))
    (hlen : finals.length = path.length)
    (h : ∀ (j : Nat) (r : RampND), path[j]? = some r → finals[j]? = some [r]) :
    finals.flatten = path := by
  have : finals = path.map fun r => [r] := by
    apply List.ext_getElem?
    intro j
    cases hp : path[j]? with
    | none =>
      have hj : path.length ≤ j := by
        by_contra hlt
        rw [List.getElem?_eq_getElem (by omega)] at hp
        cases hp
      rw [List.getElem?_eq_none (by omega), List.getElem?_eq_none (by simp; omega)]
    | some r =>
      rw [h j r hp, List.getElem?_map, hp]
      rfl
  rw [this]
  exact flatten_singletons path

theorem trajectoryDuration_first (x0 v0 : List dReal) (l : List RampND) :
    trajectoryDuration (({ position := x0, velocity := v0, deltatime := 0 } : TrajWaypoint) ::
      l.map (fun r =>
        ({ position := r.x1, velocity := r.v1, deltatime := r.duration } : TrajWaypoint))) =
      totalDuration l := by
  rw [totalDuration, foldl_duration_sum]
  simp [trajectoryDuration, Function.comp_def]

/-- C11 (amended).  Whenever the emission loop of `PlanPath` completes, the
emitted trajectory is a first waypoint with delta time 0 followed by one
waypoint per finalized ramp, so its total duration is the total duration of
the finalized ramps (and equals `fExpextedDuration`).  Each ramp of the path
is finalized as itself when it is already checked or when its check is
skipped or passes; otherwise it is replaced by the checked form of an accepted
stretch try, the interpolation requested for the duration that `newDuration`
has at one of the four tries, with the trimmed remainder put back.  For a
trimmed ramp of duration `D` these four durations are `D + 5 e`, `D + 10 e`,
`D + 15 e` and `D + 15 e + 0.05 (D + 5 e)` with `e = g_fRampEpsilon`.  When
every ramp is finalized as itself, the total duration of the emitted
trajectory equals the total duration of the path. -/
theorem C11_emitted_duration (K : Consts) (H : Host) (C : Collaborators) (P : Planner)
    (I : ParabolicInterpolator) (isQuadratic : Bool) (numShortcuts : Int)
    (path : List RampND) (ncalls : Nat) (x0 v0 : List dReal) (traj : List TrajWaypoint)
    (d : dReal)
    (h : emitRamps K H C P I isQuadratic numShortcuts path.length path 0 ncalls
      [{ position := x0, velocity := v0, deltatime := 0 }] 0 = some (.ok (traj, d))) :
    (∃ finals : List (List RampND), finals.length = path.length ∧
      traj = ({ position := x0, velocity := v0, deltatime := 0 } : TrajWaypoint) ::
        finals.flatten.map (fun r =>
          ({ position := r.x1, velocity := r.v1, deltatime := r.duration } : TrajWaypoint)) ∧
      trajectoryDuration traj = totalDuration finals.flatten ∧
      d = trajectoryDuration traj ∧
      ∀ j r, path[j]? = some r → ∃ f, finals[j]? = some f ∧
        (((r.constraintChecked = true ∨ emittedAsIs K H C P j path.length r = true) ∧
            f = [r]) ∨
          (r.constraintChecked = false ∧ emittedAsIs K H C P j path.length r = false ∧
            ∃ k cand c, k < 4 ∧
              I.ComputeNDTrajectoryFixedDuration
                (emissionTrim K C P j path.length r).rampndTrimmed.x0
                (emissionTrim K C P j path.length r).rampndTrimmed.x1
                (emissionTrim K C P j path.length r).rampndTrimmed.v0
                (emissionTrim K C P j path.length r).rampndTrimmed.v1
                (stretchedDuration K
                  (5 / 100 * ((emissionTrim K C P j path.length r).rampndTrimmed.duration +
                    5 * K.g_fRampEpsilon)) k 0
                  ((emissionTrim K C P j path.length r).rampndTrimmed.duration +
                    5 * K.g_fRampEpsilon)) = some cand ∧
              plannerCheck2 K H { P with _bUsePerturbation := false } cand 0xffff [] =
                some c ∧
              c.1.retcode = 0 ∧
              f = (if (emissionTrim K C P j path.length r).bTrimmedFront then
                    (emissionTrim K C P j path.length r).remRampND :: c.2
                  else if (emissionTrim K C P j path.length r).bTrimmedBack then
                    c.2 ++ [(emissionTrim K C P j path.length r).remRampND]
                  else c.2)))) ∧
    (∀ D : dReal,
      stretchedDuration K (5 / 100 * (D + 5 * K.g_fRampEpsilon)) 0 0
          (D + 5 * K.g_fRampEpsilon) = D + 5 * K.g_fRampEpsilon ∧
      stretchedDuration K (5 / 100 * (D + 5 * K.g_fRampEpsilon)) 1 0
          (D + 5 * K.g_fRampEpsilon) = D + 10 * K.g_fRampEpsilon ∧
      stretchedDuration K (5 / 100 * (D + 5 * K.g_fRampEpsilon)) 2 0
          (D + 5 * K.g_fRampEpsilon) = D + 15 * K.g_fRampEpsilon ∧
      stretchedDuration K (5 / 100 * (D + 5 * K.g_fRampEpsilon)) 3 0
          (D + 5 * K.g_fRampEpsilon) =
        D + 15 * K.g_fRampEpsilon + 5 / 100 * (D + 5 * K.g_fRampEpsilon)) ∧
    ((∀ j r, path[j]? = some r →
        r.constraintChecked = true ∨ emittedAsIs K H C P j path.length r = true) →
      trajectoryDuration traj = totalDuration path) := by
  obtain ⟨finals, hlen, htraj, hd, hall⟩ := emitRamps_finals K H C P I isQuadratic numShortcuts
    path.length path 0 ncalls _ 0 traj d h
  have htraj2 : traj = ({ position := x0, velocity := v0, deltatime := 0 } : TrajWaypoint) ::
      finals.flatten.map (fun r =>
        ({ position := r.x1, velocity := r.v1, deltatime := r.duration } : TrajWaypoint)) := by
    rw [htraj]
    rfl
  have hdur : trajectoryDuration traj = totalDuration finals.flatten := by
    rw [htraj2, trajectoryDuration_first]
  have hcases : ∀ j r, path[j]? = some r → ∃ f, finals[j]? = some f ∧
      (((r.constraintChecked = true ∨ emittedAsIs K H C P j path.length r = true) ∧
          f = [r]) ∨
        (r.constraintChecked = false ∧ emittedAsIs K H C P j path.length r = false ∧
          ∃ k cand c, k < 4 ∧
            I.ComputeNDTrajectoryFixedDuration
              (emissionTrim K C P j path.length r).rampndTrimmed.x0
              (emissionTrim K C P j path.length r).rampndTrimmed.x1
              (emissionTrim K C P j path.length r).rampndTrimmed.v0
              (emissionTrim K C P j path.length r).rampndTrimmed.v1
              (stretchedDuration K
                (5 / 100 * ((emissionTrim K C P j path.length r).rampndTrimmed.duration +
                  5 * K.g_fRampEpsilon)) k 0
                ((emissionTrim K C P j path.length r).rampndTrimmed.duration +
                  5 * K.g_fRampEpsilon)) = some cand ∧
            plannerCheck2 K H { P with _bUsePerturbation := false } cand 0xffff [] =
              some c ∧
            c.1.retcode = 0 ∧
            f = (if (emissionTrim K C P j path.length r).bTrimmedFront then
                  (emissionTrim K C P j path.length r).remRampND :: c.2
                else if (emissionTrim K C P j path.length r).bTrimmedBack then
                  c.2 ++ [(emissionTrim K C P j path.length r).remRampND]
                else c.2))) := by
    intro j r hj
    obtain ⟨f, hf, hcase⟩ := hall j r hj
    refine ⟨f, hf, ?_⟩
    rcases hcase with ⟨hc, hfr⟩ | ⟨hc, n, hce⟩
    · exact Or.inl ⟨Or.inl hc, hfr⟩
    · rw [Nat.zero_add] at hce
      rcases checkEmittedRamp_cases K H C P I j path.length r n f hce with ⟨hp, hfr⟩ | ⟨hp, hs⟩
      · exact Or.inl ⟨Or.inr hp, hfr⟩
      · exact Or.inr ⟨hc, hp, hs⟩
  refine ⟨⟨finals, hlen, htraj2, hdur, ?_, hcases⟩, stretchedDuration_tries K, ?_⟩
  · rw [hdur, hd, totalDuration, foldl_duration_sum]
  · intro hasis
    have hj : finals.flatten = path := by
      apply join_singletons path finals hlen
      intro j r hjr
      obtain ⟨f, hf, hcase⟩ := hcases j r hjr
      rcases hcase with ⟨-, hfr⟩ | ⟨hc, hp, -⟩
      · rw [hf, hfr]
      · rcases hasis j r hjr with h1 | h1
        · rw [h1] at hc
          cases hc
        · rw [h1] at hp
          cases hp
    rw [hdur, hj]

/-- The unchecked middle ramp of `repairPath` passes `Check2` under
`plainHost`. -/
theorem plain_check2_cruise (K : Consts) (hE : K.g_fEpsilon < 1) (hL : 0 ≤ K.g_fEpsilonLinear)
    (hR : 0 ≤ K.g_fRampEpsilon)
    (hcoll : 0xffff &&& K.CFO_CheckEnvCollisions = K.CFO_CheckEnvCollisions)
    (P : Planner) (hm : P._bmanipconstraints = false)
    (hf : P.params.fCosManipAngleThresh = -1)
    (ha : P.params._vConfigAccelerationLimit = [10]) (out0 : List RampND) :
    plannerCheck2 K plainHost P [RampND.Initialize [1] [2] [1] [1] 1] 0xffff out0 =
      some ({ retcode := 0 },
        [{ RampND.Initialize [1] [2] [1] [1] 1 with constraintChecked := true }]) := by
  have hb : (true && decide (P.params.fCosManipAngleThresh > -1 + K.g_fEpsilonLinear)) =
      false := by
    rw [hf]
    simp only [Bool.true_and, decide_eq_false_iff_not, gt_iff_lt, not_lt]
    linarith
  have s1 : ∀ o, SegmentFeasible2 K plainHost P [1] [2] [1] [1] 1 o = _ :=
    fun o => SegmentFeasible2_unmodified K plainHost P _ _ _ _ _ o [] hE hm
      (fun _ => rfl)
      (by
        rw [ha]
        exact clampAccelerations_one 10 ((1 - 1) / 1) (RampND.Initialize [1] [2] [1] [1] 1) rfl
          (by norm_num) (by norm_num))
  have hseg : checkSegments K (smootherChecker K plainHost P)
      (true && decide (P.params.fCosManipAngleThresh > -1 + K.g_fEpsilonLinear))
      (clearBits (clearBits 0xffff K.CFO_CheckEnvCollisions) K.CFO_CheckSelfCollisions)
      [RampND.Initialize [1] [2] [1] [1] 1]
      { q0 := [1], dq0 := [1], dq1 := [1], switchtime := 0, rampndVectOut := [] } =
      .ok { q0 := [2], dq0 := [1], dq1 := [1], switchtime := 0 + 1,
            rampndVectOut :=
              [{ RampND.Initialize [1] [2] [1] [1] 1 with constraintChecked := true }] } := by
    rw [hb]
    rw [checkSegments_step K _ _ _ _ _ _ rfl (s1 _)]
    rfl
  have h := Check2_of_pass K (smootherChecker K plainHost P) true
    P.params.fCosManipAngleThresh [RampND.Initialize [1] [2] [1] [1] 1] 0xffff out0
    (RampND.Initialize [1] [2] [1] [1] 1) (RampND.Initialize [1] [2] [1] [1] 1) _
    rfl rfl (plain_configs K P) hseg (Or.inl hcoll)
  have hv : (vsearchsegments 1).getLast? = some 0 := by decide
  have hfin : ¬ (|(2 : dReal) - 2| > K.g_fRampEpsilon) := by
    rw [sub_self, abs_zero]; exact not_lt.mpr hR
  have hfin2 : ¬ (|(1 : dReal) - 1| > K.g_fRampEpsilon) := by
    rw [sub_self, abs_zero]; exact not_lt.mpr hR
  unfold plannerCheck2
  rw [h]
  simp only [List.length_cons, List.length_nil, hv,
    RampND.Initialize, List.getD_cons_succ, List.getD_cons_zero, List.range_succ,
    List.range_zero, List.nil_append, finalValuesLoop, if_neg hfin, hfin2, decide_False,
    Bool.or_false]

/-- The emission of `repairPath` under `plainHost`: the unchecked middle ramp
passes its check and is written as it is. -/
theorem plain_emit (K : Consts) (hE : K.g_fEpsilon < 1) (hL : 0 ≤ K.g_fEpsilonLinear)
    (hR : 0 ≤ K.g_fRampEpsilon)
    (hcoll : 0xffff &&& K.CFO_CheckEnvCollisions = K.CFO_CheckEnvCollisions) (ncalls : Nat)
    (n : Int) :
    emittedAsIs K plainHost quietCollaborators repairPlanner 1 3
        (RampND.Initialize [1] [2] [1] [1] 1) = true ∧
    emitRamps K plainHost quietCollaborators repairPlanner repairInterpolator false n 3
        repairPath 0 ncalls [{ position := [0], velocity := [1], deltatime := 0 }] 0 =
      some (.ok ([{ position := [0], velocity := [1], deltatime := 0 },
                  { position := [1], velocity := [1], deltatime := 1 },
                  { position := [2], velocity := [1], deltatime := 1 },
                  { position := [3], velocity := [1], deltatime := 1 }], 0 + 1 + 1 + 1)) := by
  have hchk := plain_check2_cruise K hE hL hR hcoll
    { repairPlanner with _bUsePerturbation := false } rfl rfl rfl []
  have h10 : ¬ ((1 : Nat) = 0) := by decide
  have h23 : ¬ ((1 : Nat) + 1 = 3) := by decide
  have hcb : ∀ m, quietCollaborators._CallCallbacks m ≠ PlannerAction.PA_Interrupt := by
    intro m
    simp [quietCollaborators]
  have hce : ∀ m, checkEmittedRamp K plainHost quietCollaborators repairPlanner
      repairInterpolator 1 3 (RampND.Initialize [1] [2] [1] [1] 1) m =
      some (.ok [RampND.Initialize [1] [2] [1] [1] 1]) := by
    intro m
    unfold checkEmittedRamp
    simp only [h10, h23, decide_False, Bool.not_false, Bool.true_and, Bool.false_and,
      Bool.false_or, Bool.false_eq_true, if_false, if_true, hchk, Option.some_bind, ne_eq,
      not_true_eq_false, Option.map_some', if_neg (hcb m)]
  have hr : ∀ r, plainHost.CheckRampND r = true := fun _ => rfl
  constructor
  · unfold emittedAsIs emissionTrim
    simp only [h10, h23, decide_False, Bool.not_false, Bool.true_and, Bool.false_and,
      Bool.false_or, Bool.false_eq_true, if_false, hchk, decide_True, Bool.or_true]
  · unfold repairPath
    rw [emitRamps]
    simp only [hr, Bool.not_true, Bool.and_false, Bool.false_eq_true, if_false,
      RampND.Initialize, Option.some_bind]
    rw [emitRamps]
    simp only [hr, Bool.not_true, Bool.and_false, Bool.false_eq_true, if_false, Bool.not_false,
      if_true]
    simp only [RampND.Initialize] at hce
    rw [hce]
    simp only [Option.map_some', Except.map, Option.some_bind]
    rw [emitRamps]
    simp only [hr, Bool.not_true, Bool.and_false, Bool.false_eq_true, if_false,
      Option.some_bind]
    rw [emitRamps]
    rfl

/-- C11 (witness): the emission of `repairPath`, whose middle ramp is not yet
checked.  Under `plainHost` the ramp passes its check and is written as it
is: the emitted trajectory has the duration 3 of the path.  Under `repairHost`
the ramp is repaired by the fourth stretch try and the emitted trajectory has
the duration `fExpextedDuration` of the finalized ramps. -/
theorem C11_emitted_duration_witness :
    emitRamps openraveConsts plainHost quietCollaborators repairPlanner repairInterpolator
        false 0 repairPath.length repairPath 0 0
        [{ position := [0], velocity := [1], deltatime := 0 }] 0 =
      some (.ok ([{ position := [0], velocity := [1], deltatime := 0 },
                  { position := [1], velocity := [1], deltatime := 1 },
                  { position := [2], velocity := [1], deltatime := 1 },
                  { position := [3], velocity := [1], deltatime := 1 }], 0 + 1 + 1 + 1)) ∧
    (∀ j r, repairPath[j]? = some r →
      r.constraintChecked = true ∨
        emittedAsIs openraveConsts plainHost quietCollaborators repairPlanner j
          repairPath.length r = true) ∧
    trajectoryDuration
        [{ position := [0], velocity := [1], deltatime := 0 },
         { position := [1], velocity := [1], deltatime := 1 },
         { position := [2], velocity := [1], deltatime := 1 },
         { position := [3], velocity := [1], deltatime := 1 }] = totalDuration repairPath ∧
    ∃ d, emitRamps openraveConsts repairHost quietCollaborators repairPlanner repairInterpolator
        false 0 repairPath.length repairPath 0 0
        [{ position := [0], velocity := [1], deltatime := 0 }] 0 =
        some (.ok (repairTrajectory (fourthTry openraveConsts), d)) ∧
      d = trajectoryDuration (repairTrajectory (fourthTry openraveConsts)) := by
  obtain ⟨hasis, hemit⟩ := plain_emit openraveConsts (by norm_num [openraveConsts])
    (by norm_num [openraveConsts]) (by norm_num [openraveConsts]) (by decide) 0 0
  obtain ⟨d, hrep⟩ := repair_emit openraveConsts (by norm_num [openraveConsts])
    (by norm_num [openraveConsts]) (by norm_num [openraveConsts])
    (by norm_num [openraveConsts]) (by decide) (by decide) 0 0
  have hall : ∀ j r, repairPath[j]? = some r →
      r.constraintChecked = true ∨
        emittedAsIs openraveConsts plainHost quietCollaborators repairPlanner j
          repairPath.length r = true := by
    intro j r hj
    match j with
    | 0 =>
      simp only [repairPath, List.getElem?_cons_zero, Option.some.injEq] at hj
      subst hj
      exact Or.inl rfl
    | 1 =>
      simp only [repairPath, List.getElem?_cons_succ, List.getElem?_cons_zero,
        Option.some.injEq] at hj
      subst hj
      exact Or.inr hasis
    | 2 =>
      simp only [repairPath, List.getElem?_cons_succ, List.getElem?_cons_zero,
        Option.some.injEq] at hj
      subst hj
      exact Or.inl rfl
    | j + 3 =>
      simp [repairPath] at hj
  have h1 := C11_emitted_duration openraveConsts plainHost quietCollaborators repairPlanner
    repairInterpolator false 0 repairPath 0 [0] [1] _ _ hemit
  have h2 := C11_emitted_duration openraveConsts repairHost quietCollaborators repairPlanner
    repairInterpolator false 0 repairPath 0 [0] [1] _ _ hrep
  obtain ⟨finals, -, -, -, hd, -⟩ := h2.1
  exact ⟨hemit, hall, h1.2.2 hall, d, hrep, hd⟩

theorem roundDouble_log (x : dReal) (e : Int) (h1 : (2 : dReal) ^ (e + 52) ≤ |x|)
    (h2 : |x| < (2 : dReal) ^ (e + 53)) : Int.log 2 |x| - 52 = e := by
  have hx : 0 < |x| := lt_of_lt_of_le (by positivity) h1
  have h12 : 1 < 2 := by decide
  have a1 : e + 52 ≤ Int.log 2 |x| :=
    (@Int.zpow_le_iff_le_log dReal _ _ 2 h12 (e + 52) |x| hx).mp (by exact_mod_cast h1)
  have a2 : Int.log 2 |x| < e + 53 :=
    (@Int.lt_zpow_iff_log_lt dReal _ _ 2 h12 (e + 53) |x| hx).mp (by exact_mod_cast h2)
  omega

theorem roundDouble_choice (y : dReal) (n : Int) (hn : |y - n| < 1 / 2) :
    (if y - (⌊y⌋ : Int) < 1 / 2 then ⌊y⌋
      else if y - (⌊y⌋ : Int) > 1 / 2 then ⌊y⌋ + 1
      else if ⌊y⌋ % 2 = 0 then ⌊y⌋ else ⌊y⌋ + 1) = n := by
  have f1 := Int.floor_le y
  have f2 := Int.lt_floor_add_one y
  rw [abs_lt] at hn
  obtain ⟨n1, n2⟩ := hn
  split_ifs with a b c
  · have k1 : ((⌊y⌋ - n : Int) : dReal) < 1 := by push_cast; linarith
    have k2 : (-1 : dReal) < ((⌊y⌋ - n : Int) : dReal) := by push_cast; linarith
    have k1' : ⌊y⌋ - n < 1 := by exact_mod_cast k1
    have k2' : -1 < ⌊y⌋ - n := by exact_mod_cast k2
    omega
  · have k1 : ((⌊y⌋ + 1 - n : Int) : dReal) < 1 := by push_cast; linarith
    have k2 : (-1 : dReal) < ((⌊y⌋ + 1 - n : Int) : dReal) := by push_cast; linarith
    have k1' : ⌊y⌋ + 1 - n < 1 := by exact_mod_cast k1
    have k2' : -1 < ⌊y⌋ + 1 - n := by exact_mod_cast k2
    omega
  · exfalso
    have hy : y - (⌊y⌋ : Int) = 1 / 2 := le_antisymm (not_lt.mp b) (not_lt.mp a)
    have k1 : ((n - ⌊y⌋ : Int) : dReal) < 1 := by push_cast; linarith
    have k2 : (0 : dReal) < ((n - ⌊y⌋ : Int) : dReal) := by push_cast; linarith
    have k1' : n - ⌊y⌋ < 1 := by exact_mod_cast k1
    have k2' : 0 < n - ⌊y⌋ := by exact_mod_cast k2
    omega
  · exfalso
    have hy : y - (⌊y⌋ : Int) = 1 / 2 := le_antisymm (not_lt.mp b) (not_lt.mp a)
    have k1 : ((n - ⌊y⌋ : Int) : dReal) < 1 := by push_cast; linarith
    have k2 : (0 : dReal) < ((n - ⌊y⌋ : Int) : dReal) := by push_cast; linarith
    have k1' : n - ⌊y⌋ < 1 := by exact_mod_cast k1
    have k2' : 0 < n - ⌊y⌋ := by exact_mod_cast k2
    omega

/-- The value of `roundDouble x` from the exponent `e` of the last place of
`x` and the integer `n` nearest to `|x| / 2^e`. -/
theorem roundDouble_eq (x : dReal) (e n : Int) (h1 : (2 : dReal) ^ (e + 52) ≤ |x|)
    (h2 : |x| < (2 : dReal) ^ (e + 53)) (hn : abs (|x| / (2 : dReal) ^ e - n) < 1 / 2) :
    roundDouble x = (if x < 0 then -1 else 1) * (n : dReal) * (2 : dReal) ^ e := by
  have hx : 0 < |x| := lt_of_lt_of_le (by positivity) h1
  have hx0 : x ≠ 0 := abs_pos.mp hx
  unfold roundDouble
  rw [if_neg hx0]
  simp only [roundDouble_log x e h1 h2]
  rw [roundDouble_choice _ n hn]

theorem roundDouble_choice_near (y : dReal) :
    |((if y - (⌊y⌋ : Int) < 1 / 2 then ⌊y⌋
      else if y - (⌊y⌋ : Int) > 1 / 2 then ⌊y⌋ + 1
      else if ⌊y⌋ % 2 = 0 then ⌊y⌋ else ⌊y⌋ + 1 : Int) : dReal) - y| ≤ 1 / 2 := by
  have f1 := Int.floor_le y
  have f2 := Int.lt_floor_add_one y
  rw [abs_le]
  split_ifs with a b c
  · constructor <;> linarith
  · push_cast
    constructor <;> linarith
  · have hy : y - (⌊y⌋ : Int) = 1 / 2 := le_antisymm (not_lt.mp b) (not_lt.mp a)
    constructor <;> linarith
  · have hy : y - (⌊y⌋ : Int) = 1 / 2 := le_antisymm (not_lt.mp b) (not_lt.mp a)
    push_cast
    constructor <;> linarith

/-- The standard model of rounding: the relative error of `roundDouble` is at
most the unit roundoff `2^-53`. -/
theorem roundDouble_error (x : dReal) : |roundDouble x - x| ≤ 1 / 2 ^ 53 * |x| := by
  by_cases hx0 : x = 0
  · rw [hx0]
    simp [roundDouble]
  · have hx : 0 < |x| := abs_pos.mpr hx0
    have h12 : 1 < 2 := by decide
    have l1 : (2 : dReal) ^ Int.log 2 |x| ≤ |x| := by
      have := @Int.zpow_log_le_self dReal _ _ 2 |x| h12 hx
      exact_mod_cast this
    unfold roundDouble
    rw [if_neg hx0]
    dsimp only
    generalize Int.log 2 |x| = L at l1
    have hp : (0 : dReal) < (2 : dReal) ^ (L - 52) := by positivity
    have hnear := roundDouble_choice_near (|x| / (2 : dReal) ^ (L - 52))
    generalize ((if |x| / (2 : dReal) ^ (L - 52) - (⌊|x| / (2 : dReal) ^ (L - 52)⌋ : Int) < 1 / 2
      then ⌊|x| / (2 : dReal) ^ (L - 52)⌋
      else if |x| / (2 : dReal) ^ (L - 52) - (⌊|x| / (2 : dReal) ^ (L - 52)⌋ : Int) > 1 / 2
        then ⌊|x| / (2 : dReal) ^ (L - 52)⌋ + 1
      else if ⌊|x| / (2 : dReal) ^ (L - 52)⌋ % 2 = 0 then ⌊|x| / (2 : dReal) ^ (L - 52)⌋
        else ⌊|x| / (2 : dReal) ^ (L - 52)⌋ + 1 : Int)) = n at hnear ⊢
    have hsplit : (2 : dReal) ^ L = (2 : dReal) ^ (L - 52) * 2 ^ 52 := by
      have h52 : (2 : dReal) ^ (52 : Int) = 2 ^ 52 := by norm_cast
      rw [← h52, ← zpow_add₀ (by norm_num : (2 : dReal) ≠ 0)]
      congr 1
      ring
    have hkey : abs ((n : dReal) * (2 : dReal) ^ (L - 52) - |x|) ≤
        1 / 2 * (2 : dReal) ^ (L - 52) := by
      have : (n : dReal) * (2 : dReal) ^ (L - 52) - |x| =
          ((n : dReal) - |x| / (2 : dReal) ^ (L - 52)) * (2 : dReal) ^ (L - 52) := by
        field_simp
      rw [this, abs_mul, abs_of_pos hp]
      exact mul_le_mul_of_nonneg_right hnear hp.le
    have hbound : 1 / 2 * (2 : dReal) ^ (L - 52) ≤ 1 / 2 ^ 53 * |x| := by
      have : 1 / 2 * (2 : dReal) ^ (L - 52) = 1 / 2 ^ 53 * ((2 : dReal) ^ (L - 52) * 2 ^ 52) := by
        ring
      rw [this, ← hsplit]
      exact mul_le_mul_of_nonneg_left l1 (by positivity)
    by_cases hneg : x < 0
    · rw [if_pos hneg]
      have hax : |x| = -x := abs_of_neg hneg
      have : -1 * (n : dReal) * (2 : dReal) ^ (L - 52) - x =
          -((n : dReal) * (2 : dReal) ^ (L - 52) - |x|) := by
        rw [hax]; ring
      rw [this, abs_neg]
      exact hkey.trans hbound
    · rw [if_neg hneg]
      have hax : |x| = x := abs_of_nonneg (not_lt.mp hneg)
      have : 1 * (n : dReal) * (2 : dReal) ^ (L - 52) - x =
          (n : dReal) * (2 : dReal) ^ (L - 52) - |x| := by
        rw [hax]; ring
      rw [this]
      exact hkey.trans hbound

/-- A number with a significand of at most 53 bits is its own rounding. -/
theorem roundDouble_exact (x : dReal) (e n : Int) (h1 : (2 : dReal) ^ (e + 52) ≤ |x|)
    (h2 : |x| < (2 : dReal) ^ (e + 53)) (hn : |x| = (n : dReal) * (2 : dReal) ^ e) :
    roundDouble x = x := by
  have hp : (0 : dReal) < (2 : dReal) ^ e := by positivity
  have hq : |x| / (2 : dReal) ^ e - n = 0 := by
    rw [hn]
    field_simp
  rw [roundDouble_eq x e n h1 h2 (by rw [hq]; norm_num), mul_assoc, ← hn]
  by_cases hneg : x < 0
  · rw [if_pos hneg, abs_of_neg hneg]
    ring
  · rw [if_neg hneg, abs_of_nonneg (not_lt.mp hneg)]
    ring

theorem roundDouble_zero : roundDouble 0 = 0 := by
  simp [roundDouble]

theorem nearBy_refl (r x : dReal) : nearBy r 0 x x :=
  ⟨1, by simp, by simp, by ring⟩

theorem inv_r_pow_le_one (r : dReal) (hr : 1 ≤ r) (k : Nat) : (1 / r) ^ k ≤ 1 := by
  have h0 : (0 : dReal) < r := by linarith
  apply pow_le_one₀
  · positivity
  · rw [div_le_one h0]
    exact hr

theorem inv_r_pow_pos (r : dReal) (hr : 1 ≤ r) (k : Nat) : 0 < (1 / r) ^ k := by
  have h0 : (0 : dReal) < r := by linarith
  positivity

theorem nearBy_mono (r : dReal) (hr : 1 ≤ r) (j k : Nat) (hjk : j ≤ k) (xh x : dReal)
    (h : nearBy r j xh x) : nearBy r k xh x := by
  obtain ⟨ρ, h1, h2, h3⟩ := h
  have h0 : (0 : dReal) < r := by linarith
  refine ⟨ρ, le_trans ?_ h1, le_trans h2 (pow_le_pow_right₀ hr hjk), h3⟩
  apply pow_le_pow_of_le_one
  · positivity
  · rw [div_le_one h0]
    exact hr
  · exact hjk

theorem nearBy_mul (r : dReal) (hr : 1 ≤ r) (j k : Nat) (ah a bh b : dReal)
    (ha : nearBy r j ah a) (hb : nearBy r k bh b) : nearBy r (j + k) (ah * bh) (a * b) := by
  obtain ⟨ρa, a1, a2, a3⟩ := ha
  obtain ⟨ρb, b1, b2, b3⟩ := hb
  have pa := inv_r_pow_pos r hr j
  have pb := inv_r_pow_pos r hr k
  refine ⟨ρa * ρb, ?_, ?_, by rw [a3, b3]; ring⟩
  · rw [pow_add]
    exact mul_le_mul a1 b1 pb.le (le_trans pa.le a1)
  · rw [pow_add]
    exact mul_le_mul a2 b2 (le_trans pb.le b1) (le_trans (le_trans pa.le a1) a2)

theorem nearBy_zero (r : dReal) (hr : 1 ≤ r) (k : Nat) : nearBy r k 0 0 :=
  ⟨1, inv_r_pow_le_one r hr k, one_le_pow₀ hr, by ring⟩

/-- The sum of two computed values whose exact values have the same sign. -/
theorem nearBy_add (r : dReal) (hr : 1 ≤ r) (k : Nat) (ah a bh b : dReal)
    (ha : nearBy r k ah a) (hb : nearBy r k bh b)
    (hsign : (0 ≤ a ∧ 0 ≤ b) ∨ (a ≤ 0 ∧ b ≤ 0)) : nearBy r k (ah + bh) (a + b) := by
  obtain ⟨ρa, a1, a2, a3⟩ := ha
  obtain ⟨ρb, b1, b2, b3⟩ := hb
  by_cases hab : a + b = 0
  · have ha0 : a = 0 := by
      rcases hsign with ⟨s1, s2⟩ | ⟨s1, s2⟩ <;> linarith
    have hb0 : b = 0 := by
      rcases hsign with ⟨s1, s2⟩ | ⟨s1, s2⟩ <;> linarith
    refine ⟨1, inv_r_pow_le_one r hr k, one_le_pow₀ hr, ?_⟩
    rw [a3, b3, ha0, hb0]
    ring
  · refine ⟨(ρa * a + ρb * b) / (a + b), ?_, ?_, ?_⟩
    · rcases hsign with ⟨s1, s2⟩ | ⟨s1, s2⟩
      · have hpos : 0 < a + b := lt_of_le_of_ne (by linarith) (Ne.symm hab)
        rw [le_div_iff₀ hpos]
        nlinarith [mul_le_mul_of_nonneg_right a1 s1, mul_le_mul_of_nonneg_right b1 s2]
      · have hneg : a + b < 0 := lt_of_le_of_ne (by linarith) hab
        rw [le_div_iff_of_neg hneg]
        nlinarith [mul_le_mul_of_nonneg_right a1 (neg_nonneg.mpr s1),
          mul_le_mul_of_nonneg_right b1 (neg_nonneg.mpr s2)]
    · rcases hsign with ⟨s1, s2⟩ | ⟨s1, s2⟩
      · have hpos : 0 < a + b := lt_of_le_of_ne (by linarith) (Ne.symm hab)
        rw [div_le_iff₀ hpos]
        nlinarith [mul_le_mul_of_nonneg_right a2 s1, mul_le_mul_of_nonneg_right b2 s2]
      · have hneg : a + b < 0 := lt_of_le_of_ne (by linarith) hab
        rw [div_le_iff_of_neg hneg]
        nlinarith [mul_le_mul_of_nonneg_right a2 (neg_nonneg.mpr s1),
          mul_le_mul_of_nonneg_right b2 (neg_nonneg.mpr s2)]
    · rw [a3, b3]
      field_simp

/-- The standard model of rounding in the form used below: a rounding with
relative error at most `u < 1` multiplies by a factor between `1/r` and `r`
for `r = (1 + u) / (1 - u)`. -/
theorem rounding_factor (fl : dReal → dReal) (u : dReal) (hu0 : 0 ≤ u) (hu1 : u < 1)
    (hfl : ∀ x, |fl x - x| ≤ u * |x|) (x : dReal) :
    ∃ ρ : dReal, 1 / ((1 + u) / (1 - u)) ≤ ρ ∧ ρ ≤ (1 + u) / (1 - u) ∧ fl x = ρ * x := by
  have h1u : 0 < 1 - u := by linarith
  have hlo : 1 / ((1 + u) / (1 - u)) ≤ 1 - u := by
    rw [one_div_div, div_le_iff₀ (by linarith)]
    nlinarith
  have hhi : 1 + u ≤ (1 + u) / (1 - u) := by
    rw [le_div_iff₀ h1u]
    nlinarith
  by_cases hx : x = 0
  · have := hfl 0
    simp only [sub_zero, abs_zero, mul_zero, abs_nonpos_iff] at this
    refine ⟨1, by linarith, by linarith, ?_⟩
    rw [hx, this]
    ring
  · have hax : 0 < |x| := abs_pos.mpr hx
    have h := hfl x
    have hq : |fl x / x - 1| ≤ u := by
      have : fl x / x - 1 = (fl x - x) / x := by field_simp
      rw [this, abs_div, div_le_iff₀ hax]
      exact h
    rw [abs_le] at hq
    refine ⟨fl x / x, by linarith, by linarith, by field_simp⟩

theorem rounding_ratio_ge_one (u : dReal) (hu0 : 0 ≤ u) (hu1 : u < 1) :
    1 ≤ (1 + u) / (1 - u) := by
  rw [le_div_iff₀ (by linarith)]
  linarith

theorem nearBy_fl (fl : dReal → dReal) (r : dReal) (hr : 1 ≤ r)
    (hflr : ∀ x, ∃ ρ : dReal, 1 / r ≤ ρ ∧ ρ ≤ r ∧ fl x = ρ * x) (k : Nat) (xh x : dReal)
    (h : nearBy r k xh x) : nearBy r (k + 1) (fl xh) x := by
  obtain ⟨ρ, h1, h2, h3⟩ := h
  obtain ⟨ρ2, f1, f2, f3⟩ := hflr xh
  have h0 : (0 : dReal) < r := by linarith
  have pk := inv_r_pow_pos r hr k
  have p1 : (0 : dReal) < 1 / r := by positivity
  refine ⟨ρ2 * ρ, ?_, ?_, by rw [f3, h3]; ring⟩
  · rw [pow_succ, mul_comm]
    exact mul_le_mul f1 h1 pk.le (le_trans p1.le f1)
  · rw [pow_succ, mul_comm ρ2 ρ]
    exact mul_le_mul h2 f2 (le_trans p1.le f1) (by positivity)

theorem filterWaypointsFl_id (K : Consts) (waypoints : List (List dReal)) :
    filterWaypointsFl id K waypoints = filterWaypoints K waypoints := rfl

theorem collinearSumsFl_fold (fl : dReal → dReal) (r : dReal) (hr : 1 ≤ r)
    (hflr : ∀ x, ∃ ρ : dReal, 1 / r ≤ ρ ∧ ρ ≤ r ∧ fl x = ρ * x)
    (p0 p1 p2 : List dReal) (c : dReal) :
    ∀ (l : List Nat) (acc : dReal × dReal × dReal) (S : dReal) (k : Nat),
      (∀ i ∈ l, p1.getD i 0 - p2.getD i 0 = c * (p0.getD i 0 - p2.getD i 0)) →
      0 ≤ S →
      nearBy r (k + 3) acc.1 (c * S) → nearBy r (k + 3) acc.2.1 S →
      nearBy r (k + 3) acc.2.2 (c * c * S) →
      ∃ S', 0 ≤ S' ∧
        l.foldl
          (fun (acc : dReal × dReal × dReal) idof =>
            let dx0 := p0.getD idof 0 - p2.getD idof 0
            let dx1 := p1.getD idof 0 - p2.getD idof 0
            (acc.1 + dx0 * dx1, acc.2.1 + dx0 * dx0, acc.2.2 + dx1 * dx1))
          (c * S, S, c * c * S) = (c * S', S', c * c * S') ∧
        nearBy r (k + l.length + 3)
          (l.foldl
            (fun (acc : dReal × dReal × dReal) idof =>
              let dx0 := fl (p0.getD idof 0 - p2.getD idof 0)
              let dx1 := fl (p1.getD idof 0 - p2.getD idof 0)
              (fl (acc.1 + fl (dx0 * dx1)), fl (acc.2.1 + fl (dx0 * dx0)),
                fl (acc.2.2 + fl (dx1 * dx1))))
            acc).1 (c * S') ∧
        nearBy r (k + l.length + 3)
          (l.foldl
            (fun (acc : dReal × dReal × dReal) idof =>
              let dx0 := fl (p0.getD idof 0 - p2.getD idof 0)
              let dx1 := fl (p1.getD idof 0 - p2.getD idof 0)
              (fl (acc.1 + fl (dx0 * dx1)), fl (acc.2.1 + fl (dx0 * dx0)),
                fl (acc.2.2 + fl (dx1 * dx1))))
            acc).2.1 S' ∧
        nearBy r (k + l.length + 3)
          (l.foldl
            (fun (acc : dReal × dReal × dReal) idof =>
              let dx0 := fl (p0.getD idof 0 - p2.getD idof 0)
              let dx1 := fl (p1.getD idof 0 - p2.getD idof 0)
              (fl (acc.1 + fl (dx0 * dx1)), fl (acc.2.1 + fl (dx0 * dx0)),
                fl (acc.2.2 + fl (dx1 * dx1))))
            acc).2.2 (c * c * S') := by
  intro l
  induction l with
  | nil =>
    intro acc S k _ hS h1 h2 h3
    exact ⟨S, hS, rfl, h1, h2, h3⟩
  | cons i l ih =>
    intro acc S k h hS h1 h2 h3
    have hi := h i (List.mem_cons_self i l)
    have n0 : nearBy r 1 (fl (p0.getD i 0 - p2.getD i 0)) (p0.getD i 0 - p2.getD i 0) :=
      nearBy_fl fl r hr hflr 0 _ _ (nearBy_refl r _)
    have n1 : nearBy r 1 (fl (p1.getD i 0 - p2.getD i 0)) (c * (p0.getD i 0 - p2.getD i 0)) := by
      obtain ⟨ρ, a, b, e⟩ :=
        nearBy_fl fl r hr hflr 0 _ _ (nearBy_refl r (p1.getD i 0 - p2.getD i 0))
      exact ⟨ρ, a, b, by rw [e, hi]⟩
    have hk3 : 3 ≤ k + 3 := by omega
    have t01 := nearBy_mono r hr 3 (k + 3) hk3 _ _
      (nearBy_fl fl r hr hflr 2 _ _ (nearBy_mul r hr 1 1 _ _ _ _ n0 n1))
    have t00 := nearBy_mono r hr 3 (k + 3) hk3 _ _
      (nearBy_fl fl r hr hflr 2 _ _ (nearBy_mul r hr 1 1 _ _ _ _ n0 n0))
    have t11 := nearBy_mono r hr 3 (k + 3) hk3 _ _
      (nearBy_fl fl r hr hflr 2 _ _ (nearBy_mul r hr 1 1 _ _ _ _ n1 n1))
    have hdd : 0 ≤ (p0.getD i 0 - p2.getD i 0) * (p0.getD i 0 - p2.getD i 0) :=
      mul_self_nonneg _
    have s01 : (0 ≤ c * S ∧
        0 ≤ (p0.getD i 0 - p2.getD i 0) * (c * (p0.getD i 0 - p2.getD i 0))) ∨
        (c * S ≤ 0 ∧ (p0.getD i 0 - p2.getD i 0) * (c * (p0.getD i 0 - p2.getD i 0)) ≤ 0) := by
      have e : (p0.getD i 0 - p2.getD i 0) * (c * (p0.getD i 0 - p2.getD i 0)) =
          c * ((p0.getD i 0 - p2.getD i 0) * (p0.getD i 0 - p2.getD i 0)) := by ring
      rw [e]
      by_cases hc : 0 ≤ c
      · exact Or.inl ⟨mul_nonneg hc hS, mul_nonneg hc hdd⟩
      · have hc' : c ≤ 0 := le_of_lt (not_le.mp hc)
        exact Or.inr ⟨mul_nonpos_of_nonpos_of_nonneg hc' hS,
          mul_nonpos_of_nonpos_of_nonneg hc' hdd⟩
    have s11 : (0 ≤ c * c * S ∧
        0 ≤ c * (p0.getD i 0 - p2.getD i 0) * (c * (p0.getD i 0 - p2.getD i 0))) ∨
        (c * c * S ≤ 0 ∧
          c * (p0.getD i 0 - p2.getD i 0) * (c * (p0.getD i 0 - p2.getD i 0)) ≤ 0) :=
      Or.inl ⟨mul_nonneg (mul_self_nonneg c) hS, mul_self_nonneg _⟩
    have a01 := nearBy_fl fl r hr hflr (k + 3) _ _ (nearBy_add r hr (k + 3) _ _ _ _ h1 t01 s01)
    have a00 := nearBy_fl fl r hr hflr (k + 3) _ _
      (nearBy_add r hr (k + 3) _ _ _ _ h2 t00 (Or.inl ⟨hS, hdd⟩))
    have a11 := nearBy_fl fl r hr hflr (k + 3) _ _ (nearBy_add r hr (k + 3) _ _ _ _ h3 t11 s11)
    have e01 : c * S + (p0.getD i 0 - p2.getD i 0) * (c * (p0.getD i 0 - p2.getD i 0)) =
        c * (S + (p0.getD i 0 - p2.getD i 0) * (p0.getD i 0 - p2.getD i 0)) := by ring
    have e11 : c * c * S + c * (p0.getD i 0 - p2.getD i 0) * (c * (p0.getD i 0 - p2.getD i 0)) =
        c * c * (S + (p0.getD i 0 - p2.getD i 0) * (p0.getD i 0 - p2.getD i 0)) := by ring
    rw [e01] at a01
    rw [e11] at a11
    obtain ⟨S', hS', hex, r1, r2, r3⟩ := ih
      (fl (acc.1 + fl (fl (p0.getD i 0 - p2.getD i 0) * fl (p1.getD i 0 - p2.getD i 0))),
        fl (acc.2.1 + fl (fl (p0.getD i 0 - p2.getD i 0) * fl (p0.getD i 0 - p2.getD i 0))),
        fl (acc.2.2 + fl (fl (p1.getD i 0 - p2.getD i 0) * fl (p1.getD i 0 - p2.getD i 0))))
      (S + (p0.getD i 0 - p2.getD i 0) * (p0.getD i 0 - p2.getD i 0)) (k + 1)
      (fun j hj => h j (List.mem_cons_of_mem i hj)) (add_nonneg hS hdd)
      (by rw [show k + 1 + 3 = k + 3 + 1 by omega]; exact a01)
      (by rw [show k + 1 + 3 = k + 3 + 1 by omega]; exact a00)
      (by rw [show k + 1 + 3 = k + 3 + 1 by omega]; exact a11)
    have hlen : k + (i :: l).length + 3 = k + 1 + l.length + 3 := by
      simp only [List.length_cons]
      omega
    refine ⟨S', hS', ?_, ?_, ?_, ?_⟩
    · rw [List.foldl_cons, ← hex]
      congr 1
      simp only [hi]
      refine Prod.ext ?_ (Prod.ext ?_ ?_) <;> simp only <;> ring
    · rw [hlen, List.foldl_cons]
      exact r1
    · rw [hlen, List.foldl_cons]
      exact r2
    · rw [hlen, List.foldl_cons]
      exact r3

/-- Three waypoints on one line pass the collinearity test in `double` when
the product of the two squared distances to `p2` is small against the
threshold: the rounding errors of the `2 D + 7` operations behind each of the
two compared products are bounded by the factor `r^(2 D + 7)`. -/
theorem isCollinearFl_of_line (fl : dReal → dReal) (r : dReal) (hr : 1 ≤ r)
    (hflr : ∀ x, ∃ ρ : dReal, 1 / r ≤ ρ ∧ ρ ≤ r ∧ fl x = ρ * x)
    (p0 p1 p2 : List dReal) (s : dReal)
    (hline : ∀ i, i < p2.length →
      p1.getD i 0 = p0.getD i 0 + s * (p2.getD i 0 - p0.getD i 0))
    (hsmall : r * (r ^ (2 * p2.length + 7) - (1 / r) ^ (2 * p2.length + 7)) *
      ((collinearSums p0 p1 p2).2.1 * (collinearSums p0 p1 p2).2.2) < fl collinearThresh) :
    isCollinearFl fl p0 p1 p2 = true := by
  obtain ⟨W, hW, hex, d1, d2, d3⟩ := collinearSumsFl_fold fl r hr hflr p0 p1 p2 (1 - s)
    (List.range p2.length) (0, 0, 0) 0 0
    (fun i hi => by
      rw [hline i (List.mem_range.mp hi)]
      ring)
    (le_refl _)
    (by simpa using nearBy_zero r hr (0 + 3))
    (nearBy_zero r hr (0 + 3))
    (by simpa using nearBy_zero r hr (0 + 3))
  have h0 : ((1 - s) * 0, (0 : dReal), (1 - s) * (1 - s) * 0) =
      ((0 : dReal), (0 : dReal), (0 : dReal)) := by simp
  rw [h0] at hex
  have hsums : collinearSums p0 p1 p2 = ((1 - s) * W, W, (1 - s) * (1 - s) * W) := hex
  rw [hsums] at hsmall
  simp only at hsmall
  have hn : 0 + (List.range p2.length).length + 3 = p2.length + 3 := by
    rw [List.length_range]
    omega
  rw [hn] at d1 d2 d3
  have hN : p2.length + 3 + (p2.length + 3) + 1 = 2 * p2.length + 7 := by omega
  have A := nearBy_fl fl r hr hflr _ _ _ (nearBy_mul r hr _ _ _ _ _ _ d1 d1)
  have B := nearBy_fl fl r hr hflr _ _ _ (nearBy_mul r hr _ _ _ _ _ _ d2 d3)
  rw [hN] at A B
  obtain ⟨ρA, A1, A2, A3⟩ := A
  obtain ⟨ρB, B1, B2, B3⟩ := B
  obtain ⟨ρ, f1, f2, f3⟩ := hflr
    (fl ((collinearSumsFl fl p0 p1 p2).1 * (collinearSumsFl fl p0 p1 p2).1) -
      fl ((collinearSumsFl fl p0 p1 p2).2.1 * (collinearSumsFl fl p0 p1 p2).2.2))
  have hM : 0 ≤ W * ((1 - s) * (1 - s) * W) :=
    mul_nonneg hW (mul_nonneg (mul_self_nonneg _) hW)
  have hr0 : (0 : dReal) < r := by linarith
  have hρ : 0 ≤ ρ := le_trans (by positivity) f1
  have hdiff : fl ((collinearSumsFl fl p0 p1 p2).1 * (collinearSumsFl fl p0 p1 p2).1) -
      fl ((collinearSumsFl fl p0 p1 p2).2.1 * (collinearSumsFl fl p0 p1 p2).2.2) =
      (ρA - ρB) * (W * ((1 - s) * (1 - s) * W)) := by
    have A3' : fl ((collinearSumsFl fl p0 p1 p2).1 * (collinearSumsFl fl p0 p1 p2).1) =
        ρA * ((1 - s) * W * ((1 - s) * W)) := A3
    have B3' : fl ((collinearSumsFl fl p0 p1 p2).2.1 * (collinearSumsFl fl p0 p1 p2).2.2) =
        ρB * (W * ((1 - s) * (1 - s) * W)) := B3
    rw [A3', B3']
    ring
  have hab : |ρA - ρB| ≤ r ^ (2 * p2.length + 7) - (1 / r) ^ (2 * p2.length + 7) := by
    rw [abs_le]
    constructor <;> linarith
  have hgap : 0 ≤ r ^ (2 * p2.length + 7) - (1 / r) ^ (2 * p2.length + 7) :=
    le_trans (abs_nonneg _) hab
  unfold isCollinearFl
  simp only [decide_eq_true_eq]
  rw [f3, hdiff, abs_mul, abs_mul, abs_of_nonneg hρ, abs_of_nonneg hM]
  calc ρ * (|ρA - ρB| * (W * ((1 - s) * (1 - s) * W)))
      ≤ r * ((r ^ (2 * p2.length + 7) - (1 / r) ^ (2 * p2.length + 7)) *
          (W * ((1 - s) * (1 - s) * W))) := by
        apply mul_le_mul f2 (mul_le_mul_of_nonneg_right hab hM)
          (mul_nonneg (abs_nonneg _) hM) hr0.le
    _ = r * (r ^ (2 * p2.length + 7) - (1 / r) ^ (2 * p2.length + 7)) *
          (W * ((1 - s) * (1 - s) * W)) := by ring
    _ < fl collinearThresh := hsmall

theorem recomputeElapsedFl_id (K : Consts) (q0 q1 dq0 dq1 : List dReal) (elapsedTime : dReal) :
    recomputeElapsedFl id K q0 q1 dq0 dq1 elapsedTime =
      recomputeElapsed K q0 q1 dq0 dq1 elapsedTime := rfl

theorem pow_sub_one_mono (r : dReal) (hr : 1 ≤ r) (j k : Nat) (hjk : j ≤ k) :
    r ^ j - 1 ≤ r ^ k - 1 := by
  have := pow_le_pow_right₀ hr hjk
  linarith

theorem filterStepFl_nil (fl : dReal → dReal) (K : Consts) (q : List dReal) :
    filterStepFl fl K [] q = [q] := by
  simp [filterStepFl]

theorem filterStepFl_one (fl : dReal → dReal) (K : Consts) (w q : List dReal) :
    filterStepFl fl K [w] q = if isDuplicateFl fl K q w = true then [w] else [w, q] := by
  simp [filterStepFl]

theorem filterStepFl_two (fl : dReal → dReal) (K : Consts) (w0 w1 q : List dReal) :
    filterStepFl fl K [w0, w1] q =
      if isCollinearFl fl w0 w1 q = true then [w0, q]
      else if isDuplicateFl fl K q w1 = true then [w0, w1] else [w0, w1, q] := by
  simp [filterStepFl]

theorem filterWaypointsFl_three (fl : dReal → dReal) (K : Consts) (p0 p1 p2 : List dReal) :
    filterWaypointsFl fl K [p0, p1, p2] =
      if isDuplicateFl fl K p1 p0 = true then
        (if isDuplicateFl fl K p2 p0 = true then [p0] else [p0, p2])
      else if isCollinearFl fl p0 p1 p2 = true then [p0, p2]
      else if isDuplicateFl fl K p2 p1 = true then [p0, p1] else [p0, p1, p2] := by
  simp only [filterWaypointsFl, List.foldl_cons, List.foldl_nil, filterStepFl_nil,
    filterStepFl_one]
  by_cases h : isDuplicateFl fl K p1 p0 = true
  · rw [if_pos h, if_pos h, filterStepFl_one]
  · rw [if_neg h, if_neg h, filterStepFl_two]

theorem isCollinearFl_single (fl : dReal → dReal) (a b q : dReal) :
    isCollinearFl fl [a] [b] [q] =
      decide (|fl (fl (fl (0 + fl (fl (a - q) * fl (b - q))) *
          fl (0 + fl (fl (a - q) * fl (b - q)))) -
        fl (fl (0 + fl (fl (a - q) * fl (a - q))) *
          fl (0 + fl (fl (b - q) * fl (b - q)))))| < fl collinearThresh) := by
  have h1 : List.range 1 = [0] := rfl
  simp only [isCollinearFl, collinearSumsFl, List.length_singleton, h1, List.foldl_cons,
    List.foldl_nil, List.getD_cons_zero]

theorem isDuplicateFl_single (fl : dReal → dReal) (K : Consts) (q w : dReal) :
    isDuplicateFl fl K [q] [w] = decide (fl (0 + |fl (q - w)|) ≤ fl (1 * K.epsilon)) := by
  have h1 : List.range 1 = [0] := rfl
  simp only [isDuplicateFl, l1DistanceFl, List.length_singleton, h1, List.foldl_cons,
    List.foldl_nil, List.getD_cons_zero, Nat.cast_one]

/-- C9 (amended).  In `double` arithmetic, modelled by a rounding `fl` of
relative error at most `u < 1` after every operation (the standard model,
which `double` meets with `u = 2^-53` outside overflow and underflow), and
with `r = (1 + u) / (1 - u)`: whenever at least two waypoints are kept and the
incoming waypoint `q` passes the collinearity test, the last kept waypoint is
replaced by `q` and the number of kept waypoints stays the same; three
waypoints whose last one is not a duplicate of the first and which pass the
test are reduced to their two endpoints; and three waypoints on one line
(`p1 = p0 + s (p2 - p0)`) pass the test whenever
`r (r^(2 D + 7) - r^-(2 D + 7)) |p0 - p2|^2 |p1 - p2|^2` is below the
threshold.  Without such a bound waypoints on one line can fail the test. -/
theorem C9_collinear_collapse (fl : dReal → dReal) (u : dReal) (K : Consts)
    (acc : List (List dReal)) (q p0 p1 p2 : List dReal) (s : dReal)
    (hu0 : 0 ≤ u) (hu1 : u < 1) (hfl : ∀ x, |fl x - x| ≤ u * |x|) :
    (acc.length > 1 →
      isCollinearFl fl (acc.getD (acc.length - 2) []) (acc.getD (acc.length - 1) []) q = true →
      filterStepFl fl K acc q = acc.dropLast ++ [q] ∧
        (filterStepFl fl K acc q).length = acc.length) ∧
    (isDuplicateFl fl K p2 p0 = false → isCollinearFl fl p0 p1 p2 = true →
      filterWaypointsFl fl K [p0, p1, p2] = [p0, p2]) ∧
    ((∀ i, i < p2.length →
        p1.getD i 0 = p0.getD i 0 + s * (p2.getD i 0 - p0.getD i 0)) →
      (1 + u) / (1 - u) *
          (((1 + u) / (1 - u)) ^ (2 * p2.length + 7) -
            (1 / ((1 + u) / (1 - u))) ^ (2 * p2.length + 7)) *
          ((collinearSums p0 p1 p2).2.1 * (collinearSums p0 p1 p2).2.2) <
        fl collinearThresh →
      isCollinearFl fl p0 p1 p2 = true) := by
  refine ⟨fun hacc hcol => ?_, fun hfar hcol => ?_, fun hline hsmall => ?_⟩
  · have hstep : filterStepFl fl K acc q = acc.dropLast ++ [q] := by
      unfold filterStepFl
      rw [if_pos ⟨hacc, hcol⟩]
    refine ⟨hstep, ?_⟩
    rw [hstep]
    simp only [List.length_append, List.length_dropLast, List.length_singleton]
    omega
  · rw [filterWaypointsFl_three]
    by_cases hd : isDuplicateFl fl K p1 p0 = true
    · rw [if_pos hd, hfar]
      simp
    · rw [if_neg hd, if_pos hcol]
  · exact isCollinearFl_of_line fl ((1 + u) / (1 - u)) (rounding_ratio_ge_one u hu0 hu1)
      (rounding_factor fl u hu0 hu1 hfl) p0 p1 p2 s hline hsmall

theorem unit_round_1 : roundDouble (0 - 2) = (-2) := by
  have hx : (0 - 2 : dReal) < 0 := by norm_num
  have h := roundDouble_eq (0 - 2) (-51) 4503599627370496
    (by rw [abs_of_neg hx]; norm_num)
    (by rw [abs_of_neg hx]; norm_num)
    (by rw [abs_of_neg hx, abs_lt]; norm_num)
  rw [h]
  norm_num

theorem unit_round_2 : roundDouble (1 - 2) = (-1) := by
  have hx : (1 - 2 : dReal) < 0 := by norm_num
  have h := roundDouble_eq (1 - 2) (-52) 4503599627370496
    (by rw [abs_of_neg hx]; norm_num)
    (by rw [abs_of_neg hx]; norm_num)
    (by rw [abs_of_neg hx, abs_lt]; norm_num)
  rw [h]
  norm_num

theorem unit_round_3 : roundDouble ((-2) * (-1)) = 2 := by
  have hx : (0 : dReal) < (-2) * (-1) := by norm_num
  have h := roundDouble_eq ((-2) * (-1)) (-51) 4503599627370496
    (by rw [abs_of_pos hx]; norm_num)
    (by rw [abs_of_pos hx]; norm_num)
    (by rw [abs_of_pos hx, abs_lt]; norm_num)
  rw [h]
  norm_num

theorem unit_round_4 : roundDouble (0 + 2) = 2 := by
  have hx : (0 : dReal) < 0 + 2 := by norm_num
  have h := roundDouble_eq (0 + 2) (-51) 4503599627370496
    (by rw [abs_of_pos hx]; norm_num)
    (by rw [abs_of_pos hx]; norm_num)
    (by rw [abs_of_pos hx, abs_lt]; norm_num)
  rw [h]
  norm_num

theorem unit_round_5 : roundDouble ((-2) * (-2)) = 4 := by
  have hx : (0 : dReal) < (-2) * (-2) := by norm_num
  have h := roundDouble_eq ((-2) * (-2)) (-50) 4503599627370496
    (by rw [abs_of_pos hx]; norm_num)
    (by rw [abs_of_pos hx]; norm_num)
    (by rw [abs_of_pos hx, abs_lt]; norm_num)
  rw [h]
  norm_num

theorem unit_round_6 : roundDouble (0 + 4) = 4 := by
  have hx : (0 : dReal) < 0 + 4 := by norm_num
  have h := roundDouble_eq (0 + 4) (-50) 4503599627370496
    (by rw [abs_of_pos hx]; norm_num)
    (by rw [abs_of_pos hx]; norm_num)
    (by rw [abs_of_pos hx, abs_lt]; norm_num)
  rw [h]
  norm_num

theorem unit_round_7 : roundDouble ((-1) * (-1)) = 1 := by
  have hx : (0 : dReal) < (-1) * (-1) := by norm_num
  have h := roundDouble_eq ((-1) * (-1)) (-52) 4503599627370496
    (by rw [abs_of_pos hx]; norm_num)
    (by rw [abs_of_pos hx]; norm_num)
    (by rw [abs_of_pos hx, abs_lt]; norm_num)
  rw [h]
  norm_num

theorem unit_round_8 : roundDouble (0 + 1) = 1 := by
  have hx : (0 : dReal) < 0 + 1 := by norm_num
  have h := roundDouble_eq (0 + 1) (-52) 4503599627370496
    (by rw [abs_of_pos hx]; norm_num)
    (by rw [abs_of_pos hx]; norm_num)
    (by rw [abs_of_pos hx, abs_lt]; norm_num)
  rw [h]
  norm_num

theorem unit_round_9 : roundDouble (2 * 2) = 4 := by
  have hx : (0 : dReal) < 2 * 2 := by norm_num
  have h := roundDouble_eq (2 * 2) (-50) 4503599627370496
    (by rw [abs_of_pos hx]; norm_num)
    (by rw [abs_of_pos hx]; norm_num)
    (by rw [abs_of_pos hx, abs_lt]; norm_num)
  rw [h]
  norm_num

theorem unit_round_10 : roundDouble (4 * 1) = 4 := by
  have hx : (0 : dReal) < 4 * 1 := by norm_num
  have h := roundDouble_eq (4 * 1) (-50) 4503599627370496
    (by rw [abs_of_pos hx]; norm_num)
    (by rw [abs_of_pos hx]; norm_num)
    (by rw [abs_of_pos hx, abs_lt]; norm_num)
  rw [h]
  norm_num

theorem unit_round_11 : roundDouble (4 - 4) = 0 := by
  have h : (4 - 4 : dReal) = 0 := by norm_num
  rw [h, roundDouble_zero]

theorem unit_round_12 : |(0 : dReal)| = 0 := by
  norm_num

theorem unit_round_13 : roundDouble (2 - 0) = 2 := by
  have hx : (0 : dReal) < 2 - 0 := by norm_num
  have h := roundDouble_eq (2 - 0) (-51) 4503599627370496
    (by rw [abs_of_pos hx]; norm_num)
    (by rw [abs_of_pos hx]; norm_num)
    (by rw [abs_of_pos hx, abs_lt]; norm_num)
  rw [h]
  norm_num

theorem unit_round_14 : |(2 : dReal)| = 2 := by
  rw [abs_of_pos (by norm_num)]

theorem near_round_1 : roundDouble ((1 / 2 ^ 54) - 0) = (1 / 2 ^ 54) := by
  have hx : (0 : dReal) < (1 / 2 ^ 54) - 0 := by norm_num
  have h := roundDouble_eq ((1 / 2 ^ 54) - 0) (-106) 4503599627370496
    (by rw [abs_of_pos hx]; norm_num)
    (by rw [abs_of_pos hx]; norm_num)
    (by rw [abs_of_pos hx, abs_lt]; norm_num)
  rw [h]
  norm_num

theorem near_round_2 : |((1 / 2 ^ 54) : dReal)| = (1 / 2 ^ 54) := by
  rw [abs_of_pos (by norm_num)]

theorem near_round_3 : roundDouble (0 + (1 / 2 ^ 54)) = (1 / 2 ^ 54) := by
  have hx : (0 : dReal) < 0 + (1 / 2 ^ 54) := by norm_num
  have h := roundDouble_eq (0 + (1 / 2 ^ 54)) (-106) 4503599627370496
    (by rw [abs_of_pos hx]; norm_num)
    (by rw [abs_of_pos hx]; norm_num)
    (by rw [abs_of_pos hx, abs_lt]; norm_num)
  rw [h]
  norm_num

theorem near_round_4 : roundDouble ((1 / 2 ^ 53) - 0) = (1 / 2 ^ 53) := by
  have hx : (0 : dReal) < (1 / 2 ^ 53) - 0 := by norm_num
  have h := roundDouble_eq ((1 / 2 ^ 53) - 0) (-105) 4503599627370496
    (by rw [abs_of_pos hx]; norm_num)
    (by rw [abs_of_pos hx]; norm_num)
    (by rw [abs_of_pos hx, abs_lt]; norm_num)
  rw [h]
  norm_num

theorem near_round_5 : |((1 / 2 ^ 53) : dReal)| = (1 / 2 ^ 53) := by
  rw [abs_of_pos (by norm_num)]

theorem near_round_6 : roundDouble (0 + (1 / 2 ^ 53)) = (1 / 2 ^ 53) := by
  have hx : (0 : dReal) < 0 + (1 / 2 ^ 53) := by norm_num
  have h := roundDouble_eq (0 + (1 / 2 ^ 53)) (-105) 4503599627370496
    (by rw [abs_of_pos hx]; norm_num)
    (by rw [abs_of_pos hx]; norm_num)
    (by rw [abs_of_pos hx, abs_lt]; norm_num)
  rw [h]
  norm_num

theorem skew_round_1 : roundDouble ((2 + 5 / 2 ^ 27) - (4 + 1 / 2 ^ 27)) = (-67108863 / 2 ^ 25) := by
  have hx : ((2 + 5 / 2 ^ 27) - (4 + 1 / 2 ^ 27) : dReal) < 0 := by norm_num
  have h := roundDouble_eq ((2 + 5 / 2 ^ 27) - (4 + 1 / 2 ^ 27)) (-52) 9007199120523264
    (by rw [abs_of_neg hx]; norm_num)
    (by rw [abs_of_neg hx]; norm_num)
    (by rw [abs_of_neg hx, abs_lt]; norm_num)
  rw [h]
  norm_num

theorem skew_round_2 : |((-67108863 / 2 ^ 25) : dReal)| = (67108863 / 2 ^ 25) := by
  rw [abs_of_neg (by norm_num)]
  norm_num

theorem skew_round_3 : roundDouble (0 + (67108863 / 2 ^ 25)) = (67108863 / 2 ^ 25) := by
  have hx : (0 : dReal) < 0 + (67108863 / 2 ^ 25) := by norm_num
  have h := roundDouble_eq (0 + (67108863 / 2 ^ 25)) (-52) 9007199120523264
    (by rw [abs_of_pos hx]; norm_num)
    (by rw [abs_of_pos hx]; norm_num)
    (by rw [abs_of_pos hx, abs_lt]; norm_num)
  rw [h]
  norm_num

theorem skew_round_4 : roundDouble ((4 + 1 / 2 ^ 27) - 0) = (536870913 / 2 ^ 27) := by
  have hx : (0 : dReal) < (4 + 1 / 2 ^ 27) - 0 := by norm_num
  have h := roundDouble_eq ((4 + 1 / 2 ^ 27) - 0) (-50) 4503599635759104
    (by rw [abs_of_pos hx]; norm_num)
    (by rw [abs_of_pos hx]; norm_num)
    (by rw [abs_of_pos hx, abs_lt]; norm_num)
  rw [h]
  norm_num

theorem skew_round_5 : roundDouble ((2 + 5 / 2 ^ 27) - 0) = (268435461 / 2 ^ 27) := by
  have hx : (0 : dReal) < (2 + 5 / 2 ^ 27) - 0 := by norm_num
  have h := roundDouble_eq ((2 + 5 / 2 ^ 27) - 0) (-51) 4503599711256576
    (by rw [abs_of_pos hx]; norm_num)
    (by rw [abs_of_pos hx]; norm_num)
    (by rw [abs_of_pos hx, abs_lt]; norm_num)
  rw [h]
  norm_num

theorem skew_round_6 : roundDouble ((536870913 / 2 ^ 27) * (268435461 / 2 ^ 27)) = (536870923 / 2 ^ 26) := by
  have hx : (0 : dReal) < (536870913 / 2 ^ 27) * (268435461 / 2 ^ 27) := by norm_num
  have h := roundDouble_eq ((536870913 / 2 ^ 27) * (268435461 / 2 ^ 27)) (-49) 4503599719645184
    (by rw [abs_of_pos hx]; norm_num)
    (by rw [abs_of_pos hx]; norm_num)
    (by rw [abs_of_pos hx, abs_lt]; norm_num)
  rw [h]
  norm_num

theorem skew_round_7 : roundDouble (0 + (536870923 / 2 ^ 26)) = (536870923 / 2 ^ 26) := by
  have hx : (0 : dReal) < 0 + (536870923 / 2 ^ 26) := by norm_num
  have h := roundDouble_eq (0 + (536870923 / 2 ^ 26)) (-49) 4503599719645184
    (by rw [abs_of_pos hx]; norm_num)
    (by rw [abs_of_pos hx]; norm_num)
    (by rw [abs_of_pos hx, abs_lt]; norm_num)
  rw [h]
  norm_num

theorem skew_round_8 : roundDouble ((536870913 / 2 ^ 27) * (536870913 / 2 ^ 27)) = (268435457 / 2 ^ 24) := by
  have hx : (0 : dReal) < (536870913 / 2 ^ 27) * (536870913 / 2 ^ 27) := by norm_num
  have h := roundDouble_eq ((536870913 / 2 ^ 27) * (536870913 / 2 ^ 27)) (-48) 4503599644147712
    (by rw [abs_of_pos hx]; norm_num)
    (by rw [abs_of_pos hx]; norm_num)
    (by rw [abs_of_pos hx, abs_lt]; norm_num)
  rw [h]
  norm_num

theorem skew_round_9 : roundDouble (0 + (268435457 / 2 ^ 24)) = (268435457 / 2 ^ 24) := by
  have hx : (0 : dReal) < 0 + (268435457 / 2 ^ 24) := by norm_num
  have h := roundDouble_eq (0 + (268435457 / 2 ^ 24)) (-48) 4503599644147712
    (by rw [abs_of_pos hx]; norm_num)
    (by rw [abs_of_pos hx]; norm_num)
    (by rw [abs_of_pos hx, abs_lt]; norm_num)
  rw [h]
  norm_num

theorem skew_round_10 : roundDouble ((268435461 / 2 ^ 27) * (268435461 / 2 ^ 27)) = (2251799897571329 / 2 ^ 49) := by
  have hx : (0 : dReal) < (268435461 / 2 ^ 27) * (268435461 / 2 ^ 27) := by norm_num
  have h := roundDouble_eq ((268435461 / 2 ^ 27) * (268435461 / 2 ^ 27)) (-50) 4503599795142658
    (by rw [abs_of_pos hx]; norm_num)
    (by rw [abs_of_pos hx]; norm_num)
    (by rw [abs_of_pos hx, abs_lt]; norm_num)
  rw [h]
  norm_num

theorem skew_round_11 : roundDouble (0 + (2251799897571329 / 2 ^ 49)) = (2251799897571329 / 2 ^ 49) := by
  have hx : (0 : dReal) < 0 + (2251799897571329 / 2 ^ 49) := by norm_num
  have h := roundDouble_eq (0 + (2251799897571329 / 2 ^ 49)) (-50) 4503599795142658
    (by rw [abs_of_pos hx]; norm_num)
    (by rw [abs_of_pos hx]; norm_num)
    (by rw [abs_of_pos hx, abs_lt]; norm_num)
  rw [h]
  norm_num

theorem skew_round_12 : roundDouble ((536870923 / 2 ^ 26) * (536870923 / 2 ^ 26)) = (2251799905959937 / 2 ^ 45) := by
  have hx : (0 : dReal) < (536870923 / 2 ^ 26) * (536870923 / 2 ^ 26) := by norm_num
  have h := roundDouble_eq ((536870923 / 2 ^ 26) * (536870923 / 2 ^ 26)) (-46) 4503599811919874
    (by rw [abs_of_pos hx]; norm_num)
    (by rw [abs_of_pos hx]; norm_num)
    (by rw [abs_of_pos hx, abs_lt]; norm_num)
  rw [h]
  norm_num

theorem skew_round_13 : roundDouble ((268435457 / 2 ^ 24) * (2251799897571329 / 2 ^ 49)) = (4503599811919875 / 2 ^ 46) := by
  have hx : (0 : dReal) < (268435457 / 2 ^ 24) * (2251799897571329 / 2 ^ 49) := by norm_num
  have h := roundDouble_eq ((268435457 / 2 ^ 24) * (2251799897571329 / 2 ^ 49)) (-46) 4503599811919875
    (by rw [abs_of_pos hx]; norm_num)
    (by rw [abs_of_pos hx]; norm_num)
    (by rw [abs_of_pos hx, abs_lt]; norm_num)
  rw [h]
  norm_num

theorem skew_round_14 : roundDouble ((2251799905959937 / 2 ^ 45) - (4503599811919875 / 2 ^ 46)) = (-1 / 2 ^ 46) := by
  have hx : ((2251799905959937 / 2 ^ 45) - (4503599811919875 / 2 ^ 46) : dReal) < 0 := by norm_num
  have h := roundDouble_eq ((2251799905959937 / 2 ^ 45) - (4503599811919875 / 2 ^ 46)) (-98) 4503599627370496
    (by rw [abs_of_neg hx]; norm_num)
    (by rw [abs_of_neg hx]; norm_num)
    (by rw [abs_of_neg hx, abs_lt]; norm_num)
  rw [h]
  norm_num

theorem skew_round_15 : |((-1 / 2 ^ 46) : dReal)| = (1 / 2 ^ 46) := by
  rw [abs_of_neg (by norm_num)]
  norm_num

theorem skew_round_16 : roundDouble (0 - (2 + 5 / 2 ^ 27)) = (-268435461 / 2 ^ 27) := by
  have hx : (0 - (2 + 5 / 2 ^ 27) : dReal) < 0 := by norm_num
  have h := roundDouble_eq (0 - (2 + 5 / 2 ^ 27)) (-51) 4503599711256576
    (by rw [abs_of_neg hx]; norm_num)
    (by rw [abs_of_neg hx]; norm_num)
    (by rw [abs_of_neg hx, abs_lt]; norm_num)
  rw [h]
  norm_num

theorem skew_round_17 : |((-268435461 / 2 ^ 27) : dReal)| = (268435461 / 2 ^ 27) := by
  rw [abs_of_neg (by norm_num)]
  norm_num

theorem skew_round_18 : roundDouble (0 + (268435461 / 2 ^ 27)) = (268435461 / 2 ^ 27) := by
  have hx : (0 : dReal) < 0 + (268435461 / 2 ^ 27) := by norm_num
  have h := roundDouble_eq (0 + (268435461 / 2 ^ 27)) (-51) 4503599711256576
    (by rw [abs_of_pos hx]; norm_num)
    (by rw [abs_of_pos hx]; norm_num)
    (by rw [abs_of_pos hx, abs_lt]; norm_num)
  rw [h]
  norm_num

theorem collinearThresh_round_aux : roundDouble (1 / 10 ^ 14) = (6338253001141147 / 2 ^ 99) := by
  have hx : (0 : dReal) < 1 / 10 ^ 14 := by norm_num
  have h := roundDouble_eq (1 / 10 ^ 14) (-99) 6338253001141147
    (by rw [abs_of_pos hx]; norm_num)
    (by rw [abs_of_pos hx]; norm_num)
    (by rw [abs_of_pos hx, abs_lt]; norm_num)
  rw [h]
  norm_num

theorem collinearThresh_round : roundDouble collinearThresh = (6338253001141147 / 2 ^ 99) := by
  unfold collinearThresh
  exact collinearThresh_round_aux

theorem epsilon_round_aux : roundDouble (1 / 2 ^ 52) = (1 / 2 ^ 52) := by
  have hx : (0 : dReal) < 1 / 2 ^ 52 := by norm_num
  have h := roundDouble_eq (1 / 2 ^ 52) (-104) 4503599627370496
    (by rw [abs_of_pos hx]; norm_num)
    (by rw [abs_of_pos hx]; norm_num)
    (by rw [abs_of_pos hx, abs_lt]; norm_num)
  rw [h]
  norm_num

theorem epsilon_round : roundDouble (1 * openraveConsts.epsilon) = (1 / 2 ^ 52) := by
  have h : (1 * openraveConsts.epsilon : dReal) = 1 / 2 ^ 52 := by norm_num [openraveConsts]
  rw [h]
  exact epsilon_round_aux

/-- The waypoints `[0]`, `[1]`, `[2]` pass the collinearity test in `double`:
every operation on them is exact. -/
theorem unit_collinear : isCollinearFl roundDouble [0] [1] [2] = true := by
  rw [isCollinearFl_single]
  simp only [unit_round_1, unit_round_2, unit_round_3, unit_round_4, unit_round_5, unit_round_6, unit_round_7, unit_round_8, unit_round_9, unit_round_10, unit_round_11, unit_round_12, unit_round_13, unit_round_14, collinearThresh_round, decide_eq_true_eq]
  norm_num

theorem unit_not_duplicate : isDuplicateFl roundDouble openraveConsts [2] [0] = false := by
  rw [isDuplicateFl_single]
  simp only [unit_round_1, unit_round_2, unit_round_3, unit_round_4, unit_round_5, unit_round_6, unit_round_7, unit_round_8, unit_round_9, unit_round_10, unit_round_11, unit_round_12, unit_round_13, unit_round_14, epsilon_round, decide_eq_false_iff_not]
  norm_num

theorem near_duplicates :
    isDuplicateFl roundDouble openraveConsts [1 / 2 ^ 54] [0] = true ∧
    isDuplicateFl roundDouble openraveConsts [1 / 2 ^ 53] [0] = true := by
  rw [isDuplicateFl_single, isDuplicateFl_single]
  simp only [near_round_1, near_round_2, near_round_3, near_round_4, near_round_5, near_round_6, epsilon_round, decide_eq_true_eq]
  constructor <;> norm_num

theorem skew_tests :
    isDuplicateFl roundDouble openraveConsts [2 + 5 / 2 ^ 27] [4 + 1 / 2 ^ 27] = false ∧
    isCollinearFl roundDouble [4 + 1 / 2 ^ 27] [2 + 5 / 2 ^ 27] [0] = false ∧
    isDuplicateFl roundDouble openraveConsts [0] [2 + 5 / 2 ^ 27] = false := by
  rw [isDuplicateFl_single, isDuplicateFl_single, isCollinearFl_single]
  simp only [skew_round_1, skew_round_2, skew_round_3, skew_round_4, skew_round_5, skew_round_6, skew_round_7, skew_round_8, skew_round_9, skew_round_10, skew_round_11, skew_round_12, skew_round_13, skew_round_14, skew_round_15, skew_round_16, skew_round_17, skew_round_18, epsilon_round, collinearThresh_round,
    decide_eq_false_iff_not]
  refine ⟨?_, ?_, ?_⟩ <;> norm_num

theorem skew_double_a : roundDouble (4 + 1 / 2 ^ 27) = 4 + 1 / 2 ^ 27 := by
  have hx : (0 : dReal) < 4 + 1 / 2 ^ 27 := by norm_num
  have h := roundDouble_eq (4 + 1 / 2 ^ 27) (-50) 4503599635759104
    (by rw [abs_of_pos hx]; norm_num)
    (by rw [abs_of_pos hx]; norm_num)
    (by rw [abs_of_pos hx, abs_lt]; norm_num)
  rw [h]
  norm_num

theorem skew_double_b : roundDouble (2 + 5 / 2 ^ 27) = 2 + 5 / 2 ^ 27 := by
  have hx : (0 : dReal) < 2 + 5 / 2 ^ 27 := by norm_num
  have h := roundDouble_eq (2 + 5 / 2 ^ 27) (-51) 4503599711256576
    (by rw [abs_of_pos hx]; norm_num)
    (by rw [abs_of_pos hx]; norm_num)
    (by rw [abs_of_pos hx, abs_lt]; norm_num)
  rw [h]
  norm_num

theorem unit_filtered :
    filterWaypointsFl roundDouble openraveConsts [[0], [1], [2]] = [[0], [2]] := by
  have hd : isDuplicateFl roundDouble openraveConsts [1] [0] = false := by
    rw [isDuplicateFl_single]
    have h1 : roundDouble (1 - 0) = 1 := by
      have h := roundDouble_eq (1 - 0) (-52) 4503599627370496
        (by norm_num) (by norm_num) (by norm_num)
      rw [h]
      norm_num
    have h2 : roundDouble (0 + |(1 : dReal)|) = 1 := by
      have h := roundDouble_eq (0 + |(1 : dReal)|) (-52) 4503599627370496
        (by norm_num) (by norm_num) (by norm_num)
      rw [h]
      norm_num
    simp only [h1, h2, epsilon_round, decide_eq_false_iff_not]
    norm_num
  rw [filterWaypointsFl_three, if_neg (by rw [hd]; decide), if_pos unit_collinear]

theorem half_sums : collinearSums [0] [1 / 2] [1] = (1 / 2, 1, 1 / 4) := by
  rw [collinearSums_single]
  norm_num

theorem half_small :
    (1 + 1 / 2 ^ 53) / (1 - 1 / 2 ^ 53) *
        (((1 + 1 / 2 ^ 53) / (1 - 1 / 2 ^ 53)) ^ (2 * ([1] : List dReal).length + 7) -
          (1 / ((1 + 1 / 2 ^ 53) / (1 - 1 / 2 ^ 53))) ^ (2 * ([1] : List dReal).length + 7)) *
        ((collinearSums [0] [1 / 2] [1]).2.1 * (collinearSums [0] [1 / 2] [1]).2.2) <
      roundDouble collinearThresh := by
  rw [half_sums, collinearThresh_round]
  simp only [List.length_singleton]
  norm_num

theorem skew_filtered :
    filterWaypointsFl roundDouble openraveConsts [[4 + 1 / 2 ^ 27], [2 + 5 / 2 ^ 27], [0]] =
      [[4 + 1 / 2 ^ 27], [2 + 5 / 2 ^ 27], [0]] := by
  obtain ⟨h1, h2, h3⟩ := skew_tests
  rw [filterWaypointsFl_three, if_neg (by rw [h1]; decide), if_neg (by rw [h2]; decide),
    if_neg (by rw [h3]; decide)]

theorem near_filtered :
    filterWaypointsFl roundDouble openraveConsts [[0], [1 / 2 ^ 54], [1 / 2 ^ 53]] = [[0]] := by
  obtain ⟨h1, h2⟩ := near_duplicates
  rw [filterWaypointsFl_three, if_pos h1, if_pos h2]

/-- C9 (witness): in `double` (`fl = roundDouble`, `u = 2^-53`) the waypoints
`[0]`, `[1]`, `[2]` pass the collinearity test and become `[0]`, `[2]`, and the
waypoints `[0]`, `[1/2]`, `[1]` meet the bound of the third part. -/
theorem C9_collinear_collapse_witness :
    (0 : dReal) ≤ 1 / 2 ^ 53 ∧ (1 / 2 ^ 53 : dReal) < 1 ∧
    (filterStepFl roundDouble openraveConsts [[0], [1]] [2] = [[0], [1]].dropLast ++ [[2]] ∧
      (filterStepFl roundDouble openraveConsts [[0], [1]] [2]).length = [[0], [1]].length) ∧
    filterWaypointsFl roundDouble openraveConsts [[0], [1], [2]] = [[0], [2]] ∧
    isCollinearFl roundDouble [0] [1 / 2] [1] = true :=
  ⟨by norm_num, by norm_num,
    (C9_collinear_collapse roundDouble (1 / 2 ^ 53) openraveConsts [[0], [1]] [2] [0] [1] [2]
      (1 / 2) (by norm_num) (by norm_num) roundDouble_error).1 (by decide) unit_collinear,
    (C9_collinear_collapse roundDouble (1 / 2 ^ 53) openraveConsts [[0], [1]] [2] [0] [1] [2]
      (1 / 2) (by norm_num) (by norm_num) roundDouble_error).2.1 unit_not_duplicate
      unit_collinear,
    (C9_collinear_collapse roundDouble (1 / 2 ^ 53) openraveConsts [[0], [1]] [2] [0] [1 / 2]
      [1] (1 / 2) (by norm_num) (by norm_num) roundDouble_error).2.2
      (fun i hi => by
        have : i = 0 := by simpa using hi
        subst this
        norm_num)
      half_small⟩

/-- C9 (counterexample).  In `double` arithmetic the waypoints `[4 + 2^-27]`,
`[2 + 5 * 2^-27]`, `[0]`, each of them a `double`, lie in this order on one
line (`p1 = p0 + s (p2 - p0)` with `0 < s < 1`), and the filter keeps all
three: the rounded value of `dot^2 - |p0 - p2|^2 |p1 - p2|^2` is `2^-46`,
above the threshold `1e-14`.  And the waypoints `[0]`, `[2^-54]`, `[2^-53]`,
also in order on one line, are reduced to the single waypoint `[0]`. -/
theorem C9_collinear_waypoints_kept :
    roundDouble (4 + 1 / 2 ^ 27) = 4 + 1 / 2 ^ 27 ∧
    roundDouble (2 + 5 / 2 ^ 27) = 2 + 5 / 2 ^ 27 ∧
    (2 + 5 / 2 ^ 27 : dReal) =
      (4 + 1 / 2 ^ 27) + (2 ^ 28 - 4) / (2 ^ 29 + 1) * (0 - (4 + 1 / 2 ^ 27)) ∧
    (0 : dReal) < (2 ^ 28 - 4) / (2 ^ 29 + 1) ∧ ((2 ^ 28 - 4) / (2 ^ 29 + 1) : dReal) < 1 ∧
    isCollinearFl roundDouble [4 + 1 / 2 ^ 27] [2 + 5 / 2 ^ 27] [0] = false ∧
    filterWaypointsFl roundDouble openraveConsts [[4 + 1 / 2 ^ 27], [2 + 5 / 2 ^ 27], [0]] =
      [[4 + 1 / 2 ^ 27], [2 + 5 / 2 ^ 27], [0]] ∧
    filterWaypointsFl roundDouble openraveConsts [[0], [1 / 2 ^ 54], [1 / 2 ^ 53]] = [[0]] :=
  ⟨skew_double_a, skew_double_b, by norm_num, by norm_num, by norm_num, skew_tests.2.1,
    skew_filtered, near_filtered⟩

end rplanners
